import Mathlib

/-!
# RExOS: TCP connection engine (`midware/tcpips/tcps.c`)

A shallow embedding of the TCP segment engine of RExOS and the properties
proved about it.

Conventions of the embedding.

* Machine integers are natural numbers; every operation that can leave the
  range of its C type is reduced `% 2 ^ w` explicitly.  The C type `int` is
  `Int`; an `unsigned` value converted to `int` goes through `toInt32`.
* An `IO` buffer is its byte memory (counted from `io_data`), its
  `data_size`, its capacity and its stack annotations.  A TCP header is not a
  record: it is the first twenty bytes of the buffer memory, read and written
  through byte offsets exactly as the C code does through `TCP_HEADER*`.
* The object table (`so_*`) is a size and a map from handles to optional slots.
* Effects (transmitted segments, posted messages, released buffers) are
  appended to logs kept in the `TCPIPS` state.
-/

namespace Rexos

/-! ## Machine arithmetic -/

/-- Reduction of a natural number to an unsigned 8-bit value. -/
def u8 (x : Nat) : Nat := x % 256

/-- Reduction of a natural number to an unsigned 16-bit value. -/
def u16 (x : Nat) : Nat := x % 65536

/-- Reduction of a natural number to an unsigned 32-bit value. -/
def u32 (x : Nat) : Nat := x % 4294967296

/-- Conversion of an integer to `uint32_t` (two's complement wrap). -/
def u32i (x : Int) : Nat := (x % 4294967296).toNat

/-- Conversion of an `unsigned int` to `int` (two's complement). -/
def toInt32 (x : Nat) : Int :=
  if x % 4294967296 < 2147483648 then ((x % 4294967296 : Nat) : Int)
  else ((x % 4294967296 : Nat) : Int) - 4294967296

/-! ## Sequence arithmetic (`tcps_delta`, `tcps_diff`) -/

/-- Embedding of `tcps_delta`: distance from `frm` to `t` on the 32-bit circle. -/
def tcps_delta (frm t : Nat) : Nat :=
  if t ≥ frm then t - frm
  else u32 ((0xffffffff - frm) + t + 1)

/-- Embedding of `tcps_diff`: signed span, saturated to `0x10000`. -/
def tcps_diff (frm t : Nat) : Int :=
  let res := tcps_delta frm t
  if res ≤ 0xffff then (res : Int)
  else
    let res := tcps_delta t frm
    if res ≤ 0xffff then -(res : Int)
    else 0x10000

/-! ## Byte memory and the byte-order helpers -/

/-- Memory of a buffer, addressed from `io_data`; a cell holds a byte
(every read goes through `byte`, which reduces it to eight bits). -/
abbrev Mem := Nat → Nat

/-- Store of one byte. -/
def poke (m : Mem) (i v : Nat) : Mem := fun j => if j = i then v else m j

/-- Load of one byte. -/
def byte (m : Mem) (i : Nat) : Nat := u8 (m i)

/-- Modelled from the spec: `be2short` of `userspace/endian.h` (not among the
sources), the big-endian 16-bit load. -/
def be2short (m : Mem) (off : Nat) : Nat := byte m off * 256 + byte m (off + 1)

/-- Modelled from the spec: `be2int` of `userspace/endian.h` (not among the
sources), the big-endian 32-bit load. -/
def be2int (m : Mem) (off : Nat) : Nat :=
  byte m off * 16777216 + byte m (off + 1) * 65536 + byte m (off + 2) * 256 + byte m (off + 3)

/-- Modelled from the spec: `short2be` of `userspace/endian.h` (not among the
sources), the big-endian 16-bit store. -/
def short2be (m : Mem) (off v : Nat) : Mem :=
  poke (poke m off (u8 (v / 256))) (off + 1) (u8 v)

/-- Modelled from the spec: `int2be` of `userspace/endian.h` (not among the
sources), the big-endian 32-bit store. -/
def int2be (m : Mem) (off v : Nat) : Mem :=
  poke (poke (poke (poke m off (u8 (v / 16777216))) (off + 1) (u8 (v / 65536)))
    (off + 2) (u8 (v / 256))) (off + 3) (u8 v)

/-- The C library `memcpy`: `n` bytes of `src` from `soff` stored at `doff`. -/
def memcpy (dst : Mem) (doff : Nat) (src : Mem) (soff n : Nat) : Mem :=
  fun j => if doff ≤ j ∧ j < doff + n then src (soff + (j - doff)) else dst j

/-- The C library `memmove` inside one buffer (the source is read before the
destination is written). -/
def memmove (m : Mem) (doff soff n : Nat) : Mem := memcpy m doff m soff n

/-- A memory holding the listed bytes from offset 0, zero elsewhere. -/
def ofBytes (l : List Nat) : Mem := fun j => l.getD j 0

/-! ## Data model -/

abbrev HANDLE := Nat

/-- The handle value that stands for "no object". -/
def INVALID_HANDLE : Nat := 0xffffffff

/-- An IPv4 address as its 32-bit word (`IP.u32.ip`). -/
abbrev IP := Nat

/-- Stack annotation of a user buffer of the TCP interface (`TCP_STACK` of
`userspace/tcp.h`, not among the sources; the widths of its fields are not
known, so the values stored are not reduced). -/
structure TCP_STACK where
  flags : Nat
  urg_len : Nat

/-- Modelled from the spec: the buffer object `IO` of `userspace/io.h` (not
among the sources).  `addr` is the address of the object (pointer identity),
`size` the number of bytes it can hold counted from `io_data`, `mem` the
bytes from `io_data`, `hdr_size` the field of its `IP_STACK` annotation and
`stack` its `TCP_STACK` annotation. -/
structure Io where
  addr : Nat
  size : Nat
  data_size : Nat
  mem : Mem
  hdr_size : Nat
  stack : TCP_STACK

/-- Modelled from the spec: `io_get_free` of `userspace/io.h` (not among the
sources), the free space of a buffer as an `unsigned int`. -/
def io_get_free (io : Io) : Nat := u32i ((io.size : Int) - (io.data_size : Int))

inductive TCP_STATE where
  | CLOSED
  | LISTEN
  | SYN_SENT
  | SYN_RECEIVED
  | ESTABLISHED
  | FIN_WAIT_1
  | FIN_WAIT_2
  | CLOSING
  | LAST_ACK
  | TIME_WAIT
  deriving DecidableEq, Repr

structure TCP_LISTEN_HANDLE where
  process : HANDLE
  port : Nat

structure TCP_TCB where
  process : HANDLE
  remote_addr : IP
  rx : Option Io
  rx_tmp : Option Io
  tx : Option Io
  snd_una : Nat
  snd_nxt : Nat
  rcv_nxt : Nat
  state : TCP_STATE
  remote_port : Nat
  local_port : Nat
  mss : Nat
  rx_wnd : Nat
  tx_wnd : Nat
  active : Bool
  transmit : Bool
  fin : Bool

/-- Modelled from the spec: the object table `SO` of `userspace/so.h` (not
among the sources): `size` slots, a slot free (`none`) or holding an object;
the handle of an object is the index of its slot. -/
structure SO (α : Type) where
  size : Nat
  slot : Nat → Option α

/-- Modelled from the spec: `so_create`, the empty table. -/
def so_create {α : Type} : SO α := { size := 0, slot := fun _ => none }

/-- Modelled from the spec: `so_get`, the object of a handle (`NULL` is `none`). -/
def so_get {α : Type} (so : SO α) (h : HANDLE) : Option α :=
  if h < so.size then so.slot h else none

/-- Store through the pointer returned by `so_get`. -/
def so_set {α : Type} (so : SO α) (h : HANDLE) (v : α) : SO α :=
  { so with slot := fun j => if j = h then some v else so.slot j }

/-- Modelled from the spec: `so_free`, the slot of the handle becomes free. -/
def so_free {α : Type} (so : SO α) (h : HANDLE) : SO α :=
  { so with slot := fun j => if j = h then none else so.slot j }

/-- The first free slot of the table, or `size` when every slot is taken. -/
def so_first_free {α : Type} (so : SO α) : Nat :=
  match (List.range so.size).find? (fun j => (so.slot j).isNone) with
  | some j => j
  | none => so.size

/-- Modelled from the spec: `so_allocate`.  `ok` tells whether the system
pool can serve the request; the new object is stored as `v`. -/
def so_allocate {α : Type} (so : SO α) (ok : Bool) (v : α) : HANDLE × SO α :=
  let h := so_first_free so
  if ok ∧ h < INVALID_HANDLE then
    (h, { size := max so.size (h + 1), slot := fun j => if j = h then some v else so.slot j })
  else (INVALID_HANDLE, so)

/-- Modelled from the spec: the objects met by the loop
`for (h = so_first(so); h != INVALID_HANDLE; h = so_next(so, h))`, in order. -/
def so_entries {α : Type} (so : SO α) : List (HANDLE × α) :=
  (List.range so.size).filterMap (fun h => (so.slot h).map (fun v => (h, v)))

/-! ## Environment of the TCP engine -/

inductive HAL where
  | HAL_TCP
  | HAL_OTHER
  deriving DecidableEq, Repr

inductive IPC_ITEM where
  | IPC_OPEN
  | IPC_CLOSE
  | IPC_READ
  | IPC_WRITE
  | IPC_FLUSH
  | IPC_OTHER
  deriving DecidableEq, Repr

/-- Modelled from the spec: an IPC command word, split into its flag
(`HAL_IO_CMD` against `HAL_CMD`), its subsystem and its item. -/
structure CMD where
  io_cmd : Bool
  hal : HAL
  item : IPC_ITEM
  deriving DecidableEq, Repr

def HAL_CMD (hal : HAL) (item : IPC_ITEM) : CMD := { io_cmd := false, hal := hal, item := item }

def HAL_IO_CMD (hal : HAL) (item : IPC_ITEM) : CMD := { io_cmd := true, hal := hal, item := item }

def HAL_ITEM (cmd : CMD) : IPC_ITEM := cmd.item

/-- An IPC message (`IPC`). -/
structure IPC where
  process : HANDLE
  cmd : CMD
  param1 : Nat
  param2 : Nat
  param3 : Nat
  deriving DecidableEq, Repr

/-- One call of `io_complete (process, cmd, handle, io)`. -/
structure IO_COMPLETE where
  process : HANDLE
  cmd : CMD
  handle : HANDLE
  io : Io

/-- One call of `icmps_tx_error (tcpips, io, ICMP_ERROR_PARAMETER, offset)`. -/
structure ICMP_ERROR_PARAMETER where
  io_addr : Nat
  offset : Nat
  deriving DecidableEq, Repr

inductive ERROR where
  | ERROR_OK
  | ERROR_NOT_SUPPORTED
  | ERROR_NOT_ACTIVE
  | ERROR_ALREADY_CONFIGURED
  | ERROR_INVALID_STATE
  | ERROR_SYNC
  | ERROR_SYNC_OBJECT_DESTROYED
  | ERROR_OUT_OF_SYSTEM_MEMORY
  | ERROR_OUT_OF_PAGED_MEMORY
  | ERROR_ACCESS_DENIED
  | ERROR_INVALID_SVC
  deriving DecidableEq, Repr

/-- Uptime as returned by `get_uptime`. -/
structure SYSTIME where
  sec : Nat
  usec : Nat

/-- Constants and helpers that the engine takes from headers and modules that
are not among the sources. -/
structure Platform where
  /-- `IP_FRAME_MAX_DATA_SIZE` -/
  IP_FRAME_MAX_DATA_SIZE : Nat
  /-- `TCP_PSH` of `userspace/tcp.h` (flag of `TCP_STACK`) -/
  TCP_PSH : Nat
  /-- `TCP_URG` of `userspace/tcp.h` (flag of `TCP_STACK`) -/
  TCP_URG : Nat
  /-- `sizeof(TCP_STACK)` -/
  TCP_STACK_SIZE : Nat
  /-- `LOCALHOST` -/
  LOCALHOST : Nat
  /-- `tcp_checksum (buf, size, src, dst)` -/
  tcp_checksum : Mem → Nat → IP → IP → Nat

/-- What the rest of the system answers during one call of the engine: the
uptime, whether the system pool serves `so_allocate`, and the buffer handed
out by `ips_allocate_io` (`none` when it returns `NULL`). -/
structure Sys where
  uptime : SYSTIME
  so_ok : Bool
  tx_io : Option Io

structure TCPS where
  listen : SO TCP_LISTEN_HANDLE
  tcbs : SO TCP_TCB

/-- The part of `TCPIPS` used by the engine, the error slot of the calling
process, and the logs of the calls made to the other modules: `ips_tx`,
`ipc_post_inline`, `io_complete`, `ips_release_io` (the address of the
released buffer), `icmps_tx_error`. -/
structure TCPIPS where
  connected : Bool
  ip : IP
  tcps : TCPS
  error : ERROR
  sent : List (Io × IP)
  posted : List IPC
  completed : List IO_COMPLETE
  released : List Nat
  icmp : List ICMP_ERROR_PARAMETER

/-- Store of the TCB table into the state. -/
def TCPIPS.with_tcbs (tcpips : TCPIPS) (tcbs : SO TCP_TCB) : TCPIPS :=
  { tcpips with tcps := { tcpips.tcps with tcbs := tcbs } }

/-- Store through a `TCP_TCB*` obtained from `so_get`. -/
def TCPIPS.set_tcb (tcpips : TCPIPS) (h : HANDLE) (tcb : TCP_TCB) : TCPIPS :=
  tcpips.with_tcbs (so_set tcpips.tcps.tcbs h tcb)

/-! ## Constants of `tcps.c` -/

def TCP_HEADER_SIZE : Nat := 20

def TCP_MSS_MAX (plat : Platform) : Nat := plat.IP_FRAME_MAX_DATA_SIZE - TCP_HEADER_SIZE

def TCP_MSS_MIN : Nat := 536

def TCP_FLAG_FIN : Nat := 1
def TCP_FLAG_SYN : Nat := 2
def TCP_FLAG_RST : Nat := 4
def TCP_FLAG_PSH : Nat := 8
def TCP_FLAG_ACK : Nat := 16
def TCP_FLAG_URG : Nat := 32

def TCP_OPTS_END : Nat := 0
def TCP_OPTS_NOOP : Nat := 1
def TCP_OPTS_MSS : Nat := 2

/-! ## Header access (`TCP_HEADER* tcp = io_data (io)`) -/

/-- `tcp->flags` -/
def tcp_flags (io : Io) : Nat := byte io.mem 13

/-- `tcp->flags & flag` as a condition. -/
def has_flag (io : Io) (flag : Nat) : Bool := (tcp_flags io &&& flag) != 0

/-- `tcp->flags &= ~flag` -/
def clear_flag (io : Io) (flag : Nat) : Io :=
  { io with mem := poke io.mem 13 (tcp_flags io &&& (255 - flag)) }

/-- `tcp->flags |= flag` -/
def set_flag (io : Io) (flag : Nat) : Io :=
  { io with mem := poke io.mem 13 (u8 (tcp_flags io ||| flag)) }

def tcp_src_port (io : Io) : Nat := be2short io.mem 0
def tcp_dst_port (io : Io) : Nat := be2short io.mem 2
def tcp_seq (io : Io) : Nat := be2int io.mem 4
def tcp_ack (io : Io) : Nat := be2int io.mem 8
def tcp_window (io : Io) : Nat := be2short io.mem 14

/-! ## The functions of `tcps.c` -/

def tcps_data_offset (io : Io) : Nat := (byte io.mem 12 >>> 4) <<< 2

def tcps_data_len (io : Io) : Nat :=
  let res := tcps_data_offset io
  if io.data_size > res then io.data_size - res else 0

def tcps_seg_len (io : Io) : Nat :=
  let res := tcps_data_len io
  let res := if has_flag io TCP_FLAG_SYN then u32 (res + 1) else res
  let res := if has_flag io TCP_FLAG_FIN then u32 (res + 1) else res
  res

def tcps_get_first_opt (io : Io) : Nat :=
  if tcps_data_offset io ≤ TCP_HEADER_SIZE then 0
  else if byte io.mem TCP_HEADER_SIZE = TCP_OPTS_END then 0 else TCP_HEADER_SIZE

def tcps_get_next_opt (io : Io) (prev : Nat) : Nat :=
  let offset := tcps_data_offset io
  let kind := byte io.mem prev
  if kind = TCP_OPTS_END then 0
  else
    let res := if kind = TCP_OPTS_NOOP then prev + 1 else prev + byte io.mem (prev + 1)
    if res < offset then res else 0

def tcps_set_state (tcb : TCP_TCB) (state : TCP_STATE) : TCP_TCB :=
  { tcb with state := state }

def tcps_gen_isn (uptime : SYSTIME) : Nat :=
  u32 ((u32 uptime.sec % 17179) + (u32 uptime.usec >>> 2))

def tcps_update_rx_wnd (plat : Platform) (tcb : TCP_TCB) : TCP_TCB :=
  let wnd := u16 (TCP_MSS_MAX plat)
  let wnd := match tcb.rx with
    | some rx => u16 (wnd + io_get_free rx)
    | none => wnd
  let wnd := match tcb.rx_tmp with
    | some rx_tmp => u16 (io_get_free rx_tmp)
    | none => wnd
  { tcb with rx_wnd := wnd }

def tcps_find_listener (tcpips : TCPIPS) (port : Nat) : HANDLE :=
  match (so_entries tcpips.tcps.listen).find? (fun e => e.2.port = port) with
  | some e => e.2.process
  | none => INVALID_HANDLE

def tcps_find_tcb (tcpips : TCPIPS) (src : IP) (remote_port local_port : Nat) : HANDLE :=
  match (so_entries tcpips.tcps.tcbs).find?
      (fun e => e.2.remote_port = remote_port ∧ e.2.local_port = local_port
        ∧ e.2.remote_addr = src) with
  | some e => e.1
  | none => INVALID_HANDLE

def tcps_create_tcb (plat : Platform) (sys : Sys) (tcpips : TCPIPS) (remote_addr : IP)
    (remote_port local_port : Nat) : HANDLE × TCPIPS :=
  let tcb : TCP_TCB := tcps_update_rx_wnd plat
    { process := INVALID_HANDLE
      remote_addr := remote_addr
      rx := none
      rx_tmp := none
      tx := none
      snd_una := 0
      snd_nxt := 0
      rcv_nxt := 0
      state := TCP_STATE.CLOSED
      remote_port := remote_port
      local_port := local_port
      mss := u16 (TCP_MSS_MAX plat)
      rx_wnd := 0
      tx_wnd := 0
      active := false
      transmit := false
      fin := false }
  let r := so_allocate tcpips.tcps.tcbs sys.so_ok tcb
  (r.1, tcpips.with_tcbs r.2)

def tcps_destroy_tcb (tcpips : TCPIPS) (tcb_handle : HANDLE) : TCPIPS :=
  tcpips.with_tcbs (so_free tcpips.tcps.tcbs tcb_handle)

def tcps_set_mss (plat : Platform) (tcb : TCP_TCB) (mss : Nat) : Bool × TCP_TCB :=
  if mss < TCP_MSS_MIN ∨ mss > TCP_MSS_MAX plat then (false, tcb)
  else (true, { tcb with mss := mss })

/-- The body of the loop of `tcps_apply_options` at option offset `i`. -/
def tcps_apply_options_body (plat : Platform) (io : Io) (i : Nat) (tcpips : TCPIPS)
    (tcb : TCP_TCB) : TCPIPS × TCP_TCB :=
  if byte io.mem i = TCP_OPTS_MSS then
    let m := tcps_set_mss plat tcb (be2short io.mem (i + 2))
    if m.1 then (tcpips, m.2)
    else ({ tcpips with icmp := tcpips.icmp ++
      [{ io_addr := io.addr, offset := io.hdr_size + TCP_HEADER_SIZE + i }] }, m.2)
  else (tcpips, tcb)

/-- The loop of `tcps_apply_options` from option offset `i` on.  `none` when
the loop is still running after `fuel` rounds. -/
def tcps_apply_options_loop (plat : Platform) (io : Io) :
    Nat → Nat → TCPIPS → TCP_TCB → Option (TCPIPS × TCP_TCB)
  | _, 0, tcpips, tcb => some (tcpips, tcb)
  | 0, _ + 1, _, _ => none
  | fuel + 1, i + 1, tcpips, tcb =>
    let r := tcps_apply_options_body plat io (i + 1) tcpips tcb
    tcps_apply_options_loop plat io fuel (tcps_get_next_opt io (i + 1)) r.1 r.2

/-- Embedding of `tcps_apply_options`.  An option offset lies in `[20, 60)` and
a round that does not end the loop either moves to a larger offset or stays
where it is for ever, so 64 rounds decide whether the loop ends: `none` is a
call that does not return. -/
def tcps_apply_options (plat : Platform) (tcpips : TCPIPS) (io : Io) (tcb : TCP_TCB) :
    Option (TCPIPS × TCP_TCB) :=
  tcps_apply_options_loop plat io 64 (tcps_get_first_opt io) tcpips tcb

/-- Embedding of `tcps_allocate_io`; the buffer of `ips_allocate_io` is `sys.tx_io`. -/
def tcps_allocate_io (sys : Sys) (tcb : TCP_TCB) : Option Io :=
  match sys.tx_io with
  | none => none
  | some io =>
    let m := short2be io.mem 0 tcb.local_port
    let m := short2be m 2 tcb.remote_port
    let m := int2be m 4 0
    let m := int2be m 8 0
    let m := poke m 12 ((TCP_HEADER_SIZE >>> 2) <<< 4)
    let m := poke m 13 0
    let m := short2be m 18 0
    let m := short2be m 16 0
    some { io with mem := m, data_size := TCP_HEADER_SIZE }

/-- Embedding of `tcps_tx`; `ips_tx` is the log `sent`. -/
def tcps_tx (plat : Platform) (tcpips : TCPIPS) (io : Io) (tcb : TCP_TCB) : TCPIPS :=
  let m := short2be io.mem 14 tcb.rx_wnd
  let m := short2be m 16 (plat.tcp_checksum m io.data_size tcpips.ip tcb.remote_addr)
  { tcpips with sent := tcpips.sent ++ [({ io with mem := m }, tcb.remote_addr)] }

def tcps_tx_rst (plat : Platform) (sys : Sys) (tcpips : TCPIPS) (tcb_handle : HANDLE)
    (seq : Nat) : TCPIPS :=
  match so_get tcpips.tcps.tcbs tcb_handle with
  | none => tcpips
  | some tcb =>
    match tcps_allocate_io sys tcb with
    | none => tcpips
    | some tx =>
      let tx := set_flag tx TCP_FLAG_RST
      let tx := { tx with mem := int2be tx.mem 4 seq }
      tcps_tx plat tcpips tx tcb

def tcps_tx_rst_ack (plat : Platform) (sys : Sys) (tcpips : TCPIPS) (tcb_handle : HANDLE)
    (ack : Nat) : TCPIPS :=
  match so_get tcpips.tcps.tcbs tcb_handle with
  | none => tcpips
  | some tcb =>
    match tcps_allocate_io sys tcb with
    | none => tcpips
    | some tx =>
      let tx := set_flag tx (TCP_FLAG_RST ||| TCP_FLAG_ACK)
      let tx := { tx with mem := int2be tx.mem 4 0 }
      let tx := { tx with mem := int2be tx.mem 8 ack }
      tcps_tx plat tcpips tx tcb

def tcps_tx_ack (plat : Platform) (sys : Sys) (tcpips : TCPIPS) (tcb_handle : HANDLE) : TCPIPS :=
  match so_get tcpips.tcps.tcbs tcb_handle with
  | none => tcpips
  | some tcb =>
    match tcps_allocate_io sys tcb with
    | none => tcpips
    | some tx =>
      let tx := set_flag tx TCP_FLAG_ACK
      let tx := { tx with mem := int2be tx.mem 4 tcb.snd_una }
      let tx := { tx with mem := int2be tx.mem 8 tcb.rcv_nxt }
      tcps_tx plat tcpips tx tcb

def tcps_tx_text_ack_fin (plat : Platform) (sys : Sys) (tcpips : TCPIPS)
    (tcb_handle : HANDLE) : TCPIPS :=
  match so_get tcpips.tcps.tcbs tcb_handle with
  | none => tcpips
  | some tcb =>
    match tcps_allocate_io sys tcb with
    | none => tcpips
    | some tx =>
      let tx := set_flag tx TCP_FLAG_ACK
      let tx := if tcb.fin ∧ tcb.snd_una ≠ tcb.snd_nxt then set_flag tx TCP_FLAG_FIN else tx
      let tx := { tx with mem := int2be tx.mem 4 tcb.snd_una }
      let tx := { tx with mem := int2be tx.mem 8 tcb.rcv_nxt }
      tcps_tx plat tcpips tx tcb

def tcps_tx_syn_ack (plat : Platform) (sys : Sys) (tcpips : TCPIPS) (tcb_handle : HANDLE) :
    TCPIPS :=
  match so_get tcpips.tcps.tcbs tcb_handle with
  | none => tcpips
  | some tcb =>
    match tcps_allocate_io sys tcb with
    | none => tcpips
    | some tx =>
      let tx := set_flag tx (TCP_FLAG_ACK ||| TCP_FLAG_SYN)
      let tx := { tx with mem := int2be tx.mem 4 tcb.snd_una }
      let tx := { tx with mem := int2be tx.mem 8 tcb.rcv_nxt }
      tcps_tx plat tcpips tx tcb

def tcps_rx_closed (plat : Platform) (sys : Sys) (tcpips : TCPIPS) (io : Io)
    (tcb_handle : HANDLE) : TCPIPS :=
  let tcpips :=
    if has_flag io TCP_FLAG_RST then tcpips
    else if has_flag io TCP_FLAG_ACK then tcps_tx_rst plat sys tcpips tcb_handle (tcp_ack io)
    else tcps_tx_rst_ack plat sys tcpips tcb_handle (u32 (tcp_seq io + tcps_seg_len io))
  tcps_destroy_tcb tcpips tcb_handle

def tcps_rx_listen (plat : Platform) (sys : Sys) (tcpips : TCPIPS) (io : Io)
    (tcb_handle : HANDLE) : TCPIPS :=
  if has_flag io TCP_FLAG_RST then tcps_destroy_tcb tcpips tcb_handle
  else if has_flag io TCP_FLAG_ACK then
    tcps_destroy_tcb (tcps_tx_rst plat sys tcpips tcb_handle (tcp_ack io)) tcb_handle
  else if has_flag io TCP_FLAG_SYN then
    match so_get tcpips.tcps.tcbs tcb_handle with
    | none => tcpips
    | some tcb =>
      let tcb := tcps_set_state tcb TCP_STATE.SYN_RECEIVED
      let tcb := { tcb with rcv_nxt := u32 (tcp_seq io + 1) }
      let isn := tcps_gen_isn sys.uptime
      let tcb := { tcb with snd_una := isn, snd_nxt := isn }
      let tcb := { tcb with snd_nxt := u32 (tcb.snd_nxt + 1) }
      tcps_tx_syn_ack plat sys (tcpips.set_tcb tcb_handle tcb) tcb_handle
  else tcps_destroy_tcb tcpips tcb_handle

/-- The local variables `io`, `seq`, `seg_len` of `tcps_rx_otw_check_seq`. -/
structure CHECK_SEQ where
  io : Io
  seq : Nat
  seg_len : Int

/-- The block "already partially received segment" of `tcps_rx_otw_check_seq`,
entered with `seq_delta < 0` and `seg_len + seq_delta > 0`. -/
def tcps_rx_otw_check_seq_strip (c : CHECK_SEQ) (seq_delta : Int) : CHECK_SEQ :=
  let syn := has_flag c.io TCP_FLAG_SYN
  let io := if syn then clear_flag c.io TCP_FLAG_SYN else c.io
  let seg_len := if syn then c.seg_len - 1 else c.seg_len
  let seq_delta := if syn then seq_delta + 1 else seq_delta
  let seq := if syn then u32 (c.seq + 1) else c.seq
  let data_off := tcps_data_offset io
  let seg_len := seg_len - (-seq_delta)
  let io : Io :=
    if has_flag io TCP_FLAG_FIN then
      { io with
        mem := memmove io.mem data_off (u32i (data_off + (-seq_delta))) (u32i (seg_len - 1))
        data_size := u32i (io.data_size - ((-seq_delta) - 1)) }
    else
      { io with
        mem := memmove io.mem data_off (u32i (data_off + (-seq_delta))) (u32i seg_len)
        data_size := u32i (io.data_size - (-seq_delta)) }
  { io := io, seq := u32i (seq + (-seq_delta)), seg_len := seg_len }

/-- The block "don't fit in rx window" of `tcps_rx_otw_check_seq`, entered
with `seg_len > rx_wnd` and `rx_wnd > 0`. -/
def tcps_rx_otw_check_seq_chop (c : CHECK_SEQ) (rx_wnd : Nat) : CHECK_SEQ :=
  let fin := has_flag c.io TCP_FLAG_FIN
  let io := if fin then clear_flag c.io TCP_FLAG_FIN else c.io
  let seg_len := if fin then c.seg_len - 1 else c.seg_len
  let over : Bool := decide (seg_len > (rx_wnd : Int))
  let io := if over then { io with data_size := u32i (seg_len - rx_wnd) } else io
  let seg_len := if over then (rx_wnd : Int) else seg_len
  { io := clear_flag io TCP_FLAG_PSH, seq := c.seq, seg_len := seg_len }

/-- The two adjusting blocks of `tcps_rx_otw_check_seq` in sequence, entered
when the segment is not a duplicate: the overlap is stripped if the segment
starts before `rcv_nxt`, then the segment is chopped if it does not fit a
window that is open. -/
def tcps_rx_otw_check_seq_adjust (tcb : TCP_TCB) (io : Io) : CHECK_SEQ :=
  let seq := tcp_seq io
  let seq_delta := tcps_diff tcb.rcv_nxt seq
  let seg_len := toInt32 (tcps_seg_len io)
  let c : CHECK_SEQ := { io := io, seq := seq, seg_len := seg_len }
  let c := if seq_delta < 0 then tcps_rx_otw_check_seq_strip c seq_delta else c
  if c.seg_len > (tcb.rx_wnd : Int) ∧ tcb.rx_wnd > 0
    then tcps_rx_otw_check_seq_chop c tcb.rx_wnd else c

/-- The last block of `tcps_rx_otw_check_seq`: the boundary test on the
adjusted segment and the ACK sent when it fails. -/
def tcps_rx_otw_check_seq_boundary (plat : Platform) (sys : Sys) (tcpips : TCPIPS)
    (tcb : TCP_TCB) (c : CHECK_SEQ) : Bool × Io × TCPIPS :=
  if c.seq ≠ tcb.rcv_nxt ∨ c.seg_len > (tcb.rx_wnd : Int) then
    if has_flag c.io TCP_FLAG_RST then (false, c.io, tcpips)
    else
      match tcps_allocate_io sys tcb with
      | none => (false, c.io, tcpips)
      | some tx =>
        let tx := set_flag tx TCP_FLAG_ACK
        let tx := { tx with mem := int2be tx.mem 4 tcb.snd_una }
        (false, c.io, tcps_tx plat tcpips tx tcb)
  else (true, c.io, tcpips)

/-- Embedding of `tcps_rx_otw_check_seq`: the result, the segment as the
function leaves it, and the state. -/
def tcps_rx_otw_check_seq (plat : Platform) (sys : Sys) (tcpips : TCPIPS) (io : Io)
    (tcb_handle : HANDLE) : Bool × Io × TCPIPS :=
  match so_get tcpips.tcps.tcbs tcb_handle with
  | none => (false, io, tcpips)
  | some tcb =>
    let seq_delta := tcps_diff tcb.rcv_nxt (tcp_seq io)
    let seg_len := toInt32 (tcps_seg_len io)
    if seq_delta < 0 ∧ seg_len + seq_delta ≤ 0 then (false, io, tcpips)
    else
      tcps_rx_otw_check_seq_boundary plat sys tcpips tcb (tcps_rx_otw_check_seq_adjust tcb io)

def tcps_rx_otw_syn_rst (tcpips : TCPIPS) (tcb_handle : HANDLE) : TCPIPS :=
  tcps_destroy_tcb tcpips tcb_handle

/-- The `switch (tcb->state)` that ends `tcps_rx_otw_ack`, entered with the
TCB as the adjustment of `snd_una` leaves it. -/
def tcps_rx_otw_ack_switch (tcpips : TCPIPS) (tcb : TCP_TCB) (tcb_handle : HANDLE) :
    Bool × TCPIPS :=
  match tcb.state with
  | TCP_STATE.FIN_WAIT_1 =>
    (true, tcpips.set_tcb tcb_handle
      (if tcb.snd_nxt = tcb.snd_una then tcps_set_state tcb TCP_STATE.FIN_WAIT_2 else tcb))
  | TCP_STATE.CLOSING =>
    (true, tcpips.set_tcb tcb_handle
      (if tcb.snd_nxt = tcb.snd_una then tcps_set_state tcb TCP_STATE.TIME_WAIT else tcb))
  | TCP_STATE.LAST_ACK =>
    if tcb.snd_nxt = tcb.snd_una then
      (false, tcps_destroy_tcb (tcpips.set_tcb tcb_handle tcb) tcb_handle)
    else (true, tcpips.set_tcb tcb_handle tcb)
  | _ => (true, tcpips.set_tcb tcb_handle tcb)

def tcps_rx_otw_ack (plat : Platform) (sys : Sys) (tcpips : TCPIPS) (io : Io)
    (tcb_handle : HANDLE) : Bool × TCPIPS :=
  match so_get tcpips.tcps.tcbs tcb_handle with
  | none => (false, tcpips)
  | some tcb =>
    let snd_diff := tcps_diff tcb.snd_una tcb.snd_nxt
    let ack_diff := tcps_diff tcb.snd_una (tcp_ack io)
    if tcb.state = TCP_STATE.SYN_RECEIVED then
      if ack_diff ≥ 0 ∧ ack_diff ≤ snd_diff then
        let tcb := tcps_set_state tcb TCP_STATE.ESTABLISHED
        let tcpips := tcpips.set_tcb tcb_handle tcb
        (true, { tcpips with posted := tcpips.posted ++
          [{ process := tcb.process, cmd := HAL_CMD HAL.HAL_TCP IPC_ITEM.IPC_OPEN,
             param1 := tcb_handle, param2 := tcb.remote_addr, param3 := 0 }] })
      else (false, tcps_tx_rst plat sys tcpips tcb_handle (tcp_ack io))
    else if ack_diff > snd_diff then (false, tcps_tx_ack plat sys tcpips tcb_handle)
    else
      tcps_rx_otw_ack_switch tcpips
        (if ack_diff > 0 then { tcb with snd_una := u32i (tcb.snd_una + ack_diff) } else tcb)
        tcb_handle

/-- The local variables `data_offset`, `data_size`, `urg` of `tcps_rx_otw_text`. -/
structure TEXT where
  data_offset : Nat
  data_size : Nat
  urg : Nat

/-- The block of `tcps_rx_otw_text` that reads the urgent pointer: the value of
`urg` and the segment (whose urgent pointer may have been rewritten). -/
def tcps_rx_otw_text_urg (io : Io) (data_size : Nat) : Nat × Io :=
  if has_flag io TCP_FLAG_URG then
    let urg := u16 (be2int io.mem 18)
    if urg > data_size then
      let urg := u16 data_size
      (urg, { io with mem := short2be io.mem 18 urg })
    else (urg, io)
  else (0, io)

/-- The block "has user block" of `tcps_rx_otw_text`, entered with `tcb->rx`
being `rx`. -/
def tcps_rx_otw_text_user (plat : Platform) (tcpips : TCPIPS) (tcb : TCP_TCB) (rx : Io)
    (io : Io) (tcb_handle : HANDLE) (t : TEXT) : TCPIPS × TCP_TCB × TEXT :=
  let size := if t.data_size > io_get_free rx then io_get_free rx else t.data_size
  let rx := { rx with mem := memcpy rx.mem rx.data_size io.mem t.data_offset size }
  let rx := { rx with data_size := u32 (rx.data_size + size) }
  let data_offset := u32 (t.data_offset + size)
  let data_size := u32i ((t.data_size : Int) - size)
  let rx := if has_flag io TCP_FLAG_PSH
    then { rx with stack := { rx.stack with flags := rx.stack.flags ||| plat.TCP_PSH } } else rx
  let rx := if t.urg ≠ 0
    then { rx with stack := { flags := rx.stack.flags ||| plat.TCP_URG, urg_len := t.urg } } else rx
  let urg := if t.urg ≠ 0 then (if t.urg > size then u16 (t.urg - size) else 0) else t.urg
  let t : TEXT := { data_offset := data_offset, data_size := data_size, urg := urg }
  if io_get_free rx = 0 ∨ has_flag io TCP_FLAG_PSH then
    ({ tcpips with completed := tcpips.completed ++
        [{ process := tcb.process, cmd := HAL_IO_CMD HAL.HAL_TCP IPC_ITEM.IPC_READ,
           handle := tcb_handle, io := rx }] },
     { tcb with rx := none }, t)
  else (tcpips, { tcb with rx := some rx }, t)

/-- The block "append to tmp" of `tcps_rx_otw_text`, entered with
`tcb->rx_tmp` being `tmp`; the result is the new `rx_tmp`. -/
def tcps_rx_otw_text_append (plat : Platform) (tmp : Io) (io : Io) (t : TEXT) : Io :=
  let tmp := if has_flag io TCP_FLAG_PSH then set_flag tmp plat.TCP_PSH else tmp
  let r : Io × TEXT :=
    if t.urg ≠ 0 then
      let data_offset_tmp := tcps_data_offset tmp
      let urg_tmp := if has_flag tmp TCP_FLAG_URG then be2short tmp.mem 18 else 0
      let m := memmove tmp.mem (data_offset_tmp + urg_tmp + t.urg) (data_offset_tmp + urg_tmp)
        (u32i ((tmp.data_size : Int) - t.data_offset - urg_tmp))
      let m := memcpy m (data_offset_tmp + urg_tmp) io.mem t.data_offset t.urg
      let tmp := { tmp with mem := m, data_size := u32 (tmp.data_size + t.urg) }
      let tmp := set_flag tmp TCP_FLAG_URG
      let tmp := { tmp with mem := short2be tmp.mem 18 (urg_tmp + t.urg) }
      (tmp, { data_offset := u32 (t.data_offset + t.urg),
              data_size := u32i ((t.data_size : Int) - t.urg), urg := t.urg })
    else (tmp, t)
  let tmp := r.1
  let t := r.2
  { tmp with
    mem := memcpy tmp.mem tmp.data_size io.mem t.data_offset t.data_size
    data_size := u32 (tmp.data_size + t.data_size) }

/-- The block "no user block/no fit" of `tcps_rx_otw_text`: what is left of the
data is queued in `rx_tmp`. -/
def tcps_rx_otw_text_queue (plat : Platform) (tcb : TCP_TCB) (io : Io) (t : TEXT) : TCP_TCB :=
  if t.data_size ≠ 0 then
    match tcb.rx_tmp with
    | none => { tcb with rx_tmp := some io }
    | some tmp => { tcb with rx_tmp := some (tcps_rx_otw_text_append plat tmp io t) }
  else tcb

/-- The body of `if (data_size)` of `tcps_rx_otw_text` up to the update of the
window: the state and the TCB. -/
def tcps_rx_otw_text_data (plat : Platform) (tcpips : TCPIPS) (tcb : TCP_TCB) (io : Io)
    (tcb_handle : HANDLE) : TCPIPS × TCP_TCB :=
  let data_size := tcps_data_len io
  let data_offset := tcps_data_offset io
  let u := tcps_rx_otw_text_urg io data_size
  let io := u.2
  let t : TEXT := { data_offset := data_offset, data_size := data_size, urg := u.1 }
  let tcb := { tcb with rcv_nxt := u32 (tcb.rcv_nxt + data_size) }
  let r : TCPIPS × TCP_TCB × TEXT := match tcb.rx with
    | some rx => tcps_rx_otw_text_user plat tcpips tcb rx io tcb_handle t
    | none => (tcpips, tcb, t)
  (r.1, tcps_rx_otw_text_queue plat r.2.1 io r.2.2)

def tcps_rx_otw_text (plat : Platform) (tcpips : TCPIPS) (io : Io) (tcb_handle : HANDLE) :
    TCPIPS :=
  match so_get tcpips.tcps.tcbs tcb_handle with
  | none => tcpips
  | some tcb =>
    if tcb.state = TCP_STATE.ESTABLISHED ∨ tcb.state = TCP_STATE.FIN_WAIT_1
        ∨ tcb.state = TCP_STATE.FIN_WAIT_2 then
      if tcps_data_len io ≠ 0 then
        let r := tcps_rx_otw_text_data plat tcpips tcb io tcb_handle
        r.1.set_tcb tcb_handle (tcps_update_rx_wnd plat r.2)
      else tcpips
    else tcpips

/-- The `switch (tcb->state)` of `tcps_rx_otw_fin`, entered with the TCB as
the acknowledgement of the FIN leaves it. -/
def tcps_rx_otw_fin_switch (tcpips : TCPIPS) (tcb : TCP_TCB) (tcb_handle : HANDLE) : TCPIPS :=
  match tcb.state with
  | TCP_STATE.ESTABLISHED =>
    let tcpips : TCPIPS := { tcpips with posted := tcpips.posted ++
      [{ process := tcb.process, cmd := HAL_CMD HAL.HAL_TCP IPC_ITEM.IPC_CLOSE,
         param1 := tcb_handle, param2 := 0, param3 := 0 }] }
    tcpips.set_tcb tcb_handle (tcps_set_state tcb TCP_STATE.LAST_ACK)
  | TCP_STATE.SYN_RECEIVED =>
    tcpips.set_tcb tcb_handle (tcps_set_state tcb TCP_STATE.LAST_ACK)
  | TCP_STATE.FIN_WAIT_1 =>
    tcpips.set_tcb tcb_handle
      (if tcb.snd_una = tcb.snd_nxt then tcps_set_state tcb TCP_STATE.TIME_WAIT
       else tcps_set_state tcb TCP_STATE.CLOSING)
  | TCP_STATE.FIN_WAIT_2 =>
    tcpips.set_tcb tcb_handle (tcps_set_state tcb TCP_STATE.TIME_WAIT)
  | _ => tcpips.set_tcb tcb_handle tcb

def tcps_rx_otw_fin (tcpips : TCPIPS) (tcb_handle : HANDLE) : TCPIPS :=
  match so_get tcpips.tcps.tcbs tcb_handle with
  | none => tcpips
  | some tcb =>
    let tcb := { tcb with rcv_nxt := u32 (tcb.rcv_nxt + 1) }
    let tcb := if ¬ tcb.fin then { tcb with fin := true, snd_nxt := u32 (tcb.snd_nxt + 1) } else tcb
    tcps_rx_otw_fin_switch tcpips tcb tcb_handle

def tcps_rx_send (plat : Platform) (sys : Sys) (tcpips : TCPIPS) (tcb_handle : HANDLE) :
    TCPIPS :=
  match so_get tcpips.tcps.tcbs tcb_handle with
  | none => tcpips
  | some tcb =>
    if tcb.state = TCP_STATE.ESTABLISHED ∧ tcb.transmit ∧ tcb.snd_una = tcb.snd_nxt
        ∧ ¬ tcb.fin then
      tcpips.set_tcb tcb_handle { tcb with transmit := false }
    else if tcb.state = TCP_STATE.TIME_WAIT then tcpips
    else tcps_tx_text_ack_fin plat sys tcpips tcb_handle

def tcps_rx_otw (plat : Platform) (sys : Sys) (tcpips : TCPIPS) (io : Io)
    (tcb_handle : HANDLE) : TCPIPS :=
  let c := tcps_rx_otw_check_seq plat sys tcpips io tcb_handle
  if ¬ c.1 then c.2.2
  else
    let io := c.2.1
    let tcpips := c.2.2
    if has_flag io (TCP_FLAG_RST ||| TCP_FLAG_SYN) then tcps_rx_otw_syn_rst tcpips tcb_handle
    else if has_flag io TCP_FLAG_ACK then
      let a := tcps_rx_otw_ack plat sys tcpips io tcb_handle
      if ¬ a.1 then a.2
      else
        let tcpips := tcps_rx_otw_text plat a.2 io tcb_handle
        let tcpips := if has_flag io TCP_FLAG_FIN then tcps_rx_otw_fin tcpips tcb_handle
          else tcpips
        tcps_rx_send plat sys tcpips tcb_handle
    else tcpips

def tcps_rx_process (plat : Platform) (sys : Sys) (tcpips : TCPIPS) (io : Io)
    (tcb_handle : HANDLE) : TCPIPS :=
  match so_get tcpips.tcps.tcbs tcb_handle with
  | none => tcpips
  | some tcb =>
    match tcb.state with
    | TCP_STATE.CLOSED => tcps_rx_closed plat sys tcpips io tcb_handle
    | TCP_STATE.LISTEN => tcps_rx_listen plat sys tcpips io tcb_handle
    | TCP_STATE.SYN_SENT => tcpips
    | _ => tcps_rx_otw plat sys tcpips io tcb_handle

def tcps_init (tcpips : TCPIPS) : TCPIPS :=
  { tcpips with tcps := { listen := so_create, tcbs := so_create } }

/-- Modelled from the spec: `ips_release_io`, the buffer goes back to the
stack (its address is logged). -/
def ips_release_io (tcpips : TCPIPS) (io : Io) : TCPIPS :=
  { tcpips with released := tcpips.released ++ [io.addr] }

/-- The test `tcb->rx_tmp == io` at the end of `tcps_rx` (a destroyed TCB
holds no segment of the current call). -/
def tcps_rx_queued (tcpips : TCPIPS) (io : Io) (tcb_handle : HANDLE) : Bool :=
  match so_get tcpips.tcps.tcbs tcb_handle with
  | none => false
  | some tcb =>
    match tcb.rx_tmp with
    | none => false
    | some rx_tmp => rx_tmp.addr = io.addr

/-- Embedding of `tcps_rx`; `none` is a call that does not return (the option
loop of `tcps_apply_options` runs for ever). -/
def tcps_rx (plat : Platform) (sys : Sys) (tcpips : TCPIPS) (io : Io) (src : IP) :
    Option TCPIPS :=
  if io.data_size < TCP_HEADER_SIZE ∨ plat.tcp_checksum io.mem io.data_size src tcpips.ip ≠ 0 then
    some (ips_release_io tcpips io)
  else
    let src_port := tcp_src_port io
    let dst_port := tcp_dst_port io
    let found := tcps_find_tcb tcpips src src_port dst_port
    let r : HANDLE × TCPIPS :=
      if found = INVALID_HANDLE then
        let r := tcps_create_tcb plat sys tcpips src src_port dst_port
        if r.1 ≠ INVALID_HANDLE then
          let process := tcps_find_listener r.2 dst_port
          if process ≠ INVALID_HANDLE then
            match so_get r.2.tcps.tcbs r.1 with
            | none => r
            | some tcb =>
              (r.1, r.2.set_tcb r.1
                { tcb with state := TCP_STATE.LISTEN, active := false, process := process })
          else r
        else r
      else (found, tcpips)
    let tcb_handle := r.1
    let tcpips := r.2
    if tcb_handle ≠ INVALID_HANDLE then
      match so_get tcpips.tcps.tcbs tcb_handle with
      | none => some (ips_release_io tcpips io)
      | some tcb =>
        match tcps_apply_options plat tcpips io tcb with
        | none => none
        | some o =>
          let tcb := { o.2 with tx_wnd := tcp_window io }
          let tcpips := o.1.set_tcb tcb_handle tcb
          let tcpips := tcps_rx_process plat sys tcpips io tcb_handle
          if tcps_rx_queued tcpips io tcb_handle then some tcpips
          else some (ips_release_io tcpips io)
    else some (ips_release_io tcpips io)

def tcps_listen (sys : Sys) (tcpips : TCPIPS) (ipc : IPC) : TCPIPS × IPC :=
  if tcps_find_listener tcpips (u16 ipc.param1) ≠ INVALID_HANDLE then
    ({ tcpips with error := ERROR.ERROR_ALREADY_CONFIGURED }, ipc)
  else
    let r := so_allocate tcpips.tcps.listen sys.so_ok
      { process := ipc.process, port := u16 ipc.param1 }
    if r.1 = INVALID_HANDLE then (tcpips, ipc)
    else ({ tcpips with tcps := { tcpips.tcps with listen := r.2 } }, { ipc with param2 := r.1 })

def tcps_connect (tcpips : TCPIPS) (ipc : IPC) : TCPIPS × IPC :=
  ({ tcpips with error := ERROR.ERROR_NOT_SUPPORTED }, ipc)

/-- Modelled from the spec: `io_push` of `userspace/io.h` (not among the
sources): room for a stack annotation of `size` bytes is taken from the
buffer.  The source does not test its result; the push is taken to succeed. -/
def io_push (io : Io) (size : Nat) : Io := { io with size := io.size - size }

/-- The block `if (tcp->flags & TCP_FLAG_URG)` of `tcps_read`, entered with
the number `size` of bytes copied and the number `data_size` of data bytes of
`rx_tmp`: the user buffer and `rx_tmp` after it. -/
def tcps_read_tmp_urg (plat : Platform) (io : Io) (tmp : Io) (size data_size : Nat) : Io × Io :=
  if has_flag tmp TCP_FLAG_URG then
    let urg := u16 (be2int tmp.mem 18)
    let r : Io × Io :=
      if urg > size then
        ({ io with stack := { io.stack with urg_len := size } },
         { tmp with mem := short2be tmp.mem 18 (urg - size) })
      else
        ({ io with stack := { io.stack with urg_len := urg } },
         if size < data_size
           then clear_flag { tmp with mem := short2be tmp.mem 18 0 } TCP_FLAG_URG else tmp)
    let io : Io := r.1
    ({ io with stack := { io.stack with flags := io.stack.flags ||| plat.TCP_URG } }, r.2)
  else (io, tmp)

/-- The block "already on tmp buffers" of `tcps_read` up to the release or the
shift of `rx_tmp`: the user buffer, and what is left of `rx_tmp`. -/
def tcps_read_tmp (plat : Platform) (io : Io) (tmp : Io) : Io × Option Io :=
  let size := io_get_free io
  let data_offset := tcps_data_offset tmp
  let data_size := tcps_data_len tmp
  let size := if size > data_size then data_size else size
  let io := { io with mem := memcpy io.mem 0 tmp.mem data_offset size, data_size := size }
  let io := if has_flag tmp TCP_FLAG_PSH
    then { io with stack := { io.stack with flags := io.stack.flags ||| plat.TCP_PSH } } else io
  let r : Io × Io := tcps_read_tmp_urg plat io tmp size data_size
  let io := r.1
  let tmp := r.2
  if size = data_size then (io, none)
  else
    (io, some { tmp with
      mem := memmove tmp.mem data_offset (data_offset + size) (data_size - size)
      data_size := u32i ((tmp.data_size : Int) - size) })

def tcps_read (plat : Platform) (tcpips : TCPIPS) (tcb_handle : HANDLE) (io : Io) : TCPIPS :=
  match so_get tcpips.tcps.tcbs tcb_handle with
  | none => tcpips
  | some tcb =>
    if tcb.rx.isSome then { tcpips with error := ERROR.ERROR_ALREADY_CONFIGURED }
    else if tcb.state = TCP_STATE.ESTABLISHED ∨ tcb.state = TCP_STATE.FIN_WAIT_1
        ∨ tcb.state = TCP_STATE.FIN_WAIT_2 then
      let io := { io with data_size := 0 }
      let io := io_push io plat.TCP_STACK_SIZE
      let io := { io with stack := { flags := 0, urg_len := 0 } }
      let tcpips := { tcpips with error := ERROR.ERROR_SYNC }
      match tcb.rx_tmp with
      | some tmp =>
        let r := tcps_read_tmp plat io tmp
        let io := r.1
        let tcpips := if r.2.isNone then ips_release_io tcpips tmp else tcpips
        let tcb := { tcb with rx_tmp := r.2 }
        if io_get_free io = 0 ∨ (io.stack.flags &&& plat.TCP_PSH) ≠ 0 then
          let tcb := tcps_update_rx_wnd plat tcb
          let tcpips := tcpips.set_tcb tcb_handle tcb
          { tcpips with completed := tcpips.completed ++
            [{ process := tcb.process, cmd := HAL_IO_CMD HAL.HAL_TCP IPC_ITEM.IPC_READ,
               handle := tcb_handle, io := io }] }
        else
          let tcb := { tcb with rx := some io }
          tcpips.set_tcb tcb_handle (tcps_update_rx_wnd plat tcb)
      | none =>
        let tcb := { tcb with rx := some io }
        tcpips.set_tcb tcb_handle (tcps_update_rx_wnd plat tcb)
    else { tcpips with error := ERROR.ERROR_INVALID_STATE }

/-- Embedding of `tcps_request`; `io` is the buffer `(IO*)ipc->param2` of an
`IPC_READ`. -/
def tcps_request (plat : Platform) (sys : Sys) (tcpips : TCPIPS) (ipc : IPC) (io : Io) :
    TCPIPS × IPC :=
  if ¬ tcpips.connected then ({ tcpips with error := ERROR.ERROR_NOT_ACTIVE }, ipc)
  else
    match HAL_ITEM ipc.cmd with
    | IPC_ITEM.IPC_OPEN =>
      if ipc.param2 = plat.LOCALHOST then tcps_listen sys tcpips ipc
      else tcps_connect tcpips ipc
    | IPC_ITEM.IPC_CLOSE => (tcpips, ipc)
    | IPC_ITEM.IPC_READ => (tcps_read plat tcpips ipc.param1 io, ipc)
    | IPC_ITEM.IPC_WRITE => (tcpips, ipc)
    | IPC_ITEM.IPC_FLUSH => (tcpips, ipc)
    | IPC_ITEM.IPC_OTHER => ({ tcpips with error := ERROR.ERROR_NOT_SUPPORTED }, ipc)

/-! ## Views and predicates used by the statements -/

/-- The header fields of a segment that the statements speak about. -/
structure SEGMENT where
  flags : Nat
  seq : Nat
  ack : Nat
  window : Nat
  deriving DecidableEq, Repr

/-- The header of a buffer, read as `tcps_debug` prints it. -/
def segment_of (io : Io) : SEGMENT :=
  { flags := tcp_flags io, seq := tcp_seq io, ack := tcp_ack io, window := tcp_window io }

/-- Free space of an optional buffer: 0 when there is none. -/
def free_of (io : Option Io) : Nat :=
  match io with
  | some b => io_get_free b
  | none => 0

/-- The send sequence variables of a TCB are 32-bit values with `snd_nxt` at
most one ahead of `snd_una`, two once the FIN of this side is counted. -/
def SND_INV (tcb : TCP_TCB) : Prop :=
  tcb.snd_una < 4294967296 ∧ tcb.snd_nxt < 4294967296
    ∧ tcps_delta tcb.snd_una tcb.snd_nxt ≤ (if tcb.fin then 2 else 1)

/-- The advertised window of a TCB is covered by `TCP_MSS_MAX` and the free
space of its receive buffers. -/
def WND_INV (plat : Platform) (tcb : TCP_TCB) : Prop :=
  tcb.rx_wnd ≤ TCP_MSS_MAX plat + free_of tcb.rx + free_of tcb.rx_tmp

/-- The invariant of a TCB kept by every call of the engine. -/
def TCB_INV (plat : Platform) (tcb : TCP_TCB) : Prop := SND_INV tcb ∧ WND_INV plat tcb

/-- Every TCB of the table satisfies `P`. -/
def ALL_TCB (P : TCP_TCB → Prop) (tcpips : TCPIPS) : Prop :=
  ∀ (h : HANDLE) (tcb : TCP_TCB), so_get tcpips.tcps.tcbs h = some tcb → P tcb

/-- The states of the engine after `tcps_init` and any sequence of calls of
`tcps_rx` and `tcps_request` that have returned; the link may go up and
down between two calls (`connected` is written by the stack, not by the
engine). -/
inductive Reachable (plat : Platform) : TCPIPS → Prop where
  | init (tcpips : TCPIPS) : Reachable plat (tcps_init tcpips)
  | rx (tcpips r : TCPIPS) (sys : Sys) (io : Io) (src : IP) :
      Reachable plat tcpips → tcps_rx plat sys tcpips io src = some r → Reachable plat r
  | request (tcpips : TCPIPS) (sys : Sys) (ipc : IPC) (io : Io) :
      Reachable plat tcpips → Reachable plat (tcps_request plat sys tcpips ipc io).1
  | link (tcpips : TCPIPS) (up : Bool) :
      Reachable plat tcpips → Reachable plat { tcpips with connected := up }

/-! ## Concrete data for the scenarios -/

/-- A platform: Ethernet frames of 1500 bytes, a checksum that accepts. -/
def demo_plat : Platform :=
  { IP_FRAME_MAX_DATA_SIZE := 1480
    TCP_PSH := 1
    TCP_URG := 2
    TCP_STACK_SIZE := 4
    LOCALHOST := 0x0100007f
    tcp_checksum := fun _ _ _ _ => 0 }

/-- An empty buffer of the stack at address `addr`. -/
def demo_io (addr : Nat) : Io :=
  { addr := addr, size := 1480, data_size := 0, mem := fun _ => 0, hdr_size := 20,
    stack := { flags := 0, urg_len := 0 } }

/-- A received buffer at address `addr` holding the bytes `l`. -/
def demo_rx_io (addr : Nat) (l : List Nat) : Io :=
  { addr := addr, size := 1480, data_size := l.length, mem := ofBytes l, hdr_size := 20,
    stack := { flags := 0, urg_len := 0 } }

/-- The bytes of a TCP header. -/
def demo_header (src_port dst_port seq ack data_off flags window urgent : Nat) : List Nat :=
  [src_port / 256 % 256, src_port % 256, dst_port / 256 % 256, dst_port % 256,
   seq / 16777216 % 256, seq / 65536 % 256, seq / 256 % 256, seq % 256,
   ack / 16777216 % 256, ack / 65536 % 256, ack / 256 % 256, ack % 256,
   data_off, flags, window / 256 % 256, window % 256, 0, 0, urgent / 256 % 256, urgent % 256]

/-- The system answers: allocation succeeds. -/
def demo_sys : Sys :=
  { uptime := { sec := 100, usec := 4000 }, so_ok := true, tx_io := some (demo_io 9000) }

/-- The system answers: no transmit buffer is left. -/
def demo_sys_no_io : Sys :=
  { uptime := { sec := 100, usec := 4000 }, so_ok := true, tx_io := none }

/-- The system answers: the system pool is exhausted. -/
def demo_sys_no_so : Sys :=
  { uptime := { sec := 100, usec := 4000 }, so_ok := false, tx_io := some (demo_io 9000) }

/-- The engine right after `tcps_init`, link up, local address 10.0.0.1. -/
def demo_init : TCPIPS :=
  tcps_init
    { connected := true, ip := 0x0A000001
      tcps := { listen := so_create, tcbs := so_create }
      error := ERROR.ERROR_OK, sent := [], posted := [], completed := [], released := []
      icmp := [] }

/-- A TCB of the peer 10.0.0.2:4000 on local port 80, owned by process 7. -/
def demo_tcb (state : TCP_STATE) (snd_una snd_nxt rcv_nxt rx_wnd : Nat) : TCP_TCB :=
  { process := 7, remote_addr := 0x0A000002, rx := none, rx_tmp := none, tx := none
    snd_una := snd_una, snd_nxt := snd_nxt, rcv_nxt := rcv_nxt, state := state
    remote_port := 4000, local_port := 80, mss := 1460, rx_wnd := rx_wnd, tx_wnd := 8192
    active := false, transmit := false, fin := false }

/-- The engine holding the single TCB `tcb` under handle 0. -/
def demo_with (tcb : TCP_TCB) : TCPIPS :=
  demo_init.with_tcbs { size := 1, slot := fun j => if j = 0 then some tcb else none }

/-- Scenario of the handshake, second step: a TCB in SYN_RECEIVED with
ISN 500 that expects sequence number 1001. -/
def demo_tcb_syn_received : TCP_TCB := demo_tcb TCP_STATE.SYN_RECEIVED 500 501 1001 1460

/-- The ACK that completes the handshake: seq 1001, ack 501. -/
def demo_seg_handshake_ack : Io :=
  demo_rx_io 5000 (demo_header 4000 80 1001 501 0x50 0x10 8192 0)

/-- An ACK for a sequence number that was never sent: seq 1001, ack 9999. -/
def demo_seg_bad_ack : Io :=
  demo_rx_io 5000 (demo_header 4000 80 1001 9999 0x50 0x10 8192 0)

/-- Scenario "FIN from ESTABLISHED": rcv_nxt 2000, snd_una = snd_nxt = 500. -/
def demo_tcb_established : TCP_TCB := demo_tcb TCP_STATE.ESTABLISHED 500 500 2000 1460

/-- The segment of the scenario: seq 2000, ack 500, flags FIN|ACK, no data. -/
def demo_seg_fin : Io :=
  demo_rx_io 5000 (demo_header 4000 80 2000 500 0x50 0x11 8192 0)

/-- Scenario "out-of-window segment": ESTABLISHED, rcv_nxt 1000, rx_wnd 100,
snd_una = snd_nxt = 500. -/
def demo_tcb_window : TCP_TCB := demo_tcb TCP_STATE.ESTABLISHED 500 500 1000 100

/-- The segment of the scenario: seq 1500, ACK, 50 data bytes. -/
def demo_seg_out_of_window : Io :=
  demo_rx_io 5000 (demo_header 4000 80 1500 500 0x50 0x10 8192 0 ++ List.replicate 50 0x41)

/-- A segment to port 81, where nobody listens: seq 1000, ack 77, flags ACK. -/
def demo_seg_no_listener : Io :=
  demo_rx_io 5000 (demo_header 4000 81 1000 77 0x50 0x10 8192 0)

/-- The request of process 7 to listen on port 80. -/
def demo_ipc_listen : IPC :=
  { process := 7, cmd := HAL_CMD HAL.HAL_TCP IPC_ITEM.IPC_OPEN, param1 := 80,
    param2 := 0x0100007f, param3 := 0 }

/-- The engine after `tcps_init` and the listen request on port 80. -/
def demo_listening : TCPIPS := (tcps_request demo_plat demo_sys demo_init demo_ipc_listen (demo_io 0)).1

/-- The SYN of the handshake scenario: 10.0.0.2:4000 to port 80, seq 1000,
window 8192, option MSS 1400. -/
def demo_seg_syn : Io :=
  demo_rx_io 5000 (demo_header 4000 80 1000 0 0x60 0x02 8192 0 ++ [2, 4, 5, 120])

/-- The same SYN with, in place of the MSS option, an option of kind 3 whose
length byte is 0. -/
def demo_seg_syn_zero_option : Io :=
  demo_rx_io 5000 (demo_header 4000 80 1000 0 0x60 0x02 8192 0 ++ [3, 0, 0, 0])

/-- The engine after the SYN of the handshake scenario has been served. -/
def demo_after_syn : TCPIPS :=
  (tcps_rx demo_plat demo_sys demo_listening demo_seg_syn 0x0A000002).getD demo_listening

/-- A TCB in ESTABLISHED that expects sequence number 1000 and has sent up to 32. -/
def demo_tcb_overlap : TCP_TCB := demo_tcb TCP_STATE.ESTABLISHED 32 32 1000 1460

/-- A segment whose header declares a data offset of 8 bytes: seq 999, one byte
behind `rcv_nxt`, flags ACK, 40 bytes in all, so 32 bytes of "data" that begin
inside the header. -/
def demo_seg_short_offset : Io :=
  demo_rx_io 5000 ([0x0f, 0xa0, 0, 80, 0, 0, 3, 231, 0, 0, 0, 0, 0x20, 0x10, 0x10, 0, 0, 0, 0, 0]
    ++ List.replicate 20 0x41)

/-- A well-formed segment that overlaps `rcv_nxt` by one byte: seq 999, ACK,
data offset 20, 12 data bytes. -/
def demo_seg_overlap : Io :=
  demo_rx_io 5000 (demo_header 4000 80 999 32 0x50 0x10 8192 0 ++ List.replicate 12 0x41)

/-! ## Kernel streams (`kernel/kstream.c`): data model

Conventions of this part.

* A `char*` that walks through a buffer of a caller is a `CHAR_PTR`: the bytes
  of the buffer before the pointer and the bytes from the pointer on.  The
  buffers of different calls do not overlap.
* A waiter list (`DLIST`) is the list of the addresses of its handles, head
  first.
* The calls made to the process module, to the pools and to `ipc_post` are
  appended to logs kept in the state.
-/

/-- A `PROCESS*`. -/
abbrev PROCESS := Nat

/-- A `char*` into a buffer of a caller. -/
structure CHAR_PTR where
  pre : List Nat
  post : List Nat
  deriving DecidableEq, Repr

/-- The value `*p`. -/
def CHAR_PTR.load (p : CHAR_PTR) : Nat := p.post.headD 0

/-- The store `*p = x`. -/
def CHAR_PTR.store (p : CHAR_PTR) (x : Nat) : CHAR_PTR := { p with post := x :: p.post.tail }

/-- The pointer `p + n`. -/
def CHAR_PTR.add (p : CHAR_PTR) (n : Nat) : CHAR_PTR :=
  { pre := p.pre ++ p.post.take n, post := p.post.drop n }

/-- The call `memcpy (dst, src, n)` between two buffers. -/
def CHAR_PTR.memcpy (dst src : CHAR_PTR) (n : Nat) : CHAR_PTR :=
  { dst with post := src.post.take n ++ dst.post.drop n }

/-- All the bytes of the buffer a pointer walks through. -/
def CHAR_PTR.all (p : CHAR_PTR) : List Nat := p.pre ++ p.post

inductive STREAM_MODE where
  | STREAM_MODE_IDLE
  | STREAM_MODE_READ
  | STREAM_MODE_WRITE
  deriving DecidableEq, Repr

/-- Modelled from the spec: the ring buffer `RB` of `rb.h` (not among the
sources) taken together with the bytes of `stream->data` it indexes: a queue of
at most `size` bytes, oldest first. -/
structure RB where
  size : Nat
  bytes : List Nat
  deriving DecidableEq, Repr

/-- Modelled from the spec: `rb_init`. -/
def rb_init (size : Nat) : RB := { size := size, bytes := [] }

/-- Modelled from the spec: `rb_clear`. -/
def rb_clear (rb : RB) : RB := { rb with bytes := [] }

/-- Modelled from the spec: `rb_is_empty`. -/
def rb_is_empty (rb : RB) : Bool := rb.bytes.isEmpty

/-- Modelled from the spec: `rb_is_full`. -/
def rb_is_full (rb : RB) : Bool := decide (rb.size ≤ rb.bytes.length)

/-- Modelled from the spec: `rb_size`. -/
def rb_size (rb : RB) : Nat := rb.size

/-- Modelled from the spec: `rb_free`. -/
def rb_free (rb : RB) : Nat := rb.size - rb.bytes.length

/-- Modelled from the spec: the store `data[rb_put (rb)] = x`. -/
def rb_put (rb : RB) (x : Nat) : RB := { rb with bytes := rb.bytes ++ [x] }

/-- Modelled from the spec: the load `data[rb_get (rb)]`, and the ring after it. -/
def rb_get (rb : RB) : Nat × RB := (rb.bytes.headD 0, { rb with bytes := rb.bytes.tail })

/-- Modelled from the spec: `dlist_remove_head` of `dlist.h` (not among the
sources). -/
def dlist_remove_head (l : List Nat) : List Nat := l.tail

/-- Modelled from the spec: `dlist_remove` of `dlist.h` (not among the
sources). -/
def dlist_remove (l : List Nat) (entry : Nat) : List Nat := l.erase entry

/-- The object `STREAM_HANDLE` (its link fields are the waiter lists of the
stream, its `stream` field is the one stream of the state). -/
structure STREAM_HANDLE where
  process : PROCESS
  mode : STREAM_MODE
  buf : CHAR_PTR
  size : Int
  full_size : Int
  deriving DecidableEq, Repr

/-- The object `STREAM`; `addr` is its address and `data` the address of its
paged block. -/
structure STREAM where
  addr : Nat
  rb : RB
  data : Nat
  write_waiters : List Nat
  read_waiters : List Nat
  listener : Option PROCESS
  deriving DecidableEq, Repr

/-- The fields of an `IPC` that the stream code fills before `ipc_post`; every
message it posts has `cmd = IPC_STREAM_WRITE`. -/
structure IPC_STREAM_WRITE where
  process : PROCESS
  param1 : Int
  param2 : Int
  deriving DecidableEq, Repr

/-- One stream, the stream handles by address, the current process with its
error slot, and the logs of the calls made to the other modules:
`kprocess_wakeup`, `kprocess_error`, `kprocess_sleep` (the sleeping process and
its sync object), `ipc_post`, `kfree`, `paged_free`. -/
structure KSTREAM where
  stream : STREAM
  handles : Nat → STREAM_HANDLE
  current : PROCESS
  error : ERROR
  woken : List PROCESS
  errors : List (PROCESS × ERROR)
  slept : List (PROCESS × Nat)
  posted : List IPC_STREAM_WRITE
  kfreed : List Nat
  paged_freed : List Nat

/-- Store through a `STREAM_HANDLE*`. -/
def KSTREAM.set_handle (k : KSTREAM) (a : Nat) (h : STREAM_HANDLE) : KSTREAM :=
  { k with handles := fun j => if j = a then h else k.handles j }

/-- Store into `stream->rb`. -/
def KSTREAM.set_rb (k : KSTREAM) (rb : RB) : KSTREAM :=
  { k with stream := { k.stream with rb := rb } }

/-- Store into `stream->read_waiters`. -/
def KSTREAM.set_read_waiters (k : KSTREAM) (l : List Nat) : KSTREAM :=
  { k with stream := { k.stream with read_waiters := l } }

/-- Store into `stream->write_waiters`. -/
def KSTREAM.set_write_waiters (k : KSTREAM) (l : List Nat) : KSTREAM :=
  { k with stream := { k.stream with write_waiters := l } }

/-- The call `kprocess_wakeup (process)`. -/
def kprocess_wakeup (k : KSTREAM) (process : PROCESS) : KSTREAM :=
  { k with woken := k.woken ++ [process] }

/-- The call `kprocess_error (process, error)`. -/
def kprocess_error (k : KSTREAM) (process : PROCESS) (e : ERROR) : KSTREAM :=
  { k with errors := k.errors ++ [(process, e)] }

/-- The call `kprocess_sleep (&time, PROCESS_SYNC_STREAM, handle)` of the
current process. -/
def kprocess_sleep (k : KSTREAM) (handle : Nat) : KSTREAM :=
  { k with slept := k.slept ++ [(k.current, handle)] }

/-- The call `ipc_post (&ipc)` with `ipc.cmd = IPC_STREAM_WRITE`. -/
def ipc_post (k : KSTREAM) (ipc : IPC_STREAM_WRITE) : KSTREAM :=
  { k with posted := k.posted ++ [ipc] }

/-- The call `kfree (ptr)`. -/
def kfree (k : KSTREAM) (ptr : Nat) : KSTREAM := { k with kfreed := k.kfreed ++ [ptr] }

/-- The call `paged_free (ptr)`. -/
def paged_free (k : KSTREAM) (ptr : Nat) : KSTREAM :=
  { k with paged_freed := k.paged_freed ++ [ptr] }

/-- The block `if (stream->listener != NULL) { ipc.process = stream->listener;
ipc.cmd = IPC_STREAM_WRITE; ipc.param1 = param1; ipc.param2 = 0; ipc_post (&ipc); }`
met in `kstream_write`, `kstream_push` and `kstream_read`. -/
def kstream_post_listener (k : KSTREAM) (param1 : Int) : KSTREAM :=
  match k.stream.listener with
  | some listener => ipc_post k { process := listener, param1 := param1, param2 := 0 }
  | none => k

/-! ## The functions of `kstream.c` -/

def kstream_lock_release (k : KSTREAM) (handle : Nat) (_process : PROCESS) : KSTREAM :=
  let k := match (k.handles handle).mode with
    | STREAM_MODE.STREAM_MODE_READ =>
      k.set_read_waiters (dlist_remove k.stream.read_waiters handle)
    | STREAM_MODE.STREAM_MODE_WRITE =>
      k.set_write_waiters (dlist_remove k.stream.write_waiters handle)
    | STREAM_MODE.STREAM_MODE_IDLE => k
  k.set_handle handle { k.handles handle with mode := STREAM_MODE.STREAM_MODE_IDLE }

/-- Embedding of `kstream_create`: `kmalloc` and `paged_alloc` are what the two
pools answer (`none` is `NULL`), `addr` is the value left in `*stream`. -/
def kstream_create (k : KSTREAM) (kmalloc paged_alloc : Option Nat) (size : Int) :
    Option Nat × KSTREAM :=
  match kmalloc with
  | some addr =>
    let stream : STREAM :=
      { addr := addr, rb := rb_init (u32i size), data := 0, write_waiters := [],
        read_waiters := [], listener := none }
    match paged_alloc with
    | some data => (some addr, { k with stream := { stream with data := data } })
    | none =>
      let k := kfree { k with stream := stream } addr
      (some addr, { k with error := ERROR.ERROR_OUT_OF_PAGED_MEMORY })
  | none => (none, { k with error := ERROR.ERROR_OUT_OF_SYSTEM_MEMORY })

/-- Embedding of `kstream_open`: `kmalloc` is what the system pool answers. -/
def kstream_open (k : KSTREAM) (kmalloc : Option Nat) : Option Nat × KSTREAM :=
  match kmalloc with
  | some handle =>
    (some handle, k.set_handle handle
      { k.handles handle with process := k.current, mode := STREAM_MODE.STREAM_MODE_IDLE })
  | none => (none, { k with error := ERROR.ERROR_OUT_OF_SYSTEM_MEMORY })

def kstream_close (k : KSTREAM) (handle : Nat) : KSTREAM :=
  let k := match (k.handles handle).mode with
    | STREAM_MODE.STREAM_MODE_READ =>
      let k := k.set_read_waiters (dlist_remove k.stream.read_waiters handle)
      let k := kprocess_wakeup k (k.handles handle).process
      kprocess_error k (k.handles handle).process ERROR.ERROR_SYNC_OBJECT_DESTROYED
    | STREAM_MODE.STREAM_MODE_WRITE =>
      let k := k.set_write_waiters (dlist_remove k.stream.write_waiters handle)
      let k := kprocess_wakeup k (k.handles handle).process
      kprocess_error k (k.handles handle).process ERROR.ERROR_SYNC_OBJECT_DESTROYED
    | STREAM_MODE.STREAM_MODE_IDLE => k
  kfree k handle

def kstream_get_size (k : KSTREAM) : Nat := rb_size k.stream.rb

def kstream_get_free (k : KSTREAM) : Nat := rb_free k.stream.rb

def kstream_start_listen (k : KSTREAM) : KSTREAM :=
  if k.stream.listener = none then
    { k with stream := { k.stream with listener := some k.current } }
  else { k with error := ERROR.ERROR_ACCESS_DENIED }

def kstream_stop_listen (k : KSTREAM) : KSTREAM :=
  let process := k.current
  if k.stream.listener = some process then
    { k with stream := { k.stream with listener := some process } }
  else { k with error := ERROR.ERROR_ACCESS_DENIED }

/-- The loop "write directly to output" of `kstream_write`, at most `fuel`
rounds.  `buf` is the local pointer of the writer. -/
def kstream_write_direct : Nat → KSTREAM → Nat → CHAR_PTR → KSTREAM × CHAR_PTR
  | 0, k, _, buf => (k, buf)
  | fuel + 1, k, handle, buf =>
    if (k.handles handle).size > 0 then
      match k.stream.read_waiters with
      | [] => (k, buf)
      | reader :: _ =>
        if (k.handles handle).size ≥ (k.handles reader).size then
          let n := (k.handles reader).size
          let k := k.set_handle reader
            { k.handles reader with buf := (k.handles reader).buf.memcpy buf n.toNat }
          let k := k.set_handle handle
            { k.handles handle with size := (k.handles handle).size - (k.handles reader).size }
          let buf := buf.add (k.handles reader).size.toNat
          let k := k.set_read_waiters (dlist_remove_head k.stream.read_waiters)
          let k := k.set_handle reader
            { k.handles reader with mode := STREAM_MODE.STREAM_MODE_IDLE }
          let k := kprocess_wakeup k (k.handles reader).process
          kstream_write_direct fuel k handle buf
        else
          let n := (k.handles handle).size
          let k := k.set_handle reader
            { k.handles reader with buf := (k.handles reader).buf.memcpy buf n.toNat }
          let k := k.set_handle reader
            { k.handles reader with buf := (k.handles reader).buf.add n.toNat }
          let k := k.set_handle reader
            { k.handles reader with size := (k.handles reader).size - (k.handles handle).size }
          let buf := buf.add n.toNat
          let k := k.set_handle handle { k.handles handle with size := 0 }
          kstream_write_direct fuel k handle buf
    else (k, buf)

/-- The loop "write rest to stream" of `kstream_write`, at most `fuel` rounds. -/
def kstream_write_rb : Nat → KSTREAM → Nat → CHAR_PTR → KSTREAM × CHAR_PTR
  | 0, k, _, buf => (k, buf)
  | fuel + 1, k, handle, buf =>
    if (k.handles handle).size > 0 ∧ ¬ rb_is_full k.stream.rb then
      let k := k.set_rb (rb_put k.stream.rb buf.load)
      let buf := buf.add 1
      let k := k.set_handle handle
        { k.handles handle with size := (k.handles handle).size - 1 }
      kstream_write_rb fuel k handle buf
    else (k, buf)

/-- Embedding of `kstream_write`.  A round of the first loop takes a reader
from the list or leaves `handle->size` at 0, a round of the second loop takes 1
from `handle->size`: the numbers of rounds given here let both loops run until
their conditions fail. -/
def kstream_write (k : KSTREAM) (handle : Nat) (buf : CHAR_PTR) (size : Int) : KSTREAM :=
  let k := k.set_handle handle { k.handles handle with size := size }
  let r := kstream_write_direct (k.stream.read_waiters.length + 1) k handle buf
  let r := kstream_write_rb (r.1.handles handle).size.toNat r.1 handle r.2
  let k := r.1
  let buf := r.2
  if (k.handles handle).size > 0 then
    let k := k.set_handle handle { k.handles handle with full_size := size }
    let k := k.set_handle handle { k.handles handle with buf := buf }
    let k := k.set_handle handle
      { k.handles handle with mode := STREAM_MODE.STREAM_MODE_WRITE }
    kprocess_sleep k handle
  else kstream_post_listener k size

/-- The inner loop of `kstream_push` for the waiting writer `handle`, at most
`fuel` rounds. -/
def kstream_push_rb : Nat → KSTREAM → Nat → KSTREAM
  | 0, k, _ => k
  | fuel + 1, k, handle =>
    if ¬ rb_is_full k.stream.rb ∧ (k.handles handle).size > 0 then
      let k := k.set_rb (rb_put k.stream.rb (k.handles handle).buf.load)
      let k := k.set_handle handle
        { k.handles handle with buf := (k.handles handle).buf.add 1 }
      let k := k.set_handle handle
        { k.handles handle with size := (k.handles handle).size - 1 }
      kstream_push_rb fuel k handle
    else k

/-- The outer loop of `kstream_push`, at most `fuel` rounds. -/
def kstream_push_loop : Nat → KSTREAM → KSTREAM
  | 0, k => k
  | fuel + 1, k =>
    match k.stream.write_waiters with
    | [] => k
    | handle :: _ =>
      if ¬ rb_is_full k.stream.rb then
        let k := kstream_push_rb (k.handles handle).size.toNat k handle
        if (k.handles handle).size ≤ 0 then
          let k := k.set_handle handle
            { k.handles handle with mode := STREAM_MODE.STREAM_MODE_IDLE }
          let k := k.set_write_waiters (dlist_remove_head k.stream.write_waiters)
          let k := kprocess_wakeup k (k.handles handle).process
          let k := kstream_post_listener k (k.handles handle).full_size
          kstream_push_loop fuel k
        else kstream_push_loop fuel k
      else k

/-- Embedding of `kstream_push`.  A round of the outer loop takes a writer from
the list or leaves the ring full, which ends the loop at the next test. -/
def kstream_push (k : KSTREAM) : KSTREAM :=
  kstream_push_loop (k.stream.write_waiters.length + 1) k

/-- The loop "read from stream" of `kstream_read`, at most `fuel` rounds. -/
def kstream_read_rb : Nat → KSTREAM → Nat → CHAR_PTR → KSTREAM × CHAR_PTR
  | 0, k, _, buf => (k, buf)
  | fuel + 1, k, handle, buf =>
    if (k.handles handle).size > 0 ∧ ¬ rb_is_empty k.stream.rb then
      let g := rb_get k.stream.rb
      let k := k.set_rb g.2
      let buf := (buf.store g.1).add 1
      let k := k.set_handle handle
        { k.handles handle with size := (k.handles handle).size - 1 }
      kstream_read_rb fuel k handle buf
    else (k, buf)

/-- The loop "read directly from input" of `kstream_read`, at most `fuel`
rounds.  `buf` is the local pointer of the reader. -/
def kstream_read_direct : Nat → KSTREAM → Nat → CHAR_PTR → KSTREAM × CHAR_PTR
  | 0, k, _, buf => (k, buf)
  | fuel + 1, k, handle, buf =>
    if (k.handles handle).size > 0 then
      match k.stream.write_waiters with
      | [] => (k, buf)
      | writer :: _ =>
        if (k.handles handle).size ≥ (k.handles writer).size then
          let n := (k.handles writer).size
          let buf := buf.memcpy (k.handles writer).buf n.toNat
          let k := k.set_handle handle
            { k.handles handle with size := (k.handles handle).size - (k.handles writer).size }
          let buf := buf.add (k.handles writer).size.toNat
          let k := k.set_handle writer
            { k.handles writer with mode := STREAM_MODE.STREAM_MODE_IDLE }
          let k := k.set_write_waiters (dlist_remove_head k.stream.write_waiters)
          let k := kprocess_wakeup k (k.handles writer).process
          let k := kstream_post_listener k (k.handles handle).full_size
          kstream_read_direct fuel k handle buf
        else
          let n := (k.handles handle).size
          let buf := buf.memcpy (k.handles writer).buf n.toNat
          let k := k.set_handle writer
            { k.handles writer with size := (k.handles writer).size - (k.handles handle).size }
          let k := k.set_handle writer
            { k.handles writer with buf := (k.handles writer).buf.add n.toNat }
          let buf := buf.add n.toNat
          let k := k.set_handle handle { k.handles handle with size := 0 }
          kstream_read_direct fuel k handle buf
    else (k, buf)

/-- Embedding of `kstream_read`: the state, and the local pointer `buf` at the
end of the call (the buffer of the caller).  The numbers of rounds let the
loops run until their conditions fail, as in `kstream_write`. -/
def kstream_read (k : KSTREAM) (handle : Nat) (buf : CHAR_PTR) (size : Int) :
    KSTREAM × CHAR_PTR :=
  let k := k.set_handle handle { k.handles handle with size := size }
  let r := kstream_read_rb (k.handles handle).size.toNat k handle buf
  let r := kstream_read_direct (r.1.stream.write_waiters.length + 1) r.1 handle r.2
  let k := r.1
  let buf := r.2
  let k :=
    if (k.handles handle).size > 0 then
      let k := k.set_handle handle { k.handles handle with buf := buf }
      let k := k.set_handle handle
        { k.handles handle with mode := STREAM_MODE.STREAM_MODE_READ }
      kprocess_sleep k handle
    else k
  (kstream_push k, buf)

/-- The loop "flush waiters" of `kstream_flush`, at most `fuel` rounds. -/
def kstream_flush_loop : Nat → KSTREAM → KSTREAM
  | 0, k => k
  | fuel + 1, k =>
    match k.stream.write_waiters with
    | [] => k
    | handle :: _ =>
      let k := k.set_handle handle
        { k.handles handle with mode := STREAM_MODE.STREAM_MODE_IDLE }
      let k := k.set_write_waiters (dlist_remove_head k.stream.write_waiters)
      let k := kprocess_wakeup k (k.handles handle).process
      kstream_flush_loop fuel k

/-- Embedding of `kstream_flush`; every round of its loop takes a writer from
the list. -/
def kstream_flush (k : KSTREAM) : KSTREAM :=
  let k := k.set_rb (rb_clear k.stream.rb)
  kstream_flush_loop k.stream.write_waiters.length k

/-- The first loop of `kstream_destroy`, at most `fuel` rounds. -/
def kstream_destroy_writers : Nat → KSTREAM → KSTREAM
  | 0, k => k
  | fuel + 1, k =>
    match k.stream.write_waiters with
    | [] => k
    | handle :: _ =>
      let k := k.set_write_waiters (dlist_remove_head k.stream.write_waiters)
      let k := kprocess_wakeup k (k.handles handle).process
      let k := kprocess_error k (k.handles handle).process ERROR.ERROR_SYNC_OBJECT_DESTROYED
      let k := kfree k handle
      kstream_destroy_writers fuel k

/-- The second loop of `kstream_destroy`, at most `fuel` rounds. -/
def kstream_destroy_readers : Nat → KSTREAM → KSTREAM
  | 0, k => k
  | fuel + 1, k =>
    match k.stream.read_waiters with
    | [] => k
    | handle :: _ =>
      let k := k.set_read_waiters (dlist_remove_head k.stream.read_waiters)
      let k := kprocess_wakeup k (k.handles handle).process
      let k := kprocess_error k (k.handles handle).process ERROR.ERROR_SYNC_OBJECT_DESTROYED
      let k := kfree k handle
      kstream_destroy_readers fuel k

/-- Embedding of `kstream_destroy`; every round of its loops takes a handle
from a list. -/
def kstream_destroy (k : KSTREAM) : KSTREAM :=
  let k := kstream_destroy_writers k.stream.write_waiters.length k
  let k := kstream_destroy_readers k.stream.read_waiters.length k
  let k := paged_free k k.stream.data
  kfree k k.stream.addr

/-! ## Concrete data for the stream scenarios -/

/-- A pointer to the start of a buffer holding the listed bytes. -/
def demo_ptr (l : List Nat) : CHAR_PTR := { pre := [], post := l }

/-- An idle handle of `process`. -/
def demo_handle (process : PROCESS) : STREAM_HANDLE :=
  { process := process, mode := STREAM_MODE.STREAM_MODE_IDLE, buf := demo_ptr [], size := 0,
    full_size := 0 }

/-- A state with empty logs: an empty stream of ring size `size` at address
1000 with its paged block at 2000, the idle handle `a` of process `10 + a` at
every address `a`, and process 10 running. -/
def demo_kstream (size : Nat) (listener : Option PROCESS) : KSTREAM :=
  { stream := { addr := 1000, rb := rb_init size, data := 2000, write_waiters := [],
                read_waiters := [], listener := listener }
    handles := fun a => demo_handle (10 + a)
    current := 10
    error := ERROR.ERROR_OK
    woken := []
    errors := []
    slept := []
    posted := []
    kfreed := []
    paged_freed := [] }

/-- The state of the hand-off scenario: ring size 16, the handle 2 of process
12 on the read-waiter list, waiting for 8 bytes. -/
def demo_reader_waiting (listener : Option PROCESS) : KSTREAM :=
  ((demo_kstream 16 listener).set_handle 2
    { process := 12, mode := STREAM_MODE.STREAM_MODE_READ, buf := demo_ptr (List.replicate 8 0),
      size := 8, full_size := 0 }).set_read_waiters [2]

/-- The bytes of "ABCDEFGHIJ". -/
def demo_text : List Nat := [65, 66, 67, 68, 69, 70, 71, 72, 73, 74]

/-! ## Streams: predicates used by the statements -/

/-- The invariant of a stream: writers wait only while the ring is full,
readers wait only while the ring is empty and no writer waits. -/
def STREAM_INV (s : STREAM) : Prop :=
  (s.write_waiters ≠ [] → rb_is_full s.rb = true)
    ∧ (s.read_waiters ≠ [] → rb_is_empty s.rb = true ∧ s.write_waiters = [])

/-- The states of a stream created by `kstream_create` after any sequence of
stream operations; `switch` is the scheduler giving the processor to another
process between two calls. -/
inductive StreamReachable : KSTREAM → Prop where
  | create (k : KSTREAM) (addr data : Nat) (size : Int) :
      StreamReachable (kstream_create k (some addr) (some data) size).2
  | open_ (k : KSTREAM) (kmalloc : Option Nat) :
      StreamReachable k → StreamReachable (kstream_open k kmalloc).2
  | write (k : KSTREAM) (handle : Nat) (buf : CHAR_PTR) (size : Int) :
      StreamReachable k → StreamReachable (kstream_write k handle buf size)
  | read (k : KSTREAM) (handle : Nat) (buf : CHAR_PTR) (size : Int) :
      StreamReachable k → StreamReachable (kstream_read k handle buf size).1
  | flush (k : KSTREAM) : StreamReachable k → StreamReachable (kstream_flush k)
  | close (k : KSTREAM) (handle : Nat) :
      StreamReachable k → StreamReachable (kstream_close k handle)
  | lock_release (k : KSTREAM) (handle : Nat) (process : PROCESS) :
      StreamReachable k → StreamReachable (kstream_lock_release k handle process)
  | start_listen (k : KSTREAM) : StreamReachable k → StreamReachable (kstream_start_listen k)
  | stop_listen (k : KSTREAM) : StreamReachable k → StreamReachable (kstream_stop_listen k)
  | switch (k : KSTREAM) (process : PROCESS) :
      StreamReachable k → StreamReachable { k with current := process }

/-- A stream of ring size 4 that is full with "ABCD" while the handle 1 of
process 11 waits on the write-waiter list with the last 2 bytes "EF" of a write
of 6 bytes; handle 2 is idle and its `full_size` is 0. -/
def demo_writer_waiting (listener : Option PROCESS) : KSTREAM :=
  (((demo_kstream 4 listener).set_rb { size := 4, bytes := [65, 66, 67, 68] }).set_handle 1
    { process := 11, mode := STREAM_MODE.STREAM_MODE_WRITE,
      buf := { pre := [65, 66, 67, 68], post := [69, 70] }, size := 2,
      full_size := 6 }).set_write_waiters [1]

/-! ## Streams: one writer and one reader -/

/-- A pointer to the start of a buffer of `n` bytes that a reader offers. -/
def read_buffer (n : Nat) : CHAR_PTR := { pre := [], post := List.replicate n 0 }

/-- A pointer to the start of a buffer holding the bytes a writer passes. -/
def write_buffer (bytes : List Nat) : CHAR_PTR := { pre := [], post := bytes }

/-- A run of one writer handle and one reader handle on a stream, with its
history: the bytes passed to the writes so far in call order, the completed
reads in completion order (the size asked for and the bytes of the buffer),
and the size of the last read call. -/
structure PIPE where
  k : KSTREAM
  written : List Nat
  completed : List (Nat × List Nat)
  request : Nat

/-- The bytes of the completed reads, one read after the other. -/
def delivered : List (Nat × List Nat) → List Nat
  | [] => []
  | e :: es => e.2 ++ delivered es

/-- A call `kstream_write (w, bytes, |bytes|)`.  A read of handle `r` that was
blocked before the call and is idle after it has completed with the bytes of its
buffer. -/
def pipe_write (w r : Nat) (p : PIPE) (bytes : List Nat) : PIPE :=
  let k := kstream_write p.k w (write_buffer bytes) bytes.length
  if (p.k.handles r).mode = STREAM_MODE.STREAM_MODE_READ
      ∧ (k.handles r).mode = STREAM_MODE.STREAM_MODE_IDLE then
    { p with k := k, written := p.written ++ bytes,
             completed := p.completed ++ [(p.request, (k.handles r).buf.all)] }
  else { p with k := k, written := p.written ++ bytes }

/-- A call `kstream_read (r, buf, n)` on a buffer of `n` bytes.  The read has
completed when the handle is idle after the call. -/
def pipe_read (r : Nat) (p : PIPE) (n : Nat) : PIPE :=
  let res := kstream_read p.k r (read_buffer n) n
  if (res.1.handles r).mode = STREAM_MODE.STREAM_MODE_IDLE then
    { p with k := res.1, completed := p.completed ++ [(n, res.2.all)], request := n }
  else { p with k := res.1, request := n }

/-- The runs of a writer handle `w` and a reader handle `r` on a stream made by
`kstream_create`: a handle issues a call only while it is idle. -/
inductive PipeReachable (w r : Nat) : PIPE → Prop where
  | init (k : KSTREAM) (addr data : Nat) (size : Int) :
      (k.handles w).mode = STREAM_MODE.STREAM_MODE_IDLE →
      (k.handles r).mode = STREAM_MODE.STREAM_MODE_IDLE →
      PipeReachable w r
        { k := (kstream_create k (some addr) (some data) size).2, written := [],
          completed := [], request := 0 }
  | write (p : PIPE) (bytes : List Nat) :
      PipeReachable w r p → (p.k.handles w).mode = STREAM_MODE.STREAM_MODE_IDLE →
      PipeReachable w r (pipe_write w r p bytes)
  | read (p : PIPE) (n : Nat) :
      PipeReachable w r p → (p.k.handles r).mode = STREAM_MODE.STREAM_MODE_IDLE →
      PipeReachable w r (pipe_read r p n)

/-- The bytes a blocked read of handle `r` has received so far. -/
def read_part (k : KSTREAM) (r : Nat) : List Nat :=
  if (k.handles r).mode = STREAM_MODE.STREAM_MODE_READ then (k.handles r).buf.pre else []

/-- The bytes a blocked write of handle `w` has still to place. -/
def write_part (k : KSTREAM) (w : Nat) : List Nat :=
  if (k.handles w).mode = STREAM_MODE.STREAM_MODE_WRITE then (k.handles w).buf.post else []

/-- The invariant of a run: no handle is on a waiter list, and the bytes
written are, in order, the bytes of the completed reads, the bytes a blocked
read has received, the bytes in the ring and the bytes a blocked write has
still to place; every completed read has the size it asked for and a blocked
read has received less than it asked for. -/
def PIPE_INV (w r : Nat) (p : PIPE) : Prop :=
  p.k.stream.read_waiters = [] ∧ p.k.stream.write_waiters = []
    ∧ p.written = delivered p.completed ++ read_part p.k r ++ p.k.stream.rb.bytes
        ++ write_part p.k w
    ∧ (∀ e ∈ p.completed, e.2.length = e.1)
    ∧ ((p.k.handles r).mode = STREAM_MODE.STREAM_MODE_READ →
        (p.k.handles r).buf.pre.length < p.request)

/-- The start of a run on a stream of ring size 16 made by `kstream_create`. -/
def demo_pipe : PIPE :=
  { k := (kstream_create (demo_kstream 0 none) (some 1000) (some 2000) 16).2, written := [],
    completed := [], request := 0 }

/-! ## The listener table: predicates used by the statements -/

/-- No two entries of the listener table have the same port. -/
def LISTEN_UNIQUE (tcpips : TCPIPS) : Prop :=
  ∀ (i j : HANDLE) (a b : TCP_LISTEN_HANDLE),
    so_get tcpips.tcps.listen i = some a → so_get tcpips.tcps.listen j = some b →
    a.port = b.port → i = j

/-- Every entry of the listener table belongs to a process. -/
def LISTEN_OWNED (tcpips : TCPIPS) : Prop :=
  ∀ (i : HANDLE) (a : TCP_LISTEN_HANDLE),
    so_get tcpips.tcps.listen i = some a → a.process ≠ INVALID_HANDLE

/-- The states of the engine after `tcps_init` and any sequence of requests
made by processes (the handle of a process is never `INVALID_HANDLE`); the
link may go up and down between two requests. -/
inductive Requested (plat : Platform) : TCPIPS → Prop where
  | init (tcpips : TCPIPS) : Requested plat (tcps_init tcpips)
  | request (tcpips : TCPIPS) (sys : Sys) (ipc : IPC) (io : Io) :
      Requested plat tcpips → ipc.process ≠ INVALID_HANDLE →
      Requested plat (tcps_request plat sys tcpips ipc io).1
  | link (tcpips : TCPIPS) (up : Bool) :
      Requested plat tcpips → Requested plat { tcpips with connected := up }

/-- A request to listen on `port` made by `process`. -/
def demo_ipc_listen_on (process : HANDLE) (port : Nat) : IPC :=
  { process := process, cmd := HAL_CMD HAL.HAL_TCP IPC_ITEM.IPC_OPEN, param1 := port,
    param2 := demo_plat.LOCALHOST, param3 := 0 }

/-- The user buffer of `tcps_read` before the copy from `rx_tmp`: emptied, with
its `TCP_STACK` annotation pushed and cleared. -/
def tcps_read_io (plat : Platform) (io : Io) : Io :=
  { (io_push { io with data_size := 0 } plat.TCP_STACK_SIZE) with
    stack := { flags := 0, urg_len := 0 } }

/-- A segment kept as `rx_tmp` whose header declares a data offset of 16
bytes and carries URG: its data area is the bytes 16..23,
`[0, 0, 3, 4, 5, 6, 7, 8]`, and overlaps the urgent pointer of the header. -/
def demo_tmp_short_offset : Io :=
  demo_rx_io 6000 (demo_header 4000 80 1000 0 0x40 0x30 8192 0x0304 ++ [5, 6, 7, 8])

/-- A segment kept as `rx_tmp` with PSH and the 8 data bytes `[1, ..., 8]`
behind a header of 20 bytes. -/
def demo_tmp : Io :=
  demo_rx_io 6000 (demo_header 4000 80 1000 0 0x50 0x18 8192 0 ++ [1, 2, 3, 4, 5, 6, 7, 8])

/-- A user buffer whose capacity is `c` bytes once its `TCP_STACK` annotation
is pushed. -/
def demo_user_io (c : Nat) : Io := { demo_io 7000 with size := demo_plat.TCP_STACK_SIZE + c }

/-- The bytes `[off, off + n)` of a memory. -/
def bytes_at (m : Mem) (off n : Nat) : List Nat := (List.range n).map (fun i => m (off + i))

/-- A TCB in ESTABLISHED without posted buffer whose `rx_tmp` is `tmp`. -/
def demo_tcb_tmp (tmp : Io) : TCP_TCB :=
  { demo_tcb TCP_STATE.ESTABLISHED 500 500 1000 1460 with rx_tmp := some tmp }

/-! ## The fields of a TCB that only its creation and the MSS option set -/

/-- The connection of `b` is the connection of `a` and `b` holds the MSS of
`a`: `remote_addr`, `remote_port`, `local_port` and `mss` agree. -/
def SAME_FIELDS (a b : TCP_TCB) : Prop :=
  b.remote_addr = a.remote_addr ∧ b.remote_port = a.remote_port
    ∧ b.local_port = a.local_port ∧ b.mss = a.mss

/-- Every TCB of the table of `b` stood in the table of `a` under the same
handle with the same connection and MSS. -/
def DESCENDS (a b : TCPIPS) : Prop :=
  ∀ (j : HANDLE) (tb : TCP_TCB), so_get b.tcps.tcbs j = some tb →
    ∃ ta, so_get a.tcps.tcbs j = some ta ∧ SAME_FIELDS ta tb

/-- The MSS of the TCB lies in `[TCP_MSS_MIN, TCP_MSS_MAX]`. -/
def MSS_INV (plat : Platform) (tcb : TCP_TCB) : Prop :=
  TCP_MSS_MIN ≤ tcb.mss ∧ tcb.mss ≤ TCP_MSS_MAX plat

/-- A keep-alive probe for the TCB of the scenario "FIN from ESTABLISHED":
seq 2000, flags ACK, no data, acknowledging 600 while `snd_nxt` is 500. -/
def demo_seg_ack_ahead : Io :=
  demo_rx_io 5000 (demo_header 4000 80 2000 600 0x50 0x10 8192 0)

/-- A TCB whose `snd_nxt` lies 100000 ahead of `snd_una`, beyond the range
that `tcps_diff` measures. -/
def demo_tcb_far : TCP_TCB := demo_tcb TCP_STATE.ESTABLISHED 0 100000 2000 1460

/-- An ACK for the TCB `demo_tcb_far` that acknowledges 200000. -/
def demo_seg_ack_far : Io :=
  demo_rx_io 5000 (demo_header 4000 80 2000 200000 0x50 0x10 8192 0)

/-- A reset for the TCB of the scenario "FIN from ESTABLISHED": seq 2000,
flags RST, no data. -/
def demo_seg_rst : Io :=
  demo_rx_io 5000 (demo_header 4000 80 2000 0 0x50 0x04 8192 0)

/-- A segment that overlaps `rcv_nxt` = 1000 by one byte and ends the stream:
seq 999, flags FIN|ACK, data offset 20, the 3 data bytes `[65, 66, 67]`. -/
def demo_seg_overlap_fin : Io :=
  demo_rx_io 5000 (demo_header 4000 80 999 32 0x50 0x11 8192 0 ++ [65, 66, 67])

/-- The same segment without FIN. -/
def demo_seg_overlap_data : Io :=
  demo_rx_io 5000 (demo_header 4000 80 999 32 0x50 0x10 8192 0 ++ [65, 66, 67])

/-- A segment for the scenario "out-of-window segment" (`rcv_nxt` 1000,
`rx_wnd` 100) that starts at `rcv_nxt` and is longer than the window: seq 1000,
flags ACK, data offset 20, the 150 data bytes `[0, 1, ..., 149]`. -/
def demo_seg_long : Io :=
  demo_rx_io 5000 (demo_header 4000 80 1000 500 0x50 0x10 8192 0 ++ List.range 150)

/-- A segment for a TCB with `rcv_nxt` 1000: seq 1000, flags ACK, data offset
20, the 5 data bytes `[1, 2, 3, 4, 5]`. -/
def demo_seg_five : Io :=
  demo_rx_io 5000 (demo_header 4000 80 1000 500 0x50 0x10 8192 0 ++ [1, 2, 3, 4, 5])

/-- The engine after `tcps_read` has posted a user buffer of capacity 2 for
the TCB of handle 0 (ESTABLISHED, `rcv_nxt` 1000, no `rx_tmp`). -/
def demo_posted : TCPIPS :=
  tcps_read demo_plat (demo_with (demo_tcb TCP_STATE.ESTABLISHED 500 500 1000 1460)) 0
    (demo_user_io 2)

/-- The data of an optional segment: its data length and the bytes of its
data area. -/
def data_of (io : Option Io) : Option (Nat × List Nat) :=
  io.map (fun b => (tcps_data_len b, bytes_at b.mem (tcps_data_offset b) (tcps_data_len b)))

/-! ## The connection of a TCB: predicates used by the statements -/

/-- The TCBs `a` and `b` belong to the same connection: remote address, remote
port and local port agree. -/
def SAME_CONNECTION (a b : TCP_TCB) : Prop :=
  a.remote_addr = b.remote_addr ∧ a.remote_port = b.remote_port ∧ a.local_port = b.local_port

/-- No handle of the TCB table is `INVALID_HANDLE`, and no two TCBs of the
table belong to the same connection. -/
def TCB_UNIQUE (tcpips : TCPIPS) : Prop :=
  (∀ (h : HANDLE) (tcb : TCP_TCB), so_get tcpips.tcps.tcbs h = some tcb → h ≠ INVALID_HANDLE)
  ∧ ∀ (i j : HANDLE) (a b : TCP_TCB), so_get tcpips.tcps.tcbs i = some a →
      so_get tcpips.tcps.tcbs j = some b → SAME_CONNECTION a b → i = j

/-! ## The kernel (`kernel/kernel.c`): data model

`svc.h`, `kernel.h`, `kernel_config.h` and the modules that `svc` dispatches
to are not among the sources (`kstream.c` apart, which is modelled on its own
above).  The numbers behind the command codes are therefore a parameter, and a
call into another module is recorded in a log. -/

/-- The command codes of the `switch` of `svc`, in the order of the source. -/
inductive SVC where
  | SVC_PROCESS_CREATE
  | SVC_PROCESS_GET_FLAGS
  | SVC_PROCESS_SET_FLAGS
  | SVC_PROCESS_GET_PRIORITY
  | SVC_PROCESS_SET_PRIORITY
  | SVC_PROCESS_DESTROY
  | SVC_PROCESS_SLEEP
  | SVC_PROCESS_SWITCH_TEST
  | SVC_PROCESS_INFO
  | SVC_MUTEX_CREATE
  | SVC_MUTEX_LOCK
  | SVC_MUTEX_UNLOCK
  | SVC_MUTEX_DESTROY
  | SVC_EVENT_CREATE
  | SVC_EVENT_PULSE
  | SVC_EVENT_SET
  | SVC_EVENT_IS_SET
  | SVC_EVENT_CLEAR
  | SVC_EVENT_WAIT
  | SVC_EVENT_DESTROY
  | SVC_SEM_CREATE
  | SVC_SEM_SIGNAL
  | SVC_SEM_WAIT
  | SVC_SEM_DESTROY
  | SVC_IRQ_REGISTER
  | SVC_IRQ_UNREGISTER
  | SVC_TIMER_HPET_TIMEOUT
  | SVC_TIMER_SECOND_PULSE
  | SVC_TIMER_GET_UPTIME
  | SVC_TIMER_SETUP
  | SVC_IPC_POST
  | SVC_IPC_PEEK
  | SVC_IPC_WAIT
  | SVC_IPC_POST_WAIT
  | SVC_STREAM_CREATE
  | SVC_STREAM_OPEN
  | SVC_STREAM_CLOSE
  | SVC_STREAM_GET_SIZE
  | SVC_STREAM_GET_FREE
  | SVC_STREAM_START_LISTEN
  | SVC_STREAM_STOP_LISTEN
  | SVC_STREAM_WRITE
  | SVC_STREAM_READ
  | SVC_STREAM_FLUSH
  | SVC_STREAM_DESTROY
  | SVC_SETUP_STDOUT
  | SVC_SETUP_STDIN
  | SVC_SETUP_DBG
  deriving DecidableEq, Repr

/-- The functions of other modules called by `svc` and `startup`. -/
inductive KFN where
  | kprocess_create
  | kprocess_get_flags
  | kprocess_set_flags
  | kprocess_get_priority
  | kprocess_set_priority
  | kprocess_destroy
  | kprocess_sleep
  | kprocess_switch_test
  | kprocess_info
  | kmutex_create
  | kmutex_lock
  | kmutex_unlock
  | kmutex_destroy
  | kevent_create
  | kevent_pulse
  | kevent_set
  | kevent_is_set
  | kevent_clear
  | kevent_wait
  | kevent_destroy
  | ksem_create
  | ksem_signal
  | ksem_wait
  | ksem_destroy
  | kirq_register
  | kirq_unregister
  | ktimer_hpet_timeout
  | ktimer_second_pulse
  | ktimer_get_uptime
  | ktimer_setup
  | kipc_post
  | kipc_peek
  | kipc_wait
  | kipc_post_wait
  | kstream_create
  | kstream_open
  | kstream_close
  | kstream_get_size
  | kstream_get_free
  | kstream_start_listen
  | kstream_stop_listen
  | kstream_write
  | kstream_read
  | kstream_flush
  | kstream_destroy
  | kirq_init
  | pool_init
  | ktimer_init
  | kprocess_init
  deriving DecidableEq, Repr

/-- What `kernel.c` takes from outside: the command code that a number stands
for (`none`: no `case` has this number), the switch `KERNEL_PROFILING` of
`kernel_config.h`, the addresses of `stdout_stub` and `stdin_stub`, and for
the n-th call into another module the error that the module leaves in the
error slot of the caller (`ERROR_OK`: it sets none). -/
structure KERNEL_ENV where
  svc_code : Nat → Option SVC
  KERNEL_PROFILING : Bool
  stdout_stub : Nat
  stdin_stub : Nat
  outcome : Nat → ERROR

/-- The fields of `KERNEL` written by `kernel.c`, the error slot of the
calling process (`error`, `clear_error`), and the log of the calls into other
modules with their arguments. -/
structure KERNEL where
  stdout : Nat
  stdout_param : Nat
  stdout_global : Nat
  stdout_global_param : Nat
  stdin_global : Nat
  stdin_global_param : Nat
  dbg_locked : Bool
  error : ERROR
  calls : List (KFN × List Nat)

/-- Modelled from the spec: a call of a function of another module.  The call
is logged with the arguments that are parameters of `svc`; the module may set
the error of the caller; it does not write the fields of `KERNEL` that
`kernel.c` writes. -/
def kcall (env : KERNEL_ENV) (k : KERNEL) (fn : KFN) (args : List Nat) : KERNEL :=
  { k with
    calls := k.calls ++ [(fn, args)]
    error := match env.outcome k.calls.length with
      | ERROR.ERROR_OK => k.error
      | e => e }

/-! ## The functions of `kernel.c` -/

/-- Embedding of `svc` (the critical section is not modelled). -/
def svc (env : KERNEL_ENV) (k : KERNEL) (num param1 param2 param3 : Nat) : KERNEL :=
  let k := { k with error := ERROR.ERROR_OK }
  match env.svc_code num with
  | some SVC.SVC_PROCESS_CREATE => kcall env k KFN.kprocess_create [param1, param2]
  | some SVC.SVC_PROCESS_GET_FLAGS => kcall env k KFN.kprocess_get_flags [param1, param2]
  | some SVC.SVC_PROCESS_SET_FLAGS => kcall env k KFN.kprocess_set_flags [param1, param2]
  | some SVC.SVC_PROCESS_GET_PRIORITY => kcall env k KFN.kprocess_get_priority [param1, param2]
  | some SVC.SVC_PROCESS_SET_PRIORITY => kcall env k KFN.kprocess_set_priority [param1, param2]
  | some SVC.SVC_PROCESS_DESTROY => kcall env k KFN.kprocess_destroy [param1]
  | some SVC.SVC_PROCESS_SLEEP => kcall env k KFN.kprocess_sleep [param1]
  | some SVC.SVC_PROCESS_SWITCH_TEST =>
    if env.KERNEL_PROFILING then kcall env k KFN.kprocess_switch_test []
    else { k with error := ERROR.ERROR_INVALID_SVC }
  | some SVC.SVC_PROCESS_INFO =>
    if env.KERNEL_PROFILING then kcall env k KFN.kprocess_info []
    else { k with error := ERROR.ERROR_INVALID_SVC }
  | some SVC.SVC_MUTEX_CREATE => kcall env k KFN.kmutex_create [param1]
  | some SVC.SVC_MUTEX_LOCK => kcall env k KFN.kmutex_lock [param1, param2]
  | some SVC.SVC_MUTEX_UNLOCK => kcall env k KFN.kmutex_unlock [param1]
  | some SVC.SVC_MUTEX_DESTROY => kcall env k KFN.kmutex_destroy [param1]
  | some SVC.SVC_EVENT_CREATE => kcall env k KFN.kevent_create [param1]
  | some SVC.SVC_EVENT_PULSE => kcall env k KFN.kevent_pulse [param1]
  | some SVC.SVC_EVENT_SET => kcall env k KFN.kevent_set [param1]
  | some SVC.SVC_EVENT_IS_SET => kcall env k KFN.kevent_is_set [param1, param2]
  | some SVC.SVC_EVENT_CLEAR => kcall env k KFN.kevent_clear [param1]
  | some SVC.SVC_EVENT_WAIT => kcall env k KFN.kevent_wait [param1, param2]
  | some SVC.SVC_EVENT_DESTROY => kcall env k KFN.kevent_destroy [param1]
  | some SVC.SVC_SEM_CREATE => kcall env k KFN.ksem_create [param1]
  | some SVC.SVC_SEM_SIGNAL => kcall env k KFN.ksem_signal [param1]
  | some SVC.SVC_SEM_WAIT => kcall env k KFN.ksem_wait [param1, param2]
  | some SVC.SVC_SEM_DESTROY => kcall env k KFN.ksem_destroy [param1]
  | some SVC.SVC_IRQ_REGISTER => kcall env k KFN.kirq_register [param1, param2, param3]
  | some SVC.SVC_IRQ_UNREGISTER => kcall env k KFN.kirq_unregister [param1]
  | some SVC.SVC_TIMER_HPET_TIMEOUT => kcall env k KFN.ktimer_hpet_timeout []
  | some SVC.SVC_TIMER_SECOND_PULSE => kcall env k KFN.ktimer_second_pulse []
  | some SVC.SVC_TIMER_GET_UPTIME => kcall env k KFN.ktimer_get_uptime [param1]
  | some SVC.SVC_TIMER_SETUP => kcall env k KFN.ktimer_setup [param1]
  | some SVC.SVC_IPC_POST => kcall env k KFN.kipc_post [param1]
  | some SVC.SVC_IPC_PEEK => kcall env k KFN.kipc_peek [param1, param2]
  | some SVC.SVC_IPC_WAIT => kcall env k KFN.kipc_wait [param1, param2]
  | some SVC.SVC_IPC_POST_WAIT => kcall env k KFN.kipc_post_wait [param1, param2]
  | some SVC.SVC_STREAM_CREATE => kcall env k KFN.kstream_create [param1, param2]
  | some SVC.SVC_STREAM_OPEN => kcall env k KFN.kstream_open [param1, param2]
  | some SVC.SVC_STREAM_CLOSE => kcall env k KFN.kstream_close [param1]
  | some SVC.SVC_STREAM_GET_SIZE => kcall env k KFN.kstream_get_size [param1, param2]
  | some SVC.SVC_STREAM_GET_FREE => kcall env k KFN.kstream_get_free [param1, param2]
  | some SVC.SVC_STREAM_START_LISTEN => kcall env k KFN.kstream_start_listen [param1]
  | some SVC.SVC_STREAM_STOP_LISTEN => kcall env k KFN.kstream_stop_listen [param1]
  | some SVC.SVC_STREAM_WRITE => kcall env k KFN.kstream_write [param1, param2, param3]
  | some SVC.SVC_STREAM_READ => kcall env k KFN.kstream_read [param1, param2, param3]
  | some SVC.SVC_STREAM_FLUSH => kcall env k KFN.kstream_flush [param1]
  | some SVC.SVC_STREAM_DESTROY => kcall env k KFN.kstream_destroy [param1]
  | some SVC.SVC_SETUP_STDOUT => { k with stdout_global := param1, stdout_global_param := param2 }
  | some SVC.SVC_SETUP_STDIN => { k with stdin_global := param1, stdin_global_param := param2 }
  | some SVC.SVC_SETUP_DBG =>
    if k.dbg_locked then { k with error := ERROR.ERROR_INVALID_SVC }
    else { k with stdout := param1, stdout_param := param2, dbg_locked := true }
  | none => { k with error := ERROR.ERROR_INVALID_SVC }

/-- Embedding of `startup`: the `memset` of `KERNEL`, the stubs, and the
initialisation of the other modules (the setup of `__GLOBAL` and of the kernel
name is not modelled). -/
def startup (env : KERNEL_ENV) (k : KERNEL) : KERNEL :=
  let k : KERNEL :=
    { stdout := 0, stdout_param := 0, stdout_global := 0, stdout_global_param := 0
      stdin_global := 0, stdin_global_param := 0, dbg_locked := false
      error := k.error, calls := k.calls }
  let k := { k with stdout := env.stdout_stub, stdout_global := env.stdout_stub }
  let k := { k with stdin_global := env.stdin_stub }
  let k := kcall env k KFN.kirq_init []
  let k := kcall env k KFN.pool_init []
  let k := kcall env k KFN.pool_init []
  let k := kcall env k KFN.ktimer_init []
  kcall env k KFN.kprocess_init []

/-- A sequence of supervisor calls `(num, param1, param2, param3)`, one after
the other. -/
def svc_run (env : KERNEL_ENV) (k : KERNEL) : List (Nat × Nat × Nat × Nat) → KERNEL
  | [] => k
  | c :: l => svc_run env (svc env k c.1 c.2.1 c.2.2.1 c.2.2.2) l

/-! ## Concrete data for the kernel scenarios -/

/-- An assignment of numbers: 0 is `SVC_PROCESS_CREATE`, 10 is
`SVC_MUTEX_LOCK`, 50 is `SVC_SETUP_STDOUT`, 51 is `SVC_SETUP_STDIN`, 52 is
`SVC_SETUP_DBG`, and no other number is a command code; other modules set no
error. -/
def demo_env : KERNEL_ENV :=
  { svc_code := fun n =>
      if n = 0 then some SVC.SVC_PROCESS_CREATE
      else if n = 10 then some SVC.SVC_MUTEX_LOCK
      else if n = 50 then some SVC.SVC_SETUP_STDOUT
      else if n = 51 then some SVC.SVC_SETUP_STDIN
      else if n = 52 then some SVC.SVC_SETUP_DBG
      else none
    KERNEL_PROFILING := false
    stdout_stub := 100
    stdin_stub := 104
    outcome := fun _ => ERROR.ERROR_OK }

/-- The memory of `KERNEL` before `startup`. -/
def demo_kernel : KERNEL :=
  { stdout := 1, stdout_param := 2, stdout_global := 3, stdout_global_param := 4
    stdin_global := 5, stdin_global_param := 6, dbg_locked := true
    error := ERROR.ERROR_OK, calls := [] }

/-- A TCB in LAST_ACK whose FIN (sequence number 500) is not yet acknowledged. -/
def demo_tcb_last_ack : TCP_TCB :=
  { demo_tcb TCP_STATE.LAST_ACK 500 501 2001 1460 with fin := true }

/-- The ACK of that FIN: seq 2001, ack 501, flags ACK, no data. -/
def demo_seg_ack_of_fin : Io :=
  demo_rx_io 5000 (demo_header 4000 80 2001 501 0x50 0x10 8192 0)

/-- A TCB in TIME_WAIT. -/
def demo_tcb_time_wait : TCP_TCB :=
  { demo_tcb TCP_STATE.TIME_WAIT 501 501 2001 1460 with fin := true }

/-- A TCB in LISTEN as `tcps_rx` binds it to the listener 7 of port 80. -/
def demo_tcb_listen : TCP_TCB := demo_tcb TCP_STATE.LISTEN 0 0 0 1460

/-- A segment with SYN and ACK: seq 1000, ack 77, flags SYN|ACK, no data. -/
def demo_seg_syn_ack : Io :=
  demo_rx_io 5000 (demo_header 4000 80 1000 77 0x50 0x12 8192 0)

/-- A connection request: seq 1000, flags SYN, no data, no options. -/
def demo_seg_syn_plain : Io :=
  demo_rx_io 5000 (demo_header 4000 80 1000 0 0x50 0x02 8192 0)

/-- A SYN whose MSS option, at offset 20 of the TCP header, carries the value
100, below `TCP_MSS_MIN`; the IP header of the datagram has 20 bytes. -/
def demo_seg_syn_small_mss : Io :=
  demo_rx_io 5000 (demo_header 4000 80 1000 0 0x60 0x02 8192 0 ++ [2, 4, 0, 100])

/-- A segment of 20 bytes whose header declares a data offset of 24. -/
def demo_seg_no_options : Io :=
  demo_rx_io 5000 (demo_header 4000 80 1000 0 0x60 0x02 8192 0)

/-- A segment of 28 bytes with data offset 24 whose options are three NOOP and,
at offset 23, the kind byte of an MSS option; the data are `[4, 5, 6, 7]`. -/
def demo_seg_mss_at_end : Io :=
  demo_rx_io 5000 (demo_header 4000 80 1000 0 0x60 0x02 8192 0 ++ [1, 1, 1, 2] ++ [4, 5, 6, 7])

/-! ## The bytes read while the options are parsed -/

/-- The offsets, from the start of the TCP header, of the bytes that
`tcps_get_first_opt` reads: `data_off`, and the kind of the first option when
the data offset exceeds the header. -/
def tcps_get_first_opt_reads (io : Io) : List Nat :=
  if tcps_data_offset io ≤ TCP_HEADER_SIZE then [12] else [12, TCP_HEADER_SIZE]

/-- The offsets of the bytes that `tcps_get_next_opt (io, prev)` reads:
`data_off`, the kind at `prev`, and the length at `prev + 1` for an option that
is neither END nor NOOP. -/
def tcps_get_next_opt_reads (io : Io) (prev : Nat) : List Nat :=
  let kind := byte io.mem prev
  if kind = TCP_OPTS_END then [12, prev]
  else if kind = TCP_OPTS_NOOP then [12, prev] else [12, prev, prev + 1]

/-- The offsets of the bytes that the body of the loop of `tcps_apply_options`
reads at option offset `i`: the kind, and the two bytes of `opt->data` for an
MSS option. -/
def tcps_apply_options_body_reads (io : Io) (i : Nat) : List Nat :=
  if byte io.mem i = TCP_OPTS_MSS then [i, i + 2, i + 3] else [i]

/-- The offsets read by the loop of `tcps_apply_options` from option offset
`i` on, in at most `fuel` rounds. -/
def tcps_apply_options_loop_reads (io : Io) : Nat → Nat → List Nat
  | _, 0 => []
  | 0, _ + 1 => []
  | fuel + 1, i + 1 =>
    tcps_apply_options_body_reads io (i + 1) ++ tcps_get_next_opt_reads io (i + 1)
      ++ tcps_apply_options_loop_reads io fuel (tcps_get_next_opt io (i + 1))

/-- The offsets of the bytes read by `tcps_apply_options`. -/
def tcps_apply_options_reads (io : Io) : List Nat :=
  tcps_get_first_opt_reads io ++ tcps_apply_options_loop_reads io 64 (tcps_get_first_opt io)

/-- A stream whose listener is the process 99, which is the current process. -/
def demo_listened : KSTREAM := { demo_kstream 4 (some 99) with current := 99 }

/-- The states in which a TCB is left between two calls of the engine. -/
def STATE_INV (tcb : TCP_TCB) : Prop :=
  tcb.state = TCP_STATE.SYN_RECEIVED ∨ tcb.state = TCP_STATE.ESTABLISHED
    ∨ tcb.state = TCP_STATE.LAST_ACK

/-- Every TCB of the table but the one under the handle `h` satisfies `P`. -/
def ALL_TCB_BUT (P : TCP_TCB → Prop) (h : HANDLE) (tcpips : TCPIPS) : Prop :=
  ∀ (j : HANDLE) (tcb : TCP_TCB), j ≠ h → so_get tcpips.tcps.tcbs j = some tcb → P tcb

/-- A TCB does not hold a posted user buffer and an overflow buffer at once. -/
def RX_INV (tcb : TCP_TCB) : Prop := tcb.rx = none ∨ tcb.rx_tmp = none

/-- The ACK that completes the handshake of `demo_after_syn`: seq 1001,
ack 1101. -/
def demo_seg_open_ack : Io :=
  demo_rx_io 5000 (demo_header 4000 80 1001 1101 0x50 0x10 8192 0)

/-- The engine after the listen request, the SYN and the ACK of the handshake:
the TCB under handle 0 is in ESTABLISHED with `rcv_nxt` 1001. -/
def demo_open : TCPIPS :=
  (tcps_rx demo_plat demo_sys demo_after_syn demo_seg_open_ack 0x0A000002).getD demo_after_syn

/-- A segment for the connection of `demo_open` whose header declares a data
offset of 8 bytes: seq 1000, one byte behind `rcv_nxt`, flags ACK, 40 bytes in
all, so 32 bytes of "data" that begin inside the header. -/
def demo_seg_short_offset_open : Io :=
  demo_rx_io 5000 ([0x0f, 0xa0, 0, 80, 0, 0, 3, 232, 0, 0, 0, 0, 0x20, 0x10, 0x10, 0, 0, 0, 0, 0]
    ++ List.replicate 20 0x41)

/-- A segment for the connection of `demo_open` whose header declares a data
offset of 16 bytes and carries URG: seq 1001, ack 1101, 24 bytes in all; its
data area is the bytes 16..23, `[65, 66, 67, 68, 0, 3, 71, 72]`, and overlaps
the urgent pointer of the header (bytes 18 and 19). -/
def demo_seg_urg_short_offset : Io :=
  demo_rx_io 6000 ((demo_header 4000 80 1001 1101 0x40 0x30 8192 0).take 16
    ++ [65, 66, 67, 68, 0, 3, 71, 72])

/-- The engine of `demo_open` after the segment `demo_seg_urg_short_offset`
has been received: no buffer was posted, the segment is kept as `rx_tmp`. -/
def demo_queued : TCPIPS :=
  (tcps_rx demo_plat demo_sys demo_open demo_seg_urg_short_offset 0x0A000002).getD demo_open

/-- The request `IPC_READ` of the owner for the TCB under handle 0. -/
def demo_ipc_read : IPC :=
  { process := 7, cmd := HAL_IO_CMD HAL.HAL_TCP IPC_ITEM.IPC_READ, param1 := 0,
    param2 := 0, param3 := 0 }

/-- No handle is on a waiter list of the stream. -/
def NO_WAITERS (s : STREAM) : Prop := s.read_waiters = [] ∧ s.write_waiters = []

/-- A run from `kstream_create`: a stream of ring size 4 is created, the
process 99 starts to listen, and the process 10 is running again. -/
def demo_run_listened : KSTREAM :=
  { kstream_start_listen
      { (kstream_create (demo_kstream 0 none) (some 1000) (some 2000) 4).2 with current := 99 }
    with current := 10 }

/-! ## Lemmas: machine arithmetic and memory -/

theorem u8_u8 (x : Nat) : u8 (u8 x) = u8 x := by simp [u8]

theorem u8_lt (x : Nat) : u8 x < 256 := by simp only [u8]; omega

theorem u32_lt (x : Nat) : u32 x < 4294967296 := by simp only [u32]; omega

theorem u32_of_lt {x : Nat} (h : x < 4294967296) : u32 x = x := by
  simp only [u32]; omega

theorem u32_u32_add (x y : Nat) : u32 (u32 x + y) = u32 (x + y) := by
  simp only [u32]; omega

theorem be_join32 (v : Nat) :
    u8 (v / 16777216) * 16777216 + u8 (v / 65536) * 65536 + u8 (v / 256) * 256 + u8 v
      = u32 v := by
  simp only [u8, u32]; omega

theorem be_join16 (v : Nat) : u8 (v / 256) * 256 + u8 v = u16 v := by
  simp only [u8, u16]; omega

theorem byte_poke (m : Mem) (i j v : Nat) :
    byte (poke m i v) j = if j = i then u8 v else byte m j := by
  unfold byte poke
  split <;> rfl

theorem be2int_lt (m : Mem) (off : Nat) : be2int m off < 4294967296 := by
  simp only [be2int, byte, u8]; omega

theorem be2short_lt (m : Mem) (off : Nat) : be2short m off < 65536 := by
  simp only [be2short, byte, u8]; omega

theorem tcp_flags_lt (io : Io) : tcp_flags io < 256 := u8_lt _

/-! ## Lemmas: the object table -/

theorem so_get_lt {α : Type} {so : SO α} {h : HANDLE} {v : α} (hg : so_get so h = some v) :
    h < so.size := by
  unfold so_get at hg
  split at hg
  · assumption
  · cases hg

theorem so_get_so_set {α : Type} (so : SO α) (h j : HANDLE) (v : α) :
    so_get (so_set so h v) j = if j = h ∧ h < so.size then some v else so_get so j := by
  unfold so_get so_set
  by_cases hj : j = h
  · subst hj; by_cases hs : j < so.size <;> simp [hs]
  · simp [hj]

theorem so_get_so_free {α : Type} (so : SO α) (h j : HANDLE) :
    so_get (so_free so h) j = if j = h then none else so_get so j := by
  unfold so_get so_free
  by_cases hj : j = h
  · subst hj; simp
  · simp [hj]

/-! ## Sequence arithmetic -/

theorem tcps_diff_self (a : Nat) : tcps_diff a a = 0 := by
  simp [tcps_diff, tcps_delta]

/-- C9. For 32-bit sequence numbers `a`, `b` one of whose modular distances
fits in 16 bits, `tcps_diff a b = - tcps_diff b a`; and `tcps_diff c c = 0`
for every `c`. -/
theorem tcps_diff_antisymm (a b : Nat) (ha : a < 4294967296) (hb : b < 4294967296)
    (h : tcps_delta a b ≤ 0xffff ∨ tcps_delta b a ≤ 0xffff) :
    tcps_diff a b = - tcps_diff b a ∧ ∀ c : Nat, tcps_diff c c = 0 := by
  constructor
  · simp only [tcps_diff, tcps_delta, u32] at *
    split_ifs at * <;> omega
  · exact tcps_diff_self

/-- Witness of C9 across the wrap of the sequence space: from 4294967290 to 5. -/
theorem tcps_diff_antisymm_witness :
    (tcps_delta 4294967290 5 ≤ 0xffff ∨ tcps_delta 5 4294967290 ≤ 0xffff)
      ∧ tcps_diff 4294967290 5 = 11
      ∧ (tcps_diff 4294967290 5 = - tcps_diff 5 4294967290 ∧ ∀ c : Nat, tcps_diff c c = 0) :=
  ⟨by decide, by decide,
    tcps_diff_antisymm 4294967290 5 (by decide) (by decide) (by decide)⟩

/-- C10. For 32-bit `frm` and `t`, `tcps_diff frm t` lies in `[-65535, 65536]`;
it is the saturated value 65536 exactly when neither `(t - frm) mod 2^32` nor
`(frm - t) mod 2^32` is at most 65535; when it is not saturated,
`frm + tcps_diff frm t = t (mod 2^32)`; and `tcps_delta frm t = (t - frm) mod 2^32`. -/
theorem tcps_diff_range (frm t : Nat) (hf : frm < 4294967296) (ht : t < 4294967296) :
    (-65535 ≤ tcps_diff frm t ∧ tcps_diff frm t ≤ 65536)
    ∧ (tcps_diff frm t = 65536 ↔
        (¬ ((t : Int) - (frm : Int)) % 4294967296 ≤ 65535
          ∧ ¬ ((frm : Int) - (t : Int)) % 4294967296 ≤ 65535))
    ∧ (tcps_diff frm t ≠ 65536 → ((frm : Int) + tcps_diff frm t) % 4294967296 = (t : Int))
    ∧ (tcps_delta frm t : Int) = ((t : Int) - (frm : Int)) % 4294967296 := by
  refine ⟨?_, ?_, ?_, ?_⟩
  all_goals
    simp only [tcps_diff, tcps_delta, u32] at *
    split_ifs at * <;> omega

/-- Witness of C10: a saturated pair (0 and 2^31) and the range at that pair. -/
theorem tcps_diff_range_witness :
    tcps_diff 0 2147483648 = 65536
      ∧ (-65535 ≤ tcps_diff 0 2147483648 ∧ tcps_diff 0 2147483648 ≤ 65536) :=
  ⟨by decide, (tcps_diff_range 0 2147483648 (by decide) (by decide)).1⟩

/-! ## Lemmas: transmitted segments -/

theorem tcp_seq_lt (io : Io) : tcp_seq io < 4294967296 := be2int_lt _ _

theorem tcp_ack_lt (io : Io) : tcp_ack io < 4294967296 := be2int_lt _ _

theorem tcps_tx_rst_none (plat : Platform) (sys : Sys) (tcpips : TCPIPS) (h : HANDLE)
    (seq : Nat) (htx : sys.tx_io = none) : tcps_tx_rst plat sys tcpips h seq = tcpips := by
  unfold tcps_tx_rst
  split
  · rfl
  · simp [tcps_allocate_io, htx]

theorem tcps_tx_rst_some (plat : Platform) (sys : Sys) (tcpips : TCPIPS) (h : HANDLE)
    (seq : Nat) (tcb : TCP_TCB) (txio : Io)
    (hget : so_get tcpips.tcps.tcbs h = some tcb) (htx : sys.tx_io = some txio) :
    ∃ o : Io, tcps_tx_rst plat sys tcpips h seq
        = { tcpips with sent := tcpips.sent ++ [(o, tcb.remote_addr)] }
      ∧ segment_of o = { flags := TCP_FLAG_RST, seq := u32 seq, ack := 0,
                         window := u16 tcb.rx_wnd } := by
  simp only [tcps_tx_rst, hget, tcps_allocate_io, htx, tcps_tx]
  refine ⟨_, rfl, ?_⟩
  simp [segment_of, tcp_flags, tcp_seq, tcp_ack, tcp_window, set_flag, be2int, be2short,
    int2be, short2be, byte_poke, u8_u8, be_join32, be_join16, TCP_FLAG_RST, TCP_HEADER_SIZE]
  decide

/-- C2, as amended. For a TCB in SYN_RECEIVED and a segment handed to the ACK
check, with `a = tcps_diff snd_una seg.ack` and `s = tcps_diff snd_una snd_nxt`:
if `0 ≤ a ≤ s` the TCB becomes ESTABLISHED and exactly one IPC_OPEN is posted
to the owning process with `param1` the TCB handle and `param2` the remote
address; otherwise the TCB is left as it is (state SYN_RECEIVED), nothing is
posted, and exactly one RST with `seq = seg.ack` is sent when
`ips_allocate_io` hands out a buffer, nothing when it does not.  (The ACK
check itself sends nothing in the first case: the segment is acknowledged
later in the same call, by the send step.) -/
theorem tcps_rx_otw_ack_syn_received (plat : Platform) (sys : Sys) (tcpips : TCPIPS) (io : Io)
    (h : HANDLE) (tcb : TCP_TCB)
    (hget : so_get tcpips.tcps.tcbs h = some tcb)
    (hst : tcb.state = TCP_STATE.SYN_RECEIVED) :
    if 0 ≤ tcps_diff tcb.snd_una (tcp_ack io)
        ∧ tcps_diff tcb.snd_una (tcp_ack io) ≤ tcps_diff tcb.snd_una tcb.snd_nxt then
      (tcps_rx_otw_ack plat sys tcpips io h).1 = true
      ∧ so_get (tcps_rx_otw_ack plat sys tcpips io h).2.tcps.tcbs h
          = some { tcb with state := TCP_STATE.ESTABLISHED }
      ∧ (tcps_rx_otw_ack plat sys tcpips io h).2.posted = tcpips.posted ++
          [{ process := tcb.process, cmd := HAL_CMD HAL.HAL_TCP IPC_ITEM.IPC_OPEN,
             param1 := h, param2 := tcb.remote_addr, param3 := 0 }]
      ∧ (tcps_rx_otw_ack plat sys tcpips io h).2.sent = tcpips.sent
    else
      (tcps_rx_otw_ack plat sys tcpips io h).1 = false
      ∧ so_get (tcps_rx_otw_ack plat sys tcpips io h).2.tcps.tcbs h = some tcb
      ∧ (tcps_rx_otw_ack plat sys tcpips io h).2.posted = tcpips.posted
      ∧ (match sys.tx_io with
         | some _ => ∃ o : Io,
             (tcps_rx_otw_ack plat sys tcpips io h).2.sent
               = tcpips.sent ++ [(o, tcb.remote_addr)]
             ∧ segment_of o = { flags := TCP_FLAG_RST, seq := tcp_ack io, ack := 0,
                                window := u16 tcb.rx_wnd }
         | none => (tcps_rx_otw_ack plat sys tcpips io h).2.sent = tcpips.sent) := by
  have hlt := so_get_lt hget
  split
  · rename_i ha
    simp [tcps_rx_otw_ack, hget, hst, ha, TCPIPS.set_tcb, TCPIPS.with_tcbs, so_get_so_set, hlt,
      tcps_set_state]
  · rename_i ha
    have hr : tcps_rx_otw_ack plat sys tcpips io h
        = (false, tcps_tx_rst plat sys tcpips h (tcp_ack io)) := by
      simp only [tcps_rx_otw_ack, hget, hst, if_true, if_neg ha, ge_iff_le]
    rw [hr]
    cases htx : sys.tx_io with
    | none =>
      simp [tcps_tx_rst_none plat sys tcpips h _ htx, hget]
    | some txio =>
      obtain ⟨o, ho, hseg⟩ := tcps_tx_rst_some plat sys tcpips h (tcp_ack io) tcb txio hget htx
      rw [ho]
      refine ⟨rfl, hget, rfl, o, rfl, ?_⟩
      rw [hseg, u32_of_lt (tcp_ack_lt io)]

/-- Counterexample to C2 as stated: a TCB in SYN_RECEIVED (ISN 500) receives an
acceptable ACK segment (RST and SYN clear) that acknowledges 9999, outside
`snd_una ≤ ack ≤ snd_nxt`, while no transmit buffer is left: no RST is sent. -/
theorem tcps_rx_otw_ack_syn_received_no_rst :
    demo_tcb_syn_received.state = TCP_STATE.SYN_RECEIVED
    ∧ has_flag demo_seg_bad_ack TCP_FLAG_ACK = true
    ∧ has_flag demo_seg_bad_ack TCP_FLAG_RST = false
    ∧ has_flag demo_seg_bad_ack TCP_FLAG_SYN = false
    ∧ (tcps_rx_otw_check_seq demo_plat demo_sys_no_io (demo_with demo_tcb_syn_received)
          demo_seg_bad_ack 0).1 = true
    ∧ ¬ (0 ≤ tcps_diff demo_tcb_syn_received.snd_una (tcp_ack demo_seg_bad_ack)
          ∧ tcps_diff demo_tcb_syn_received.snd_una (tcp_ack demo_seg_bad_ack)
              ≤ tcps_diff demo_tcb_syn_received.snd_una demo_tcb_syn_received.snd_nxt)
    ∧ (tcps_rx_otw_ack demo_plat demo_sys_no_io (demo_with demo_tcb_syn_received)
          demo_seg_bad_ack 0).2.sent.length = 0 := by
  decide

/-- Witness of C2: the ACK of the handshake scenario (ack = ISN + 1) opens the
connection of the TCB under handle 0. -/
theorem tcps_rx_otw_ack_syn_received_witness :
    so_get (demo_with demo_tcb_syn_received).tcps.tcbs 0 = some demo_tcb_syn_received
    ∧ demo_tcb_syn_received.state = TCP_STATE.SYN_RECEIVED
    ∧ (tcps_rx_otw_ack demo_plat demo_sys (demo_with demo_tcb_syn_received)
          demo_seg_handshake_ack 0).2.posted
        = [{ process := 7, cmd := HAL_CMD HAL.HAL_TCP IPC_ITEM.IPC_OPEN,
             param1 := 0, param2 := 0x0A000002, param3 := 0 }] := by
  refine ⟨rfl, rfl, ?_⟩
  have h := tcps_rx_otw_ack_syn_received demo_plat demo_sys (demo_with demo_tcb_syn_received)
    demo_seg_handshake_ack 0 demo_tcb_syn_received rfl rfl
  rw [if_pos (by decide)] at h
  exact h.2.2.1

theorem tcps_tx_text_ack_fin_some (plat : Platform) (sys : Sys) (tcpips : TCPIPS) (h : HANDLE)
    (tcb : TCP_TCB) (txio : Io)
    (hget : so_get tcpips.tcps.tcbs h = some tcb) (htx : sys.tx_io = some txio) :
    ∃ o : Io, tcps_tx_text_ack_fin plat sys tcpips h
        = { tcpips with sent := tcpips.sent ++ [(o, tcb.remote_addr)] }
      ∧ segment_of o = { flags := if tcb.fin ∧ tcb.snd_una ≠ tcb.snd_nxt then 17 else 16,
                         seq := u32 tcb.snd_una, ack := u32 tcb.rcv_nxt,
                         window := u16 tcb.rx_wnd } := by
  simp only [tcps_tx_text_ack_fin, hget, tcps_allocate_io, htx, tcps_tx]
  refine ⟨_, rfl, ?_⟩
  by_cases hf : tcb.fin = true ∧ tcb.snd_una ≠ tcb.snd_nxt
  · simp [hf, segment_of, tcp_flags, tcp_seq, tcp_ack, tcp_window, set_flag, be2int, be2short,
      int2be, short2be, byte_poke, u8_u8, be_join32, be_join16, TCP_FLAG_ACK, TCP_FLAG_FIN,
      TCP_HEADER_SIZE]
    decide
  · simp [hf, segment_of, tcp_flags, tcp_seq, tcp_ack, tcp_window, set_flag, be2int, be2short,
      int2be, short2be, byte_poke, u8_u8, be_join32, be_join16, TCP_FLAG_ACK, TCP_FLAG_FIN,
      TCP_HEADER_SIZE]
    decide

theorem so_set_so_set {α : Type} (so : SO α) (h : HANDLE) (a b : α) :
    so_set (so_set so h a) h b = so_set so h b := by
  unfold so_set
  congr 1
  funext j
  by_cases hj : j = h <;> simp [hj]

set_option maxRecDepth 100000 in
theorem byte_flag_rst_syn : ∀ x, x < 256 →
    ((x &&& 6 != 0) = ((x &&& 4 != 0) || (x &&& 2 != 0))) := by
  decide

theorem has_flag_rst_syn (io : Io) :
    has_flag io (TCP_FLAG_RST ||| TCP_FLAG_SYN)
      = (has_flag io TCP_FLAG_RST || has_flag io TCP_FLAG_SYN) :=
  byte_flag_rst_syn (tcp_flags io) (tcp_flags_lt io)

theorem tcps_tx_text_ack_fin_none (plat : Platform) (sys : Sys) (tcpips : TCPIPS) (h : HANDLE)
    (htx : sys.tx_io = none) : tcps_tx_text_ack_fin plat sys tcpips h = tcpips := by
  unfold tcps_tx_text_ack_fin
  split
  · rfl
  · simp [tcps_allocate_io, htx]

/-- C3, as amended. For a TCB in ESTABLISHED with `snd_una = snd_nxt`, `fin`
clear and `rx_wnd ≥ 1`, a data-less FIN|ACK segment with `seq = rcv_nxt` and
`ack = snd_una` advances `rcv_nxt` by one, moves the TCB to LAST_ACK and posts
IPC_CLOSE (`param1` the TCB handle) to the owning process, whether or not a
transmit buffer is available; when `ips_allocate_io` hands out a buffer exactly
one segment is sent, carrying ACK, with `seq` the old `snd_una` and `ack` the
new `rcv_nxt`, and when it hands out none nothing is sent. -/
theorem tcps_rx_otw_fin_established (plat : Platform) (sys : Sys) (tcpips : TCPIPS)
    (io : Io) (h : HANDLE) (tcb : TCP_TCB)
    (hget : so_get tcpips.tcps.tcbs h = some tcb)
    (hst : tcb.state = TCP_STATE.ESTABLISHED)
    (hsnd : tcb.snd_una = tcb.snd_nxt)
    (hfin : tcb.fin = false)
    (hwnd : 1 ≤ tcb.rx_wnd)
    (hlen : tcps_data_len io = 0)
    (hFIN : has_flag io TCP_FLAG_FIN = true)
    (hACK : has_flag io TCP_FLAG_ACK = true)
    (hSYN : has_flag io TCP_FLAG_SYN = false)
    (hRST : has_flag io TCP_FLAG_RST = false)
    (hseq : tcp_seq io = tcb.rcv_nxt)
    (hack : tcp_ack io = tcb.snd_una) :
    ∃ tcb1 : TCP_TCB,
      so_get (tcps_rx_otw plat sys tcpips io h).tcps.tcbs h = some tcb1
      ∧ tcb1.rcv_nxt = u32 (tcb.rcv_nxt + 1)
      ∧ tcb1.state = TCP_STATE.LAST_ACK
      ∧ (tcps_rx_otw plat sys tcpips io h).posted = tcpips.posted ++
          [{ process := tcb.process, cmd := HAL_CMD HAL.HAL_TCP IPC_ITEM.IPC_CLOSE,
             param1 := h, param2 := 0, param3 := 0 }]
      ∧ (match sys.tx_io with
         | some _ => ∃ o : Io,
             (tcps_rx_otw plat sys tcpips io h).sent = tcpips.sent ++ [(o, tcb.remote_addr)]
             ∧ has_flag o TCP_FLAG_ACK = true
             ∧ tcp_seq o = tcb.snd_una
             ∧ tcp_ack o = tcb1.rcv_nxt
         | none => (tcps_rx_otw plat sys tcpips io h).sent = tcpips.sent) := by
  have hlt := so_get_lt hget
  have hseglen : tcps_seg_len io = 1 := by
    simp [tcps_seg_len, hlen, hFIN, hSYN, u32]
  have hcs : tcps_rx_otw_check_seq plat sys tcpips io h = (true, io, tcpips) := by
    simp only [tcps_rx_otw_check_seq, tcps_rx_otw_check_seq_boundary,
      tcps_rx_otw_check_seq_adjust, hget, hseq, tcps_diff_self, hseglen]
    have h1 : toInt32 1 = 1 := by decide
    have h0 : tcb.rx_wnd ≠ 0 := by omega
    have h2 : ¬ ((tcb.rx_wnd : Int) < 1) := by omega
    simp [h1, h0, h2]
  have hRS : has_flag io (TCP_FLAG_RST ||| TCP_FLAG_SYN) = false := by
    rw [has_flag_rst_syn, hRST, hSYN]; rfl
  have ha : tcps_rx_otw_ack plat sys tcpips io h = (true, tcpips.set_tcb h tcb) := by
    simp [tcps_rx_otw_ack, tcps_rx_otw_ack_switch, hget, hst, hack, hsnd, tcps_diff_self]
  have ht : tcps_rx_otw_text plat (tcpips.set_tcb h tcb) io h = tcpips.set_tcb h tcb := by
    simp [tcps_rx_otw_text, TCPIPS.set_tcb, TCPIPS.with_tcbs, so_get_so_set, hlt, hlen]
  have hrx : tcps_rx_otw plat sys tcpips io h
      = tcps_rx_send plat sys (tcps_rx_otw_fin (tcpips.set_tcb h tcb) h) h := by
    simp [tcps_rx_otw, hcs, hRS, hACK, ha, ht, hFIN]
  have hne : tcb.snd_una ≠ u32 (tcb.snd_nxt + 1) := by
    have := tcp_ack_lt io
    rw [hack] at this
    rw [← hsnd]
    simp only [u32]; omega
  obtain ⟨tcb2, htcb2⟩ : ∃ t : TCP_TCB, t =
      { tcb with
        rcv_nxt := u32 (tcb.rcv_nxt + 1), fin := true
        snd_nxt := u32 (tcb.snd_nxt + 1), state := TCP_STATE.LAST_ACK } := ⟨_, rfl⟩
  obtain ⟨st2, hst2⟩ : ∃ t : TCPIPS, t =
      { tcpips with
        posted := tcpips.posted ++
          [{ process := tcb.process, cmd := HAL_CMD HAL.HAL_TCP IPC_ITEM.IPC_CLOSE,
             param1 := h, param2 := 0, param3 := 0 }] } := ⟨_, rfl⟩
  have hf : tcps_rx_otw_fin (tcpips.set_tcb h tcb) h = st2.set_tcb h tcb2 := by
    rw [hst2, htcb2]
    simp [tcps_rx_otw_fin, tcps_rx_otw_fin_switch, TCPIPS.set_tcb, TCPIPS.with_tcbs,
      so_get_so_set, hlt, hfin, hst, tcps_set_state, so_set_so_set]
  have hget2 : so_get (st2.set_tcb h tcb2).tcps.tcbs h = some tcb2 := by
    rw [hst2]
    simp [TCPIPS.set_tcb, TCPIPS.with_tcbs, so_get_so_set, hlt]
  rw [hrx, hf]
  have hs2 : tcb2.state = TCP_STATE.LAST_ACK := by rw [htcb2]
  have hsend : tcps_rx_send plat sys (st2.set_tcb h tcb2) h
      = tcps_tx_text_ack_fin plat sys (st2.set_tcb h tcb2) h := by
    simp [tcps_rx_send, hget2, hs2]
  rw [hsend]
  have hfin2 : tcb2.fin = true ∧ tcb2.snd_una ≠ tcb2.snd_nxt := by
    rw [htcb2]; exact ⟨rfl, hne⟩
  have hp : (st2.set_tcb h tcb2).posted = tcpips.posted ++
      [{ process := tcb.process, cmd := HAL_CMD HAL.HAL_TCP IPC_ITEM.IPC_CLOSE,
         param1 := h, param2 := 0, param3 := 0 }] := by rw [hst2]; rfl
  have hse : (st2.set_tcb h tcb2).sent = tcpips.sent := by rw [hst2]; rfl
  have hra : tcb2.remote_addr = tcb.remote_addr := by rw [htcb2]
  have hrn : tcb2.rcv_nxt = u32 (tcb.rcv_nxt + 1) := by rw [htcb2]
  have hsu : tcb2.snd_una = tcb.snd_una := by rw [htcb2]
  cases htx : sys.tx_io with
  | none =>
    rw [tcps_tx_text_ack_fin_none plat sys _ h htx]
    exact ⟨tcb2, hget2, hrn, hs2, hp, hse⟩
  | some txio =>
    obtain ⟨o, ho, hseg⟩ := tcps_tx_text_ack_fin_some plat sys _ h _ txio hget2 htx
    rw [ho]
    refine ⟨tcb2, hget2, hrn, hs2, hp, o, by simp [hse, hra], ?_, ?_, ?_⟩
    · have hfl : tcp_flags o = 17 := by
        have := congrArg SEGMENT.flags hseg
        simpa [segment_of, hfin2] using this
      simp [has_flag, hfl, TCP_FLAG_ACK]
    · have := congrArg SEGMENT.seq hseg
      have hl := tcp_ack_lt io
      rw [hack] at hl
      simpa [segment_of, hsu, u32_of_lt hl] using this
    · have := congrArg SEGMENT.ack hseg
      simpa [segment_of, hrn, u32_of_lt (u32_lt _)] using this

/-- Counterexample to C3 as stated: the scenario "FIN from ESTABLISHED"
(rcv_nxt 2000, snd_una = snd_nxt = 500, segment seq 2000, ack 500, FIN|ACK)
processed while no transmit buffer is left: `rcv_nxt` becomes 2001, the TCB
moves to LAST_ACK and one IPC_CLOSE is posted, but no segment is sent. -/
theorem tcps_rx_otw_fin_established_no_ack :
    demo_tcb_established.state = TCP_STATE.ESTABLISHED
    ∧ demo_tcb_established.snd_una = demo_tcb_established.snd_nxt
    ∧ demo_tcb_established.fin = false
    ∧ 1 ≤ demo_tcb_established.rx_wnd
    ∧ tcps_data_len demo_seg_fin = 0
    ∧ tcp_flags demo_seg_fin = TCP_FLAG_FIN ||| TCP_FLAG_ACK
    ∧ tcp_seq demo_seg_fin = demo_tcb_established.rcv_nxt
    ∧ tcp_ack demo_seg_fin = demo_tcb_established.snd_una
    ∧ (so_get (tcps_rx_otw demo_plat demo_sys_no_io (demo_with demo_tcb_established)
          demo_seg_fin 0).tcps.tcbs 0).map (fun t => (t.state, t.rcv_nxt))
        = some (TCP_STATE.LAST_ACK, 2001)
    ∧ (tcps_rx_otw demo_plat demo_sys_no_io (demo_with demo_tcb_established)
          demo_seg_fin 0).posted.length = 1
    ∧ (tcps_rx_otw demo_plat demo_sys_no_io (demo_with demo_tcb_established)
          demo_seg_fin 0).sent.length = 0 := by
  decide

/-- Witness of C3: the scenario "FIN from ESTABLISHED" with a transmit buffer:
the segment sent has seq 500 and ack 2001. -/
theorem tcps_rx_otw_fin_established_witness :
    ∃ (tcb1 : TCP_TCB) (o : Io),
      so_get (tcps_rx_otw demo_plat demo_sys (demo_with demo_tcb_established)
        demo_seg_fin 0).tcps.tcbs 0 = some tcb1
      ∧ tcb1.rcv_nxt = 2001
      ∧ tcb1.state = TCP_STATE.LAST_ACK
      ∧ (tcps_rx_otw demo_plat demo_sys (demo_with demo_tcb_established)
          demo_seg_fin 0).sent = [(o, 0x0A000002)]
      ∧ tcp_seq o = 500 ∧ tcp_ack o = 2001 := by
  obtain ⟨tcb1, h1, h2, h3, _, h5⟩ :=
    tcps_rx_otw_fin_established demo_plat demo_sys (demo_with demo_tcb_established)
      demo_seg_fin 0 demo_tcb_established rfl rfl rfl rfl (by decide)
      (by decide) (by decide) (by decide) (by decide) (by decide) (by decide) (by decide)
  obtain ⟨o, h6, _, h7, h8⟩ := h5
  refine ⟨tcb1, o, h1, ?_, h3, h6, h7, ?_⟩
  · rw [h2]; decide
  · rw [h8, h2]; decide

/-! ## Lemmas: allocation and option parsing -/

theorem so_first_free_le {α : Type} (so : SO α) : so_first_free so ≤ so.size := by
  unfold so_first_free
  cases hf : (List.range so.size).find? (fun j => (so.slot j).isNone) with
  | none => exact le_refl _
  | some j =>
    have := List.mem_of_find?_eq_some hf
    simp only [List.mem_range] at this
    exact le_of_lt this

theorem so_get_first_free {α : Type} (so : SO α) : so_get so (so_first_free so) = none := by
  unfold so_first_free
  cases hf : (List.range so.size).find? (fun j => (so.slot j).isNone) with
  | none => simp [so_get]
  | some j =>
    have := List.find?_some hf
    simp only [Option.isNone_iff_eq_none] at this
    simp [so_get, this]

theorem so_allocate_spec {α : Type} (so : SO α) (ok : Bool) (v : α)
    (hh : (so_allocate so ok v).1 ≠ INVALID_HANDLE) :
    so_get so (so_allocate so ok v).1 = none
    ∧ so_get (so_allocate so ok v).2 (so_allocate so ok v).1 = some v
    ∧ ∀ j, j ≠ (so_allocate so ok v).1 →
        so_get (so_allocate so ok v).2 j = so_get so j := by
  unfold so_allocate at *
  by_cases hc : ok = true ∧ so_first_free so < INVALID_HANDLE
  · simp only [hc, and_self, if_true] at *
    have hle := so_first_free_le so
    refine ⟨so_get_first_free so, ?_, ?_⟩
    · simp [so_get]
    · intro j hj
      have hj2 : j ≠ so_first_free so := hj
      simp only [so_get, hj2, if_false]
      by_cases h1 : j < so.size
      · have : j < max so.size (so_first_free so + 1) := lt_of_lt_of_le h1 (le_max_left _ _)
        simp [h1, this]
      · have : ¬ j < max so.size (so_first_free so + 1) := by
          intro h2
          rcases lt_max_iff.mp h2 with h3 | h3
          · exact h1 h3
          · have h4 : j ≤ so_first_free so := Nat.lt_succ_iff.mp h3
            have h5 : so.size ≤ j := Nat.le_of_not_lt h1
            exact hj2 (le_antisymm h4 (le_trans hle h5))
        simp [h1, this]
  · simp only [hc, if_false] at hh
    exact absurd rfl hh

theorem so_allocate_invalid {α : Type} (so : SO α) (ok : Bool) (v : α)
    (hh : (so_allocate so ok v).1 = INVALID_HANDLE) : (so_allocate so ok v).2 = so := by
  unfold so_allocate at *
  by_cases hc : ok = true ∧ so_first_free so < INVALID_HANDLE
  · simp only [hc, and_self, if_true] at hh
    exact absurd hh (ne_of_lt hc.2)
  · simp [hc]

theorem tcps_apply_options_body_frame (plat : Platform) (io : Io) (i : Nat) (tcpips : TCPIPS)
    (tcb : TCP_TCB) :
    (∃ l, (tcps_apply_options_body plat io i tcpips tcb).1
        = { tcpips with icmp := tcpips.icmp ++ l })
      ∧ (∃ m, (tcps_apply_options_body plat io i tcpips tcb).2 = { tcb with mss := m }) := by
  unfold tcps_apply_options_body tcps_set_mss
  split
  · split
    · exact ⟨⟨_, rfl⟩, ⟨tcb.mss, rfl⟩⟩
    · exact ⟨⟨[], by simp⟩, ⟨_, rfl⟩⟩
  · exact ⟨⟨[], by simp⟩, ⟨tcb.mss, rfl⟩⟩

theorem tcps_apply_options_loop_frame (plat : Platform) (io : Io) :
    ∀ (fuel i : Nat) (tcpips : TCPIPS) (tcb : TCP_TCB) (o : TCPIPS × TCP_TCB),
      tcps_apply_options_loop plat io fuel i tcpips tcb = some o →
      (∃ l, o.1 = { tcpips with icmp := tcpips.icmp ++ l })
        ∧ (∃ m, o.2 = { tcb with mss := m }) := by
  intro fuel
  induction fuel with
  | zero =>
    intro i tcpips tcb o ho
    cases i with
    | zero =>
      simp only [tcps_apply_options_loop, Option.some.injEq] at ho
      subst ho
      exact ⟨⟨[], by simp⟩, ⟨tcb.mss, rfl⟩⟩
    | succ i => simp [tcps_apply_options_loop] at ho
  | succ fuel ih =>
    intro i tcpips tcb o ho
    cases i with
    | zero =>
      simp only [tcps_apply_options_loop, Option.some.injEq] at ho
      subst ho
      exact ⟨⟨[], by simp⟩, ⟨tcb.mss, rfl⟩⟩
    | succ i =>
      simp only [tcps_apply_options_loop] at ho
      obtain ⟨⟨l, hl⟩, ⟨m, hm⟩⟩ := ih _ _ _ _ ho
      obtain ⟨⟨l0, hl0⟩, ⟨m0, hm0⟩⟩ := tcps_apply_options_body_frame plat io (i + 1) tcpips tcb
      rw [hl0] at hl
      rw [hm0] at hm
      exact ⟨⟨l0 ++ l, by rw [hl]; simp⟩, ⟨m, by rw [hm]⟩⟩

theorem tcps_apply_options_frame (plat : Platform) (tcpips : TCPIPS) (io : Io) (tcb : TCP_TCB)
    (o : TCPIPS × TCP_TCB) (ho : tcps_apply_options plat tcpips io tcb = some o) :
    (∃ l, o.1 = { tcpips with icmp := tcpips.icmp ++ l })
      ∧ (∃ m, o.2 = { tcb with mss := m }) :=
  tcps_apply_options_loop_frame plat io _ _ _ _ _ ho

/-! ## The CLOSED rule -/

theorem tcps_tx_rst_ack_some (plat : Platform) (sys : Sys) (tcpips : TCPIPS) (h : HANDLE)
    (ack : Nat) (tcb : TCP_TCB) (txio : Io)
    (hget : so_get tcpips.tcps.tcbs h = some tcb) (htx : sys.tx_io = some txio) :
    ∃ o : Io, tcps_tx_rst_ack plat sys tcpips h ack
        = { tcpips with sent := tcpips.sent ++ [(o, tcb.remote_addr)] }
      ∧ segment_of o = { flags := TCP_FLAG_RST ||| TCP_FLAG_ACK, seq := 0, ack := u32 ack,
                         window := u16 tcb.rx_wnd } := by
  simp only [tcps_tx_rst_ack, hget, tcps_allocate_io, htx, tcps_tx]
  refine ⟨_, rfl, ?_⟩
  simp [segment_of, tcp_flags, tcp_seq, tcp_ack, tcp_window, set_flag, be2int, be2short,
    int2be, short2be, byte_poke, u8_u8, be_join32, be_join16, TCP_FLAG_RST, TCP_FLAG_ACK,
    TCP_HEADER_SIZE]
  decide

theorem tcps_tx_rst_tcps (plat : Platform) (sys : Sys) (tcpips : TCPIPS) (h : HANDLE)
    (seq : Nat) : (tcps_tx_rst plat sys tcpips h seq).tcps = tcpips.tcps := by
  unfold tcps_tx_rst
  split
  · rfl
  · split <;> rfl

theorem tcps_tx_rst_ack_tcps (plat : Platform) (sys : Sys) (tcpips : TCPIPS) (h : HANDLE)
    (ack : Nat) : (tcps_tx_rst_ack plat sys tcpips h ack).tcps = tcpips.tcps := by
  unfold tcps_tx_rst_ack
  split
  · rfl
  · split <;> rfl

theorem tcps_rx_closed_get (plat : Platform) (sys : Sys) (tcpips : TCPIPS) (io : Io)
    (h j : HANDLE) :
    so_get (tcps_rx_closed plat sys tcpips io h).tcps.tcbs j
      = if j = h then none else so_get tcpips.tcps.tcbs j := by
  unfold tcps_rx_closed
  simp only [tcps_destroy_tcb, TCPIPS.with_tcbs, so_get_so_free]
  split
  · rfl
  · split
    · rfl
    · split
      · rw [tcps_tx_rst_tcps]
      · rw [tcps_tx_rst_ack_tcps]

theorem tcps_rx_closed_sent (plat : Platform) (sys : Sys) (tcpips : TCPIPS) (io : Io)
    (h : HANDLE) :
    (tcps_rx_closed plat sys tcpips io h).sent
      = (if has_flag io TCP_FLAG_RST then tcpips
         else if has_flag io TCP_FLAG_ACK then tcps_tx_rst plat sys tcpips h (tcp_ack io)
         else tcps_tx_rst_ack plat sys tcpips h (u32 (tcp_seq io + tcps_seg_len io))).sent := by
  rfl

theorem tcps_tx_rst_ack_none (plat : Platform) (sys : Sys) (tcpips : TCPIPS) (h : HANDLE)
    (ack : Nat) (htx : sys.tx_io = none) : tcps_tx_rst_ack plat sys tcpips h ack = tcpips := by
  unfold tcps_tx_rst_ack
  split
  · rfl
  · simp [tcps_allocate_io, htx]

/-- C5, as amended. For a valid segment that matches no TCB and whose
destination port has no listener, a call of `tcps_rx` that returns leaves the
TCB table as it was.  When the table has no free slot for the temporary TCB
(`tcps_create_tcb` gives `INVALID_HANDLE`) the segment is released and nothing
is sent.  Otherwise a segment with RST gets no reply, and a segment without
RST gets exactly one reply when `ips_allocate_io` hands out a buffer - RST
with `seq = seg.ack` if it carries ACK, else RST|ACK with `seq = 0` and
`ack = seg.seq + seg_len` - and none when it hands out no buffer. -/
theorem tcps_rx_closed_rule (plat : Platform) (sys : Sys) (tcpips : TCPIPS) (io : Io) (src : IP)
    (r : TCPIPS)
    (hsize : TCP_HEADER_SIZE ≤ io.data_size)
    (hck : plat.tcp_checksum io.mem io.data_size src tcpips.ip = 0)
    (hfind : tcps_find_tcb tcpips src (tcp_src_port io) (tcp_dst_port io) = INVALID_HANDLE)
    (hlis : tcps_find_listener tcpips (tcp_dst_port io) = INVALID_HANDLE)
    (hr : tcps_rx plat sys tcpips io src = some r) :
    (∀ j, so_get r.tcps.tcbs j = so_get tcpips.tcps.tcbs j)
    ∧ (has_flag io TCP_FLAG_RST = true → r.sent = tcpips.sent)
    ∧ ((tcps_create_tcb plat sys tcpips src (tcp_src_port io) (tcp_dst_port io)).1
          = INVALID_HANDLE →
        r.sent = tcpips.sent ∧ r.released = tcpips.released ++ [io.addr])
    ∧ (has_flag io TCP_FLAG_RST = false →
        (tcps_create_tcb plat sys tcpips src (tcp_src_port io) (tcp_dst_port io)).1
          ≠ INVALID_HANDLE →
        match sys.tx_io with
        | some _ =>
          ∃ o : Io, r.sent = tcpips.sent ++ [(o, src)]
            ∧ if has_flag io TCP_FLAG_ACK then
                tcp_flags o = TCP_FLAG_RST ∧ tcp_seq o = tcp_ack io
              else
                tcp_flags o = TCP_FLAG_RST ||| TCP_FLAG_ACK ∧ tcp_seq o = 0
                  ∧ tcp_ack o = u32 (tcp_seq io + tcps_seg_len io)
        | none => r.sent = tcpips.sent) := by
  have hsz : ¬ io.data_size < TCP_HEADER_SIZE := Nat.not_lt.mpr hsize
  obtain ⟨tcb0, htcb0⟩ : ∃ t : TCP_TCB, t = tcps_update_rx_wnd plat
      { process := INVALID_HANDLE
        remote_addr := src
        rx := none
        rx_tmp := none
        tx := none
        snd_una := 0
        snd_nxt := 0
        rcv_nxt := 0
        state := TCP_STATE.CLOSED
        remote_port := tcp_src_port io
        local_port := tcp_dst_port io
        mss := u16 (TCP_MSS_MAX plat)
        rx_wnd := 0
        tx_wnd := 0
        active := false
        transmit := false
        fin := false } := ⟨_, rfl⟩
  have hcreate : tcps_create_tcb plat sys tcpips src (tcp_src_port io) (tcp_dst_port io)
      = ((so_allocate tcpips.tcps.tcbs sys.so_ok tcb0).1,
         tcpips.with_tcbs (so_allocate tcpips.tcps.tcbs sys.so_ok tcb0).2) := by
    rw [htcb0]; rfl
  have hstate0 : tcb0.state = TCP_STATE.CLOSED := by rw [htcb0]; rfl
  have hraddr0 : tcb0.remote_addr = src := by rw [htcb0]; rfl
  rw [hcreate]
  simp only [tcps_rx, hsz, hck, ne_eq, not_true_eq_false, or_self, if_false, hfind, if_true,
    hcreate] at hr
  by_cases hcr : (so_allocate tcpips.tcps.tcbs sys.so_ok tcb0).1 = INVALID_HANDLE
  · simp only [hcr, not_true_eq_false, if_false, Option.some.injEq] at hr
    subst hr
    have := so_allocate_invalid _ _ _ hcr
    refine ⟨?_, ?_, ?_, ?_⟩
    · intro j
      simp [ips_release_io, TCPIPS.with_tcbs, this]
    · intro _
      rfl
    · intro _
      exact ⟨rfl, rfl⟩
    · intro _ hne
      exact absurd hcr hne
  · obtain ⟨hfree, hnew, hother⟩ := so_allocate_spec tcpips.tcps.tcbs sys.so_ok tcb0 hcr
    have hl2 : tcps_find_listener
        (tcpips.with_tcbs (so_allocate tcpips.tcps.tcbs sys.so_ok tcb0).2) (tcp_dst_port io)
        = INVALID_HANDLE := hlis
    simp only [hcr, not_false_eq_true, if_true, hl2, not_true_eq_false, if_false] at hr
    have hg : so_get (tcpips.with_tcbs (so_allocate tcpips.tcps.tcbs sys.so_ok tcb0).2).tcps.tcbs
        (so_allocate tcpips.tcps.tcbs sys.so_ok tcb0).1 = some tcb0 := hnew
    simp only [hg] at hr
    cases hopt : tcps_apply_options plat
        (tcpips.with_tcbs (so_allocate tcpips.tcps.tcbs sys.so_ok tcb0).2) io tcb0 with
    | none => simp [hopt] at hr
    | some o =>
      simp only [hopt] at hr
      obtain ⟨⟨l, hl⟩, ⟨m, hm⟩⟩ := tcps_apply_options_frame _ _ _ _ _ hopt
      have hlt := so_get_lt hnew
      obtain ⟨hd, hhd⟩ : ∃ x, x = (so_allocate tcpips.tcps.tcbs sys.so_ok tcb0).1 := ⟨_, rfl⟩
      rw [← hhd] at hr hfree hnew hother hlt hcr
      obtain ⟨st1, hst1⟩ : ∃ x : TCPIPS, x = o.1.set_tcb hd { o.2 with tx_wnd := tcp_window io } :=
        ⟨_, rfl⟩
      rw [← hst1] at hr
      have hst1_sent : st1.sent = tcpips.sent := by rw [hst1, hl]; rfl
      have hst1_tcbs : st1.tcps.tcbs = so_set (so_allocate tcpips.tcps.tcbs sys.so_ok tcb0).2 hd
          { o.2 with tx_wnd := tcp_window io } := by rw [hst1, hl]; rfl
      have hst1_get : so_get st1.tcps.tcbs hd = some { o.2 with tx_wnd := tcp_window io } := by
        rw [hst1_tcbs, so_get_so_set]; simp [hlt]
      have hst1_other : ∀ j, j ≠ hd → so_get st1.tcps.tcbs j = so_get tcpips.tcps.tcbs j := by
        intro j hj
        rw [hst1_tcbs, so_get_so_set]
        simp only [hj, false_and, if_false]
        exact hother j hj
      have hproc : tcps_rx_process plat sys st1 io hd = tcps_rx_closed plat sys st1 io hd := by
        simp only [tcps_rx_process, hst1_get, hm, hstate0]
      have hq : tcps_rx_queued (tcps_rx_closed plat sys st1 io hd) io hd = false := by
        simp [tcps_rx_queued, tcps_rx_closed_get]
      rw [hproc, hq] at hr
      simp only [Bool.false_eq_true, if_false, Option.some.injEq] at hr
      subst hr
      refine ⟨?_, ?_, ?_, ?_⟩
      · intro j
        show so_get (tcps_rx_closed plat sys st1 io hd).tcps.tcbs j = _
        rw [tcps_rx_closed_get]
        by_cases hj : j = hd
        · simp [hj, hfree]
        · simp [hj, hst1_other j hj]
      · intro hrst
        show (tcps_rx_closed plat sys st1 io hd).sent = _
        rw [tcps_rx_closed_sent, hrst]
        exact hst1_sent
      · intro hinv
        have hinv2 : (so_allocate tcpips.tcps.tcbs sys.so_ok tcb0).1 = INVALID_HANDLE := hinv
        rw [← hhd] at hinv2
        exact absurd hinv2 hcr
      · intro hrst _
        have hra : o.2.remote_addr = src := by
          rw [hm]; exact hraddr0
        cases htx : sys.tx_io with
        | none =>
          show (tcps_rx_closed plat sys st1 io hd).sent = _
          rw [tcps_rx_closed_sent, hrst]
          by_cases hack : has_flag io TCP_FLAG_ACK = true
          · simp only [Bool.false_eq_true, if_false, hack, if_true,
              tcps_tx_rst_none plat sys st1 hd _ htx, hst1_sent]
          · simp only [Bool.false_eq_true, if_false, hack,
              tcps_tx_rst_ack_none plat sys st1 hd _ htx, hst1_sent]
        | some txio =>
          show ∃ o : Io, (tcps_rx_closed plat sys st1 io hd).sent = _ ∧ _
          rw [tcps_rx_closed_sent, hrst]
          by_cases hack : has_flag io TCP_FLAG_ACK = true
          · obtain ⟨x, hx, hseg⟩ :=
              tcps_tx_rst_some plat sys st1 hd (tcp_ack io) _ txio hst1_get htx
            refine ⟨x, ?_, ?_⟩
            · simp only [Bool.false_eq_true, if_false, hack, if_true, hx, hst1_sent, hra]
            · have h1 := congrArg SEGMENT.flags hseg
              have h2 := congrArg SEGMENT.seq hseg
              simp only [segment_of] at h1 h2
              simp [hack, h1, h2, u32_of_lt (tcp_ack_lt io)]
          · obtain ⟨x, hx, hseg⟩ := tcps_tx_rst_ack_some plat sys st1 hd
              (u32 (tcp_seq io + tcps_seg_len io)) _ txio hst1_get htx
            refine ⟨x, ?_, ?_⟩
            · simp only [Bool.false_eq_true, if_false, hack, hx, hst1_sent, hra]
            · have h1 := congrArg SEGMENT.flags hseg
              have h2 := congrArg SEGMENT.seq hseg
              have h3 := congrArg SEGMENT.ack hseg
              simp only [segment_of] at h1 h2 h3
              simp [hack, h1, h2, h3, u32_of_lt (u32_lt _)]

/-- Counterexample to C5 as stated: a valid ACK segment (no RST) for a port
without listener and without TCB gets no reply at all when the system pool
cannot serve the TCB, and none when no transmit buffer is left. -/
theorem tcps_rx_closed_rule_no_reply :
    TCP_HEADER_SIZE ≤ demo_seg_no_listener.data_size
    ∧ demo_plat.tcp_checksum demo_seg_no_listener.mem demo_seg_no_listener.data_size
        0x0A000002 demo_init.ip = 0
    ∧ tcps_find_tcb demo_init 0x0A000002 (tcp_src_port demo_seg_no_listener)
        (tcp_dst_port demo_seg_no_listener) = INVALID_HANDLE
    ∧ tcps_find_listener demo_init (tcp_dst_port demo_seg_no_listener) = INVALID_HANDLE
    ∧ has_flag demo_seg_no_listener TCP_FLAG_RST = false
    ∧ has_flag demo_seg_no_listener TCP_FLAG_ACK = true
    ∧ (tcps_rx demo_plat demo_sys_no_so demo_init demo_seg_no_listener 0x0A000002).map
        (fun r => r.sent.length) = some 0
    ∧ (tcps_rx demo_plat demo_sys_no_io demo_init demo_seg_no_listener 0x0A000002).map
        (fun r => r.sent.length) = some 0 := by
  decide

/-- Witness of C5: the same segment with both allocations served is answered
by one RST whose seq is the ack of the segment, 77. -/
theorem tcps_rx_closed_rule_witness :
    ∃ (r : TCPIPS) (o : Io),
      tcps_rx demo_plat demo_sys demo_init demo_seg_no_listener 0x0A000002 = some r
      ∧ r.sent = [(o, 0x0A000002)] ∧ tcp_flags o = TCP_FLAG_RST ∧ tcp_seq o = 77 := by
  have hs : (tcps_rx demo_plat demo_sys demo_init demo_seg_no_listener 0x0A000002).isSome
      = true := by decide
  obtain ⟨r, hr⟩ := Option.isSome_iff_exists.mp hs
  obtain ⟨o, ho, hseg⟩ := (tcps_rx_closed_rule demo_plat demo_sys demo_init demo_seg_no_listener
    0x0A000002 r (by decide) (by decide) (by decide) (by decide) hr).2.2.2 (by decide)
    (by decide)
  rw [if_pos (by decide)] at hseg
  exact ⟨r, o, hr, ho, hseg.1, hseg.2.trans (by decide)⟩

/-- C4, the code at the scenario "out-of-window segment" (rcv_nxt 1000,
rx_wnd 100, segment seq 1500 with 50 data bytes): the segment is dropped, the
TCB is left as it was, and the one segment sent has flags ACK, seq = snd_una
= 500, but ack = 0 where rcv_nxt is 1000. -/
theorem tcps_rx_otw_check_seq_out_of_window :
    (tcps_rx_otw_check_seq demo_plat demo_sys (demo_with demo_tcb_window)
        demo_seg_out_of_window 0).1 = false
    ∧ (so_get (tcps_rx_otw demo_plat demo_sys (demo_with demo_tcb_window)
        demo_seg_out_of_window 0).tcps.tcbs 0).map
          (fun t => (t.state, t.snd_una, t.snd_nxt, t.rcv_nxt))
        = some (TCP_STATE.ESTABLISHED, 500, 500, 1000)
    ∧ (tcps_rx_otw demo_plat demo_sys (demo_with demo_tcb_window)
        demo_seg_out_of_window 0).sent.map (fun e => segment_of e.1)
        = [{ flags := TCP_FLAG_ACK, seq := 500, ack := 0, window := 100 }] := by
  decide

/-- An option offset that `tcps_get_next_opt` maps to itself keeps the loop of
`tcps_apply_options` running whatever the number of rounds. -/
theorem tcps_apply_options_loop_stuck (plat : Platform) (io : Io) (i : Nat)
    (hi : i ≠ 0) (hnext : tcps_get_next_opt io i = i) (fuel : Nat) (tcpips : TCPIPS)
    (tcb : TCP_TCB) : tcps_apply_options_loop plat io fuel i tcpips tcb = none := by
  obtain ⟨j, rfl⟩ := Nat.exists_eq_succ_of_ne_zero hi
  induction fuel generalizing tcpips tcb with
  | zero => rfl
  | succ n ih =>
    simp only [tcps_apply_options_loop]
    rw [hnext]
    exact ih _ _

/-- C1, the code at a failing input: a valid SYN (RST and ACK clear) for the
listening port 80, from a peer without TCB, that carries an option of kind 3
with length byte 0.  `tcps_get_next_opt` maps the offset 20 of that option to
itself, the loop of `tcps_apply_options` is still running after any number of
rounds, and `tcps_rx` does not return, while the same SYN with an MSS option is
served. -/
theorem tcps_rx_syn_zero_length_option :
    TCP_HEADER_SIZE ≤ demo_seg_syn_zero_option.data_size
    ∧ demo_plat.tcp_checksum demo_seg_syn_zero_option.mem demo_seg_syn_zero_option.data_size
        0x0A000002 demo_listening.ip = 0
    ∧ tcp_flags demo_seg_syn_zero_option = TCP_FLAG_SYN
    ∧ tcps_find_listener demo_listening (tcp_dst_port demo_seg_syn_zero_option) = 7
    ∧ tcps_find_tcb demo_listening 0x0A000002 (tcp_src_port demo_seg_syn_zero_option)
        (tcp_dst_port demo_seg_syn_zero_option) = INVALID_HANDLE
    ∧ tcps_get_first_opt demo_seg_syn_zero_option = 20
    ∧ tcps_get_next_opt demo_seg_syn_zero_option 20 = 20
    ∧ (∀ (fuel : Nat) (tcpips : TCPIPS) (tcb : TCP_TCB),
        tcps_apply_options_loop demo_plat demo_seg_syn_zero_option fuel 20 tcpips tcb = none)
    ∧ (tcps_rx demo_plat demo_sys demo_listening demo_seg_syn_zero_option 0x0A000002).isNone
        = true
    ∧ (tcps_rx demo_plat demo_sys demo_listening demo_seg_syn 0x0A000002).isSome = true := by
  refine ⟨by decide, by decide, by decide, by decide, by decide, by decide, by decide, ?_,
    by decide, by decide⟩
  intro fuel tcpips tcb
  exact tcps_apply_options_loop_stuck demo_plat demo_seg_syn_zero_option 20 (by decide)
    (by decide) fuel tcpips tcb

/-! ## The invariant of the TCB table -/

theorem ALL_TCB_of_tcbs (P : TCP_TCB → Prop) (a b : TCPIPS)
    (hab : b.tcps.tcbs = a.tcps.tcbs) (ha : ALL_TCB P a) : ALL_TCB P b := by
  intro h tcb hg
  rw [hab] at hg
  exact ha h tcb hg

theorem ALL_TCB_set_tcb (P : TCP_TCB → Prop) (a : TCPIPS) (h : HANDLE) (v : TCP_TCB)
    (ha : ALL_TCB P a) (hv : P v) : ALL_TCB P (a.set_tcb h v) := by
  intro j tcb hg
  simp only [TCPIPS.set_tcb, TCPIPS.with_tcbs, so_get_so_set] at hg
  split at hg
  · cases hg; exact hv
  · exact ha j tcb hg

theorem ALL_TCB_destroy (P : TCP_TCB → Prop) (a : TCPIPS) (h : HANDLE)
    (ha : ALL_TCB P a) : ALL_TCB P (tcps_destroy_tcb a h) := by
  intro j tcb hg
  simp only [tcps_destroy_tcb, TCPIPS.with_tcbs, so_get_so_free] at hg
  split at hg
  · cases hg
  · exact ha j tcb hg

theorem ALL_TCB_allocate (P : TCP_TCB → Prop) (a : TCPIPS) (ok : Bool) (v : TCP_TCB)
    (ha : ALL_TCB P a) (hv : P v) :
    ALL_TCB P (a.with_tcbs (so_allocate a.tcps.tcbs ok v).2) := by
  by_cases hh : (so_allocate a.tcps.tcbs ok v).1 = INVALID_HANDLE
  · rw [so_allocate_invalid _ _ _ hh]
    exact ALL_TCB_of_tcbs P a _ rfl ha
  · obtain ⟨_, hnew, hother⟩ := so_allocate_spec a.tcps.tcbs ok v hh
    intro j tcb hg
    by_cases hj : j = (so_allocate a.tcps.tcbs ok v).1
    · subst hj
      have : so_get (so_allocate a.tcps.tcbs ok v).2 (so_allocate a.tcps.tcbs ok v).1
          = some tcb := hg
      rw [hnew] at this
      cases this
      exact hv
    · have : so_get (so_allocate a.tcps.tcbs ok v).2 j = some tcb := hg
      rw [hother j hj] at this
      exact ha j tcb this

theorem tcps_tx_ack_tcps (plat : Platform) (sys : Sys) (tcpips : TCPIPS) (h : HANDLE) :
    (tcps_tx_ack plat sys tcpips h).tcps = tcpips.tcps := by
  unfold tcps_tx_ack
  split
  · rfl
  · split <;> rfl

theorem tcps_tx_text_ack_fin_tcps (plat : Platform) (sys : Sys) (tcpips : TCPIPS) (h : HANDLE) :
    (tcps_tx_text_ack_fin plat sys tcpips h).tcps = tcpips.tcps := by
  unfold tcps_tx_text_ack_fin
  split
  · rfl
  · split <;> rfl

theorem tcps_tx_syn_ack_tcps (plat : Platform) (sys : Sys) (tcpips : TCPIPS) (h : HANDLE) :
    (tcps_tx_syn_ack plat sys tcpips h).tcps = tcpips.tcps := by
  unfold tcps_tx_syn_ack
  split
  · rfl
  · split <;> rfl

theorem WND_INV_update (plat : Platform) (tcb : TCP_TCB) :
    WND_INV plat (tcps_update_rx_wnd plat tcb) := by
  unfold WND_INV tcps_update_rx_wnd free_of
  cases hrx : tcb.rx <;> cases htmp : tcb.rx_tmp <;> simp only [u16] <;> omega

theorem tcps_gen_isn_lt (uptime : SYSTIME) : tcps_gen_isn uptime + 1 < 4294967296 := by
  simp only [tcps_gen_isn, u32, Nat.shiftRight_eq_div_pow]
  omega

theorem TCB_INV_listen (plat : Platform) (tcb : TCP_TCB) (uptime : SYSTIME) (seq : Nat)
    (hi : TCB_INV plat tcb) :
    TCB_INV plat { tcb with state := TCP_STATE.SYN_RECEIVED, rcv_nxt := seq,
                            snd_una := tcps_gen_isn uptime,
                            snd_nxt := u32 (tcps_gen_isn uptime + 1) } := by
  have hl := tcps_gen_isn_lt uptime
  refine ⟨?_, hi.2⟩
  simp only [SND_INV, tcps_delta, u32]
  refine ⟨by omega, by omega, ?_⟩
  split <;> split <;> omega

theorem tcps_rx_listen_inv (plat : Platform) (sys : Sys) (tcpips : TCPIPS) (io : Io)
    (h : HANDLE) (ha : ALL_TCB (TCB_INV plat) tcpips) :
    ALL_TCB (TCB_INV plat) (tcps_rx_listen plat sys tcpips io h) := by
  unfold tcps_rx_listen
  split
  · exact ALL_TCB_destroy _ _ _ ha
  · split
    · refine ALL_TCB_destroy _ _ _ (ALL_TCB_of_tcbs _ tcpips _ ?_ ha)
      rw [tcps_tx_rst_tcps]
    · split
      · split
        · exact ha
        · rename_i tcb hg
          dsimp only
          refine ALL_TCB_of_tcbs _ _ _ ?_ (ALL_TCB_set_tcb _ _ h _ ha
            (TCB_INV_listen plat tcb sys.uptime (u32 (tcp_seq io + 1)) (ha h tcb hg)))
          rw [tcps_tx_syn_ack_tcps]
          rfl
      · exact ALL_TCB_destroy _ _ _ ha

theorem tcps_rx_closed_inv (plat : Platform) (sys : Sys) (tcpips : TCPIPS) (io : Io)
    (h : HANDLE) (P : TCP_TCB → Prop) (ha : ALL_TCB P tcpips) :
    ALL_TCB P (tcps_rx_closed plat sys tcpips io h) := by
  intro j tcb hg
  rw [tcps_rx_closed_get] at hg
  split at hg
  · cases hg
  · exact ha j tcb hg

theorem tcps_rx_otw_check_seq_boundary_tcps (plat : Platform) (sys : Sys) (tcpips : TCPIPS)
    (tcb : TCP_TCB) (c : CHECK_SEQ) :
    (tcps_rx_otw_check_seq_boundary plat sys tcpips tcb c).2.2.tcps = tcpips.tcps := by
  unfold tcps_rx_otw_check_seq_boundary
  split
  · split
    · rfl
    · cases tcps_allocate_io sys tcb <;> rfl
  · rfl

theorem tcps_rx_otw_check_seq_tcps (plat : Platform) (sys : Sys) (tcpips : TCPIPS) (io : Io)
    (h : HANDLE) : (tcps_rx_otw_check_seq plat sys tcpips io h).2.2.tcps = tcpips.tcps := by
  unfold tcps_rx_otw_check_seq
  cases so_get tcpips.tcps.tcbs h with
  | none => rfl
  | some tcb =>
    dsimp only
    split
    · rfl
    · exact tcps_rx_otw_check_seq_boundary_tcps plat sys tcpips tcb _

theorem SND_INV_ack (tcb : TCP_TCB) (a : Int) (hi : SND_INV tcb) (h0 : 0 < a)
    (h1 : a ≤ tcps_diff tcb.snd_una tcb.snd_nxt) :
    SND_INV { tcb with snd_una := u32i (tcb.snd_una + a) } := by
  obtain ⟨hu, hn, hd⟩ := hi
  simp only [SND_INV, tcps_diff, tcps_delta, u32, u32i] at *
  have hfin : (if tcb.fin = true then 2 else 1) ≤ 2 := by split <;> omega
  split_ifs at * <;> omega

theorem TCB_INV_ack (plat : Platform) (tcb : TCP_TCB) (a : Int) (hi : TCB_INV plat tcb)
    (h1 : a ≤ tcps_diff tcb.snd_una tcb.snd_nxt) :
    TCB_INV plat (if a > 0 then { tcb with snd_una := u32i (tcb.snd_una + a) } else tcb) := by
  split
  · rename_i h0
    exact ⟨SND_INV_ack tcb a hi.1 h0 h1, hi.2⟩
  · exact hi

theorem TCB_INV_state (plat : Platform) (tcb : TCP_TCB) (hi : TCB_INV plat tcb)
    (state : TCP_STATE) : TCB_INV plat (tcps_set_state tcb state) := ⟨hi.1, hi.2⟩

theorem tcps_rx_otw_ack_switch_inv (plat : Platform) (tcpips : TCPIPS) (tcb : TCP_TCB)
    (h : HANDLE) (ha : ALL_TCB (TCB_INV plat) tcpips) (hi : TCB_INV plat tcb) :
    ALL_TCB (TCB_INV plat) (tcps_rx_otw_ack_switch tcpips tcb h).2 := by
  unfold tcps_rx_otw_ack_switch
  split
  · refine ALL_TCB_set_tcb _ _ _ _ ha ?_
    split
    · exact TCB_INV_state plat tcb hi _
    · exact hi
  · refine ALL_TCB_set_tcb _ _ _ _ ha ?_
    split
    · exact TCB_INV_state plat tcb hi _
    · exact hi
  · split
    · exact ALL_TCB_destroy _ _ _ (ALL_TCB_set_tcb _ _ _ _ ha hi)
    · exact ALL_TCB_set_tcb _ _ _ _ ha hi
  · exact ALL_TCB_set_tcb _ _ _ _ ha hi

theorem tcps_rx_otw_ack_inv (plat : Platform) (sys : Sys) (tcpips : TCPIPS) (io : Io)
    (h : HANDLE) (ha : ALL_TCB (TCB_INV plat) tcpips) :
    ALL_TCB (TCB_INV plat) (tcps_rx_otw_ack plat sys tcpips io h).2 := by
  unfold tcps_rx_otw_ack
  cases hg : so_get tcpips.tcps.tcbs h with
  | none => exact ha
  | some tcb =>
    have hi := ha h tcb hg
    dsimp only
    split
    · split
      · exact ALL_TCB_of_tcbs _ (tcpips.set_tcb h (tcps_set_state tcb TCP_STATE.ESTABLISHED)) _ rfl
          (ALL_TCB_set_tcb _ _ _ _ ha (TCB_INV_state plat tcb hi _))
      · refine ALL_TCB_of_tcbs _ tcpips _ ?_ ha
        rw [tcps_tx_rst_tcps]
    · split
      · refine ALL_TCB_of_tcbs _ tcpips _ ?_ ha
        rw [tcps_tx_ack_tcps]
      · rename_i hst hle
        exact tcps_rx_otw_ack_switch_inv plat tcpips _ h ha
          (TCB_INV_ack plat tcb _ hi (not_lt.mp hle))

/-- The fields of a TCB that the text of a segment does not touch. -/
theorem tcps_rx_otw_text_user_fields (plat : Platform) (tcpips : TCPIPS) (tcb : TCP_TCB)
    (rx : Io) (io : Io) (h : HANDLE) (t : TEXT) :
    (tcps_rx_otw_text_user plat tcpips tcb rx io h t).1.tcps = tcpips.tcps
    ∧ (tcps_rx_otw_text_user plat tcpips tcb rx io h t).2.1.snd_una = tcb.snd_una
    ∧ (tcps_rx_otw_text_user plat tcpips tcb rx io h t).2.1.snd_nxt = tcb.snd_nxt
    ∧ (tcps_rx_otw_text_user plat tcpips tcb rx io h t).2.1.fin = tcb.fin
    ∧ (tcps_rx_otw_text_user plat tcpips tcb rx io h t).2.1.rcv_nxt = tcb.rcv_nxt
    ∧ (tcps_rx_otw_text_user plat tcpips tcb rx io h t).2.1.state = tcb.state := by
  unfold tcps_rx_otw_text_user
  dsimp only
  split_ifs <;> exact ⟨rfl, rfl, rfl, rfl, rfl, rfl⟩

theorem tcps_rx_otw_text_queue_fields (plat : Platform) (tcb : TCP_TCB) (io : Io) (t : TEXT) :
    (tcps_rx_otw_text_queue plat tcb io t).snd_una = tcb.snd_una
    ∧ (tcps_rx_otw_text_queue plat tcb io t).snd_nxt = tcb.snd_nxt
    ∧ (tcps_rx_otw_text_queue plat tcb io t).fin = tcb.fin
    ∧ (tcps_rx_otw_text_queue plat tcb io t).rcv_nxt = tcb.rcv_nxt
    ∧ (tcps_rx_otw_text_queue plat tcb io t).state = tcb.state := by
  unfold tcps_rx_otw_text_queue
  split
  · cases tcb.rx_tmp <;> exact ⟨rfl, rfl, rfl, rfl, rfl⟩
  · exact ⟨rfl, rfl, rfl, rfl, rfl⟩

theorem tcps_rx_otw_text_data_fields (plat : Platform) (tcpips : TCPIPS) (tcb : TCP_TCB)
    (io : Io) (h : HANDLE) :
    (tcps_rx_otw_text_data plat tcpips tcb io h).1.tcps = tcpips.tcps
    ∧ (tcps_rx_otw_text_data plat tcpips tcb io h).2.snd_una = tcb.snd_una
    ∧ (tcps_rx_otw_text_data plat tcpips tcb io h).2.snd_nxt = tcb.snd_nxt
    ∧ (tcps_rx_otw_text_data plat tcpips tcb io h).2.fin = tcb.fin
    ∧ (tcps_rx_otw_text_data plat tcpips tcb io h).2.rcv_nxt
        = u32 (tcb.rcv_nxt + tcps_data_len io)
    ∧ (tcps_rx_otw_text_data plat tcpips tcb io h).2.state = tcb.state := by
  unfold tcps_rx_otw_text_data
  dsimp only
  have q := tcps_rx_otw_text_queue_fields plat
  have u := tcps_rx_otw_text_user_fields plat tcpips
  cases hrx : tcb.rx with
  | none =>
    dsimp only
    exact ⟨rfl, (q _ _ _).1, (q _ _ _).2.1, (q _ _ _).2.2.1, (q _ _ _).2.2.2.1,
      (q _ _ _).2.2.2.2⟩
  | some rx =>
    dsimp only
    exact ⟨(u _ _ _ _ _).1, ((q _ _ _).1).trans (u _ _ _ _ _).2.1,
      ((q _ _ _).2.1).trans (u _ _ _ _ _).2.2.1,
      ((q _ _ _).2.2.1).trans (u _ _ _ _ _).2.2.2.1,
      ((q _ _ _).2.2.2.1).trans (u _ _ _ _ _).2.2.2.2.1,
      ((q _ _ _).2.2.2.2).trans (u _ _ _ _ _).2.2.2.2.2⟩

theorem tcps_update_rx_wnd_fields (plat : Platform) (tcb : TCP_TCB) :
    (tcps_update_rx_wnd plat tcb).snd_una = tcb.snd_una
    ∧ (tcps_update_rx_wnd plat tcb).snd_nxt = tcb.snd_nxt
    ∧ (tcps_update_rx_wnd plat tcb).fin = tcb.fin
    ∧ (tcps_update_rx_wnd plat tcb).rcv_nxt = tcb.rcv_nxt
    ∧ (tcps_update_rx_wnd plat tcb).state = tcb.state :=
  ⟨rfl, rfl, rfl, rfl, rfl⟩

theorem SND_INV_congr (a b : TCP_TCB) (h1 : b.snd_una = a.snd_una) (h2 : b.snd_nxt = a.snd_nxt)
    (h3 : b.fin = a.fin) (ha : SND_INV a) : SND_INV b := by
  unfold SND_INV at *
  rw [h1, h2, h3]
  exact ha

theorem tcps_rx_otw_text_inv (plat : Platform) (tcpips : TCPIPS) (io : Io)
    (h : HANDLE) (ha : ALL_TCB (TCB_INV plat) tcpips) :
    ALL_TCB (TCB_INV plat) (tcps_rx_otw_text plat tcpips io h) := by
  unfold tcps_rx_otw_text
  cases hg : so_get tcpips.tcps.tcbs h with
  | none => exact ha
  | some tcb =>
    have hi := ha h tcb hg
    dsimp only
    split
    · split
      · obtain ⟨d1, d2, d3, d4, _, _⟩ := tcps_rx_otw_text_data_fields plat tcpips tcb io h
        refine ALL_TCB_set_tcb _ _ _ _ ?_ ⟨?_, WND_INV_update plat _⟩
        · exact ALL_TCB_of_tcbs _ tcpips _ (congrArg TCPS.tcbs d1) ha
        · exact SND_INV_congr tcb _ d2 d3 d4 hi.1
      · exact ha
    · exact ha

theorem SND_INV_fin (tcb : TCP_TCB) (hi : SND_INV tcb) (hf : tcb.fin = false) :
    SND_INV { tcb with fin := true, snd_nxt := u32 (tcb.snd_nxt + 1) } := by
  obtain ⟨hu, hn, hd⟩ := hi
  simp only [SND_INV, tcps_delta, u32, hf] at *
  simp only [Bool.false_eq_true, if_false, if_true] at *
  split_ifs at * <;> omega

theorem TCB_INV_fin (plat : Platform) (tcb : TCP_TCB) (hi : TCB_INV plat tcb) (n : Nat) :
    TCB_INV plat
      (if ¬ ({ tcb with rcv_nxt := n } : TCP_TCB).fin
        then { ({ tcb with rcv_nxt := n } : TCP_TCB) with
               fin := true, snd_nxt := u32 (tcb.snd_nxt + 1) }
        else { tcb with rcv_nxt := n }) := by
  split
  · rename_i hf
    have hf2 : tcb.fin = false := by simpa using hf
    exact ⟨SND_INV_fin tcb hi.1 hf2, hi.2⟩
  · exact ⟨hi.1, hi.2⟩

theorem tcps_rx_otw_fin_switch_inv (plat : Platform) (tcpips : TCPIPS) (tcb : TCP_TCB)
    (h : HANDLE) (ha : ALL_TCB (TCB_INV plat) tcpips) (hi : TCB_INV plat tcb) :
    ALL_TCB (TCB_INV plat) (tcps_rx_otw_fin_switch tcpips tcb h) := by
  unfold tcps_rx_otw_fin_switch
  split
  · exact ALL_TCB_set_tcb _ _ _ _ (ALL_TCB_of_tcbs _ tcpips _ rfl ha) (TCB_INV_state plat _ hi _)
  · exact ALL_TCB_set_tcb _ _ _ _ ha (TCB_INV_state plat _ hi _)
  · refine ALL_TCB_set_tcb _ _ _ _ ha ?_
    split
    · exact TCB_INV_state plat _ hi _
    · exact TCB_INV_state plat _ hi _
  · exact ALL_TCB_set_tcb _ _ _ _ ha (TCB_INV_state plat _ hi _)
  · exact ALL_TCB_set_tcb _ _ _ _ ha hi

theorem tcps_rx_otw_fin_inv (plat : Platform) (tcpips : TCPIPS) (h : HANDLE)
    (ha : ALL_TCB (TCB_INV plat) tcpips) :
    ALL_TCB (TCB_INV plat) (tcps_rx_otw_fin tcpips h) := by
  unfold tcps_rx_otw_fin
  cases hg : so_get tcpips.tcps.tcbs h with
  | none => exact ha
  | some tcb =>
    exact tcps_rx_otw_fin_switch_inv plat tcpips _ h ha
      (TCB_INV_fin plat tcb (ha h tcb hg) (u32 (tcb.rcv_nxt + 1)))

theorem tcps_rx_send_inv (plat : Platform) (sys : Sys) (tcpips : TCPIPS) (h : HANDLE)
    (ha : ALL_TCB (TCB_INV plat) tcpips) :
    ALL_TCB (TCB_INV plat) (tcps_rx_send plat sys tcpips h) := by
  unfold tcps_rx_send
  cases hg : so_get tcpips.tcps.tcbs h with
  | none => exact ha
  | some tcb =>
    have hi := ha h tcb hg
    dsimp only
    split
    · exact ALL_TCB_set_tcb _ _ _ _ ha ⟨hi.1, hi.2⟩
    · split
      · exact ha
      · refine ALL_TCB_of_tcbs _ tcpips _ ?_ ha
        rw [tcps_tx_text_ack_fin_tcps]

theorem tcps_rx_otw_inv (plat : Platform) (sys : Sys) (tcpips : TCPIPS) (io : Io) (h : HANDLE)
    (ha : ALL_TCB (TCB_INV plat) tcpips) :
    ALL_TCB (TCB_INV plat) (tcps_rx_otw plat sys tcpips io h) := by
  unfold tcps_rx_otw
  have hc : ALL_TCB (TCB_INV plat) (tcps_rx_otw_check_seq plat sys tcpips io h).2.2 :=
    ALL_TCB_of_tcbs _ tcpips _ (congrArg TCPS.tcbs (tcps_rx_otw_check_seq_tcps _ _ _ _ _)) ha
  dsimp only
  split
  · exact hc
  · split
    · exact ALL_TCB_destroy _ _ _ hc
    · split
      · split
        · exact tcps_rx_otw_ack_inv _ _ _ _ _ hc
        · apply tcps_rx_send_inv
          split
          · apply tcps_rx_otw_fin_inv
            apply tcps_rx_otw_text_inv
            exact tcps_rx_otw_ack_inv _ _ _ _ _ hc
          · apply tcps_rx_otw_text_inv
            exact tcps_rx_otw_ack_inv _ _ _ _ _ hc
      · exact hc

theorem tcps_rx_process_inv (plat : Platform) (sys : Sys) (tcpips : TCPIPS) (io : Io)
    (h : HANDLE) (ha : ALL_TCB (TCB_INV plat) tcpips) :
    ALL_TCB (TCB_INV plat) (tcps_rx_process plat sys tcpips io h) := by
  unfold tcps_rx_process
  cases hg : so_get tcpips.tcps.tcbs h with
  | none => exact ha
  | some tcb =>
    dsimp only
    split
    · exact tcps_rx_closed_inv _ _ _ _ _ _ ha
    · exact tcps_rx_listen_inv _ _ _ _ _ ha
    · exact ha
    · exact tcps_rx_otw_inv _ _ _ _ _ ha

theorem TCB_INV_create (plat : Platform) (t : TCP_TCB) (h1 : t.snd_una = 0) (h2 : t.snd_nxt = 0) :
    TCB_INV plat (tcps_update_rx_wnd plat t) := by
  refine ⟨?_, WND_INV_update plat t⟩
  refine SND_INV_congr { t with fin := t.fin } _ rfl rfl rfl ?_
  simp only [SND_INV, h1, h2, tcps_delta, ge_iff_le, le_refl, if_true, Nat.sub_self]
  refine ⟨by omega, by omega, ?_⟩
  split <;> omega

theorem tcps_create_tcb_inv (plat : Platform) (sys : Sys) (tcpips : TCPIPS) (a : IP)
    (p q : Nat) (ha : ALL_TCB (TCB_INV plat) tcpips) :
    ALL_TCB (TCB_INV plat) (tcps_create_tcb plat sys tcpips a p q).2 := by
  unfold tcps_create_tcb
  exact ALL_TCB_allocate _ _ _ _ ha (TCB_INV_create plat _ rfl rfl)

theorem tcps_rx_inv (plat : Platform) (sys : Sys) (tcpips r : TCPIPS) (io : Io) (src : IP)
    (ha : ALL_TCB (TCB_INV plat) tcpips) (hr : tcps_rx plat sys tcpips io src = some r) :
    ALL_TCB (TCB_INV plat) r := by
  unfold tcps_rx at hr
  split at hr
  · cases hr
    exact ALL_TCB_of_tcbs _ tcpips _ rfl ha
  · dsimp only at hr
    obtain ⟨p, hp⟩ : ∃ p : HANDLE × TCPIPS, p =
        (if tcps_find_tcb tcpips src (tcp_src_port io) (tcp_dst_port io) = INVALID_HANDLE then
          if (tcps_create_tcb plat sys tcpips src (tcp_src_port io) (tcp_dst_port io)).1
              ≠ INVALID_HANDLE then
            if tcps_find_listener
                (tcps_create_tcb plat sys tcpips src (tcp_src_port io) (tcp_dst_port io)).2
                (tcp_dst_port io) ≠ INVALID_HANDLE then
              match so_get
                (tcps_create_tcb plat sys tcpips src (tcp_src_port io)
                  (tcp_dst_port io)).2.tcps.tcbs
                (tcps_create_tcb plat sys tcpips src (tcp_src_port io) (tcp_dst_port io)).1 with
              | none => tcps_create_tcb plat sys tcpips src (tcp_src_port io) (tcp_dst_port io)
              | some tcb =>
                ((tcps_create_tcb plat sys tcpips src (tcp_src_port io) (tcp_dst_port io)).1,
                  (tcps_create_tcb plat sys tcpips src (tcp_src_port io)
                    (tcp_dst_port io)).2.set_tcb
                    (tcps_create_tcb plat sys tcpips src (tcp_src_port io) (tcp_dst_port io)).1
                    { tcb with
                      state := TCP_STATE.LISTEN, active := false
                      process := tcps_find_listener
                        (tcps_create_tcb plat sys tcpips src (tcp_src_port io)
                          (tcp_dst_port io)).2 (tcp_dst_port io) })
            else tcps_create_tcb plat sys tcpips src (tcp_src_port io) (tcp_dst_port io)
          else tcps_create_tcb plat sys tcpips src (tcp_src_port io) (tcp_dst_port io)
        else (tcps_find_tcb tcpips src (tcp_src_port io) (tcp_dst_port io), tcpips)) := ⟨_, rfl⟩
    rw [← hp] at hr
    have hpi : ALL_TCB (TCB_INV plat) p.2 := by
      have hcr := tcps_create_tcb_inv plat sys tcpips src (tcp_src_port io) (tcp_dst_port io) ha
      rw [hp]
      split
      · split
        · split
          · split
            · exact hcr
            · rename_i tcb hg
              exact ALL_TCB_set_tcb _ _ _ _ hcr ⟨(hcr _ tcb hg).1, (hcr _ tcb hg).2⟩
          · exact hcr
        · exact hcr
      · exact ha
    split at hr
    · split at hr
      · cases hr
        exact ALL_TCB_of_tcbs _ p.2 _ rfl hpi
      · rename_i tcb hg
        split at hr
        · cases hr
        · rename_i o ho
          obtain ⟨⟨l, hl⟩, ⟨m, hm⟩⟩ := tcps_apply_options_frame _ _ _ _ _ ho
          have hti : TCB_INV plat { o.2 with tx_wnd := tcp_window io } := by
            rw [hm]
            exact ⟨(hpi _ tcb hg).1, (hpi _ tcb hg).2⟩
          have ho1 : ALL_TCB (TCB_INV plat) o.1 := by
            rw [hl]
            exact ALL_TCB_of_tcbs _ p.2 _ rfl hpi
          have hfin := tcps_rx_process_inv plat sys _ io p.1 (ALL_TCB_set_tcb _ _ p.1 _ ho1 hti)
          split at hr
          · cases hr
            exact hfin
          · cases hr
            exact ALL_TCB_of_tcbs _ _ _ rfl hfin
    · cases hr
      exact ALL_TCB_of_tcbs _ p.2 _ rfl hpi

theorem tcps_read_inv (plat : Platform) (tcpips : TCPIPS) (h : HANDLE) (io : Io)
    (ha : ALL_TCB (TCB_INV plat) tcpips) :
    ALL_TCB (TCB_INV plat) (tcps_read plat tcpips h io) := by
  unfold tcps_read
  cases hg : so_get tcpips.tcps.tcbs h with
  | none => exact ha
  | some tcb =>
    have hi := ha h tcb hg
    dsimp only
    split
    · exact ALL_TCB_of_tcbs _ tcpips _ rfl ha
    · split
      · cases htmp : tcb.rx_tmp with
        | none =>
          dsimp only
          refine ALL_TCB_set_tcb _ _ _ _ (ALL_TCB_of_tcbs _ tcpips _ rfl ha)
            ⟨?_, WND_INV_update plat _⟩
          exact SND_INV_congr tcb _ rfl rfl rfl hi.1
        | some tmp =>
          dsimp only
          split
          · refine ALL_TCB_of_tcbs _ (TCPIPS.set_tcb _ h _) _ rfl
              (ALL_TCB_set_tcb _ _ _ _ ?_ ⟨?_, WND_INV_update plat _⟩)
            · split
              · exact ALL_TCB_of_tcbs _ tcpips _ rfl ha
              · exact ALL_TCB_of_tcbs _ tcpips _ rfl ha
            · exact SND_INV_congr tcb _ rfl rfl rfl hi.1
          · refine ALL_TCB_set_tcb _ _ _ _ ?_ ⟨?_, WND_INV_update plat _⟩
            · split
              · exact ALL_TCB_of_tcbs _ tcpips _ rfl ha
              · exact ALL_TCB_of_tcbs _ tcpips _ rfl ha
            · exact SND_INV_congr tcb _ rfl rfl rfl hi.1
      · exact ALL_TCB_of_tcbs _ tcpips _ rfl ha

theorem tcps_listen_tcbs (sys : Sys) (tcpips : TCPIPS) (ipc : IPC) :
    (tcps_listen sys tcpips ipc).1.tcps.tcbs = tcpips.tcps.tcbs := by
  unfold tcps_listen
  split
  · rfl
  · dsimp only
    split <;> rfl

theorem tcps_request_inv (plat : Platform) (sys : Sys) (tcpips : TCPIPS) (ipc : IPC) (io : Io)
    (ha : ALL_TCB (TCB_INV plat) tcpips) :
    ALL_TCB (TCB_INV plat) (tcps_request plat sys tcpips ipc io).1 := by
  unfold tcps_request
  split
  · exact ALL_TCB_of_tcbs _ tcpips _ rfl ha
  · split
    · split
      · exact ALL_TCB_of_tcbs _ tcpips _ (tcps_listen_tcbs sys tcpips ipc) ha
      · exact ALL_TCB_of_tcbs _ tcpips _ rfl ha
    · exact ha
    · exact tcps_read_inv plat tcpips _ io ha
    · exact ha
    · exact ha
    · exact ALL_TCB_of_tcbs _ tcpips _ rfl ha

/-- Every TCB of every reachable state satisfies `TCB_INV`. -/
theorem reachable_inv (plat : Platform) (tcpips : TCPIPS) (hr : Reachable plat tcpips) :
    ALL_TCB (TCB_INV plat) tcpips := by
  induction hr with
  | init t =>
    intro h tcb hg
    simp [tcps_init, so_create, so_get] at hg
  | rx t r sys io src _ hrx ih => exact tcps_rx_inv plat sys t r io src ih hrx
  | request t sys ipc io _ ih => exact tcps_request_inv plat sys t ipc io ih
  | link t up _ ih => exact ALL_TCB_of_tcbs _ t _ rfl ih

theorem SND_INV_diff (tcb : TCP_TCB) (hi : SND_INV tcb) :
    0 ≤ tcps_diff tcb.snd_una tcb.snd_nxt ∧ tcps_diff tcb.snd_una tcb.snd_nxt ≠ 65536
      ∧ u32i ((tcb.snd_nxt : Int) - (tcb.snd_una : Int)) ≤ 2 := by
  obtain ⟨hu, hn, hd⟩ := hi
  have hfin : (if tcb.fin = true then 2 else 1) ≤ 2 := by split <;> omega
  simp only [tcps_diff, tcps_delta, u32, u32i] at *
  split_ifs at * <;> omega

/-- C6. In every state reached from `tcps_init` by calls of `tcps_rx` and
`tcps_request`, every TCB of the table has `snd_una ≤ snd_nxt` in modular
sequence order: `tcps_diff snd_una snd_nxt` is non-negative and is not the
saturated value 65536; indeed `(snd_nxt - snd_una) mod 2^32` is at most 2. -/
theorem snd_una_le_snd_nxt (plat : Platform) (tcpips : TCPIPS) (h : HANDLE) (tcb : TCP_TCB)
    (hr : Reachable plat tcpips) (hg : so_get tcpips.tcps.tcbs h = some tcb) :
    0 ≤ tcps_diff tcb.snd_una tcb.snd_nxt ∧ tcps_diff tcb.snd_una tcb.snd_nxt ≠ 65536
      ∧ u32i ((tcb.snd_nxt : Int) - (tcb.snd_una : Int)) ≤ 2 :=
  SND_INV_diff tcb (reachable_inv plat tcpips hr h tcb hg).1

/-- C8. In every state reached from `tcps_init` by calls of `tcps_rx` and
`tcps_request` (which runs `tcps_read`), every TCB has `rx_wnd ≤ TCP_MSS_MAX +
free space of rx + free space of rx_tmp` (0 for a buffer that is not there);
and so has every TCB of the table right after `tcps_create_tcb`. -/
theorem rx_wnd_le (plat : Platform) (tcpips : TCPIPS) (hr : Reachable plat tcpips) :
    (∀ (h : HANDLE) (tcb : TCP_TCB), so_get tcpips.tcps.tcbs h = some tcb →
      tcb.rx_wnd ≤ TCP_MSS_MAX plat + free_of tcb.rx + free_of tcb.rx_tmp)
    ∧ (∀ (sys : Sys) (a : IP) (p q : Nat) (h : HANDLE) (tcb : TCP_TCB),
      so_get (tcps_create_tcb plat sys tcpips a p q).2.tcps.tcbs h = some tcb →
      tcb.rx_wnd ≤ TCP_MSS_MAX plat + free_of tcb.rx + free_of tcb.rx_tmp)
    ∧ (∀ (h : HANDLE) (io : Io) (j : HANDLE) (tcb : TCP_TCB),
      so_get (tcps_read plat tcpips h io).tcps.tcbs j = some tcb →
      tcb.rx_wnd ≤ TCP_MSS_MAX plat + free_of tcb.rx + free_of tcb.rx_tmp) := by
  have hi := reachable_inv plat tcpips hr
  refine ⟨fun h tcb hg => (hi h tcb hg).2, ?_, ?_⟩
  · intro sys a p q h tcb hg
    exact (tcps_create_tcb_inv plat sys tcpips a p q hi h tcb hg).2
  · intro h io j tcb hg
    exact (tcps_read_inv plat tcpips h io hi j tcb hg).2

theorem demo_after_syn_reachable : Reachable demo_plat demo_after_syn := by
  have h0 : Reachable demo_plat demo_listening :=
    Reachable.request demo_init demo_sys demo_ipc_listen (demo_io 0) (Reachable.init _)
  refine Reachable.rx demo_listening demo_after_syn demo_sys demo_seg_syn 0x0A000002 h0 ?_
  have hs : (tcps_rx demo_plat demo_sys demo_listening demo_seg_syn 0x0A000002).isSome
      = true := by decide
  obtain ⟨r, hr⟩ := Option.isSome_iff_exists.mp hs
  simp only [demo_after_syn, hr, Option.getD_some]

/-- Witness of C6: after the listen request and the SYN of the handshake
scenario the table holds a TCB in SYN_RECEIVED under handle 0. -/
theorem snd_una_le_snd_nxt_witness :
    ∃ tcb : TCP_TCB, so_get demo_after_syn.tcps.tcbs 0 = some tcb
      ∧ tcb.state = TCP_STATE.SYN_RECEIVED
      ∧ 0 ≤ tcps_diff tcb.snd_una tcb.snd_nxt ∧ tcps_diff tcb.snd_una tcb.snd_nxt ≠ 65536 := by
  have hs : (so_get demo_after_syn.tcps.tcbs 0).isSome = true := by decide
  obtain ⟨tcb, hg⟩ := Option.isSome_iff_exists.mp hs
  have hst : (so_get demo_after_syn.tcps.tcbs 0).map (fun t => t.state)
      = some TCP_STATE.SYN_RECEIVED := by decide
  rw [hg] at hst
  have h := snd_una_le_snd_nxt demo_plat demo_after_syn 0 tcb demo_after_syn_reachable hg
  exact ⟨tcb, hg, by simpa using hst, h.1, h.2.1⟩

/-- Witness of C8: the TCB of the handshake scenario advertises the window
1460, which is `TCP_MSS_MAX` of the platform. -/
theorem rx_wnd_le_witness :
    ∃ tcb : TCP_TCB, so_get demo_after_syn.tcps.tcbs 0 = some tcb
      ∧ tcb.rx_wnd = 1460
      ∧ tcb.rx_wnd ≤ TCP_MSS_MAX demo_plat + free_of tcb.rx + free_of tcb.rx_tmp := by
  have hs : (so_get demo_after_syn.tcps.tcbs 0).isSome = true := by decide
  obtain ⟨tcb, hg⟩ := Option.isSome_iff_exists.mp hs
  have hw : (so_get demo_after_syn.tcps.tcbs 0).map (fun t => t.rx_wnd) = some 1460 := by
    decide
  rw [hg] at hw
  exact ⟨tcb, hg, by simpa using hw,
    (rx_wnd_le demo_plat demo_after_syn demo_after_syn_reachable).1 0 tcb hg⟩

/-! ## The sequence check and `rcv_nxt` -/

theorem byte_memmove_lt (m : Mem) (d s n j : Nat) (hj : j < d) :
    byte (memmove m d s n) j = byte m j := by
  unfold byte memmove memcpy
  have : ¬ (d ≤ j ∧ j < d + n) := by omega
  simp [this]

theorem tcps_data_offset_clear_flag (io : Io) (f : Nat) :
    tcps_data_offset (clear_flag io f) = tcps_data_offset io := by
  simp [tcps_data_offset, clear_flag, byte_poke]

theorem tcp_flags_clear_flag (io : Io) (f : Nat) :
    tcp_flags (clear_flag io f) = u8 (tcp_flags io &&& (255 - f)) := by
  simp [tcp_flags, clear_flag, byte_poke]

set_option maxRecDepth 100000 in
theorem byte_clear_flag_fin : ∀ x, x < 256 →
    ((((x &&& 253) % 256 &&& 1) != 0) = ((x &&& 1) != 0))
    ∧ ((((x &&& 254) % 256 &&& 1) != 0) = false)
    ∧ ((((x &&& 247) % 256 &&& 1) != 0) = ((x &&& 1) != 0)) := by
  decide

theorem has_flag_fin_clear_syn (io : Io) :
    has_flag (clear_flag io TCP_FLAG_SYN) TCP_FLAG_FIN = has_flag io TCP_FLAG_FIN := by
  simp only [has_flag, tcp_flags_clear_flag, u8, TCP_FLAG_SYN, TCP_FLAG_FIN]
  exact (byte_clear_flag_fin (tcp_flags io) (tcp_flags_lt io)).1

theorem has_flag_fin_clear_fin (io : Io) :
    has_flag (clear_flag io TCP_FLAG_FIN) TCP_FLAG_FIN = false := by
  simp only [has_flag, tcp_flags_clear_flag, u8, TCP_FLAG_FIN]
  exact (byte_clear_flag_fin (tcp_flags io) (tcp_flags_lt io)).2.1

theorem has_flag_fin_clear_psh (io : Io) :
    has_flag (clear_flag io TCP_FLAG_PSH) TCP_FLAG_FIN = has_flag io TCP_FLAG_FIN := by
  simp only [has_flag, tcp_flags_clear_flag, u8, TCP_FLAG_PSH, TCP_FLAG_FIN]
  exact (byte_clear_flag_fin (tcp_flags io) (tcp_flags_lt io)).2.2

theorem tcps_data_offset_congr (a b : Io) (h : byte a.mem 12 = byte b.mem 12) :
    tcps_data_offset a = tcps_data_offset b := by
  simp only [tcps_data_offset, h]

theorem has_flag_congr (a b : Io) (f : Nat) (h : byte a.mem 13 = byte b.mem 13) :
    has_flag a f = has_flag b f := by
  simp only [has_flag, tcp_flags, h]

theorem memmove_header (io : Io) (d s n x : Nat) (f : Nat) (hd : 20 ≤ d) :
    tcps_data_offset { io with mem := memmove io.mem d s n, data_size := x }
        = tcps_data_offset io
    ∧ has_flag { io with mem := memmove io.mem d s n, data_size := x } f = has_flag io f :=
  ⟨tcps_data_offset_congr _ _ (byte_memmove_lt _ _ _ _ _ (by omega)),
   has_flag_congr _ _ _ (byte_memmove_lt _ _ _ _ _ (by omega))⟩

/-- What the block that strips the overlap does to a segment whose data start
behind the header: data offset and FIN are kept, the size shrinks by the
overlap (less one when FIN is set), the length by the overlap. -/
theorem tcps_rx_otw_check_seq_strip_spec (c : CHECK_SEQ) (sd : Int)
    (hoff : TCP_HEADER_SIZE ≤ tcps_data_offset c.io) :
    tcps_data_offset (tcps_rx_otw_check_seq_strip c sd).io = tcps_data_offset c.io
    ∧ has_flag (tcps_rx_otw_check_seq_strip c sd).io TCP_FLAG_FIN = has_flag c.io TCP_FLAG_FIN
    ∧ (tcps_rx_otw_check_seq_strip c sd).seg_len = c.seg_len + sd
    ∧ (tcps_rx_otw_check_seq_strip c sd).io.data_size
        = u32i ((c.io.data_size : Int)
            - ((-(sd + (if has_flag c.io TCP_FLAG_SYN then 1 else 0)))
                - (if has_flag c.io TCP_FLAG_FIN then 1 else 0))) := by
  have h20 : TCP_HEADER_SIZE = 20 := rfl
  rw [h20] at hoff
  have ho1 := tcps_data_offset_clear_flag c.io TCP_FLAG_SYN
  have hf1 := has_flag_fin_clear_syn c.io
  unfold tcps_rx_otw_check_seq_strip
  by_cases hs : has_flag c.io TCP_FLAG_SYN = true
  · by_cases hf : has_flag c.io TCP_FLAG_FIN = true
    · rw [hf] at hf1
      simp only [hs, hf, hf1, if_true]
      have hm := memmove_header (clear_flag c.io TCP_FLAG_SYN)
        (tcps_data_offset (clear_flag c.io TCP_FLAG_SYN))
        (u32i ((tcps_data_offset (clear_flag c.io TCP_FLAG_SYN) : Int) + -(sd + 1)))
        (u32i (c.seg_len - 1 - -(sd + 1) - 1))
        (u32i (((clear_flag c.io TCP_FLAG_SYN).data_size : Int) - (-(sd + 1) - 1)))
        TCP_FLAG_FIN (by rw [ho1]; exact hoff)
      refine ⟨hm.1.trans ho1, hm.2.trans hf1, by omega, ?_⟩
      show u32i (((clear_flag c.io TCP_FLAG_SYN).data_size : Int) - (-(sd + 1) - 1)) = _
      rfl
    · have hf0 : has_flag c.io TCP_FLAG_FIN = false := by simpa using hf
      rw [hf0] at hf1
      simp only [hs, hf0, hf1, if_true, Bool.false_eq_true, if_false]
      have hm := memmove_header (clear_flag c.io TCP_FLAG_SYN)
        (tcps_data_offset (clear_flag c.io TCP_FLAG_SYN))
        (u32i ((tcps_data_offset (clear_flag c.io TCP_FLAG_SYN) : Int) + -(sd + 1)))
        (u32i (c.seg_len - 1 - -(sd + 1)))
        (u32i (((clear_flag c.io TCP_FLAG_SYN).data_size : Int) - -(sd + 1)))
        TCP_FLAG_FIN (by rw [ho1]; exact hoff)
      refine ⟨hm.1.trans ho1, hm.2.trans hf1, by omega, ?_⟩
      show u32i (((clear_flag c.io TCP_FLAG_SYN).data_size : Int) - -(sd + 1)) = _
      simp only [sub_zero]
      rfl
  · have hs0 : has_flag c.io TCP_FLAG_SYN = false := by simpa using hs
    by_cases hf : has_flag c.io TCP_FLAG_FIN = true
    · simp only [hs0, hf, if_true, Bool.false_eq_true, if_false]
      have hm := memmove_header c.io (tcps_data_offset c.io)
        (u32i ((tcps_data_offset c.io : Int) + -sd)) (u32i (c.seg_len - -sd - 1))
        (u32i ((c.io.data_size : Int) - (-sd - 1))) TCP_FLAG_FIN hoff
      refine ⟨hm.1, hm.2.trans hf, by omega, ?_⟩
      simp only [add_zero]
    · have hf0 : has_flag c.io TCP_FLAG_FIN = false := by simpa using hf
      simp only [hs0, hf0, Bool.false_eq_true, if_false]
      have hm := memmove_header c.io (tcps_data_offset c.io)
        (u32i ((tcps_data_offset c.io : Int) + -sd)) (u32i (c.seg_len - -sd))
        (u32i ((c.io.data_size : Int) - -sd)) TCP_FLAG_FIN hoff
      refine ⟨hm.1, hm.2.trans hf0, by omega, ?_⟩
      simp only [add_zero, sub_zero]

/-- What the block that chops to the window does to a segment: the data offset
is kept, FIN is cleared, and the size is set to `seg_len - rx_wnd` when the
segment without its FIN still exceeds the window. -/
theorem tcps_rx_otw_check_seq_chop_spec (c : CHECK_SEQ) (w : Nat) :
    tcps_data_offset (tcps_rx_otw_check_seq_chop c w).io = tcps_data_offset c.io
    ∧ has_flag (tcps_rx_otw_check_seq_chop c w).io TCP_FLAG_FIN = false
    ∧ (tcps_rx_otw_check_seq_chop c w).io.data_size
        = (if c.seg_len - (if has_flag c.io TCP_FLAG_FIN then 1 else 0) > (w : Int)
            then u32i (c.seg_len - (if has_flag c.io TCP_FLAG_FIN then 1 else 0) - w)
            else c.io.data_size) := by
  unfold tcps_rx_otw_check_seq_chop
  by_cases hf : has_flag c.io TCP_FLAG_FIN = true
  · simp only [hf, if_true]
    by_cases ho : c.seg_len - 1 > (w : Int)
    · simp only [ho, decide_True, if_true]
      refine ⟨?_, ?_, rfl⟩
      · rw [tcps_data_offset_clear_flag]
        exact (tcps_data_offset_congr _ _ rfl).trans (tcps_data_offset_clear_flag _ _)
      · rw [has_flag_fin_clear_psh]
        exact (has_flag_congr _ _ _ rfl).trans (has_flag_fin_clear_fin _)
    · simp only [ho, decide_False, Bool.false_eq_true, if_false]
      refine ⟨?_, ?_, rfl⟩
      · rw [tcps_data_offset_clear_flag, tcps_data_offset_clear_flag]
      · rw [has_flag_fin_clear_psh, has_flag_fin_clear_fin]
  · have hf0 : has_flag c.io TCP_FLAG_FIN = false := by simpa using hf
    simp only [hf0, Bool.false_eq_true, if_false, sub_zero]
    by_cases ho : c.seg_len > (w : Int)
    · simp only [ho, decide_True, if_true]
      refine ⟨?_, ?_, rfl⟩
      · rw [tcps_data_offset_clear_flag]
        exact tcps_data_offset_congr _ _ rfl
      · rw [has_flag_fin_clear_psh]
        exact (has_flag_congr _ _ _ rfl).trans hf0
    · simp only [ho, decide_False, Bool.false_eq_true, if_false]
      refine ⟨?_, ?_, rfl⟩
      · rw [tcps_data_offset_clear_flag]
      · rw [has_flag_fin_clear_psh, hf0]

theorem tcps_seg_len_eq (io : Io) (hoff : TCP_HEADER_SIZE ≤ tcps_data_offset io)
    (hds : io.data_size < 4294967296) :
    tcps_seg_len io = tcps_data_len io + (if has_flag io TCP_FLAG_SYN then 1 else 0)
      + (if has_flag io TCP_FLAG_FIN then 1 else 0)
    ∧ tcps_seg_len io < 4294967296 := by
  have h20 : TCP_HEADER_SIZE = 20 := rfl
  rw [h20] at hoff
  have hdl : tcps_data_len io + 20 ≤ 4294967296 := by
    simp only [tcps_data_len]
    split <;> omega
  simp only [tcps_seg_len, u32]
  split <;> split <;> omega

theorem toInt32_spec (x : Nat) (hx : x < 4294967296) :
    (x < 2147483648 → toInt32 x = x) ∧ (2147483648 ≤ x → toInt32 x < 0) := by
  have hm : x % 4294967296 = x := by omega
  simp only [toInt32, hm]
  constructor
  · intro h
    simp [h]
  · intro h
    split <;> omega

/-- The arithmetic of the two adjusting blocks: `ds` is the size of the
segment, `off` its data offset, `s` and `f` its SYN and FIN, `sl` its
sequence length, `L` that length as an `int`, `sd` the distance of its
sequence number from `rcv_nxt`, `w` the window; the two sizes bounded are the
ones after the chop and without it. -/
theorem adjust_arith (ds off sl w s f : Nat) (L sd : Int)
    (hs : s ≤ 1) (hf : f ≤ 1) (hoff : 20 ≤ off) (hds : ds < 4294967296)
    (hsl : sl = (if ds > off then ds - off else 0) + s + f)
    (hL1 : sl < 2147483648 → L = sl) (hL2 : 2147483648 ≤ sl → L < 0)
    (hnd : ¬ (sd < 0 ∧ L + sd ≤ 0)) :
    (((if sd < 0 then L + sd else L) > (w : Int) ∧ w > 0) →
      (if (if (if sd < 0 then L + sd else L) - (f : Int) > (w : Int)
            then u32i ((if sd < 0 then L + sd else L) - (f : Int) - (w : Int))
            else (if sd < 0 then u32i ((ds : Int) - ((-(sd + (s : Int))) - (f : Int)))
                  else ds)) > off
        then (if (if sd < 0 then L + sd else L) - (f : Int) > (w : Int)
            then u32i ((if sd < 0 then L + sd else L) - (f : Int) - (w : Int))
            else (if sd < 0 then u32i ((ds : Int) - ((-(sd + (s : Int))) - (f : Int)))
                  else ds)) - off
        else 0) ≤ sl)
    ∧ (if (if sd < 0 then u32i ((ds : Int) - ((-(sd + (s : Int))) - (f : Int))) else ds) > off
        then (if sd < 0 then u32i ((ds : Int) - ((-(sd + (s : Int))) - (f : Int))) else ds) - off
        else 0) + f ≤ sl := by
  simp only [u32i]
  constructor
  · intro hc
    split_ifs at * <;> omega
  · split_ifs at * <;> omega

/-- After the adjusting blocks, the data of a segment whose data start behind
the header, plus one for a FIN that is still set, do not exceed the sequence
length the segment came with. -/
theorem tcps_rx_otw_check_seq_adjust_len (tcb : TCP_TCB) (io : Io)
    (hoff : TCP_HEADER_SIZE ≤ tcps_data_offset io) (hds : io.data_size < 4294967296)
    (hnd : ¬ (tcps_diff tcb.rcv_nxt (tcp_seq io) < 0
      ∧ toInt32 (tcps_seg_len io) + tcps_diff tcb.rcv_nxt (tcp_seq io) ≤ 0)) :
    tcps_data_len (tcps_rx_otw_check_seq_adjust tcb io).io
      + (if has_flag (tcps_rx_otw_check_seq_adjust tcb io).io TCP_FLAG_FIN then 1 else 0)
      ≤ tcps_seg_len io := by
  obtain ⟨hsl, hlt⟩ := tcps_seg_len_eq io hoff hds
  obtain ⟨hL1, hL2⟩ := toInt32_spec (tcps_seg_len io) hlt
  obtain ⟨sd, hsd⟩ : ∃ x, x = tcps_diff tcb.rcv_nxt (tcp_seq io) := ⟨_, rfl⟩
  obtain ⟨L, hLe⟩ : ∃ x, x = toInt32 (tcps_seg_len io) := ⟨_, rfl⟩
  rw [← hsd, ← hLe] at hnd
  rw [← hLe] at hL1 hL2
  obtain ⟨s, hs⟩ : ∃ x : Nat, x = if has_flag io TCP_FLAG_SYN then 1 else 0 := ⟨_, rfl⟩
  obtain ⟨f, hf⟩ : ∃ x : Nat, x = if has_flag io TCP_FLAG_FIN then 1 else 0 := ⟨_, rfl⟩
  have hs1 : s ≤ 1 := by rw [hs]; split <;> omega
  have hf1 : f ≤ 1 := by rw [hf]; split <;> omega
  have hsi : ((if has_flag io TCP_FLAG_SYN then 1 else 0 : Int)) = (s : Int) := by
    rw [hs]; split <;> rfl
  have hfi : ((if has_flag io TCP_FLAG_FIN then 1 else 0 : Int)) = (f : Int) := by
    rw [hf]; split <;> rfl
  rw [← hs, ← hf] at hsl
  have h20 : TCP_HEADER_SIZE = 20 := rfl
  have hoff2 : 20 ≤ tcps_data_offset io := by rw [← h20]; exact hoff
  have harith := adjust_arith io.data_size (tcps_data_offset io) (tcps_seg_len io) tcb.rx_wnd
    s f L sd hs1 hf1 hoff2 hds (by rw [hsl]; rfl) hL1 hL2 hnd
  unfold tcps_rx_otw_check_seq_adjust
  dsimp only
  rw [← hsd, ← hLe]
  obtain ⟨c0, hc0⟩ : ∃ c : CHECK_SEQ, c = { io := io, seq := tcp_seq io, seg_len := L } :=
    ⟨_, rfl⟩
  rw [← hc0]
  have hc0io : c0.io = io := by rw [hc0]
  have hc0len : c0.seg_len = L := by rw [hc0]
  obtain ⟨c1, hc1⟩ : ∃ c : CHECK_SEQ,
      c = (if sd < 0 then tcps_rx_otw_check_seq_strip c0 sd else c0) := ⟨_, rfl⟩
  rw [← hc1]
  have h1 : tcps_data_offset c1.io = tcps_data_offset io
      ∧ has_flag c1.io TCP_FLAG_FIN = has_flag io TCP_FLAG_FIN
      ∧ c1.seg_len = (if sd < 0 then L + sd else L)
      ∧ c1.io.data_size = (if sd < 0 then
          u32i ((io.data_size : Int) - ((-(sd + (s : Int))) - (f : Int)))
          else io.data_size) := by
    rw [hc1]
    by_cases hneg : sd < 0
    · simp only [hneg, if_true]
      have := tcps_rx_otw_check_seq_strip_spec c0 sd (by rw [hc0io]; exact hoff)
      rw [hc0io, hc0len, hsi, hfi] at this
      exact this
    · simp only [hneg, if_false]
      exact ⟨by rw [hc0io], by rw [hc0io], hc0len, by rw [hc0io]⟩
  obtain ⟨ho1, hf1', hl1, hd1⟩ := h1
  by_cases hchop : c1.seg_len > (tcb.rx_wnd : Int) ∧ tcb.rx_wnd > 0
  · simp only [hchop, and_self, if_true]
    obtain ⟨ho2, hf2, hd2⟩ := tcps_rx_otw_check_seq_chop_spec c1 tcb.rx_wnd
    rw [hf2]
    simp only [tcps_data_len, ho2, ho1, hd2, Bool.false_eq_true, if_false, add_zero]
    rw [hf1', hfi, hl1, hd1]
    rw [hl1] at hchop
    exact harith.1 hchop
  · simp only [hchop, if_false]
    simp only [tcps_data_len, ho1, hd1, hf1', ← hf]
    exact harith.2

theorem so_get_set_tcb (tcpips : TCPIPS) (h j : HANDLE) (v : TCP_TCB) :
    so_get (tcpips.set_tcb h v).tcps.tcbs j
      = if j = h ∧ h < tcpips.tcps.tcbs.size then some v else so_get tcpips.tcps.tcbs j := by
  simp only [TCPIPS.set_tcb, TCPIPS.with_tcbs, so_get_so_set]

theorem tcps_rx_send_back (plat : Platform) (sys : Sys) (st : TCPIPS) (h : HANDLE)
    (t1 : TCP_TCB) (ha : so_get (tcps_rx_send plat sys st h).tcps.tcbs h = some t1) :
    ∃ t, so_get st.tcps.tcbs h = some t ∧ t1.rcv_nxt = t.rcv_nxt := by
  unfold tcps_rx_send at ha
  cases hg : so_get st.tcps.tcbs h with
  | none => rw [hg] at ha; dsimp only at ha; rw [hg] at ha; cases ha
  | some t =>
    have hlt := so_get_lt hg
    rw [hg] at ha
    dsimp only at ha
    refine ⟨t, rfl, ?_⟩
    split at ha
    · rw [so_get_set_tcb] at ha
      simp only [hlt, and_self, if_true, Option.some.injEq] at ha
      rw [← ha]
    · split at ha
      · rw [hg] at ha; cases ha; rfl
      · rw [tcps_tx_text_ack_fin_tcps, hg] at ha; cases ha; rfl

theorem tcps_rx_otw_fin_back (st : TCPIPS) (h : HANDLE) (t1 : TCP_TCB)
    (ha : so_get (tcps_rx_otw_fin st h).tcps.tcbs h = some t1) :
    ∃ t, so_get st.tcps.tcbs h = some t ∧ t1.rcv_nxt = u32 (t.rcv_nxt + 1) := by
  unfold tcps_rx_otw_fin at ha
  cases hg : so_get st.tcps.tcbs h with
  | none => rw [hg] at ha; dsimp only at ha; rw [hg] at ha; cases ha
  | some t =>
    have hlt := so_get_lt hg
    rw [hg] at ha
    dsimp only at ha
    refine ⟨t, rfl, ?_⟩
    obtain ⟨x, hx⟩ : ∃ x : TCP_TCB, x =
        (if ¬ ({ t with rcv_nxt := u32 (t.rcv_nxt + 1) } : TCP_TCB).fin
          then { ({ t with rcv_nxt := u32 (t.rcv_nxt + 1) } : TCP_TCB) with
                 fin := true, snd_nxt := u32 (t.snd_nxt + 1) }
          else { t with rcv_nxt := u32 (t.rcv_nxt + 1) }) := ⟨_, rfl⟩
    have hxr : x.rcv_nxt = u32 (t.rcv_nxt + 1) := by
      rw [hx]; split <;> rfl
    rw [← hx] at ha
    unfold tcps_rx_otw_fin_switch at ha
    split at ha
    all_goals
      first
      | (split at ha
         all_goals
           rw [so_get_set_tcb] at ha
           simp only [hlt, and_self, if_true, Option.some.injEq] at ha
           rw [← ha]; exact hxr)
      | (rw [so_get_set_tcb] at ha
         simp only [hlt, and_self, if_true, Option.some.injEq] at ha
         rw [← ha]; exact hxr)

theorem tcps_rx_otw_text_back (plat : Platform) (st : TCPIPS) (io : Io) (h : HANDLE)
    (t1 : TCP_TCB) (ha : so_get (tcps_rx_otw_text plat st io h).tcps.tcbs h = some t1) :
    ∃ t, so_get st.tcps.tcbs h = some t
      ∧ (t1.rcv_nxt = t.rcv_nxt ∨ t1.rcv_nxt = u32 (t.rcv_nxt + tcps_data_len io)) := by
  unfold tcps_rx_otw_text at ha
  cases hg : so_get st.tcps.tcbs h with
  | none => rw [hg] at ha; dsimp only at ha; rw [hg] at ha; cases ha
  | some t =>
    have hlt := so_get_lt hg
    rw [hg] at ha
    dsimp only at ha
    refine ⟨t, rfl, ?_⟩
    split at ha
    · split at ha
      · obtain ⟨d1, _, _, _, d5, _⟩ := tcps_rx_otw_text_data_fields plat st t io h
        rw [so_get_set_tcb, d1] at ha
        simp only [hlt, and_self, if_true, Option.some.injEq] at ha
        right
        rw [← ha]
        exact d5
      · rw [hg] at ha; cases ha; left; rfl
    · rw [hg] at ha; cases ha; left; rfl

theorem tcps_rx_otw_ack_switch_back (st : TCPIPS) (t : TCP_TCB) (h : HANDLE) (t1 : TCP_TCB)
    (hlt : h < st.tcps.tcbs.size)
    (ha : so_get (tcps_rx_otw_ack_switch st t h).2.tcps.tcbs h = some t1) :
    t1.rcv_nxt = t.rcv_nxt := by
  unfold tcps_rx_otw_ack_switch at ha
  split at ha
  · rw [so_get_set_tcb] at ha
    simp only [hlt, and_self, if_true, Option.some.injEq] at ha
    rw [← ha]; split <;> rfl
  · rw [so_get_set_tcb] at ha
    simp only [hlt, and_self, if_true, Option.some.injEq] at ha
    rw [← ha]; split <;> rfl
  · split at ha
    · simp only [tcps_destroy_tcb, TCPIPS.with_tcbs, so_get_so_free, if_true] at ha
      cases ha
    · rw [so_get_set_tcb] at ha
      simp only [hlt, and_self, if_true, Option.some.injEq] at ha
      rw [← ha]
  · rw [so_get_set_tcb] at ha
    simp only [hlt, and_self, if_true, Option.some.injEq] at ha
    rw [← ha]

theorem tcps_rx_otw_ack_back (plat : Platform) (sys : Sys) (st : TCPIPS) (io : Io)
    (h : HANDLE) (t1 : TCP_TCB)
    (ha : so_get (tcps_rx_otw_ack plat sys st io h).2.tcps.tcbs h = some t1) :
    ∃ t, so_get st.tcps.tcbs h = some t ∧ t1.rcv_nxt = t.rcv_nxt := by
  unfold tcps_rx_otw_ack at ha
  cases hg : so_get st.tcps.tcbs h with
  | none => rw [hg] at ha; dsimp only at ha; rw [hg] at ha; cases ha
  | some t =>
    have hlt := so_get_lt hg
    rw [hg] at ha
    dsimp only at ha
    refine ⟨t, rfl, ?_⟩
    split at ha
    · split at ha
      · have ha2 : so_get (st.set_tcb h (tcps_set_state t TCP_STATE.ESTABLISHED)).tcps.tcbs h
            = some t1 := ha
        rw [so_get_set_tcb] at ha2
        simp only [hlt, and_self, if_true, Option.some.injEq] at ha2
        rw [← ha2]; rfl
      · rw [tcps_tx_rst_tcps, hg] at ha; cases ha; rfl
    · split at ha
      · rw [tcps_tx_ack_tcps, hg] at ha; cases ha; rfl
      · have := tcps_rx_otw_ack_switch_back st _ h t1 hlt ha
        rw [this]
        split <;> rfl

theorem tcps_rx_otw_check_seq_cases (plat : Platform) (sys : Sys) (tcpips : TCPIPS) (io : Io)
    (h : HANDLE) (tcb : TCP_TCB) (hg : so_get tcpips.tcps.tcbs h = some tcb)
    (hoff : TCP_HEADER_SIZE ≤ tcps_data_offset io) (hds : io.data_size < 4294967296) :
    (tcps_rx_otw_check_seq plat sys tcpips io h).2.2.tcps = tcpips.tcps
    ∧ ((tcps_rx_otw_check_seq plat sys tcpips io h).1 = true →
        (tcps_rx_otw_check_seq plat sys tcpips io h).2.2 = tcpips
        ∧ tcps_data_len (tcps_rx_otw_check_seq plat sys tcpips io h).2.1
            + (if has_flag (tcps_rx_otw_check_seq plat sys tcpips io h).2.1 TCP_FLAG_FIN
                then 1 else 0) ≤ tcps_seg_len io) := by
  refine ⟨tcps_rx_otw_check_seq_tcps plat sys tcpips io h, ?_⟩
  unfold tcps_rx_otw_check_seq
  rw [hg]
  dsimp only
  split
  · intro hc; cases hc
  · rename_i hnd
    have hlen := tcps_rx_otw_check_seq_adjust_len tcb io hoff hds hnd
    unfold tcps_rx_otw_check_seq_boundary
    split
    · split
      · intro hc; cases hc
      · cases tcps_allocate_io sys tcb with
        | none => intro hc; cases hc
        | some tx => intro hc; cases hc
    · intro _
      exact ⟨rfl, hlen⟩

/-- The advance of `rcv_nxt` for a segment with a well-formed header.  For a
TCB in a synchronized state whose `rcv_nxt` is a 32-bit value and a segment
whose data offset is at least the 20 bytes of the header, if the TCB is still
in the table after the segment has been processed then its `rcv_nxt` is the
old one plus some `k` (mod 2^32) with `0 ≤ k ≤` the sequence length the
segment came with. -/
theorem rcv_nxt_advance (plat : Platform) (sys : Sys) (tcpips : TCPIPS) (io : Io) (h : HANDLE)
    (tcb tcb1 : TCP_TCB)
    (hget : so_get tcpips.tcps.tcbs h = some tcb)
    (hstate : tcb.state ≠ TCP_STATE.CLOSED ∧ tcb.state ≠ TCP_STATE.LISTEN
      ∧ tcb.state ≠ TCP_STATE.SYN_SENT)
    (hrcv : tcb.rcv_nxt < 4294967296)
    (hoff : TCP_HEADER_SIZE ≤ tcps_data_offset io)
    (hds : io.data_size < 4294967296)
    (hafter : so_get (tcps_rx_process plat sys tcpips io h).tcps.tcbs h = some tcb1) :
    ∃ k, k ≤ tcps_seg_len io ∧ tcb1.rcv_nxt = u32 (tcb.rcv_nxt + k) := by
  have hproc : tcps_rx_process plat sys tcpips io h = tcps_rx_otw plat sys tcpips io h := by
    unfold tcps_rx_process
    rw [hget]
    dsimp only
    split
    · rename_i hs; exact absurd hs hstate.1
    · rename_i hs; exact absurd hs hstate.2.1
    · rename_i hs; exact absurd hs hstate.2.2
    · rfl
  rw [hproc] at hafter
  have hzero : tcb.rcv_nxt = u32 (tcb.rcv_nxt + 0) := by
    rw [Nat.add_zero, u32_of_lt hrcv]
  obtain ⟨hct, hcp⟩ := tcps_rx_otw_check_seq_cases plat sys tcpips io h tcb hget hoff hds
  unfold tcps_rx_otw at hafter
  dsimp only at hafter
  by_cases hc : (tcps_rx_otw_check_seq plat sys tcpips io h).1 = true
  · obtain ⟨hst, hlen⟩ := hcp hc
    obtain ⟨io1, hio1⟩ : ∃ x, x = (tcps_rx_otw_check_seq plat sys tcpips io h).2.1 := ⟨_, rfl⟩
    rw [← hio1] at hlen hafter
    simp only [hc, not_true_eq_false, if_false, hst] at hafter
    split at hafter
    · simp only [tcps_rx_otw_syn_rst, tcps_destroy_tcb, TCPIPS.with_tcbs, so_get_so_free,
        if_true] at hafter
      cases hafter
    · split at hafter
      · split at hafter
        · obtain ⟨t, ht, hr⟩ := tcps_rx_otw_ack_back plat sys tcpips io1 h tcb1 hafter
          rw [hget] at ht
          cases ht
          exact ⟨0, Nat.zero_le _, hr.trans hzero⟩
        · obtain ⟨t3, ht3, hr3⟩ := tcps_rx_send_back plat sys _ h tcb1 hafter
          by_cases hfin : has_flag io1 TCP_FLAG_FIN = true
          · simp only [hfin, if_true] at ht3 hlen
            obtain ⟨t2, ht2, hr2⟩ := tcps_rx_otw_fin_back _ h t3 ht3
            obtain ⟨t1, ht1, hr1⟩ := tcps_rx_otw_text_back plat _ io1 h t2 ht2
            obtain ⟨t0, ht0, hr0⟩ := tcps_rx_otw_ack_back plat sys tcpips io1 h t1 ht1
            rw [hget] at ht0
            cases ht0
            rcases hr1 with hr1 | hr1
            · refine ⟨1, by omega, ?_⟩
              rw [hr3, hr2, hr1, hr0]
            · refine ⟨tcps_data_len io1 + 1, by omega, ?_⟩
              rw [hr3, hr2, hr1, hr0, u32_u32_add]
              rfl
          · have hfin0 : has_flag io1 TCP_FLAG_FIN = false := by simpa using hfin
            simp only [hfin0, Bool.false_eq_true, if_false, add_zero] at ht3 hlen
            obtain ⟨t1, ht1, hr1⟩ := tcps_rx_otw_text_back plat _ io1 h t3 ht3
            obtain ⟨t0, ht0, hr0⟩ := tcps_rx_otw_ack_back plat sys tcpips io1 h t1 ht1
            rw [hget] at ht0
            cases ht0
            rcases hr1 with hr1 | hr1
            · exact ⟨0, Nat.zero_le _, by rw [hr3, hr1, hr0]; exact hzero⟩
            · exact ⟨tcps_data_len io1, hlen, by rw [hr3, hr1, hr0]⟩
      · rw [hget] at hafter
        cases hafter
        exact ⟨0, Nat.zero_le _, hzero⟩
  · have hc0 : (tcps_rx_otw_check_seq plat sys tcpips io h).1 = false := by simpa using hc
    simp only [hc0, Bool.false_eq_true, not_false_eq_true, if_true] at hafter
    rw [hct, hget] at hafter
    cases hafter
    exact ⟨0, Nat.zero_le _, hzero⟩

theorem demo_open_reachable : Reachable demo_plat demo_open := by
  refine Reachable.rx demo_after_syn demo_open demo_sys demo_seg_open_ack 0x0A000002
    demo_after_syn_reachable ?_
  have hs : (tcps_rx demo_plat demo_sys demo_after_syn demo_seg_open_ack 0x0A000002).isSome
      = true := by decide
  obtain ⟨r, hr⟩ := Option.isSome_iff_exists.mp hs
  simp only [demo_open, hr, Option.getD_some]

theorem demo_queued_reachable : Reachable demo_plat demo_queued := by
  refine Reachable.rx demo_open demo_queued demo_sys demo_seg_urg_short_offset 0x0A000002
    demo_open_reachable ?_
  have hs : (tcps_rx demo_plat demo_sys demo_open demo_seg_urg_short_offset
      0x0A000002).isSome = true := by decide
  obtain ⟨r, hr⟩ := Option.isSome_iff_exists.mp hs
  simp only [demo_queued, hr, Option.getD_some]

/-- C7, the code at a failing input.  After the handshake of the scenario the
TCB under handle 0 is in ESTABLISHED with `rcv_nxt` 1001.  `tcps_rx` receives
a segment of 40 bytes with seq 1000, flags ACK, whose header declares a data
offset of 8 bytes: its sequence length is 32.  The segment is accepted; the
strip of the one byte already received moves the 31 bytes behind it, the
bytes 9..39, to 8..38, over the header: the data-offset byte becomes the old
flags byte 0x10 (data offset 4), the flags byte becomes the old window byte
0x10 (ACK alone), and the data length is counted as 35.  `rcv_nxt` ends at
1036, an advance of 35, which is no `1001 + k` with `k ≤ 32`.  The same on a
TCB with `rcv_nxt` 1000 and the segment with seq 999: `rcv_nxt` ends at
1035. -/
theorem rcv_nxt_advance_short_offset :
    Reachable demo_plat demo_open
    ∧ (so_get demo_open.tcps.tcbs 0).map (fun t => (t.state, t.rcv_nxt))
        = some (TCP_STATE.ESTABLISHED, 1001)
    ∧ (tcps_data_offset demo_seg_short_offset_open, demo_seg_short_offset_open.data_size,
        tcps_seg_len demo_seg_short_offset_open, tcp_flags demo_seg_short_offset_open,
        tcp_seq demo_seg_short_offset_open) = (8, 40, 32, TCP_FLAG_ACK, 1000)
    ∧ (fun c : Bool × Io × TCPIPS =>
        (c.1, tcps_data_offset c.2.1, tcps_data_len c.2.1, tcp_flags c.2.1))
        (tcps_rx_otw_check_seq demo_plat demo_sys demo_open demo_seg_short_offset_open 0)
        = (true, 4, 35, TCP_FLAG_ACK)
    ∧ ((tcps_rx demo_plat demo_sys demo_open demo_seg_short_offset_open 0x0A000002).bind
        (fun r => so_get r.tcps.tcbs 0)).map (fun t => (t.state, t.rcv_nxt))
        = some (TCP_STATE.ESTABLISHED, 1036)
    ∧ (¬ ∃ k, k ≤ tcps_seg_len demo_seg_short_offset_open ∧ 1036 = u32 (1001 + k))
    ∧ demo_tcb_overlap.state = TCP_STATE.ESTABLISHED
    ∧ demo_tcb_overlap.rcv_nxt = 1000
    ∧ tcps_seg_len demo_seg_short_offset = 32
    ∧ (so_get (tcps_rx_process demo_plat demo_sys (demo_with demo_tcb_overlap)
          demo_seg_short_offset 0).tcps.tcbs 0).map (fun t => t.rcv_nxt) = some 1035
    ∧ ¬ ∃ k, k ≤ tcps_seg_len demo_seg_short_offset ∧ 1035 = u32 (1000 + k) := by
  refine ⟨demo_open_reachable, by decide, by decide, by decide, by decide, ?_, rfl, rfl,
    by decide, by decide, ?_⟩
  · rintro ⟨k, hk, he⟩
    have h32 : tcps_seg_len demo_seg_short_offset_open = 32 := by decide
    rw [h32] at hk
    simp only [u32] at he
    omega
  · rintro ⟨k, hk, he⟩
    have h32 : tcps_seg_len demo_seg_short_offset = 32 := by decide
    rw [h32] at hk
    simp only [u32] at he
    omega

/-- An instance of the bound for well-formed headers: a segment of 12 data
bytes with data offset 20 that starts one byte before `rcv_nxt` = 1000 moves
`rcv_nxt` to 1011. -/
theorem rcv_nxt_advance_witness :
    ∃ tcb1 : TCP_TCB,
      so_get (tcps_rx_process demo_plat demo_sys (demo_with demo_tcb_overlap)
        demo_seg_overlap 0).tcps.tcbs 0 = some tcb1
      ∧ tcb1.rcv_nxt = 1011
      ∧ ∃ k, k ≤ tcps_seg_len demo_seg_overlap ∧ tcb1.rcv_nxt = u32 (1000 + k) := by
  have hs : (so_get (tcps_rx_process demo_plat demo_sys (demo_with demo_tcb_overlap)
      demo_seg_overlap 0).tcps.tcbs 0).isSome = true := by decide
  obtain ⟨tcb1, hg⟩ := Option.isSome_iff_exists.mp hs
  have hv : (so_get (tcps_rx_process demo_plat demo_sys (demo_with demo_tcb_overlap)
      demo_seg_overlap 0).tcps.tcbs 0).map (fun t => t.rcv_nxt) = some 1011 := by decide
  rw [hg] at hv
  exact ⟨tcb1, hg, by simpa using hv,
    rcv_nxt_advance demo_plat demo_sys (demo_with demo_tcb_overlap) demo_seg_overlap 0
      demo_tcb_overlap tcb1 rfl (by decide) (by decide) (by decide) (by decide) hg⟩

/-! ## The SYN of a new connection -/

theorem tcps_tx_syn_ack_some (plat : Platform) (sys : Sys) (tcpips : TCPIPS) (h : HANDLE)
    (tcb : TCP_TCB) (txio : Io)
    (hget : so_get tcpips.tcps.tcbs h = some tcb) (htx : sys.tx_io = some txio) :
    ∃ o : Io, tcps_tx_syn_ack plat sys tcpips h
        = { tcpips with sent := tcpips.sent ++ [(o, tcb.remote_addr)] }
      ∧ segment_of o = { flags := TCP_FLAG_SYN ||| TCP_FLAG_ACK, seq := u32 tcb.snd_una,
                         ack := u32 tcb.rcv_nxt, window := u16 tcb.rx_wnd } := by
  simp only [tcps_tx_syn_ack, hget, tcps_allocate_io, htx, tcps_tx]
  refine ⟨_, rfl, ?_⟩
  simp [segment_of, tcp_flags, tcp_seq, tcp_ack, tcp_window, set_flag, be2int, be2short,
    int2be, short2be, byte_poke, u8_u8, be_join32, be_join16, TCP_FLAG_SYN, TCP_FLAG_ACK,
    TCP_HEADER_SIZE]
  decide

/-- The SYN rule on the calls that return: when `tcps_rx` returns on a valid SYN
(RST and ACK clear) for a listening port from a peer without TCB, and both
allocations are served, the table holds a TCB of the peer in SYN_RECEIVED owned
by the listener with `rcv_nxt = seg.seq + 1`, `snd_una = ISN`,
`snd_nxt = ISN + 1`, and exactly one segment has been sent: SYN|ACK with
`seq = ISN`, `ack = seg.seq + 1` and the window of the TCB. -/
theorem tcps_rx_syn_listener (plat : Platform) (sys : Sys) (tcpips : TCPIPS) (io : Io)
    (src : IP) (r : TCPIPS) (txio : Io)
    (hsize : TCP_HEADER_SIZE ≤ io.data_size)
    (hck : plat.tcp_checksum io.mem io.data_size src tcpips.ip = 0)
    (hfind : tcps_find_tcb tcpips src (tcp_src_port io) (tcp_dst_port io) = INVALID_HANDLE)
    (hlis : tcps_find_listener tcpips (tcp_dst_port io) ≠ INVALID_HANDLE)
    (hSYN : has_flag io TCP_FLAG_SYN = true)
    (hRST : has_flag io TCP_FLAG_RST = false)
    (hACK : has_flag io TCP_FLAG_ACK = false)
    (halloc : (tcps_create_tcb plat sys tcpips src (tcp_src_port io) (tcp_dst_port io)).1
      ≠ INVALID_HANDLE)
    (htx : sys.tx_io = some txio)
    (hr : tcps_rx plat sys tcpips io src = some r) :
    ∃ (tcb : TCP_TCB) (o : Io),
      so_get r.tcps.tcbs
        (tcps_create_tcb plat sys tcpips src (tcp_src_port io) (tcp_dst_port io)).1 = some tcb
      ∧ tcb.state = TCP_STATE.SYN_RECEIVED
      ∧ tcb.process = tcps_find_listener tcpips (tcp_dst_port io)
      ∧ tcb.remote_addr = src ∧ tcb.remote_port = tcp_src_port io
      ∧ tcb.local_port = tcp_dst_port io
      ∧ tcb.rcv_nxt = u32 (tcp_seq io + 1)
      ∧ tcb.snd_una = tcps_gen_isn sys.uptime
      ∧ tcb.snd_nxt = tcps_gen_isn sys.uptime + 1
      ∧ r.sent = tcpips.sent ++ [(o, src)]
      ∧ segment_of o = { flags := TCP_FLAG_SYN ||| TCP_FLAG_ACK,
                         seq := tcps_gen_isn sys.uptime, ack := u32 (tcp_seq io + 1),
                         window := tcb.rx_wnd } := by
  have hsz : ¬ io.data_size < TCP_HEADER_SIZE := Nat.not_lt.mpr hsize
  obtain ⟨tcb0, htcb0⟩ : ∃ t : TCP_TCB, t = tcps_update_rx_wnd plat
      { process := INVALID_HANDLE
        remote_addr := src
        rx := none
        rx_tmp := none
        tx := none
        snd_una := 0
        snd_nxt := 0
        rcv_nxt := 0
        state := TCP_STATE.CLOSED
        remote_port := tcp_src_port io
        local_port := tcp_dst_port io
        mss := u16 (TCP_MSS_MAX plat)
        rx_wnd := 0
        tx_wnd := 0
        active := false
        transmit := false
        fin := false } := ⟨_, rfl⟩
  have hcreate : tcps_create_tcb plat sys tcpips src (tcp_src_port io) (tcp_dst_port io)
      = ((so_allocate tcpips.tcps.tcbs sys.so_ok tcb0).1,
         tcpips.with_tcbs (so_allocate tcpips.tcps.tcbs sys.so_ok tcb0).2) := by
    rw [htcb0]; rfl
  have hraddr0 : tcb0.remote_addr = src := by rw [htcb0]; rfl
  have hrport0 : tcb0.remote_port = tcp_src_port io := by rw [htcb0]; rfl
  have hlport0 : tcb0.local_port = tcp_dst_port io := by rw [htcb0]; rfl
  have hwnd0 : tcb0.rx_wnd = u16 (TCP_MSS_MAX plat) := by rw [htcb0]; rfl
  rw [hcreate] at halloc ⊢
  simp only [tcps_rx, hsz, hck, ne_eq, not_true_eq_false, or_self, if_false, hfind, if_true,
    hcreate] at hr
  have hcr : ¬ (so_allocate tcpips.tcps.tcbs sys.so_ok tcb0).1 = INVALID_HANDLE := halloc
  obtain ⟨hfree, hnew, hother⟩ := so_allocate_spec tcpips.tcps.tcbs sys.so_ok tcb0 hcr
  have hl2 : tcps_find_listener
      (tcpips.with_tcbs (so_allocate tcpips.tcps.tcbs sys.so_ok tcb0).2) (tcp_dst_port io)
      = tcps_find_listener tcpips (tcp_dst_port io) := rfl
  have hg : so_get (tcpips.with_tcbs (so_allocate tcpips.tcps.tcbs sys.so_ok tcb0).2).tcps.tcbs
      (so_allocate tcpips.tcps.tcbs sys.so_ok tcb0).1 = some tcb0 := hnew
  have hlt := so_get_lt hnew
  simp only [hcr, not_false_eq_true, if_true, hl2, hlis, hg] at hr
  obtain ⟨hd, hhd⟩ : ∃ x, x = (so_allocate tcpips.tcps.tcbs sys.so_ok tcb0).1 := ⟨_, rfl⟩
  obtain ⟨p, hp⟩ : ∃ x, x = tcps_find_listener tcpips (tcp_dst_port io) := ⟨_, rfl⟩
  obtain ⟨so1, hso1⟩ : ∃ x, x = (so_allocate tcpips.tcps.tcbs sys.so_ok tcb0).2 := ⟨_, rfl⟩
  rw [← hhd, ← hp, ← hso1] at hr
  rw [← hhd, ← hso1] at hlt
  rw [← hhd, ← hp]
  obtain ⟨tcbL, htcbL⟩ : ∃ t : TCP_TCB, t =
      { tcb0 with state := TCP_STATE.LISTEN, active := false, process := p } := ⟨_, rfl⟩
  rw [← htcbL] at hr
  have hgL : so_get ((tcpips.with_tcbs so1).set_tcb hd tcbL).tcps.tcbs hd = some tcbL := by
    rw [so_get_set_tcb]
    have : hd < (tcpips.with_tcbs so1).tcps.tcbs.size := hlt
    simp [this]
  simp only [hgL] at hr
  cases hopt : tcps_apply_options plat ((tcpips.with_tcbs so1).set_tcb hd tcbL) io tcbL with
  | none => simp [hopt] at hr
  | some o =>
    simp only [hopt] at hr
    obtain ⟨⟨l, hl⟩, ⟨m, hm⟩⟩ := tcps_apply_options_frame _ _ _ _ _ hopt
    obtain ⟨st1, hst1⟩ : ∃ x : TCPIPS, x = o.1.set_tcb hd { o.2 with tx_wnd := tcp_window io } :=
      ⟨_, rfl⟩
    rw [← hst1] at hr
    have hst1_sent : st1.sent = tcpips.sent := by rw [hst1, hl]; rfl
    have hst1_size : hd < st1.tcps.tcbs.size := by rw [hst1, hl]; exact hlt
    have hst1_get : so_get st1.tcps.tcbs hd = some { o.2 with tx_wnd := tcp_window io } := by
      rw [hst1, so_get_set_tcb]
      have : hd < o.1.tcps.tcbs.size := by rw [hl]; exact hlt
      simp [this]
    have hstateL : o.2.state = TCP_STATE.LISTEN := by
      rw [hm, htcbL]
    have hproc : tcps_rx_process plat sys st1 io hd = tcps_rx_listen plat sys st1 io hd := by
      simp only [tcps_rx_process, hst1_get, hstateL]
    obtain ⟨tcbS, htcbS⟩ : ∃ t : TCP_TCB, t =
        { ({ o.2 with tx_wnd := tcp_window io } : TCP_TCB) with
          state := TCP_STATE.SYN_RECEIVED
          rcv_nxt := u32 (tcp_seq io + 1)
          snd_una := tcps_gen_isn sys.uptime
          snd_nxt := u32 (tcps_gen_isn sys.uptime + 1) } := ⟨_, rfl⟩
    have hlisten : tcps_rx_listen plat sys st1 io hd
        = tcps_tx_syn_ack plat sys (st1.set_tcb hd tcbS) hd := by
      simp only [tcps_rx_listen, hRST, hACK, hSYN, Bool.false_eq_true, if_false, if_true,
        hst1_get, tcps_set_state, htcbS]
    have hgS : so_get (st1.set_tcb hd tcbS).tcps.tcbs hd = some tcbS := by
      rw [so_get_set_tcb]; simp [hst1_size]
    obtain ⟨x, hx, hseg⟩ := tcps_tx_syn_ack_some plat sys (st1.set_tcb hd tcbS) hd tcbS txio
      hgS htx
    rw [hproc, hlisten, hx] at hr
    have hq : tcps_rx_queued
        ({ st1.set_tcb hd tcbS with
           sent := (st1.set_tcb hd tcbS).sent ++ [(x, tcbS.remote_addr)] } : TCPIPS) io hd
        = false := by
      have hg2 : so_get ({ st1.set_tcb hd tcbS with
           sent := (st1.set_tcb hd tcbS).sent ++ [(x, tcbS.remote_addr)] } : TCPIPS).tcps.tcbs hd
          = some tcbS := hgS
      have hrt : tcbS.rx_tmp = none := by rw [htcbS, hm, htcbL, htcb0]; rfl
      simp only [tcps_rx_queued, hg2, hrt]
    rw [hq] at hr
    simp only [Bool.false_eq_true, if_false, Option.some.injEq] at hr
    subst hr
    have hrS : tcbS.remote_addr = src := by rw [htcbS, hm, htcbL]; exact hraddr0
    have hisn := tcps_gen_isn_lt sys.uptime
    have hwS : tcbS.rx_wnd = u16 (TCP_MSS_MAX plat) := by rw [htcbS, hm, htcbL]; exact hwnd0
    refine ⟨tcbS, x, hgS, by rw [htcbS], by rw [htcbS, hm, htcbL],
      hrS, by rw [htcbS, hm, htcbL]; exact hrport0, by rw [htcbS, hm, htcbL]; exact hlport0,
      by rw [htcbS], by rw [htcbS], ?_, ?_, ?_⟩
    · rw [htcbS]
      exact u32_of_lt hisn
    · show (st1.set_tcb hd tcbS).sent ++ [(x, tcbS.remote_addr)] = _
      rw [hrS]
      show st1.sent ++ _ = _
      rw [hst1_sent]
    · rw [hseg]
      have h1 : u32 tcbS.snd_una = tcps_gen_isn sys.uptime := by
        rw [htcbS]; exact u32_of_lt (Nat.lt_of_succ_lt hisn)
      have h2 : u32 tcbS.rcv_nxt = u32 (tcp_seq io + 1) := by
        rw [htcbS]; exact u32_of_lt (u32_lt _)
      have h3 : u16 tcbS.rx_wnd = tcbS.rx_wnd := by
        rw [hwS]; simp only [u16]; omega
      rw [h1, h2, h3]

/-- The handshake scenario satisfies the hypotheses of `tcps_rx_syn_listener`:
the SYN with `seq = 1000` for the listening port 80 leaves a TCB in
SYN_RECEIVED with `rcv_nxt = 1001` and sends one SYN|ACK with `ack = 1001`. -/
theorem tcps_rx_syn_listener_demo :
    ∃ (r : TCPIPS) (tcb : TCP_TCB) (o : Io),
      tcps_rx demo_plat demo_sys demo_listening demo_seg_syn 0x0A000002 = some r
      ∧ so_get r.tcps.tcbs 0 = some tcb
      ∧ tcb.state = TCP_STATE.SYN_RECEIVED
      ∧ tcb.rcv_nxt = 1001
      ∧ r.sent = demo_listening.sent ++ [(o, 0x0A000002)]
      ∧ (segment_of o).flags = TCP_FLAG_SYN ||| TCP_FLAG_ACK
      ∧ (segment_of o).ack = 1001 := by
  have hs : (tcps_rx demo_plat demo_sys demo_listening demo_seg_syn 0x0A000002).isSome
      = true := by decide
  obtain ⟨r, hr⟩ := Option.isSome_iff_exists.mp hs
  have hc : (tcps_create_tcb demo_plat demo_sys demo_listening 0x0A000002
      (tcp_src_port demo_seg_syn) (tcp_dst_port demo_seg_syn)).1 = 0 := by decide
  obtain ⟨tcb, o, h1, h2, _, _, _, _, h7, _, _, h10, h11⟩ :=
    tcps_rx_syn_listener demo_plat demo_sys demo_listening demo_seg_syn 0x0A000002 r _
      (by decide) (by decide) (by decide) (by decide) (by decide) (by decide) (by decide)
      (by decide) rfl hr
  rw [hc] at h1
  have hseq : u32 (tcp_seq demo_seg_syn + 1) = 1001 := by decide
  rw [hseq] at h7 h11
  exact ⟨r, tcb, o, hr, h1, h2, h7, h10, by rw [h11], by rw [h11]⟩

/-! ## Streams: destruction -/

theorem kstream_destroy_writers_eq (fuel : Nat) (k : KSTREAM)
    (hf : k.stream.write_waiters.length ≤ fuel) :
    kstream_destroy_writers fuel k =
      { k with
        stream := { k.stream with write_waiters := [] }
        woken := k.woken ++ k.stream.write_waiters.map (fun h => (k.handles h).process)
        errors := k.errors ++ k.stream.write_waiters.map
          (fun h => ((k.handles h).process, ERROR.ERROR_SYNC_OBJECT_DESTROYED))
        kfreed := k.kfreed ++ k.stream.write_waiters } := by
  induction fuel generalizing k with
  | zero =>
    have h0 : k.stream.write_waiters = [] := List.length_eq_zero.mp (Nat.le_zero.mp hf)
    obtain ⟨⟨a, rb, d, ww, rw, l⟩, hs, c, e, w, es, sl, p, kf, pf⟩ := k
    simp only at h0
    subst h0
    simp [kstream_destroy_writers]
  | succ n ih =>
    obtain ⟨⟨a, rb, d, ww, rw, l⟩, hs, c, e, w, es, sl, p, kf, pf⟩ := k
    cases ww with
    | nil => simp [kstream_destroy_writers]
    | cons x xs =>
      simp only [List.length_cons, Nat.add_le_add_iff_right] at hf
      simp only [kstream_destroy_writers, KSTREAM.set_write_waiters, dlist_remove_head,
        kprocess_wakeup, kprocess_error, kfree, List.tail_cons]
      rw [ih _ hf]
      simp

theorem kstream_destroy_readers_eq (fuel : Nat) (k : KSTREAM)
    (hf : k.stream.read_waiters.length ≤ fuel) :
    kstream_destroy_readers fuel k =
      { k with
        stream := { k.stream with read_waiters := [] }
        woken := k.woken ++ k.stream.read_waiters.map (fun h => (k.handles h).process)
        errors := k.errors ++ k.stream.read_waiters.map
          (fun h => ((k.handles h).process, ERROR.ERROR_SYNC_OBJECT_DESTROYED))
        kfreed := k.kfreed ++ k.stream.read_waiters } := by
  induction fuel generalizing k with
  | zero =>
    have h0 : k.stream.read_waiters = [] := List.length_eq_zero.mp (Nat.le_zero.mp hf)
    obtain ⟨⟨a, rb, d, ww, rw, l⟩, hs, c, e, w, es, sl, p, kf, pf⟩ := k
    simp only at h0
    subst h0
    simp [kstream_destroy_readers]
  | succ n ih =>
    obtain ⟨⟨a, rb, d, ww, rw, l⟩, hs, c, e, w, es, sl, p, kf, pf⟩ := k
    cases rw with
    | nil => simp [kstream_destroy_readers]
    | cons x xs =>
      simp only [List.length_cons, Nat.add_le_add_iff_right] at hf
      simp only [kstream_destroy_readers, KSTREAM.set_read_waiters, dlist_remove_head,
        kprocess_wakeup, kprocess_error, kfree, List.tail_cons]
      rw [ih _ hf]
      simp

/-- C13. For every stream state, `kstream_destroy` leaves both waiter lists
empty; it wakes the process of every handle that was on the write-waiter list
and then of every handle that was on the read-waiter list, once per handle and
in list order, sets the error of each of these processes to
`ERROR_SYNC_OBJECT_DESTROYED`, frees these handles, and afterwards returns the
ring storage `stream->data` to the paged pool and the stream object to the
system pool. -/
theorem kstream_destroy_wakes_all (k : KSTREAM) :
    (kstream_destroy k).stream.write_waiters = []
    ∧ (kstream_destroy k).stream.read_waiters = []
    ∧ (kstream_destroy k).woken = k.woken
        ++ (k.stream.write_waiters ++ k.stream.read_waiters).map
            (fun h => (k.handles h).process)
    ∧ (kstream_destroy k).errors = k.errors
        ++ (k.stream.write_waiters ++ k.stream.read_waiters).map
            (fun h => ((k.handles h).process, ERROR.ERROR_SYNC_OBJECT_DESTROYED))
    ∧ (kstream_destroy k).kfreed = k.kfreed
        ++ (k.stream.write_waiters ++ k.stream.read_waiters) ++ [k.stream.addr]
    ∧ (kstream_destroy k).paged_freed = k.paged_freed ++ [k.stream.data]
    ∧ (kstream_destroy k).posted = k.posted := by
  simp only [kstream_destroy]
  rw [kstream_destroy_writers_eq _ k (Nat.le_refl _)]
  rw [kstream_destroy_readers_eq _ _ (Nat.le_refl _)]
  simp [paged_free, kfree]

/-! ## Streams: the loops -/

@[simp] theorem set_handle_stream (k : KSTREAM) (a : Nat) (h : STREAM_HANDLE) :
    (k.set_handle a h).stream = k.stream := rfl

@[simp] theorem set_handle_same (k : KSTREAM) (a : Nat) (h : STREAM_HANDLE) :
    (k.set_handle a h).handles a = h := by simp [KSTREAM.set_handle]

theorem set_handle_other (k : KSTREAM) (a b : Nat) (h : STREAM_HANDLE) (hab : b ≠ a) :
    (k.set_handle a h).handles b = k.handles b := by simp [KSTREAM.set_handle, hab]

@[simp] theorem set_rb_handles (k : KSTREAM) (rb : RB) : (k.set_rb rb).handles = k.handles := rfl

@[simp] theorem set_rb_rb (k : KSTREAM) (rb : RB) : (k.set_rb rb).stream.rb = rb := rfl

@[simp] theorem set_rb_write_waiters (k : KSTREAM) (rb : RB) :
    (k.set_rb rb).stream.write_waiters = k.stream.write_waiters := rfl

@[simp] theorem set_rb_read_waiters (k : KSTREAM) (rb : RB) :
    (k.set_rb rb).stream.read_waiters = k.stream.read_waiters := rfl

@[simp] theorem set_rb_listener (k : KSTREAM) (rb : RB) :
    (k.set_rb rb).stream.listener = k.stream.listener := rfl

@[simp] theorem set_read_waiters_handles (k : KSTREAM) (l : List Nat) :
    (k.set_read_waiters l).handles = k.handles := rfl

@[simp] theorem set_read_waiters_rb (k : KSTREAM) (l : List Nat) :
    (k.set_read_waiters l).stream.rb = k.stream.rb := rfl

@[simp] theorem set_read_waiters_read (k : KSTREAM) (l : List Nat) :
    (k.set_read_waiters l).stream.read_waiters = l := rfl

@[simp] theorem set_read_waiters_write (k : KSTREAM) (l : List Nat) :
    (k.set_read_waiters l).stream.write_waiters = k.stream.write_waiters := rfl

@[simp] theorem set_read_waiters_listener (k : KSTREAM) (l : List Nat) :
    (k.set_read_waiters l).stream.listener = k.stream.listener := rfl

@[simp] theorem set_write_waiters_handles (k : KSTREAM) (l : List Nat) :
    (k.set_write_waiters l).handles = k.handles := rfl

@[simp] theorem set_write_waiters_rb (k : KSTREAM) (l : List Nat) :
    (k.set_write_waiters l).stream.rb = k.stream.rb := rfl

@[simp] theorem set_write_waiters_write (k : KSTREAM) (l : List Nat) :
    (k.set_write_waiters l).stream.write_waiters = l := rfl

@[simp] theorem set_write_waiters_read (k : KSTREAM) (l : List Nat) :
    (k.set_write_waiters l).stream.read_waiters = k.stream.read_waiters := rfl

@[simp] theorem set_write_waiters_listener (k : KSTREAM) (l : List Nat) :
    (k.set_write_waiters l).stream.listener = k.stream.listener := rfl

@[simp] theorem kprocess_wakeup_stream (k : KSTREAM) (p : PROCESS) :
    (kprocess_wakeup k p).stream = k.stream := rfl

@[simp] theorem kprocess_wakeup_handles (k : KSTREAM) (p : PROCESS) :
    (kprocess_wakeup k p).handles = k.handles := rfl

@[simp] theorem kprocess_error_stream (k : KSTREAM) (p : PROCESS) (e : ERROR) :
    (kprocess_error k p e).stream = k.stream := rfl

@[simp] theorem kprocess_error_handles (k : KSTREAM) (p : PROCESS) (e : ERROR) :
    (kprocess_error k p e).handles = k.handles := rfl

@[simp] theorem kprocess_sleep_stream (k : KSTREAM) (h : Nat) :
    (kprocess_sleep k h).stream = k.stream := rfl

@[simp] theorem kprocess_sleep_handles (k : KSTREAM) (h : Nat) :
    (kprocess_sleep k h).handles = k.handles := rfl

@[simp] theorem kfree_stream (k : KSTREAM) (p : Nat) : (kfree k p).stream = k.stream := rfl

@[simp] theorem kfree_handles (k : KSTREAM) (p : Nat) : (kfree k p).handles = k.handles := rfl

@[simp] theorem kstream_post_listener_stream (k : KSTREAM) (n : Int) :
    (kstream_post_listener k n).stream = k.stream := by
  simp only [kstream_post_listener]
  cases k.stream.listener <;> rfl

@[simp] theorem kstream_post_listener_handles (k : KSTREAM) (n : Int) :
    (kstream_post_listener k n).handles = k.handles := by
  simp only [kstream_post_listener]
  cases k.stream.listener <;> rfl

/-- The reader loop of `kstream_write` leaves the ring, the write-waiter list
and the listener alone and only takes readers from the head of their list. -/
theorem kstream_write_direct_frame (fuel : Nat) (k : KSTREAM) (handle : Nat) (buf : CHAR_PTR) :
    (kstream_write_direct fuel k handle buf).1.stream.rb = k.stream.rb
    ∧ (kstream_write_direct fuel k handle buf).1.stream.write_waiters = k.stream.write_waiters
    ∧ (kstream_write_direct fuel k handle buf).1.stream.listener = k.stream.listener
    ∧ (∃ n, (kstream_write_direct fuel k handle buf).1.stream.read_waiters
          = k.stream.read_waiters.drop n) := by
  induction fuel generalizing k buf with
  | zero => exact ⟨rfl, rfl, rfl, 0, rfl⟩
  | succ n ih =>
    simp only [kstream_write_direct]
    split
    · cases hrw : k.stream.read_waiters with
      | nil => exact ⟨rfl, rfl, rfl, 0, by simp [hrw]⟩
      | cons reader t =>
        dsimp only
        split
        · obtain ⟨h1, h2, h3, m, h4⟩ := ih
            (kprocess_wakeup
              ((((k.set_handle reader _).set_handle handle _).set_read_waiters _).set_handle
                reader _) _) (buf.add _)
          refine ⟨h1, h2, h3, m + 1, ?_⟩
          rw [h4]
          simp [dlist_remove_head, hrw]
        · obtain ⟨h1, h2, h3, m, h4⟩ := ih
            ((((k.set_handle reader _).set_handle reader _).set_handle reader _).set_handle
              handle _) (buf.add _)
          refine ⟨h1, h2, h3, m, ?_⟩
          rw [h4]
          simp [hrw]
    · exact ⟨rfl, rfl, rfl, 0, by simp⟩

/-- The reader loop of `kstream_write` runs until its condition fails: at its
end `handle->size` is not positive or no reader waits. -/
theorem kstream_write_direct_done (fuel : Nat) (k : KSTREAM) (handle : Nat) (buf : CHAR_PTR)
    (hf : k.stream.read_waiters.length < fuel ∨ (k.handles handle).size ≤ 0) :
    ((kstream_write_direct fuel k handle buf).1.handles handle).size ≤ 0
    ∨ (kstream_write_direct fuel k handle buf).1.stream.read_waiters = [] := by
  induction fuel generalizing k buf with
  | zero =>
    rcases hf with hf | hf
    · exact absurd hf (Nat.not_lt_zero _)
    · exact Or.inl hf
  | succ n ih =>
    simp only [kstream_write_direct]
    split
    · rename_i hpos
      cases hrw : k.stream.read_waiters with
      | nil => exact Or.inr hrw
      | cons reader t =>
        have hlen : t.length < n := by
          rcases hf with hf | hf
          · rw [hrw] at hf
            simpa using hf
          · omega
        dsimp only
        split
        · apply ih
          left
          simp [dlist_remove_head, hrw, hlen]
        · apply ih
          right
          simp
    · rename_i hpos
      exact Or.inl (not_lt.mp hpos)

/-- The ring loop of `kstream_write` leaves the waiter lists and the listener
alone and appends to the ring. -/
theorem kstream_write_rb_frame (fuel : Nat) (k : KSTREAM) (handle : Nat) (buf : CHAR_PTR) :
    (kstream_write_rb fuel k handle buf).1.stream.write_waiters = k.stream.write_waiters
    ∧ (kstream_write_rb fuel k handle buf).1.stream.read_waiters = k.stream.read_waiters
    ∧ (kstream_write_rb fuel k handle buf).1.stream.listener = k.stream.listener
    ∧ (kstream_write_rb fuel k handle buf).1.stream.rb.size = k.stream.rb.size
    ∧ (∃ l, (kstream_write_rb fuel k handle buf).1.stream.rb.bytes = k.stream.rb.bytes ++ l) := by
  induction fuel generalizing k buf with
  | zero => exact ⟨rfl, rfl, rfl, rfl, [], by simp [kstream_write_rb]⟩
  | succ n ih =>
    simp only [kstream_write_rb]
    split
    · obtain ⟨h1, h2, h3, h4, l, h5⟩ := ih
        ((k.set_rb (rb_put k.stream.rb buf.load)).set_handle handle _) (buf.add 1)
      refine ⟨h1, h2, h3, h4, buf.load :: l, ?_⟩
      rw [h5]
      simp [rb_put]
    · exact ⟨rfl, rfl, rfl, rfl, [], by simp⟩

/-- The ring loop of `kstream_write` does nothing when `handle->size` is not
positive or the ring is full. -/
theorem kstream_write_rb_skip (fuel : Nat) (k : KSTREAM) (handle : Nat) (buf : CHAR_PTR)
    (h : (k.handles handle).size ≤ 0 ∨ rb_is_full k.stream.rb = true) :
    kstream_write_rb fuel k handle buf = (k, buf) := by
  cases fuel with
  | zero => rfl
  | succ n =>
    simp only [kstream_write_rb]
    rw [if_neg]
    rintro ⟨h1, h2⟩
    rcases h with h | h
    · omega
    · exact h2 h

/-- The ring loop of `kstream_write` runs until its condition fails. -/
theorem kstream_write_rb_done (fuel : Nat) (k : KSTREAM) (handle : Nat) (buf : CHAR_PTR)
    (hf : (k.handles handle).size.toNat ≤ fuel) :
    ((kstream_write_rb fuel k handle buf).1.handles handle).size ≤ 0
    ∨ rb_is_full (kstream_write_rb fuel k handle buf).1.stream.rb = true := by
  induction fuel generalizing k buf with
  | zero =>
    left
    show (k.handles handle).size ≤ 0
    omega
  | succ n ih =>
    simp only [kstream_write_rb]
    split
    · rename_i hc
      apply ih
      simp only [set_handle_same, set_rb_handles]
      omega
    · rename_i hc
      by_cases hp : (k.handles handle).size > 0
      · right
        by_contra hfull
        exact hc ⟨hp, hfull⟩
      · left
        show (k.handles handle).size ≤ 0
        omega

theorem rb_is_full_append (rb : RB) (rb2 : RB) (l : List Nat) (hs : rb2.size = rb.size)
    (hb : rb2.bytes = rb.bytes ++ l) (hfull : rb_is_full rb = true) : rb_is_full rb2 = true := by
  simp only [rb_is_full, decide_eq_true_eq] at *
  rw [hs, hb, List.length_append]
  omega

/-- The inner loop of `kstream_push` leaves the waiter lists and the listener
alone. -/
theorem kstream_push_rb_frame (fuel : Nat) (k : KSTREAM) (handle : Nat) :
    (kstream_push_rb fuel k handle).stream.write_waiters = k.stream.write_waiters
    ∧ (kstream_push_rb fuel k handle).stream.read_waiters = k.stream.read_waiters
    ∧ (kstream_push_rb fuel k handle).stream.listener = k.stream.listener := by
  induction fuel generalizing k with
  | zero => exact ⟨rfl, rfl, rfl⟩
  | succ n ih =>
    simp only [kstream_push_rb]
    split
    · obtain ⟨h1, h2, h3⟩ := ih
        (((k.set_rb (rb_put k.stream.rb (k.handles handle).buf.load)).set_handle handle
          _).set_handle handle _)
      exact ⟨h1, h2, h3⟩
    · exact ⟨rfl, rfl, rfl⟩

/-- The inner loop of `kstream_push` runs until its condition fails. -/
theorem kstream_push_rb_done (fuel : Nat) (k : KSTREAM) (handle : Nat)
    (hf : (k.handles handle).size.toNat ≤ fuel) :
    rb_is_full (kstream_push_rb fuel k handle).stream.rb = true
    ∨ ((kstream_push_rb fuel k handle).handles handle).size ≤ 0 := by
  induction fuel generalizing k with
  | zero =>
    right
    show (k.handles handle).size ≤ 0
    omega
  | succ n ih =>
    simp only [kstream_push_rb]
    split
    · rename_i hc
      apply ih
      simp only [set_handle_same, set_rb_handles]
      omega
    · rename_i hc
      by_cases hp : (k.handles handle).size > 0
      · left
        by_contra hfull
        exact hc ⟨hfull, hp⟩
      · right
        omega

/-- The outer loop of `kstream_push` leaves the read-waiter list and the
listener alone. -/
theorem kstream_push_loop_frame (fuel : Nat) (k : KSTREAM) :
    (kstream_push_loop fuel k).stream.read_waiters = k.stream.read_waiters
    ∧ (kstream_push_loop fuel k).stream.listener = k.stream.listener := by
  induction fuel generalizing k with
  | zero => exact ⟨rfl, rfl⟩
  | succ n ih =>
    simp only [kstream_push_loop]
    cases hww : k.stream.write_waiters with
    | nil => exact ⟨rfl, rfl⟩
    | cons handle t =>
      dsimp only
      obtain ⟨f1, f2, f3⟩ := kstream_push_rb_frame (k.handles handle).size.toNat k handle
      split
      · split
        · rw [(ih _).1, (ih _).2]
          simp only [kstream_post_listener_stream, kprocess_wakeup_stream,
            set_write_waiters_read, set_write_waiters_listener, set_handle_stream]
          exact ⟨f2, f3⟩
        · rw [(ih _).1, (ih _).2]
          exact ⟨f2, f3⟩
      · exact ⟨rfl, rfl⟩

/-- The outer loop of `kstream_push` runs until its condition fails: at its end
no writer waits or the ring is full. -/
theorem kstream_push_loop_done (fuel : Nat) (k : KSTREAM)
    (hf : k.stream.write_waiters.length < fuel ∨ rb_is_full k.stream.rb = true) :
    (kstream_push_loop fuel k).stream.write_waiters = []
    ∨ rb_is_full (kstream_push_loop fuel k).stream.rb = true := by
  induction fuel generalizing k with
  | zero =>
    rcases hf with hf | hf
    · exact absurd hf (Nat.not_lt_zero _)
    · exact Or.inr hf
  | succ n ih =>
    simp only [kstream_push_loop]
    cases hww : k.stream.write_waiters with
    | nil => exact Or.inl hww
    | cons handle t =>
      dsimp only
      split
      · rename_i hnf
        have hlen : t.length < n := by
          rcases hf with hf | hf
          · rw [hww] at hf
            simpa using hf
          · exact absurd hf hnf
        obtain ⟨f1, f2, f3⟩ := kstream_push_rb_frame (k.handles handle).size.toNat k handle
        split
        · apply ih
          left
          have : (kstream_push_rb (k.handles handle).size.toNat k handle).stream.write_waiters
              = handle :: t := by rw [f1, hww]
          simp [dlist_remove_head, this, hlen]
        · rename_i hsz
          apply ih
          right
          rcases kstream_push_rb_done _ k handle (Nat.le_refl _) with h | h
          · exact h
          · exact absurd h hsz
      · rename_i hfull
        right
        simpa using hfull

/-- The ring loop of `kstream_read` leaves the waiter lists and the listener
alone. -/
theorem kstream_read_rb_frame (fuel : Nat) (k : KSTREAM) (handle : Nat) (buf : CHAR_PTR) :
    (kstream_read_rb fuel k handle buf).1.stream.write_waiters = k.stream.write_waiters
    ∧ (kstream_read_rb fuel k handle buf).1.stream.read_waiters = k.stream.read_waiters
    ∧ (kstream_read_rb fuel k handle buf).1.stream.listener = k.stream.listener := by
  induction fuel generalizing k buf with
  | zero => exact ⟨rfl, rfl, rfl⟩
  | succ n ih =>
    simp only [kstream_read_rb]
    split
    · obtain ⟨h1, h2, h3⟩ := ih
        ((k.set_rb (rb_get k.stream.rb).2).set_handle handle _)
        ((buf.store (rb_get k.stream.rb).1).add 1)
      exact ⟨h1, h2, h3⟩
    · exact ⟨rfl, rfl, rfl⟩

/-- The ring loop of `kstream_read` does nothing when `handle->size` is not
positive or the ring is empty. -/
theorem kstream_read_rb_skip (fuel : Nat) (k : KSTREAM) (handle : Nat) (buf : CHAR_PTR)
    (h : (k.handles handle).size ≤ 0 ∨ rb_is_empty k.stream.rb = true) :
    kstream_read_rb fuel k handle buf = (k, buf) := by
  cases fuel with
  | zero => rfl
  | succ n =>
    simp only [kstream_read_rb]
    rw [if_neg]
    rintro ⟨h1, h2⟩
    rcases h with h | h
    · omega
    · exact h2 h

/-- The writer loop of `kstream_read` leaves the ring, the read-waiter list and
the listener alone. -/
theorem kstream_read_direct_frame (fuel : Nat) (k : KSTREAM) (handle : Nat) (buf : CHAR_PTR) :
    (kstream_read_direct fuel k handle buf).1.stream.rb = k.stream.rb
    ∧ (kstream_read_direct fuel k handle buf).1.stream.read_waiters = k.stream.read_waiters
    ∧ (kstream_read_direct fuel k handle buf).1.stream.listener = k.stream.listener := by
  induction fuel generalizing k buf with
  | zero => exact ⟨rfl, rfl, rfl⟩
  | succ n ih =>
    simp only [kstream_read_direct]
    split
    · cases hww : k.stream.write_waiters with
      | nil => exact ⟨rfl, rfl, rfl⟩
      | cons writer t =>
        dsimp only
        split
        · rw [(ih _ _).1, (ih _ _).2.1, (ih _ _).2.2]
          simp
        · rw [(ih _ _).1, (ih _ _).2.1, (ih _ _).2.2]
          simp
    · exact ⟨rfl, rfl, rfl⟩

/-- The writer loop of `kstream_read` does nothing when no writer waits. -/
theorem kstream_read_direct_skip (fuel : Nat) (k : KSTREAM) (handle : Nat) (buf : CHAR_PTR)
    (h : k.stream.write_waiters = []) :
    kstream_read_direct fuel k handle buf = (k, buf) := by
  cases fuel with
  | zero => rfl
  | succ n =>
    simp only [kstream_read_direct, h]
    split <;> rfl

/-- The outer loop of `kstream_push` does nothing when no writer waits. -/
theorem kstream_push_loop_skip (fuel : Nat) (k : KSTREAM) (h : k.stream.write_waiters = []) :
    kstream_push_loop fuel k = k := by
  cases fuel with
  | zero => rfl
  | succ n => simp only [kstream_push_loop, h]

/-- The loop of `kstream_flush` leaves the ring, the read-waiter list and the
listener alone and empties the write-waiter list. -/
theorem kstream_flush_loop_spec (fuel : Nat) (k : KSTREAM)
    (hf : k.stream.write_waiters.length ≤ fuel) :
    (kstream_flush_loop fuel k).stream.rb = k.stream.rb
    ∧ (kstream_flush_loop fuel k).stream.read_waiters = k.stream.read_waiters
    ∧ (kstream_flush_loop fuel k).stream.listener = k.stream.listener
    ∧ (kstream_flush_loop fuel k).stream.write_waiters = [] := by
  induction fuel generalizing k with
  | zero => exact ⟨rfl, rfl, rfl, List.length_eq_zero.mp (Nat.le_zero.mp hf)⟩
  | succ n ih =>
    simp only [kstream_flush_loop]
    cases hww : k.stream.write_waiters with
    | nil => exact ⟨rfl, rfl, rfl, hww⟩
    | cons handle t =>
      dsimp only
      rw [hww] at hf
      have hlen : t.length ≤ n := by simpa using hf
      obtain ⟨h1, h2, h3, h4⟩ := ih
        (kprocess_wakeup ((k.set_handle handle _).set_write_waiters
          (dlist_remove_head (k.set_handle handle _).stream.write_waiters)) _)
        (by simp [dlist_remove_head, hww, hlen])
      rw [h1, h2, h3, h4]
      simp

/-! ## Streams: the invariant -/

theorem STREAM_INV_write (k : KSTREAM) (handle : Nat) (buf : CHAR_PTR) (size : Int)
    (hinv : STREAM_INV k.stream) : STREAM_INV (kstream_write k handle buf size).stream := by
  obtain ⟨hw, hr⟩ := hinv
  obtain ⟨k0, hk0⟩ : ∃ k0, k0 = k.set_handle handle { k.handles handle with size := size } :=
    ⟨_, rfl⟩
  obtain ⟨r1, hr1⟩ : ∃ r1, r1 = kstream_write_direct (k0.stream.read_waiters.length + 1) k0
    handle buf := ⟨_, rfl⟩
  obtain ⟨r2, hr2⟩ : ∃ r2, r2 = kstream_write_rb (r1.1.handles handle).size.toNat r1.1 handle
    r1.2 := ⟨_, rfl⟩
  have hs : (kstream_write k handle buf size).stream = r2.1.stream := by
    simp only [kstream_write, ← hk0, ← hr1, ← hr2]
    split <;> simp
  rw [hs]
  have hk0s : k0.stream = k.stream := by rw [hk0]; rfl
  obtain ⟨d1, d2, _, n, d4⟩ := kstream_write_direct_frame
    (k0.stream.read_waiters.length + 1) k0 handle buf
  rw [← hr1, hk0s] at d1 d2 d4
  have hdone := kstream_write_direct_done (k0.stream.read_waiters.length + 1) k0 handle buf
    (Or.inl (Nat.lt_succ_self _))
  rw [← hr1] at hdone
  obtain ⟨e1, e2, _, e4, l, e5⟩ := kstream_write_rb_frame (r1.1.handles handle).size.toNat r1.1
    handle r1.2
  rw [← hr2] at e1 e2 e4 e5
  constructor
  · intro hne
    rw [e1, d2] at hne
    have hfull := hw hne
    rw [← d1] at hfull
    exact rb_is_full_append _ _ l e4 e5 hfull
  · intro hne
    rw [e2] at hne
    have hsz : (r1.1.handles handle).size ≤ 0 := by
      rcases hdone with h | h
      · exact h
      · exact absurd h hne
    have hskip := kstream_write_rb_skip (r1.1.handles handle).size.toNat r1.1 handle r1.2
      (Or.inl hsz)
    rw [← hr2] at hskip
    have hkne : k.stream.read_waiters ≠ [] := by
      intro h0
      rw [d4, h0] at hne
      simp at hne
    obtain ⟨he, hwe⟩ := hr hkne
    rw [hskip]
    exact ⟨by rw [d1]; exact he, by rw [d2]; exact hwe⟩

theorem STREAM_INV_read (k : KSTREAM) (handle : Nat) (buf : CHAR_PTR) (size : Int)
    (hinv : STREAM_INV k.stream) : STREAM_INV (kstream_read k handle buf size).1.stream := by
  obtain ⟨hw, hr⟩ := hinv
  obtain ⟨k0, hk0⟩ : ∃ k0, k0 = k.set_handle handle { k.handles handle with size := size } :=
    ⟨_, rfl⟩
  obtain ⟨r1, hr1⟩ : ∃ r1, r1 = kstream_read_rb (k0.handles handle).size.toNat k0 handle buf :=
    ⟨_, rfl⟩
  obtain ⟨r2, hr2⟩ : ∃ r2, r2 = kstream_read_direct (r1.1.stream.write_waiters.length + 1) r1.1
    handle r1.2 := ⟨_, rfl⟩
  obtain ⟨k3, hk3⟩ : ∃ k3 : KSTREAM, k3 =
      (if (r2.1.handles handle).size > 0 then
        kprocess_sleep
          ((r2.1.set_handle handle { r2.1.handles handle with buf := r2.2 }).set_handle handle
            { (r2.1.set_handle handle { r2.1.handles handle with buf := r2.2 }).handles handle
              with mode := STREAM_MODE.STREAM_MODE_READ }) handle
      else r2.1) := ⟨_, rfl⟩
  have hs : (kstream_read k handle buf size).1 = kstream_push k3 := by
    simp only [kstream_read, ← hk0, ← hr1, ← hr2, hk3]
  rw [hs]
  have hk3s : k3.stream = r2.1.stream := by
    rw [hk3]
    split <;> simp
  have hk0s : k0.stream = k.stream := by rw [hk0]; rfl
  obtain ⟨a1, a2, _⟩ := kstream_read_rb_frame (k0.handles handle).size.toNat k0 handle buf
  rw [← hr1, hk0s] at a1 a2
  obtain ⟨b1, b2, _⟩ := kstream_read_direct_frame (r1.1.stream.write_waiters.length + 1) r1.1
    handle r1.2
  rw [← hr2] at b1 b2
  obtain ⟨c1, _⟩ := kstream_push_loop_frame (k3.stream.write_waiters.length + 1) k3
  constructor
  · intro hne
    rcases kstream_push_loop_done (k3.stream.write_waiters.length + 1) k3
      (Or.inl (Nat.lt_succ_self _)) with h | h
    · exact absurd h hne
    · exact h
  · intro hne
    have hkne : k.stream.read_waiters ≠ [] := by
      simp only [kstream_push] at hne
      rw [c1, hk3s, b2, a2] at hne
      exact hne
    obtain ⟨he, hwe⟩ := hr hkne
    have hskip1 := kstream_read_rb_skip (k0.handles handle).size.toNat k0 handle buf
      (Or.inr (by rw [hk0s]; exact he))
    rw [← hr1] at hskip1
    have hr1s : r1.1.stream = k.stream := by rw [hskip1]; exact hk0s
    have hskip2 := kstream_read_direct_skip (r1.1.stream.write_waiters.length + 1) r1.1 handle
      r1.2 (by rw [hr1s]; exact hwe)
    rw [← hr2] at hskip2
    have hr2s : r2.1.stream = k.stream := by rw [hskip2]; exact hr1s
    have hk3k : k3.stream = k.stream := by rw [hk3s]; exact hr2s
    have hpush : kstream_push k3 = k3 :=
      kstream_push_loop_skip _ k3 (by rw [hk3k]; exact hwe)
    rw [hpush, hk3k]
    exact ⟨he, hwe⟩

theorem STREAM_INV_flush (k : KSTREAM) : STREAM_INV (kstream_flush k).stream := by
  obtain ⟨h1, h2, h3, h4⟩ := kstream_flush_loop_spec
    (k.set_rb (rb_clear k.stream.rb)).stream.write_waiters.length
    (k.set_rb (rb_clear k.stream.rb)) (Nat.le_refl _)
  constructor
  · intro hne
    exact absurd h4 hne
  · intro _
    refine ⟨?_, h4⟩
    simp only [kstream_flush]
    rw [h1]
    rfl

theorem erase_ne_nil (l : List Nat) (a : Nat) (h : l.erase a ≠ []) : l ≠ [] := by
  intro h0
  rw [h0] at h
  exact h rfl

theorem STREAM_INV_close (k : KSTREAM) (handle : Nat) (hinv : STREAM_INV k.stream) :
    STREAM_INV (kstream_close k handle).stream := by
  obtain ⟨hw, hr⟩ := hinv
  simp only [kstream_close, kfree_stream]
  cases (k.handles handle).mode with
  | STREAM_MODE_IDLE => exact ⟨hw, hr⟩
  | STREAM_MODE_READ =>
    simp only [kprocess_error_stream, kprocess_wakeup_stream]
    constructor
    · intro hne
      exact hw hne
    · intro hne
      exact hr (erase_ne_nil _ _ hne)
  | STREAM_MODE_WRITE =>
    simp only [kprocess_error_stream, kprocess_wakeup_stream]
    constructor
    · intro hne
      exact hw (erase_ne_nil _ _ hne)
    · intro hne
      obtain ⟨he, hwe⟩ := hr hne
      refine ⟨he, ?_⟩
      show dlist_remove k.stream.write_waiters handle = []
      rw [hwe]
      rfl

theorem STREAM_INV_lock_release (k : KSTREAM) (handle : Nat) (process : PROCESS)
    (hinv : STREAM_INV k.stream) :
    STREAM_INV (kstream_lock_release k handle process).stream := by
  obtain ⟨hw, hr⟩ := hinv
  simp only [kstream_lock_release, set_handle_stream]
  cases (k.handles handle).mode with
  | STREAM_MODE_IDLE => exact ⟨hw, hr⟩
  | STREAM_MODE_READ =>
    constructor
    · intro hne
      exact hw hne
    · intro hne
      exact hr (erase_ne_nil _ _ hne)
  | STREAM_MODE_WRITE =>
    constructor
    · intro hne
      exact hw (erase_ne_nil _ _ hne)
    · intro hne
      obtain ⟨he, hwe⟩ := hr hne
      refine ⟨he, ?_⟩
      show dlist_remove k.stream.write_waiters handle = []
      rw [hwe]
      rfl

theorem STREAM_INV_reachable (k : KSTREAM) (hk : StreamReachable k) : STREAM_INV k.stream := by
  induction hk with
  | create k addr data size =>
    constructor
    · intro hne
      exact absurd rfl hne
    · intro hne
      exact absurd rfl hne
  | open_ k kmalloc _ ih =>
    cases kmalloc with
    | none => exact ih
    | some a => exact ih
  | write k handle buf size _ ih => exact STREAM_INV_write k handle buf size ih
  | read k handle buf size _ ih => exact STREAM_INV_read k handle buf size ih
  | flush k _ _ => exact STREAM_INV_flush k
  | close k handle _ ih => exact STREAM_INV_close k handle ih
  | lock_release k handle process _ ih => exact STREAM_INV_lock_release k handle process ih
  | start_listen k _ ih =>
    simp only [kstream_start_listen]
    split
    · exact ih
    · exact ih
  | stop_listen k _ ih =>
    simp only [kstream_stop_listen]
    split
    · exact ih
    · exact ih
  | switch k process _ ih => exact ih

/-- C15. The stream invariant - if the write-waiter list is not empty the ring
is full, and if the read-waiter list is not empty the ring is empty and the
write-waiter list is empty - holds for the stream that `kstream_create` makes,
is kept by `kstream_write`, `kstream_read`, `kstream_flush`, `kstream_close`
and `kstream_lock_release` from every state that satisfies it, and so holds
after every sequence of stream operations on a created stream. -/
theorem stream_waiters_inv :
    (∀ (k : KSTREAM) (addr data : Nat) (size : Int),
      STREAM_INV (kstream_create k (some addr) (some data) size).2.stream)
    ∧ (∀ k : KSTREAM, STREAM_INV k.stream →
        (∀ (handle : Nat) (buf : CHAR_PTR) (size : Int),
          STREAM_INV (kstream_write k handle buf size).stream)
        ∧ (∀ (handle : Nat) (buf : CHAR_PTR) (size : Int),
          STREAM_INV (kstream_read k handle buf size).1.stream)
        ∧ STREAM_INV (kstream_flush k).stream
        ∧ (∀ handle : Nat, STREAM_INV (kstream_close k handle).stream)
        ∧ (∀ (handle : Nat) (process : PROCESS),
          STREAM_INV (kstream_lock_release k handle process).stream))
    ∧ (∀ k : KSTREAM, StreamReachable k →
        (k.stream.write_waiters ≠ [] → rb_is_full k.stream.rb = true)
        ∧ (k.stream.read_waiters ≠ [] →
            rb_is_empty k.stream.rb = true ∧ k.stream.write_waiters = [])) := by
  refine ⟨?_, ?_, ?_⟩
  · intro k addr data size
    exact STREAM_INV_reachable _ (StreamReachable.create k addr data size)
  · intro k hinv
    exact ⟨fun handle buf size => STREAM_INV_write k handle buf size hinv,
      fun handle buf size => STREAM_INV_read k handle buf size hinv,
      STREAM_INV_flush k,
      fun handle => STREAM_INV_close k handle hinv,
      fun handle process => STREAM_INV_lock_release k handle process hinv⟩
  · intro k hk
    exact STREAM_INV_reachable k hk

/-- Witness of C15: with a reader waiting for 8 bytes on an empty ring of 16,
a write of 3 bytes leaves the reader waiting and the ring empty, and the
invariant holds before and after it. -/
theorem stream_waiters_inv_witness :
    STREAM_INV (demo_reader_waiting none).stream
    ∧ (kstream_write (demo_reader_waiting none) 1 (demo_ptr [65, 66, 67]) 3).stream.read_waiters
        = [2]
    ∧ STREAM_INV (kstream_write (demo_reader_waiting none) 1 (demo_ptr [65, 66, 67]) 3).stream := by
  have h0 : STREAM_INV (demo_reader_waiting none).stream := by
    constructor
    · intro hne
      exact absurd rfl hne
    · intro _
      exact ⟨rfl, rfl⟩
  exact ⟨h0, by decide, (stream_waiters_inv.2.1 _ h0).1 1 (demo_ptr [65, 66, 67]) 3⟩

/-! ## Streams: the scenarios -/

/-- The hand-off scenario: ring size 16, a reader waiting for 8 bytes, a write
of "ABCDEFGHIJ".  The reader receives "ABCDEFGH", is taken from the list, set
idle and woken; the ring holds "IJ"; the writer does not block; the listener
gets one message with `param1 = 10`. -/
theorem kstream_write_hand_off :
    ((kstream_write (demo_reader_waiting (some 99)) 1 (demo_ptr demo_text) 10).handles 2).buf.all
        = [65, 66, 67, 68, 69, 70, 71, 72]
    ∧ ((kstream_write (demo_reader_waiting (some 99)) 1 (demo_ptr demo_text) 10).handles 2).mode
        = STREAM_MODE.STREAM_MODE_IDLE
    ∧ (kstream_write (demo_reader_waiting (some 99)) 1 (demo_ptr demo_text) 10).stream.read_waiters
        = []
    ∧ (kstream_write (demo_reader_waiting (some 99)) 1 (demo_ptr demo_text) 10).woken = [12]
    ∧ (kstream_write (demo_reader_waiting (some 99)) 1 (demo_ptr demo_text) 10).stream.rb.bytes
        = [73, 74]
    ∧ ((kstream_write (demo_reader_waiting (some 99)) 1 (demo_ptr demo_text) 10).handles 1).mode
        = STREAM_MODE.STREAM_MODE_IDLE
    ∧ (kstream_write (demo_reader_waiting (some 99)) 1 (demo_ptr demo_text) 10).slept = []
    ∧ (kstream_write (demo_reader_waiting (some 99)) 1 (demo_ptr demo_text) 10).posted
        = [{ process := 99, param1 := 10, param2 := 0 }] := by
  decide

/-- C11, the code at a failing input: an empty stream of ring size 4 without
waiters, and a write of the 10 bytes "ABCDEFGHIJ" through the idle handle 1 of
process 10.  The ring takes "ABCD", 6 bytes remain, the handle is put in mode
WRITE and the process sleeps on it, but the write-waiter list is still empty.
A later read of 10 bytes through handle 2 takes "ABCD" from the ring, finds no
writer on the list and blocks as well; the writer is not woken and its bytes
"EFGHIJ" stay where they are. -/
theorem kstream_write_blocked_unlisted :
    ((demo_kstream 4 none).handles 1).mode = STREAM_MODE.STREAM_MODE_IDLE
    ∧ (kstream_write (demo_kstream 4 none) 1 (demo_ptr demo_text) 10).stream.rb.bytes
        = [65, 66, 67, 68]
    ∧ ((kstream_write (demo_kstream 4 none) 1 (demo_ptr demo_text) 10).handles 1).size = 6
    ∧ ((kstream_write (demo_kstream 4 none) 1 (demo_ptr demo_text) 10).handles 1).buf.post
        = [69, 70, 71, 72, 73, 74]
    ∧ ((kstream_write (demo_kstream 4 none) 1 (demo_ptr demo_text) 10).handles 1).mode
        = STREAM_MODE.STREAM_MODE_WRITE
    ∧ (kstream_write (demo_kstream 4 none) 1 (demo_ptr demo_text) 10).slept = [(10, 1)]
    ∧ (kstream_write (demo_kstream 4 none) 1 (demo_ptr demo_text) 10).stream.write_waiters = []
    ∧ (kstream_read (kstream_write (demo_kstream 4 none) 1 (demo_ptr demo_text) 10) 2
          (demo_ptr (List.replicate 10 0)) 10).2.pre = [65, 66, 67, 68]
    ∧ ((kstream_read (kstream_write (demo_kstream 4 none) 1 (demo_ptr demo_text) 10) 2
          (demo_ptr (List.replicate 10 0)) 10).1.handles 2).mode = STREAM_MODE.STREAM_MODE_READ
    ∧ (kstream_read (kstream_write (demo_kstream 4 none) 1 (demo_ptr demo_text) 10) 2
          (demo_ptr (List.replicate 10 0)) 10).1.woken = []
    ∧ ((kstream_read (kstream_write (demo_kstream 4 none) 1 (demo_ptr demo_text) 10) 2
          (demo_ptr (List.replicate 10 0)) 10).1.handles 1).buf.post
        = [69, 70, 71, 72, 73, 74]
    ∧ (kstream_read (kstream_write (demo_kstream 4 none) 1 (demo_ptr demo_text) 10) 2
          (demo_ptr (List.replicate 10 0)) 10).1.stream.rb.bytes = [] := by
  decide

/-- The hand-off branch of `kstream_read`, on a state with a handle on the
write-waiter list (no run from `kstream_create` reaches such a state, since no
function of `kstream.c` links a waiter): a stream with listener 99 whose ring of
size 4 is full with "ABCD" while a writer waits with the last 2 bytes of a write
of 6 bytes (`full_size = 6`).  A read of 6 bytes through handle 2 (whose own
`full_size` is 0) takes "ABCD" from the ring and "EF" from the writer, wakes the
writer, and posts one message whose `param1` is 0, the `full_size` of the
reading handle, not 6.  A read of 4 bytes instead lets `kstream_push` complete
the writer, and the message carries `param1 = 6`. -/
theorem kstream_read_hand_off_param1 :
    (demo_writer_waiting (some 99)).stream.write_waiters = [1]
    ∧ ((demo_writer_waiting (some 99)).handles 1).full_size = 6
    ∧ ((demo_writer_waiting (some 99)).handles 2).mode = STREAM_MODE.STREAM_MODE_IDLE
    ∧ (kstream_read (demo_writer_waiting (some 99)) 2 (demo_ptr (List.replicate 6 0)) 6).2.all
        = [65, 66, 67, 68, 69, 70]
    ∧ (kstream_read (demo_writer_waiting (some 99)) 2 (demo_ptr (List.replicate 6 0)) 6).1.woken
        = [11]
    ∧ ((kstream_read (demo_writer_waiting (some 99)) 2
          (demo_ptr (List.replicate 6 0)) 6).1.handles 1).mode = STREAM_MODE.STREAM_MODE_IDLE
    ∧ (kstream_read (demo_writer_waiting (some 99)) 2 (demo_ptr (List.replicate 6 0)) 6).1.posted
        = [{ process := 99, param1 := 0, param2 := 0 }]
    ∧ (kstream_read (demo_writer_waiting (some 99)) 2 (demo_ptr (List.replicate 4 0)) 4).1.woken
        = [11]
    ∧ (kstream_read (demo_writer_waiting (some 99)) 2 (demo_ptr (List.replicate 4 0)) 4).1.posted
        = [{ process := 99, param1 := 6, param2 := 0 }] := by
  decide

/-! ## Streams: one writer and one reader -/

/-- The reader loop of `kstream_write` does nothing when no reader waits. -/
theorem kstream_write_direct_skip (fuel : Nat) (k : KSTREAM) (handle : Nat) (buf : CHAR_PTR)
    (h : k.stream.read_waiters = []) :
    kstream_write_direct fuel k handle buf = (k, buf) := by
  cases fuel with
  | zero => rfl
  | succ n =>
    simp only [kstream_write_direct, h]
    split <;> rfl

/-- The ring loop of `kstream_write` moves bytes from the front of the buffer
to the end of the ring, counts them off `handle->size`, and touches nothing
else of the handles. -/
theorem kstream_write_rb_spec (fuel : Nat) (k : KSTREAM) (handle : Nat) (buf : CHAR_PTR)
    (hsz : (k.handles handle).size = buf.post.length) :
    (kstream_write_rb fuel k handle buf).1.stream.rb.bytes
        ++ (kstream_write_rb fuel k handle buf).2.post = k.stream.rb.bytes ++ buf.post
    ∧ ((kstream_write_rb fuel k handle buf).1.handles handle).size
        = (kstream_write_rb fuel k handle buf).2.post.length
    ∧ ((kstream_write_rb fuel k handle buf).1.handles handle).mode = (k.handles handle).mode
    ∧ (∀ a, a ≠ handle → (kstream_write_rb fuel k handle buf).1.handles a = k.handles a) := by
  induction fuel generalizing k buf with
  | zero => exact ⟨rfl, hsz, rfl, fun _ _ => rfl⟩
  | succ n ih =>
    simp only [kstream_write_rb]
    split
    · rename_i hc
      have hpos : 0 < buf.post.length := by
        have := hc.1
        omega
      obtain ⟨x, xs, hx⟩ := List.exists_cons_of_length_pos hpos
      have hadd : (buf.add 1).post = xs := by simp [CHAR_PTR.add, hx]
      have hload : buf.load = x := by simp [CHAR_PTR.load, hx]
      obtain ⟨h1, h2, h3, h4⟩ := ih
        ((k.set_rb (rb_put k.stream.rb buf.load)).set_handle handle
          { (k.set_rb (rb_put k.stream.rb buf.load)).handles handle with
            size := ((k.set_rb (rb_put k.stream.rb buf.load)).handles handle).size - 1 })
        (buf.add 1)
        (by
          simp only [set_handle_same, set_rb_handles, hadd]
          rw [hsz, hx]
          simp)
      refine ⟨?_, h2, ?_, ?_⟩
      · rw [h1, hadd, hx, hload]
        simp [rb_put]
      · rw [h3]
        simp
      · intro a ha
        rw [h4 a ha]
        simp [set_handle_other _ _ _ _ ha]
    · exact ⟨rfl, hsz, rfl, fun _ _ => rfl⟩

/-- The ring loop of `kstream_read` moves bytes from the front of the ring to
the buffer, counts them off `handle->size`, and touches nothing else of the
handles. -/
theorem kstream_read_rb_spec (fuel : Nat) (k : KSTREAM) (handle : Nat) (buf : CHAR_PTR)
    (hsz : (k.handles handle).size = buf.post.length) :
    (kstream_read_rb fuel k handle buf).2.pre
        ++ (kstream_read_rb fuel k handle buf).1.stream.rb.bytes = buf.pre ++ k.stream.rb.bytes
    ∧ ((kstream_read_rb fuel k handle buf).1.handles handle).size
        = (kstream_read_rb fuel k handle buf).2.post.length
    ∧ (kstream_read_rb fuel k handle buf).2.pre.length
        + (kstream_read_rb fuel k handle buf).2.post.length = buf.pre.length + buf.post.length
    ∧ ((kstream_read_rb fuel k handle buf).1.handles handle).mode = (k.handles handle).mode
    ∧ (∀ a, a ≠ handle → (kstream_read_rb fuel k handle buf).1.handles a = k.handles a) := by
  induction fuel generalizing k buf with
  | zero => exact ⟨rfl, hsz, rfl, rfl, fun _ _ => rfl⟩
  | succ n ih =>
    simp only [kstream_read_rb]
    split
    · rename_i hc
      have hpos : 0 < buf.post.length := by
        have := hc.1
        omega
      obtain ⟨x, xs, hx⟩ := List.exists_cons_of_length_pos hpos
      have hne : k.stream.rb.bytes ≠ [] := by
        intro h0
        apply hc.2
        simp [rb_is_empty, h0]
      obtain ⟨y, ys, hy⟩ := List.exists_cons_of_ne_nil hne
      have hpost : ((buf.store (rb_get k.stream.rb).1).add 1).post = xs := by
        simp [CHAR_PTR.add, CHAR_PTR.store, hx]
      have hpre : ((buf.store (rb_get k.stream.rb).1).add 1).pre = buf.pre ++ [y] := by
        simp [CHAR_PTR.add, CHAR_PTR.store, rb_get, hy]
      obtain ⟨h1, h2, h3, h4, h5⟩ := ih
        ((k.set_rb (rb_get k.stream.rb).2).set_handle handle
          { (k.set_rb (rb_get k.stream.rb).2).handles handle with
            size := ((k.set_rb (rb_get k.stream.rb).2).handles handle).size - 1 })
        ((buf.store (rb_get k.stream.rb).1).add 1)
        (by
          simp only [set_handle_same, set_rb_handles, hpost]
          rw [hsz, hx]
          simp)
      refine ⟨?_, h2, ?_, ?_, ?_⟩
      · rw [h1, hpre]
        simp [rb_get, hy]
      · rw [h3, hpre, hpost, hx]
        simp
        omega
      · rw [h4]
        simp
      · intro a ha
        rw [h5 a ha]
        simp [set_handle_other _ _ _ _ ha]
    · exact ⟨rfl, hsz, rfl, rfl, fun _ _ => rfl⟩

/-- The ring loop of `kstream_read` runs until its condition fails. -/
theorem kstream_read_rb_done (fuel : Nat) (k : KSTREAM) (handle : Nat) (buf : CHAR_PTR)
    (hf : (k.handles handle).size.toNat ≤ fuel) :
    ((kstream_read_rb fuel k handle buf).1.handles handle).size ≤ 0
    ∨ rb_is_empty (kstream_read_rb fuel k handle buf).1.stream.rb = true := by
  induction fuel generalizing k buf with
  | zero =>
    left
    show (k.handles handle).size ≤ 0
    omega
  | succ n ih =>
    simp only [kstream_read_rb]
    split
    · rename_i hc
      apply ih
      simp only [set_handle_same, set_rb_handles]
      omega
    · rename_i hc
      by_cases hp : (k.handles handle).size > 0
      · right
        by_contra hfull
        exact hc ⟨hp, hfull⟩
      · left
        show (k.handles handle).size ≤ 0
        omega

theorem delivered_append (l : List (Nat × List Nat)) (e : Nat × List Nat) :
    delivered (l ++ [e]) = delivered l ++ e.2 := by
  induction l with
  | nil => simp [delivered]
  | cons x xs ih => simp [delivered, ih]

/-- What `kstream_write` does to a stream without waiters when the handle `w`
passes `bytes`: the other handles are left alone, no handle is put on a list,
and the ring followed by what the writer has still to place is the old ring
followed by `bytes`. -/
theorem kstream_write_no_waiters (k : KSTREAM) (w : Nat) (bytes : List Nat)
    (hrw : k.stream.read_waiters = []) (hww : k.stream.write_waiters = [])
    (hidle : (k.handles w).mode = STREAM_MODE.STREAM_MODE_IDLE) :
    (kstream_write k w (write_buffer bytes) bytes.length).stream.read_waiters = []
    ∧ (kstream_write k w (write_buffer bytes) bytes.length).stream.write_waiters = []
    ∧ (∀ a, a ≠ w →
        (kstream_write k w (write_buffer bytes) bytes.length).handles a = k.handles a)
    ∧ (kstream_write k w (write_buffer bytes) bytes.length).stream.rb.bytes
        ++ write_part (kstream_write k w (write_buffer bytes) bytes.length) w
        = k.stream.rb.bytes ++ bytes := by
  obtain ⟨k0, hk0⟩ : ∃ k0, k0 = k.set_handle w { k.handles w with size := bytes.length } :=
    ⟨_, rfl⟩
  have hk0s : k0.stream = k.stream := by rw [hk0]; rfl
  have hd : kstream_write_direct (k0.stream.read_waiters.length + 1) k0 w (write_buffer bytes)
      = (k0, write_buffer bytes) :=
    kstream_write_direct_skip _ _ _ _ (by rw [hk0s]; exact hrw)
  obtain ⟨r2, hr2⟩ : ∃ r2, r2 = kstream_write_rb (k0.handles w).size.toNat k0 w
    (write_buffer bytes) := ⟨_, rfl⟩
  have hsz0 : (k0.handles w).size = (write_buffer bytes).post.length := by
    rw [hk0]
    simp [write_buffer]
  obtain ⟨s1, s2, s3, s4⟩ := kstream_write_rb_spec (k0.handles w).size.toNat k0 w
    (write_buffer bytes) hsz0
  obtain ⟨f1, f2, _, _, _⟩ := kstream_write_rb_frame (k0.handles w).size.toNat k0 w
    (write_buffer bytes)
  rw [← hr2] at s1 s2 s3 s4 f1 f2
  have hmode0 : (k0.handles w).mode = STREAM_MODE.STREAM_MODE_IDLE := by
    rw [hk0]
    simpa using hidle
  have hother0 : ∀ a, a ≠ w → k0.handles a = k.handles a := by
    intro a ha
    rw [hk0]
    exact set_handle_other _ _ _ _ ha
  have hres : kstream_write k w (write_buffer bytes) bytes.length
      = (if (r2.1.handles w).size > 0 then
          kprocess_sleep
            (((r2.1.set_handle w { r2.1.handles w with full_size := bytes.length }).set_handle w
              { (r2.1.set_handle w { r2.1.handles w with full_size := bytes.length }).handles w
                with buf := r2.2 }).set_handle w
              { (((r2.1.set_handle w { r2.1.handles w with full_size := bytes.length }).set_handle
                  w { (r2.1.set_handle w
                        { r2.1.handles w with full_size := bytes.length }).handles w
                      with buf := r2.2 }).handles w)
                with mode := STREAM_MODE.STREAM_MODE_WRITE }) w
        else kstream_post_listener r2.1 bytes.length) := by
    simp only [kstream_write, ← hk0, hd, ← hr2]
  rw [hres]
  split
  · rename_i hpos
    refine ⟨?_, ?_, ?_, ?_⟩
    · simp only [kprocess_sleep_stream, set_handle_stream]
      rw [f2, hk0s]
      exact hrw
    · simp only [kprocess_sleep_stream, set_handle_stream]
      rw [f1, hk0s]
      exact hww
    · intro a ha
      simp only [kprocess_sleep_handles]
      rw [set_handle_other _ _ _ _ ha, set_handle_other _ _ _ _ ha,
        set_handle_other _ _ _ _ ha, s4 a ha, hother0 a ha]
    · simp only [write_part, kprocess_sleep_stream, set_handle_stream, kprocess_sleep_handles,
        set_handle_same, if_true]
      rw [s1, hk0s]
      rfl
  · rename_i hpos
    have hnil : r2.2.post = [] := by
      have : (r2.2.post.length : Int) ≤ 0 := by
        rw [← s2]
        exact not_lt.mp hpos
      exact List.length_eq_zero.mp (by omega)
    refine ⟨?_, ?_, ?_, ?_⟩
    · simp only [kstream_post_listener_stream]
      rw [f2, hk0s]
      exact hrw
    · simp only [kstream_post_listener_stream]
      rw [f1, hk0s]
      exact hww
    · intro a ha
      simp only [kstream_post_listener_handles]
      rw [s4 a ha, hother0 a ha]
    · have hm : (r2.1.handles w).mode = STREAM_MODE.STREAM_MODE_IDLE := by rw [s3, hmode0]
      simp only [write_part, kstream_post_listener_stream, kstream_post_listener_handles, hm]
      rw [hnil] at s1
      simp only [List.append_nil] at s1
      rw [s1, hk0s]
      simp [write_buffer]

/-- What `kstream_read` does to a stream without waiters when the idle handle
`r` asks for `n` bytes: the other handles are left alone, no handle is put on a
list, and either the read completes with `n` bytes taken from the front of the
ring, or it blocks having received the whole ring, which held less than `n`
bytes. -/
theorem kstream_read_no_waiters (k : KSTREAM) (r : Nat) (n : Nat)
    (hrw : k.stream.read_waiters = []) (hww : k.stream.write_waiters = [])
    (hidle : (k.handles r).mode = STREAM_MODE.STREAM_MODE_IDLE) :
    (kstream_read k r (read_buffer n) n).1.stream.read_waiters = []
    ∧ (kstream_read k r (read_buffer n) n).1.stream.write_waiters = []
    ∧ (∀ a, a ≠ r → (kstream_read k r (read_buffer n) n).1.handles a = k.handles a)
    ∧ (((kstream_read k r (read_buffer n) n).1.handles r).mode = STREAM_MODE.STREAM_MODE_IDLE
        ∧ (kstream_read k r (read_buffer n) n).2.all.length = n
        ∧ (kstream_read k r (read_buffer n) n).2.all
            ++ (kstream_read k r (read_buffer n) n).1.stream.rb.bytes = k.stream.rb.bytes
      ∨ ((kstream_read k r (read_buffer n) n).1.handles r).mode = STREAM_MODE.STREAM_MODE_READ
        ∧ ((kstream_read k r (read_buffer n) n).1.handles r).buf.pre.length < n
        ∧ ((kstream_read k r (read_buffer n) n).1.handles r).buf.pre
            ++ (kstream_read k r (read_buffer n) n).1.stream.rb.bytes = k.stream.rb.bytes) := by
  obtain ⟨k0, hk0⟩ : ∃ k0, k0 = k.set_handle r { k.handles r with size := n } := ⟨_, rfl⟩
  have hk0s : k0.stream = k.stream := by rw [hk0]; rfl
  obtain ⟨r1, hr1⟩ : ∃ r1, r1 = kstream_read_rb (k0.handles r).size.toNat k0 r (read_buffer n) :=
    ⟨_, rfl⟩
  have hsz0 : (k0.handles r).size = (read_buffer n).post.length := by
    rw [hk0]
    simp [read_buffer]
  obtain ⟨s1, s2, s3, s4, s5⟩ := kstream_read_rb_spec (k0.handles r).size.toNat k0 r
    (read_buffer n) hsz0
  obtain ⟨f1, f2, _⟩ := kstream_read_rb_frame (k0.handles r).size.toNat k0 r (read_buffer n)
  have hdone := kstream_read_rb_done (k0.handles r).size.toNat k0 r (read_buffer n)
    (Nat.le_refl _)
  rw [← hr1] at s1 s2 s3 s4 s5 f1 f2 hdone
  rw [hk0s] at f1 f2 s1
  have hd : kstream_read_direct (r1.1.stream.write_waiters.length + 1) r1.1 r r1.2
      = (r1.1, r1.2) := kstream_read_direct_skip _ _ _ _ (by rw [f1]; exact hww)
  have hmode0 : (k0.handles r).mode = STREAM_MODE.STREAM_MODE_IDLE := by
    rw [hk0]
    simpa using hidle
  have hother0 : ∀ a, a ≠ r → k0.handles a = k.handles a := by
    intro a ha
    rw [hk0]
    exact set_handle_other _ _ _ _ ha
  have hlen : r1.2.pre.length + r1.2.post.length = n := by
    rw [s3]
    simp [read_buffer]
  have hpre : r1.2.pre ++ r1.1.stream.rb.bytes = k.stream.rb.bytes := by
    rw [s1]
    simp [read_buffer]
  obtain ⟨k3, hk3⟩ : ∃ k3 : KSTREAM, k3 =
      (if (r1.1.handles r).size > 0 then
        kprocess_sleep
          ((r1.1.set_handle r { r1.1.handles r with buf := r1.2 }).set_handle r
            { (r1.1.set_handle r { r1.1.handles r with buf := r1.2 }).handles r
              with mode := STREAM_MODE.STREAM_MODE_READ }) r
      else r1.1) := ⟨_, rfl⟩
  have hk3s : k3.stream = r1.1.stream := by
    rw [hk3]
    split <;> simp
  have hpush : kstream_push k3 = k3 :=
    kstream_push_loop_skip _ k3 (by rw [hk3s, f1]; exact hww)
  have hres : kstream_read k r (read_buffer n) n = (k3, r1.2) := by
    simp only [kstream_read, ← hk0, ← hr1, hd, ← hk3, hpush]
  rw [hres]
  refine ⟨by rw [hk3s, f2]; exact hrw, by rw [hk3s, f1]; exact hww, ?_, ?_⟩
  · intro a ha
    show k3.handles a = k.handles a
    rw [hk3]
    split
    · simp only [kprocess_sleep_handles]
      rw [set_handle_other _ _ _ _ ha, set_handle_other _ _ _ _ ha, s5 a ha, hother0 a ha]
    · rw [s5 a ha, hother0 a ha]
  · show (k3.handles r).mode = STREAM_MODE.STREAM_MODE_IDLE ∧ r1.2.all.length = n
        ∧ r1.2.all ++ k3.stream.rb.bytes = k.stream.rb.bytes
      ∨ (k3.handles r).mode = STREAM_MODE.STREAM_MODE_READ ∧ (k3.handles r).buf.pre.length < n
        ∧ (k3.handles r).buf.pre ++ k3.stream.rb.bytes = k.stream.rb.bytes
    by_cases hpos : (r1.1.handles r).size > 0
    · right
      have hk3' : k3 = kprocess_sleep
          ((r1.1.set_handle r { r1.1.handles r with buf := r1.2 }).set_handle r
            { (r1.1.set_handle r { r1.1.handles r with buf := r1.2 }).handles r
              with mode := STREAM_MODE.STREAM_MODE_READ }) r := by
        rw [hk3, if_pos hpos]
      have hempty : r1.1.stream.rb.bytes = [] := by
        rcases hdone with h | h
        · omega
        · simpa [rb_is_empty] using h
      have hm : (k3.handles r).mode = STREAM_MODE.STREAM_MODE_READ := by rw [hk3']; simp
      have hb : (k3.handles r).buf = r1.2 := by rw [hk3']; simp
      refine ⟨hm, ?_, ?_⟩
      · rw [hb]
        have : (r1.2.post.length : Int) > 0 := by rw [← s2]; exact hpos
        omega
      · rw [hb, hk3s]
        exact hpre
    · left
      have hk3' : k3 = r1.1 := by rw [hk3, if_neg hpos]
      have hnil : r1.2.post = [] := by
        have : (r1.2.post.length : Int) ≤ 0 := by
          rw [← s2]
          exact not_lt.mp hpos
        exact List.length_eq_zero.mp (by omega)
      refine ⟨by rw [hk3', s4, hmode0], ?_, ?_⟩
      · simp only [CHAR_PTR.all, List.length_append]
        exact hlen
      · simp only [CHAR_PTR.all, hnil, List.append_nil]
        rw [hk3']
        exact hpre

theorem PIPE_INV_write (w r : Nat) (hwr : w ≠ r) (p : PIPE) (bytes : List Nat)
    (hinv : PIPE_INV w r p) (hidle : (p.k.handles w).mode = STREAM_MODE.STREAM_MODE_IDLE) :
    PIPE_INV w r (pipe_write w r p bytes) := by
  obtain ⟨i1, i2, i3, i4, i5⟩ := hinv
  obtain ⟨a1, a2, a3, a4⟩ := kstream_write_no_waiters p.k w bytes i1 i2 hidle
  have hr : (kstream_write p.k w (write_buffer bytes) bytes.length).handles r = p.k.handles r :=
    a3 r (Ne.symm hwr)
  have hnot : ¬ ((p.k.handles r).mode = STREAM_MODE.STREAM_MODE_READ
      ∧ ((kstream_write p.k w (write_buffer bytes) bytes.length).handles r).mode
        = STREAM_MODE.STREAM_MODE_IDLE) := by
    rw [hr]
    rintro ⟨h1, h2⟩
    rw [h1] at h2
    exact absurd h2 (by decide)
  have hp : pipe_write w r p bytes
      = { p with k := kstream_write p.k w (write_buffer bytes) bytes.length,
                 written := p.written ++ bytes } := by
    simp only [pipe_write, if_neg hnot]
  rw [hp]
  refine ⟨a1, a2, ?_, i4, ?_⟩
  · show p.written ++ bytes = delivered p.completed
        ++ read_part (kstream_write p.k w (write_buffer bytes) bytes.length) r
        ++ (kstream_write p.k w (write_buffer bytes) bytes.length).stream.rb.bytes
        ++ write_part (kstream_write p.k w (write_buffer bytes) bytes.length) w
    have hrp : read_part (kstream_write p.k w (write_buffer bytes) bytes.length) r
        = read_part p.k r := by simp only [read_part, hr]
    have hwp : write_part p.k w = [] := by simp [write_part, hidle]
    rw [hrp, List.append_assoc _ _ (write_part _ w), a4, i3, hwp]
    simp
  · show ((kstream_write p.k w (write_buffer bytes) bytes.length).handles r).mode
        = STREAM_MODE.STREAM_MODE_READ →
      ((kstream_write p.k w (write_buffer bytes) bytes.length).handles r).buf.pre.length
        < p.request
    rw [hr]
    exact i5

theorem PIPE_INV_read (w r : Nat) (hwr : w ≠ r) (p : PIPE) (n : Nat)
    (hinv : PIPE_INV w r p) (hidle : (p.k.handles r).mode = STREAM_MODE.STREAM_MODE_IDLE) :
    PIPE_INV w r (pipe_read r p n) := by
  obtain ⟨i1, i2, i3, i4, i5⟩ := hinv
  obtain ⟨a1, a2, a3, a4⟩ := kstream_read_no_waiters p.k r n i1 i2 hidle
  have hw : (kstream_read p.k r (read_buffer n) n).1.handles w = p.k.handles w := a3 w hwr
  have hwp : write_part (kstream_read p.k r (read_buffer n) n).1 w = write_part p.k w := by
    simp only [write_part, hw]
  have hrp0 : read_part p.k r = [] := by simp [read_part, hidle]
  rw [hrp0, List.append_nil] at i3
  rcases a4 with ⟨b1, b2, b3⟩ | ⟨b1, b2, b3⟩
  · have hp : pipe_read r p n
        = { p with k := (kstream_read p.k r (read_buffer n) n).1,
                   completed := p.completed
                     ++ [(n, (kstream_read p.k r (read_buffer n) n).2.all)],
                   request := n } := by
      simp only [pipe_read, if_pos b1]
    rw [hp]
    refine ⟨a1, a2, ?_, ?_, ?_⟩
    · show p.written = delivered (p.completed
          ++ [(n, (kstream_read p.k r (read_buffer n) n).2.all)])
          ++ read_part (kstream_read p.k r (read_buffer n) n).1 r
          ++ (kstream_read p.k r (read_buffer n) n).1.stream.rb.bytes
          ++ write_part (kstream_read p.k r (read_buffer n) n).1 w
      have hrp : read_part (kstream_read p.k r (read_buffer n) n).1 r = [] := by
        simp [read_part, b1]
      rw [hrp, hwp, delivered_append, i3, ← b3]
      simp
    · intro e he
      rcases List.mem_append.mp he with h | h
      · exact i4 e h
      · rw [List.mem_singleton.mp h]
        exact b2
    · intro hm
      rw [b1] at hm
      exact absurd hm (by decide)
  · have hne : ¬ ((kstream_read p.k r (read_buffer n) n).1.handles r).mode
        = STREAM_MODE.STREAM_MODE_IDLE := by
      rw [b1]
      decide
    have hp : pipe_read r p n
        = { p with k := (kstream_read p.k r (read_buffer n) n).1, request := n } := by
      simp only [pipe_read, if_neg hne]
    rw [hp]
    refine ⟨a1, a2, ?_, i4, fun _ => b2⟩
    show p.written = delivered p.completed
        ++ read_part (kstream_read p.k r (read_buffer n) n).1 r
        ++ (kstream_read p.k r (read_buffer n) n).1.stream.rb.bytes
        ++ write_part (kstream_read p.k r (read_buffer n) n).1 w
    have hrp : read_part (kstream_read p.k r (read_buffer n) n).1 r
        = ((kstream_read p.k r (read_buffer n) n).1.handles r).buf.pre := by
      simp [read_part, b1]
    rw [hrp, hwp, i3, ← b3]
    simp

theorem PIPE_INV_reachable (w r : Nat) (hwr : w ≠ r) (p : PIPE) (hp : PipeReachable w r p) :
    PIPE_INV w r p := by
  induction hp with
  | init k addr data size hw hr =>
    refine ⟨rfl, rfl, ?_, ?_, ?_⟩
    · show [] = delivered [] ++ read_part (kstream_create k (some addr) (some data) size).2 r
          ++ (kstream_create k (some addr) (some data) size).2.stream.rb.bytes
          ++ write_part (kstream_create k (some addr) (some data) size).2 w
      have h1 : read_part (kstream_create k (some addr) (some data) size).2 r = [] := by
        simp only [read_part]
        rw [if_neg]
        show ¬ (k.handles r).mode = STREAM_MODE.STREAM_MODE_READ
        rw [hr]
        decide
      have h2 : write_part (kstream_create k (some addr) (some data) size).2 w = [] := by
        simp only [write_part]
        rw [if_neg]
        show ¬ (k.handles w).mode = STREAM_MODE.STREAM_MODE_WRITE
        rw [hw]
        decide
      rw [h1, h2]
      rfl
    · intro e he
      exact absurd he (List.not_mem_nil e)
    · intro hm
      have : (k.handles r).mode = STREAM_MODE.STREAM_MODE_READ := hm
      rw [hr] at this
      exact absurd this (by decide)
  | write p bytes _ hidle ih => exact PIPE_INV_write w r hwr p bytes ih hidle
  | read p n _ hidle ih => exact PIPE_INV_read w r hwr p n ih hidle

/-- C12. For one writer handle `w` and one reader handle `r` on a created
stream, after every interleaving of `kstream_write` and `kstream_read` calls
(a handle calls only while it is idle): the bytes of the completed reads, in
completion order, are a prefix of the bytes passed to the writes; every
completed read holds exactly the number of bytes it asked for; and a read that
is still blocked has received fewer bytes than it asked for. -/
theorem stream_bytes_in_order (w r : Nat) (hwr : w ≠ r) (p : PIPE)
    (hp : PipeReachable w r p) :
    delivered p.completed <+: p.written
    ∧ (∀ e ∈ p.completed, e.2.length = e.1)
    ∧ ((p.k.handles r).mode = STREAM_MODE.STREAM_MODE_READ →
        (p.k.handles r).buf.pre.length < p.request) := by
  obtain ⟨_, _, i3, i4, i5⟩ := PIPE_INV_reachable w r hwr p hp
  refine ⟨?_, i4, i5⟩
  rw [i3, List.append_assoc, List.append_assoc]
  exact List.prefix_append _ _

/-- Witness of C12: on a ring of size 16 the writer (handle 1) passes
"ABCDEFGHIJ" and the reader (handle 2) then asks for 8 bytes; the read
completes with "ABCDEFGH". -/
theorem stream_bytes_in_order_witness :
    (pipe_read 2 (pipe_write 1 2 demo_pipe demo_text) 8).written = demo_text
    ∧ (pipe_read 2 (pipe_write 1 2 demo_pipe demo_text) 8).completed
        = [(8, [65, 66, 67, 68, 69, 70, 71, 72])]
    ∧ delivered (pipe_read 2 (pipe_write 1 2 demo_pipe demo_text) 8).completed
        <+: (pipe_read 2 (pipe_write 1 2 demo_pipe demo_text) 8).written := by
  have h0 : PipeReachable 1 2 demo_pipe :=
    PipeReachable.init (demo_kstream 0 none) 1000 2000 16 rfl rfl
  have h1 : PipeReachable 1 2 (pipe_write 1 2 demo_pipe demo_text) :=
    PipeReachable.write demo_pipe demo_text h0 (by decide)
  have h2 : PipeReachable 1 2 (pipe_read 2 (pipe_write 1 2 demo_pipe demo_text) 8) :=
    PipeReachable.read _ 8 h1 (by decide)
  exact ⟨by decide, by decide, (stream_bytes_in_order 1 2 (by decide) _ h2).1⟩

/-! ## The receive window -/

/-- Counterexample to C16 as stated: for a TCB without receive buffers
`tcps_update_rx_wnd` gives `rx_wnd = TCP_MSS_MAX` = 1460, where the claimed
`min (TCP_MSS_MAX, free (rx) + free (rx_tmp))` is 0; and with an empty buffer
of 1480 bytes posted it gives 2940, above the claimed cap. -/
theorem tcps_update_rx_wnd_not_capped :
    (demo_tcb TCP_STATE.ESTABLISHED 500 500 1000 0).rx.isNone = true
    ∧ (demo_tcb TCP_STATE.ESTABLISHED 500 500 1000 0).rx_tmp.isNone = true
    ∧ (tcps_update_rx_wnd demo_plat (demo_tcb TCP_STATE.ESTABLISHED 500 500 1000 0)).rx_wnd
        = 1460
    ∧ min (TCP_MSS_MAX demo_plat)
        (free_of (demo_tcb TCP_STATE.ESTABLISHED 500 500 1000 0).rx
          + free_of (demo_tcb TCP_STATE.ESTABLISHED 500 500 1000 0).rx_tmp) = 0
    ∧ (tcps_update_rx_wnd demo_plat
        { demo_tcb TCP_STATE.ESTABLISHED 500 500 1000 0 with rx := some (demo_io 7000) }).rx_wnd
        = 2940
    ∧ TCP_MSS_MAX demo_plat = 1460 := by
  decide

/-- C16, as amended. After `tcps_update_rx_wnd` the receive window is the free
space of `rx_tmp` when there is one, and otherwise `TCP_MSS_MAX` plus the free
space of the posted buffer `rx` (0 if none), as a 16-bit value; no other field
of the TCB changes. -/
theorem tcps_update_rx_wnd_value (plat : Platform) (tcb : TCP_TCB) :
    (∀ tmp, tcb.rx_tmp = some tmp →
      (tcps_update_rx_wnd plat tcb).rx_wnd = io_get_free tmp % 65536)
    ∧ (tcb.rx_tmp = none →
      (tcps_update_rx_wnd plat tcb).rx_wnd = (TCP_MSS_MAX plat + free_of tcb.rx) % 65536)
    ∧ { tcps_update_rx_wnd plat tcb with rx_wnd := tcb.rx_wnd } = tcb := by
  refine ⟨?_, ?_, rfl⟩
  · intro tmp h
    simp only [tcps_update_rx_wnd, h, u16]
  · intro h
    cases hrx : tcb.rx with
    | none => simp [tcps_update_rx_wnd, h, hrx, u16, free_of]
    | some rx => simp [tcps_update_rx_wnd, h, hrx, u16, free_of]

/-- Witness of C16: with 100 bytes in a posted buffer of 1480 the window is
`1460 + 1380`. -/
theorem tcps_update_rx_wnd_value_witness :
    (tcps_update_rx_wnd demo_plat
      { demo_tcb TCP_STATE.ESTABLISHED 500 500 1000 0 with
        rx := some { demo_io 7000 with data_size := 100 } }).rx_wnd = 2840 := by
  have h := (tcps_update_rx_wnd_value demo_plat
    { demo_tcb TCP_STATE.ESTABLISHED 500 500 1000 0 with
      rx := some { demo_io 7000 with data_size := 100 } }).2.1 rfl
  rw [h]
  decide

/-! ## Requests: `tcps_read` and `tcps_listen` -/

/-- The accepted `tcps_read` of a TCB without `rx_tmp`: the buffer is parked. -/
theorem tcps_read_park (plat : Platform) (tcpips : TCPIPS) (h : HANDLE) (io : Io)
    (tcb : TCP_TCB) (hget : so_get tcpips.tcps.tcbs h = some tcb)
    (hrx : tcb.rx.isSome = false)
    (hst : tcb.state = TCP_STATE.ESTABLISHED ∨ tcb.state = TCP_STATE.FIN_WAIT_1
      ∨ tcb.state = TCP_STATE.FIN_WAIT_2)
    (htmp : tcb.rx_tmp = none) :
    tcps_read plat tcpips h io
      = ({ tcpips with error := ERROR.ERROR_SYNC } : TCPIPS).set_tcb h
          (tcps_update_rx_wnd plat { tcb with rx := some (tcps_read_io plat io) }) := by
  simp only [tcps_read, hget, hrx, Bool.false_eq_true, if_false, hst, if_true, htmp,
    tcps_read_io]

/-- The accepted `tcps_read` of a TCB with `rx_tmp`: the buffer takes what
`tcps_read_tmp` copies, `rx_tmp` is released when nothing is left in it, and the
buffer is completed when it is full or carries the push flag, parked
otherwise. -/
theorem tcps_read_drain (plat : Platform) (tcpips : TCPIPS) (h : HANDLE) (io : Io)
    (tcb : TCP_TCB) (tmp : Io) (hget : so_get tcpips.tcps.tcbs h = some tcb)
    (hrx : tcb.rx.isSome = false)
    (hst : tcb.state = TCP_STATE.ESTABLISHED ∨ tcb.state = TCP_STATE.FIN_WAIT_1
      ∨ tcb.state = TCP_STATE.FIN_WAIT_2)
    (htmp : tcb.rx_tmp = some tmp) :
    tcps_read plat tcpips h io
      = (if io_get_free (tcps_read_tmp plat (tcps_read_io plat io) tmp).1 = 0
            ∨ ((tcps_read_tmp plat (tcps_read_io plat io) tmp).1.stack.flags
                &&& plat.TCP_PSH) ≠ 0 then
          { (TCPIPS.set_tcb
              (if (tcps_read_tmp plat (tcps_read_io plat io) tmp).2.isNone = true
                then ips_release_io { tcpips with error := ERROR.ERROR_SYNC } tmp
                else { tcpips with error := ERROR.ERROR_SYNC }) h
              (tcps_update_rx_wnd plat
                { tcb with rx_tmp := (tcps_read_tmp plat (tcps_read_io plat io) tmp).2 })) with
            completed := tcpips.completed ++
              [{ process := tcb.process, cmd := HAL_IO_CMD HAL.HAL_TCP IPC_ITEM.IPC_READ,
                 handle := h, io := (tcps_read_tmp plat (tcps_read_io plat io) tmp).1 }] }
        else
          TCPIPS.set_tcb
            (if (tcps_read_tmp plat (tcps_read_io plat io) tmp).2.isNone = true
              then ips_release_io { tcpips with error := ERROR.ERROR_SYNC } tmp
              else { tcpips with error := ERROR.ERROR_SYNC }) h
            (tcps_update_rx_wnd plat
              { tcb with rx_tmp := (tcps_read_tmp plat (tcps_read_io plat io) tmp).2,
                         rx := some (tcps_read_tmp plat (tcps_read_io plat io) tmp).1 })) := by
  simp only [tcps_read, hget, hrx, Bool.false_eq_true, if_false, hst, if_true, htmp,
    tcps_read_io]
  split
  · congr 1
    split <;> rfl
  · rfl

theorem tcps_read_tmp_addr (plat : Platform) (x tmp : Io) :
    (tcps_read_tmp plat x tmp).1.addr = x.addr := by
  simp only [tcps_read_tmp, tcps_read_tmp_urg]
  split_ifs <;> rfl

/-- C18. `tcps_read` on an existing TCB: if a receive buffer is already posted
the call fails with `ERROR_ALREADY_CONFIGURED`, whatever the state; otherwise,
if the state is not ESTABLISHED, FIN_WAIT_1 or FIN_WAIT_2, it fails with
`ERROR_INVALID_STATE`; in both cases nothing but the error slot changes (the
TCB table and the logs of completed and released buffers are as before).  In
every other case the error slot is `ERROR_SYNC` and the offered buffer is
either parked as `rx` of the TCB or completed to the owner with `IPC_READ`. -/
theorem tcps_read_errors (plat : Platform) (tcpips : TCPIPS) (h : HANDLE) (io : Io)
    (tcb : TCP_TCB) (hget : so_get tcpips.tcps.tcbs h = some tcb) :
    (tcb.rx.isSome = true →
      tcps_read plat tcpips h io = { tcpips with error := ERROR.ERROR_ALREADY_CONFIGURED })
    ∧ (tcb.rx.isSome = false →
        ¬ (tcb.state = TCP_STATE.ESTABLISHED ∨ tcb.state = TCP_STATE.FIN_WAIT_1
          ∨ tcb.state = TCP_STATE.FIN_WAIT_2) →
        tcps_read plat tcpips h io = { tcpips with error := ERROR.ERROR_INVALID_STATE })
    ∧ (tcb.rx.isSome = false →
        (tcb.state = TCP_STATE.ESTABLISHED ∨ tcb.state = TCP_STATE.FIN_WAIT_1
          ∨ tcb.state = TCP_STATE.FIN_WAIT_2) →
        (tcps_read plat tcpips h io).error = ERROR.ERROR_SYNC
        ∧ ((∃ (tcb1 : TCP_TCB) (io1 : Io),
              so_get (tcps_read plat tcpips h io).tcps.tcbs h = some tcb1
              ∧ tcb1.rx = some io1 ∧ io1.addr = io.addr
              ∧ (tcps_read plat tcpips h io).completed = tcpips.completed)
          ∨ (∃ (tcb1 : TCP_TCB) (io1 : Io),
              so_get (tcps_read plat tcpips h io).tcps.tcbs h = some tcb1
              ∧ tcb1.rx = none ∧ io1.addr = io.addr
              ∧ (tcps_read plat tcpips h io).completed = tcpips.completed ++
                  [{ process := tcb.process, cmd := HAL_IO_CMD HAL.HAL_TCP IPC_ITEM.IPC_READ,
                     handle := h, io := io1 }]))) := by
  have hlt := so_get_lt hget
  refine ⟨?_, ?_, ?_⟩
  · intro hrx
    simp only [tcps_read, hget, hrx, if_true]
  · intro hrx hst
    simp only [tcps_read, hget, hrx, Bool.false_eq_true, if_false, hst]
  · intro hrx hst
    have hrxn : tcb.rx = none := by
      cases h0 : tcb.rx with
      | none => rfl
      | some x => rw [h0] at hrx; cases hrx
    cases htmp : tcb.rx_tmp with
    | none =>
      rw [tcps_read_park plat tcpips h io tcb hget hrx hst htmp]
      refine ⟨rfl, Or.inl ⟨tcps_update_rx_wnd plat
        { tcb with rx := some (tcps_read_io plat io) }, tcps_read_io plat io, ?_, rfl, rfl, rfl⟩⟩
      rw [so_get_set_tcb]
      have : h < ({ tcpips with error := ERROR.ERROR_SYNC } : TCPIPS).tcps.tcbs.size := hlt
      simp only [this, and_self, if_true]
    | some tmp =>
      rw [tcps_read_drain plat tcpips h io tcb tmp hget hrx hst htmp]
      have hsz : h < (if (tcps_read_tmp plat (tcps_read_io plat io) tmp).2.isNone = true
          then ips_release_io { tcpips with error := ERROR.ERROR_SYNC } tmp
          else { tcpips with error := ERROR.ERROR_SYNC }).tcps.tcbs.size := by
        split <;> exact hlt
      have haddr : (tcps_read_tmp plat (tcps_read_io plat io) tmp).1.addr = io.addr :=
        tcps_read_tmp_addr plat _ tmp
      split
      · refine ⟨?_, Or.inr ⟨tcps_update_rx_wnd plat
            { tcb with rx_tmp := (tcps_read_tmp plat (tcps_read_io plat io) tmp).2 },
          (tcps_read_tmp plat (tcps_read_io plat io) tmp).1, ?_, ?_, haddr, rfl⟩⟩
        · show (if (tcps_read_tmp plat (tcps_read_io plat io) tmp).2.isNone = true
            then ips_release_io { tcpips with error := ERROR.ERROR_SYNC } tmp
            else { tcpips with error := ERROR.ERROR_SYNC }).error = ERROR.ERROR_SYNC
          split <;> rfl
        · have hs := so_get_set_tcb
            (if (tcps_read_tmp plat (tcps_read_io plat io) tmp).2.isNone = true
              then ips_release_io { tcpips with error := ERROR.ERROR_SYNC } tmp
              else { tcpips with error := ERROR.ERROR_SYNC }) h h
            (tcps_update_rx_wnd plat
              { tcb with rx_tmp := (tcps_read_tmp plat (tcps_read_io plat io) tmp).2 })
          simp only [hsz, and_self, if_true] at hs
          exact hs
        · simp only [tcps_update_rx_wnd, hrxn]
      · refine ⟨?_, Or.inl ⟨tcps_update_rx_wnd plat
            { tcb with rx_tmp := (tcps_read_tmp plat (tcps_read_io plat io) tmp).2,
                       rx := some (tcps_read_tmp plat (tcps_read_io plat io) tmp).1 },
          (tcps_read_tmp plat (tcps_read_io plat io) tmp).1, ?_, ?_, haddr, ?_⟩⟩
        · show (if (tcps_read_tmp plat (tcps_read_io plat io) tmp).2.isNone = true
            then ips_release_io { tcpips with error := ERROR.ERROR_SYNC } tmp
            else { tcpips with error := ERROR.ERROR_SYNC }).error = ERROR.ERROR_SYNC
          split <;> rfl
        · rw [so_get_set_tcb]
          simp only [hsz, and_self, if_true]
        · simp only [tcps_update_rx_wnd]
        · show (if (tcps_read_tmp plat (tcps_read_io plat io) tmp).2.isNone = true
            then ips_release_io { tcpips with error := ERROR.ERROR_SYNC } tmp
            else { tcpips with error := ERROR.ERROR_SYNC }).completed = tcpips.completed
          split <;> rfl

/-- Witness of C18: a read on a TCB in SYN_RECEIVED fails with
`ERROR_INVALID_STATE` and changes nothing else. -/
theorem tcps_read_errors_witness :
    (tcps_read demo_plat (demo_with demo_tcb_syn_received) 0 (demo_io 7000)).error
        = ERROR.ERROR_INVALID_STATE
    ∧ (tcps_read demo_plat (demo_with demo_tcb_syn_received) 0 (demo_io 7000)).completed.length
        = 0 := by
  have hg : so_get (demo_with demo_tcb_syn_received).tcps.tcbs 0 = some demo_tcb_syn_received :=
    rfl
  have h := (tcps_read_errors demo_plat (demo_with demo_tcb_syn_received) 0 (demo_io 7000)
    demo_tcb_syn_received hg).2.1 rfl (by decide)
  rw [h]
  exact ⟨rfl, rfl⟩

theorem mem_so_entries {α : Type} (so : SO α) (h : HANDLE) (v : α) :
    (h, v) ∈ so_entries so ↔ so_get so h = some v := by
  simp only [so_entries, List.mem_filterMap, List.mem_range, Option.map_eq_some', so_get]
  constructor
  · rintro ⟨j, hj, w, hw, he⟩
    cases he
    simp [hj, hw]
  · intro hg
    split at hg
    · rename_i hlt
      exact ⟨h, hlt, v, hg, rfl⟩
    · cases hg

/-- A port has a listener exactly when `tcps_find_listener` finds one, provided
every entry of the table belongs to a process. -/
theorem tcps_find_listener_iff (tcpips : TCPIPS) (port : Nat) (ho : LISTEN_OWNED tcpips) :
    tcps_find_listener tcpips port ≠ INVALID_HANDLE
      ↔ ∃ (i : HANDLE) (a : TCP_LISTEN_HANDLE),
          so_get tcpips.tcps.listen i = some a ∧ a.port = port := by
  unfold tcps_find_listener
  cases hf : (so_entries tcpips.tcps.listen).find? (fun e => decide (e.2.port = port)) with
  | none =>
    simp only [ne_eq, not_true_eq_false, false_iff, not_exists, not_and]
    intro i a hg hp
    have hm : (i, a) ∈ so_entries tcpips.tcps.listen := (mem_so_entries _ i a).mpr hg
    have := List.find?_eq_none.mp hf (i, a) hm
    simp [hp] at this
  | some e =>
    have hm := List.mem_of_find?_eq_some hf
    have hp := List.find?_some hf
    have hg : so_get tcpips.tcps.listen e.1 = some e.2 := (mem_so_entries _ e.1 e.2).mp hm
    simp only [decide_eq_true_eq] at hp
    constructor
    · intro _
      exact ⟨e.1, e.2, hg, hp⟩
    · intro _
      exact ho e.1 e.2 hg

theorem tcps_listen_inv (sys : Sys) (tcpips : TCPIPS) (ipc : IPC)
    (hp : ipc.process ≠ INVALID_HANDLE) (ho : LISTEN_OWNED tcpips) (hu : LISTEN_UNIQUE tcpips) :
    LISTEN_OWNED (tcps_listen sys tcpips ipc).1 ∧ LISTEN_UNIQUE (tcps_listen sys tcpips ipc).1 := by
  unfold tcps_listen
  split
  · exact ⟨ho, hu⟩
  · rename_i hfind
    dsimp only
    split
    · exact ⟨ho, hu⟩
    · rename_i halloc
      obtain ⟨hfree, hnew, hother⟩ := so_allocate_spec tcpips.tcps.listen sys.so_ok
        { process := ipc.process, port := u16 ipc.param1 } halloc
      have hnone : ∀ (i : HANDLE) (a : TCP_LISTEN_HANDLE),
          so_get tcpips.tcps.listen i = some a → a.port ≠ u16 ipc.param1 := by
        intro i a hg hpa
        exact hfind ((tcps_find_listener_iff tcpips _ ho).mpr ⟨i, a, hg, hpa⟩)
      constructor
      · intro i a hg
        have hg2 : so_get (so_allocate tcpips.tcps.listen sys.so_ok
            { process := ipc.process, port := u16 ipc.param1 }).2 i = some a := hg
        by_cases hi : i = (so_allocate tcpips.tcps.listen sys.so_ok
            { process := ipc.process, port := u16 ipc.param1 }).1
        · rw [hi, hnew] at hg2
          cases hg2
          exact hp
        · rw [hother i hi] at hg2
          exact ho i a hg2
      · intro i j a b hga hgb hab
        have hga2 : so_get (so_allocate tcpips.tcps.listen sys.so_ok
            { process := ipc.process, port := u16 ipc.param1 }).2 i = some a := hga
        have hgb2 : so_get (so_allocate tcpips.tcps.listen sys.so_ok
            { process := ipc.process, port := u16 ipc.param1 }).2 j = some b := hgb
        by_cases hi : i = (so_allocate tcpips.tcps.listen sys.so_ok
            { process := ipc.process, port := u16 ipc.param1 }).1
        · by_cases hj : j = (so_allocate tcpips.tcps.listen sys.so_ok
              { process := ipc.process, port := u16 ipc.param1 }).1
          · rw [hi, hj]
          · rw [hi, hnew] at hga2
            rw [hother j hj] at hgb2
            cases hga2
            exact absurd hab.symm (hnone j b hgb2)
        · by_cases hj : j = (so_allocate tcpips.tcps.listen sys.so_ok
              { process := ipc.process, port := u16 ipc.param1 }).1
          · rw [hj, hnew] at hgb2
            rw [hother i hi] at hga2
            cases hgb2
            exact absurd hab (hnone i a hga2)
          · rw [hother i hi] at hga2
            rw [hother j hj] at hgb2
            exact hu i j a b hga2 hgb2 hab

theorem tcps_read_listen (plat : Platform) (tcpips : TCPIPS) (h : HANDLE) (io : Io) :
    (tcps_read plat tcpips h io).tcps.listen = tcpips.tcps.listen := by
  unfold tcps_read
  cases so_get tcpips.tcps.tcbs h with
  | none => rfl
  | some tcb =>
    dsimp only
    split
    · rfl
    · split
      · cases tcb.rx_tmp with
        | none => rfl
        | some tmp =>
          dsimp only
          split
          · show (if _ then _ else _ : TCPIPS).tcps.listen = _
            split <;> rfl
          · show (if _ then _ else _ : TCPIPS).tcps.listen = _
            split <;> rfl
      · rfl

theorem requested_listen_inv (plat : Platform) (tcpips : TCPIPS) (hr : Requested plat tcpips) :
    LISTEN_OWNED tcpips ∧ LISTEN_UNIQUE tcpips := by
  induction hr with
  | init t =>
    constructor
    · intro i a hg
      simp [tcps_init, so_create, so_get] at hg
    · intro i j a b hg
      simp [tcps_init, so_create, so_get] at hg
  | request t sys ipc io _ hp ih =>
    unfold tcps_request
    split
    · exact ih
    · split
      · split
        · exact tcps_listen_inv sys t ipc hp ih.1 ih.2
        · exact ih
      · exact ih
      · have hl := tcps_read_listen plat t ipc.param1 io
        constructor
        · intro i a hg
          have hg2 : so_get (tcps_read plat t ipc.param1 io).tcps.listen i = some a := hg
          rw [hl] at hg2
          exact ih.1 i a hg2
        · intro i j a b hga hgb
          have hga2 : so_get (tcps_read plat t ipc.param1 io).tcps.listen i = some a := hga
          have hgb2 : so_get (tcps_read plat t ipc.param1 io).tcps.listen j = some b := hgb
          rw [hl] at hga2 hgb2
          exact ih.2 i j a b hga2 hgb2
      · exact ih
      · exact ih
      · exact ih
  | link t up _ ih => exact ih

/-- Counterexample to C20 as stated: a listen request for a port without
listener when the system pool serves no slot: the table stays empty - no entry
is added - and no error is set. -/
theorem tcps_listen_no_slot :
    tcps_find_listener demo_init 80 = INVALID_HANDLE
    ∧ (so_entries (tcps_listen demo_sys_no_so demo_init demo_ipc_listen).1.tcps.listen).length = 0
    ∧ (tcps_listen demo_sys_no_so demo_init demo_ipc_listen).1.error = ERROR.ERROR_OK
    ∧ (so_entries (tcps_listen demo_sys demo_init demo_ipc_listen).1.tcps.listen).length = 1 := by
  decide

/-- C20, as amended. For requests made by processes and a listener table whose
entries belong to processes: `tcps_listen` for a port that already has an entry
fails with `ERROR_ALREADY_CONFIGURED` and leaves the table as it is; for a port
without entry it adds exactly one entry `{port, requesting process}` under a
handle that was free when the system pool serves a slot, and changes nothing
when it does not; and after `tcps_init` and any sequence of requests no two
entries of the table have the same port. -/
theorem tcps_listen_unique (plat : Platform) :
    (∀ (sys : Sys) (tcpips : TCPIPS) (ipc : IPC), LISTEN_OWNED tcpips →
      (∃ (i : HANDLE) (a : TCP_LISTEN_HANDLE),
        so_get tcpips.tcps.listen i = some a ∧ a.port = u16 ipc.param1) →
      tcps_listen sys tcpips ipc
        = ({ tcpips with error := ERROR.ERROR_ALREADY_CONFIGURED }, ipc))
    ∧ (∀ (sys : Sys) (tcpips : TCPIPS) (ipc : IPC), LISTEN_OWNED tcpips →
      (¬ ∃ (i : HANDLE) (a : TCP_LISTEN_HANDLE),
        so_get tcpips.tcps.listen i = some a ∧ a.port = u16 ipc.param1) →
      ((tcps_listen sys tcpips ipc).2.param2 ≠ INVALID_HANDLE
        ∧ so_get tcpips.tcps.listen (tcps_listen sys tcpips ipc).2.param2 = none
        ∧ so_get (tcps_listen sys tcpips ipc).1.tcps.listen (tcps_listen sys tcpips ipc).2.param2
            = some { process := ipc.process, port := u16 ipc.param1 }
        ∧ (∀ j, j ≠ (tcps_listen sys tcpips ipc).2.param2 →
            so_get (tcps_listen sys tcpips ipc).1.tcps.listen j = so_get tcpips.tcps.listen j)
        ∧ (tcps_listen sys tcpips ipc).1.error = tcpips.error)
      ∨ (sys.so_ok = false ∨ ¬ so_first_free tcpips.tcps.listen < INVALID_HANDLE)
        ∧ tcps_listen sys tcpips ipc = (tcpips, ipc))
    ∧ (∀ tcpips : TCPIPS, Requested plat tcpips → LISTEN_UNIQUE tcpips) := by
  refine ⟨?_, ?_, ?_⟩
  · intro sys tcpips ipc ho hex
    have hf := (tcps_find_listener_iff tcpips (u16 ipc.param1) ho).mpr hex
    simp only [tcps_listen, hf, ne_eq, not_false_eq_true, if_true]
  · intro sys tcpips ipc ho hex
    have hf : tcps_find_listener tcpips (u16 ipc.param1) = INVALID_HANDLE := by
      by_contra hne
      exact hex ((tcps_find_listener_iff tcpips (u16 ipc.param1) ho).mp hne)
    by_cases halloc : (so_allocate tcpips.tcps.listen sys.so_ok
        ({ process := ipc.process, port := u16 ipc.param1 } : TCP_LISTEN_HANDLE)).1
        = INVALID_HANDLE
    · right
      constructor
      · by_contra hcon
        have hc : sys.so_ok = true ∧ so_first_free tcpips.tcps.listen < INVALID_HANDLE := by
          constructor
          · cases hso : sys.so_ok with
            | true => rfl
            | false => exact absurd (Or.inl hso) hcon
          · by_contra hlt
            exact hcon (Or.inr hlt)
        simp only [so_allocate, hc, and_self, if_true] at halloc
        exact absurd halloc (ne_of_lt hc.2)
      · simp only [tcps_listen, hf, ne_eq, not_true_eq_false, if_false, halloc, if_true]
    · left
      obtain ⟨hfree, hnew, hother⟩ := so_allocate_spec tcpips.tcps.listen sys.so_ok
        ({ process := ipc.process, port := u16 ipc.param1 } : TCP_LISTEN_HANDLE) halloc
      have hres : tcps_listen sys tcpips ipc
          = ({ tcpips with tcps := { tcpips.tcps with listen :=
                (so_allocate tcpips.tcps.listen sys.so_ok
                  ({ process := ipc.process, port := u16 ipc.param1 } : TCP_LISTEN_HANDLE)).2 } },
             { ipc with param2 := (so_allocate tcpips.tcps.listen sys.so_ok
                  ({ process := ipc.process, port := u16 ipc.param1 } : TCP_LISTEN_HANDLE)).1 }) := by
        simp only [tcps_listen, hf, ne_eq, not_true_eq_false, if_false, halloc]
      rw [hres]
      exact ⟨halloc, hfree, hnew, hother, rfl⟩
  · intro tcpips hr
    exact (requested_listen_inv plat tcpips hr).2

/-- Witness of C20: after process 7 listens on port 80, a request of process 8
for the same port fails with `ERROR_ALREADY_CONFIGURED`, the table still holds
one entry, and no two entries share a port. -/
theorem tcps_listen_unique_witness :
    (tcps_request demo_plat demo_sys demo_listening (demo_ipc_listen_on 8 80) (demo_io 0)).1.error
        = ERROR.ERROR_ALREADY_CONFIGURED
    ∧ (so_entries (tcps_request demo_plat demo_sys demo_listening (demo_ipc_listen_on 8 80)
        (demo_io 0)).1.tcps.listen).length = 1
    ∧ LISTEN_UNIQUE (tcps_request demo_plat demo_sys demo_listening (demo_ipc_listen_on 8 80)
        (demo_io 0)).1 := by
  have h0 : Requested demo_plat demo_listening :=
    Requested.request demo_init demo_sys demo_ipc_listen (demo_io 0) (Requested.init _)
      (by decide)
  have h1 : Requested demo_plat
      (tcps_request demo_plat demo_sys demo_listening (demo_ipc_listen_on 8 80) (demo_io 0)).1 :=
    Requested.request demo_listening demo_sys (demo_ipc_listen_on 8 80) (demo_io 0) h0
      (by decide)
  exact ⟨by decide, by decide, (tcps_listen_unique demo_plat).2.2 _ h1⟩

/-! ## `tcps_read`: draining `rx_tmp` -/

theorem short2be_ge (m : Mem) (v j : Nat) (hj : 20 ≤ j) : short2be m 18 v j = m j := by
  simp only [short2be, poke]
  have h1 : j ≠ 18 + 1 := by omega
  have h2 : j ≠ 18 := by omega
  simp [h1, h2]

theorem short2be_12 (m : Mem) (v : Nat) : short2be m 18 v 12 = m 12 := by
  simp [short2be, poke]

/-- The translation of the urgent pointer in `tcps_read` touches the user
buffer only in its stack annotation, and `rx_tmp` only in the flags byte and
the urgent pointer of its header. -/
theorem tcps_read_tmp_urg_spec (plat : Platform) (io tmp : Io) (size data_size : Nat) :
    (tcps_read_tmp_urg plat io tmp size data_size).1.mem = io.mem
    ∧ (tcps_read_tmp_urg plat io tmp size data_size).1.data_size = io.data_size
    ∧ (tcps_read_tmp_urg plat io tmp size data_size).1.size = io.size
    ∧ (tcps_read_tmp_urg plat io tmp size data_size).1.stack.flags
        = io.stack.flags ||| (if has_flag tmp TCP_FLAG_URG then plat.TCP_URG else 0)
    ∧ (tcps_read_tmp_urg plat io tmp size data_size).2.addr = tmp.addr
    ∧ (tcps_read_tmp_urg plat io tmp size data_size).2.data_size = tmp.data_size
    ∧ (∀ j, j = 12 ∨ 20 ≤ j →
        (tcps_read_tmp_urg plat io tmp size data_size).2.mem j = tmp.mem j) := by
  simp only [tcps_read_tmp_urg]
  split_ifs
  · refine ⟨rfl, rfl, rfl, rfl, rfl, rfl, fun j hj => ?_⟩
    show short2be tmp.mem 18 (u16 (be2int tmp.mem 18) - size) j = tmp.mem j
    rcases hj with hj | hj
    · rw [hj]; exact short2be_12 tmp.mem _
    · exact short2be_ge _ _ _ hj
  · refine ⟨rfl, rfl, rfl, rfl, rfl, rfl, fun j hj => ?_⟩
    show poke (short2be tmp.mem 18 0) 13 _ j = tmp.mem j
    rcases hj with hj | hj
    · rw [hj]
      simp only [poke]
      rw [if_neg (by omega)]
      exact short2be_12 tmp.mem 0
    · simp only [poke]
      rw [if_neg (by omega)]
      exact short2be_ge _ _ _ hj
  · exact ⟨rfl, rfl, rfl, rfl, rfl, rfl, fun j _ => rfl⟩
  · exact ⟨rfl, rfl, rfl, by simp, rfl, rfl, fun j _ => rfl⟩

theorem fst_ite {α β : Type} (c : Prop) [Decidable c] (a : α) (b b1 : β) :
    (if c then (a, b) else (a, b1)).1 = a := by
  split <;> rfl

/-- The user buffer that `tcps_read_tmp` returns is the one its urgent-pointer
block returns. -/
theorem tcps_read_tmp_fst (plat : Platform) (x tmp : Io) :
    (tcps_read_tmp plat x tmp).1
      = (tcps_read_tmp_urg plat
          (if has_flag tmp TCP_FLAG_PSH then
            { x with
              mem := memcpy x.mem 0 tmp.mem (tcps_data_offset tmp)
                (if io_get_free x > tcps_data_len tmp then tcps_data_len tmp
                  else io_get_free x)
              data_size := (if io_get_free x > tcps_data_len tmp then tcps_data_len tmp
                  else io_get_free x)
              stack := { x.stack with flags := x.stack.flags ||| plat.TCP_PSH } }
          else
            { x with
              mem := memcpy x.mem 0 tmp.mem (tcps_data_offset tmp)
                (if io_get_free x > tcps_data_len tmp then tcps_data_len tmp
                  else io_get_free x)
              data_size := (if io_get_free x > tcps_data_len tmp then tcps_data_len tmp
                  else io_get_free x) })
          tmp
          (if io_get_free x > tcps_data_len tmp then tcps_data_len tmp else io_get_free x)
          (tcps_data_len tmp)).1 := by
  simp only [tcps_read_tmp]
  exact fst_ite _ _ _ _

/-- What `tcps_read_tmp` leaves in the user buffer: the first bytes of the data
of `rx_tmp`, as many as fit. -/
theorem tcps_read_tmp_user (plat : Platform) (x tmp : Io) :
    (tcps_read_tmp plat x tmp).1.mem
        = memcpy x.mem 0 tmp.mem (tcps_data_offset tmp)
            (if io_get_free x > tcps_data_len tmp then tcps_data_len tmp else io_get_free x)
    ∧ (tcps_read_tmp plat x tmp).1.data_size
        = (if io_get_free x > tcps_data_len tmp then tcps_data_len tmp else io_get_free x)
    ∧ (tcps_read_tmp plat x tmp).1.size = x.size := by
  have hu := tcps_read_tmp_urg_spec plat
  rw [tcps_read_tmp_fst, (hu _ _ _ _).1, (hu _ _ _ _).2.1, (hu _ _ _ _).2.2.1]
  cases has_flag tmp TCP_FLAG_PSH
  · simp only [Bool.false_eq_true, if_false, and_self]
  · simp only [if_true, and_self]

/-- The flags that `tcps_read_tmp` sets in the stack annotation of the user
buffer. -/
theorem tcps_read_tmp_flags (plat : Platform) (x tmp : Io) :
    (tcps_read_tmp plat x tmp).1.stack.flags
      = (if has_flag tmp TCP_FLAG_PSH then x.stack.flags ||| plat.TCP_PSH else x.stack.flags)
          ||| (if has_flag tmp TCP_FLAG_URG then plat.TCP_URG else 0) := by
  have hu := tcps_read_tmp_urg_spec plat
  rw [tcps_read_tmp_fst, (hu _ _ _ _).2.2.2.1]
  cases has_flag tmp TCP_FLAG_PSH
  · simp only [Bool.false_eq_true, if_false]
  · simp only [if_true]

/-- What `tcps_read_tmp` leaves of an `rx_tmp` whose data start behind the
header: nothing when all its data went to the user buffer, and otherwise the
same buffer with the data that did not fit moved to the start of the data
area. -/
theorem tcps_read_tmp_rest (plat : Platform) (x tmp : Io)
    (hoff : TCP_HEADER_SIZE ≤ tcps_data_offset tmp) :
    (io_get_free x ≥ tcps_data_len tmp → (tcps_read_tmp plat x tmp).2 = none)
    ∧ (io_get_free x < tcps_data_len tmp →
        ∃ t : Io, (tcps_read_tmp plat x tmp).2 = some t
          ∧ t.addr = tmp.addr
          ∧ t.data_size = u32i ((tmp.data_size : Int) - io_get_free x)
          ∧ t.mem 12 = tmp.mem 12
          ∧ ∀ i, i < tcps_data_len tmp - io_get_free x →
              t.mem (tcps_data_offset tmp + i)
                = tmp.mem (tcps_data_offset tmp + io_get_free x + i)) := by
  have h20 : 20 ≤ tcps_data_offset tmp := hoff
  have hu := tcps_read_tmp_urg_spec plat
  constructor
  · intro hge
    have hsize : (if io_get_free x > tcps_data_len tmp then tcps_data_len tmp
        else io_get_free x) = tcps_data_len tmp := by
      split_ifs <;> omega
    simp only [tcps_read_tmp, hsize, if_true]
  · intro hlt
    have hsize : (if io_get_free x > tcps_data_len tmp then tcps_data_len tmp
        else io_get_free x) = io_get_free x := by
      split_ifs <;> omega
    have hne : ¬ io_get_free x = tcps_data_len tmp := by omega
    simp only [tcps_read_tmp, hsize, hne, if_false]
    refine ⟨_, rfl, (hu _ _ _ _).2.2.2.2.1, ?_, ?_, ?_⟩
    · show u32i (((tcps_read_tmp_urg plat _ tmp _ _).2.data_size : Int) - _) = _
      rw [(hu _ _ _ _).2.2.2.2.2.1]
    · show memmove (tcps_read_tmp_urg plat _ tmp _ _).2.mem _ _ _ 12 = _
      simp only [memmove, memcpy]
      rw [if_neg (by omega)]
      exact (hu _ _ _ _).2.2.2.2.2.2 12 (Or.inl rfl)
    · intro i hi
      show memmove (tcps_read_tmp_urg plat _ tmp _ _).2.mem _ _ _ _ = _
      simp only [memmove, memcpy]
      rw [if_pos (by omega)]
      rw [(hu _ _ _ _).2.2.2.2.2.2 _ (Or.inr (by omega))]
      congr 1
      omega

theorem psh_of_flags (P U : Nat) (hp : P ≠ 0) (hu : U &&& P = 0) (psh urg : Bool) :
    (((if psh = true then 0 ||| P else 0) ||| (if urg = true then U else 0)) &&& P ≠ 0)
      ↔ psh = true := by
  have h1 : (P ||| U) &&& P = P := by
    rw [Nat.and_comm, Nat.and_or_distrib_left, Nat.and_self, Nat.and_comm P U, hu, Nat.or_zero]
  cases psh <;> cases urg <;> simp [hu, hp, h1]

theorem bytes_at_congr (a b : Mem) (i j n : Nat) (h : ∀ k, k < n → a (i + k) = b (j + k)) :
    bytes_at a i n = bytes_at b j n := by
  simp only [bytes_at]
  apply List.map_congr_left
  intro k hk
  exact h k (List.mem_range.mp hk)

theorem free_zero_iff (xs c len : Nat) (hx : xs < 4294967296) (hc : c = xs) :
    u32i ((xs : Int) - (min c len : Nat)) = 0 ↔ c ≤ len := by
  simp only [u32i]
  omega

theorem free_of_empty (xs : Nat) (hx : xs < 4294967296) : u32i ((xs : Int) - (0 : Nat)) = xs := by
  simp only [u32i]
  omega

theorem rest_len (ds off c len : Nat) (h32 : ds < 4294967296) (hgt : ds > off)
    (hlen : len = ds - off) (hcl : c < len) :
    (if u32i ((ds : Int) - c) > off then u32i ((ds : Int) - c) - off else 0) = len - c := by
  simp only [u32i]
  split <;> omega

/-- The copy out of `rx_tmp` behind a well-formed header.  For an accepted
`tcps_read` while `rx_tmp` holds the data bytes `D` behind a header whose data
offset is at least 20, with `c` the capacity of the user buffer: the user
buffer receives the first `min (c, |D|)` bytes of `D`;
if `|D| ≤ c` then `rx_tmp` is released and becomes null,
otherwise `rx_tmp` keeps the remaining `|D| - c` bytes of `D` in order at the
start of its data area; and the user buffer is completed to the owner with
`IPC_READ` if it is full or `rx_tmp` carried PSH, and is parked as `rx`
otherwise. -/
theorem tcps_read_rx_tmp (plat : Platform) (tcpips : TCPIPS) (h : HANDLE) (io : Io)
    (tcb : TCP_TCB) (tmp : Io)
    (hget : so_get tcpips.tcps.tcbs h = some tcb)
    (hrx : tcb.rx.isSome = false)
    (hst : tcb.state = TCP_STATE.ESTABLISHED ∨ tcb.state = TCP_STATE.FIN_WAIT_1
      ∨ tcb.state = TCP_STATE.FIN_WAIT_2)
    (htmp : tcb.rx_tmp = some tmp)
    (hoff : TCP_HEADER_SIZE ≤ tcps_data_offset tmp)
    (h32 : tmp.data_size < 4294967296) (hio : io.size < 4294967296)
    (hpsh : plat.TCP_PSH ≠ 0) (hurg : plat.TCP_URG &&& plat.TCP_PSH = 0) :
    ∃ (io1 : Io) (tcb1 : TCP_TCB),
      so_get (tcps_read plat tcpips h io).tcps.tcbs h = some tcb1
      ∧ io1.addr = io.addr
      ∧ io1.data_size = min (io_get_free (tcps_read_io plat io)) (tcps_data_len tmp)
      ∧ bytes_at io1.mem 0 (min (io_get_free (tcps_read_io plat io)) (tcps_data_len tmp))
          = bytes_at tmp.mem (tcps_data_offset tmp)
              (min (io_get_free (tcps_read_io plat io)) (tcps_data_len tmp))
      ∧ (tcps_data_len tmp ≤ io_get_free (tcps_read_io plat io) →
          tcb1.rx_tmp = none
          ∧ (tcps_read plat tcpips h io).released = tcpips.released ++ [tmp.addr])
      ∧ (io_get_free (tcps_read_io plat io) < tcps_data_len tmp →
          ∃ t : Io, tcb1.rx_tmp = some t ∧ t.addr = tmp.addr
            ∧ tcps_data_offset t = tcps_data_offset tmp
            ∧ tcps_data_len t = tcps_data_len tmp - io_get_free (tcps_read_io plat io)
            ∧ bytes_at t.mem (tcps_data_offset t)
                  (tcps_data_len tmp - io_get_free (tcps_read_io plat io))
                = bytes_at tmp.mem (tcps_data_offset tmp + io_get_free (tcps_read_io plat io))
                    (tcps_data_len tmp - io_get_free (tcps_read_io plat io))
            ∧ (tcps_read plat tcpips h io).released = tcpips.released)
      ∧ (if io_get_free (tcps_read_io plat io) ≤ tcps_data_len tmp
            ∨ has_flag tmp TCP_FLAG_PSH = true then
          tcb1.rx = none
          ∧ (tcps_read plat tcpips h io).completed = tcpips.completed ++
              [{ process := tcb.process, cmd := HAL_IO_CMD HAL.HAL_TCP IPC_ITEM.IPC_READ,
                 handle := h, io := io1 }]
        else
          tcb1.rx = some io1
          ∧ (tcps_read plat tcpips h io).completed = tcpips.completed) := by
  have hlt := so_get_lt hget
  have hrxn : tcb.rx = none := by
    cases h0 : tcb.rx with
    | none => rfl
    | some x => rw [h0] at hrx; cases hrx
  obtain ⟨x, hx⟩ : ∃ x, x = tcps_read_io plat io := ⟨_, rfl⟩
  obtain ⟨c, hc⟩ : ∃ c, c = io_get_free x := ⟨_, rfl⟩
  obtain ⟨len, hlen⟩ : ∃ n, n = tcps_data_len tmp := ⟨_, rfl⟩
  obtain ⟨r, hr⟩ : ∃ r, r = tcps_read_tmp plat x tmp := ⟨_, rfl⟩
  have hdrain := tcps_read_drain plat tcpips h io tcb tmp hget hrx hst htmp
  rw [← hx, ← hr] at hdrain
  rw [← hx, ← hc, ← hlen]
  obtain ⟨u1, u2, u3⟩ := tcps_read_tmp_user plat x tmp
  have uf := tcps_read_tmp_flags plat x tmp
  obtain ⟨v1, v2⟩ := tcps_read_tmp_rest plat x tmp hoff
  have haddr := tcps_read_tmp_addr plat x tmp
  rw [← hr, ← hc, ← hlen] at u1 u2
  rw [← hr] at u3 uf haddr
  rw [← hr, ← hc, ← hlen] at v1 v2
  have hmin : (if c > len then len else c) = min c len := by
    split_ifs <;> omega
  rw [hmin] at u1 u2
  have hxsize : x.size = io.size - plat.TCP_STACK_SIZE := by rw [hx]; rfl
  have hxds : x.data_size = 0 := by rw [hx]; rfl
  have hxflags : x.stack.flags = 0 := by rw [hx]; rfl
  have hxaddr : x.addr = io.addr := by rw [hx]; rfl
  have hxlt : x.size < 4294967296 := by
    rw [hxsize]
    exact lt_of_le_of_lt (Nat.sub_le _ _) hio
  have hcx : c = x.size := by
    rw [hc]
    simp only [io_get_free, hxds]
    exact free_of_empty x.size hxlt
  have hfree : io_get_free r.1 = 0 ↔ c ≤ len := by
    simp only [io_get_free, u3, u2]
    exact free_zero_iff x.size c len hxlt hcx
  have hflag : (r.1.stack.flags &&& plat.TCP_PSH ≠ 0) ↔ has_flag tmp TCP_FLAG_PSH = true := by
    rw [uf, hxflags]
    exact psh_of_flags plat.TCP_PSH plat.TCP_URG hpsh hurg _ _
  have hcond : (io_get_free r.1 = 0 ∨ r.1.stack.flags &&& plat.TCP_PSH ≠ 0)
      ↔ (c ≤ len ∨ has_flag tmp TCP_FLAG_PSH = true) := by
    rw [hfree, hflag]
  obtain ⟨t0, ht0⟩ : ∃ t0 : TCPIPS, t0 =
      (if r.2.isNone = true then ips_release_io { tcpips with error := ERROR.ERROR_SYNC } tmp
        else { tcpips with error := ERROR.ERROR_SYNC }) := ⟨_, rfl⟩
  rw [← ht0] at hdrain
  have ht0size : h < t0.tcps.tcbs.size := by
    rw [ht0]
    split <;> exact hlt
  have ht0c : t0.completed = tcpips.completed := by
    rw [ht0]
    split <;> rfl
  have hbytes : bytes_at r.1.mem 0 (min c len) = bytes_at tmp.mem (tcps_data_offset tmp)
      (min c len) := by
    apply bytes_at_congr
    intro k hk
    rw [u1]
    simp only [memcpy]
    rw [if_pos (by omega)]
    congr 1
    omega
  have hrel1 : len ≤ c → r.2 = none ∧ t0.released = tcpips.released ++ [tmp.addr] := by
    intro hle
    have h2 := v1 hle
    refine ⟨h2, ?_⟩
    rw [ht0, h2]
    rfl
  have hrel2 : c < len → ∃ t : Io, r.2 = some t ∧ t.addr = tmp.addr
      ∧ tcps_data_offset t = tcps_data_offset tmp
      ∧ tcps_data_len t = len - c
      ∧ bytes_at t.mem (tcps_data_offset t) (len - c)
          = bytes_at tmp.mem (tcps_data_offset tmp + c) (len - c)
      ∧ t0.released = tcpips.released := by
    intro hcl
    obtain ⟨t, e1, e2, e3, e4, e5⟩ := v2 hcl
    have hoffeq : tcps_data_offset t = tcps_data_offset tmp := by
      simp only [tcps_data_offset, byte, e4]
    have hlen2 : tcps_data_len tmp = len := hlen.symm
    have hds : tmp.data_size > tcps_data_offset tmp ∧ len = tmp.data_size - tcps_data_offset tmp := by
      simp only [tcps_data_len] at hlen2
      split at hlen2
      · exact ⟨by assumption, hlen2.symm⟩
      · omega
    refine ⟨t, e1, e2, hoffeq, ?_, ?_, ?_⟩
    · simp only [tcps_data_len, hoffeq, e3]
      exact rest_len tmp.data_size (tcps_data_offset tmp) c len h32 hds.1 hds.2 hcl
    · rw [hoffeq]
      exact bytes_at_congr _ _ _ _ _ e5
    · rw [ht0, e1]
      rfl
  by_cases hcnd : c ≤ len ∨ has_flag tmp TCP_FLAG_PSH = true
  · have hcnd2 := hcond.mpr hcnd
    rw [if_pos hcnd2] at hdrain
    refine ⟨r.1, tcps_update_rx_wnd plat { tcb with rx_tmp := r.2 }, ?_, ?_, u2, hbytes, ?_, ?_,
      ?_⟩
    · rw [hdrain]
      have hs := so_get_set_tcb t0 h h (tcps_update_rx_wnd plat { tcb with rx_tmp := r.2 })
      simp only [ht0size, and_self, if_true] at hs
      exact hs
    · rw [haddr, hxaddr]
    · intro hle
      obtain ⟨q1, q2⟩ := hrel1 hle
      refine ⟨q1, ?_⟩
      rw [hdrain]
      exact q2
    · intro hcl
      obtain ⟨t, q1, q2, q3, q4, q5, q6⟩ := hrel2 hcl
      refine ⟨t, q1, q2, q3, q4, q5, ?_⟩
      rw [hdrain]
      exact q6
    · rw [if_pos hcnd]
      refine ⟨hrxn, ?_⟩
      rw [hdrain]
  · have hcnd2 : ¬ (io_get_free r.1 = 0 ∨ r.1.stack.flags &&& plat.TCP_PSH ≠ 0) :=
      fun hh => hcnd (hcond.mp hh)
    rw [if_neg hcnd2] at hdrain
    refine ⟨r.1, tcps_update_rx_wnd plat { tcb with rx_tmp := r.2, rx := some r.1 }, ?_, ?_, u2,
      hbytes, ?_, ?_, ?_⟩
    · rw [hdrain, so_get_set_tcb]
      simp only [ht0size, and_self, if_true]
    · rw [haddr, hxaddr]
    · intro hle
      obtain ⟨q1, q2⟩ := hrel1 hle
      refine ⟨q1, ?_⟩
      rw [hdrain]
      exact q2
    · intro hcl
      obtain ⟨t, q1, q2, q3, q4, q5, q6⟩ := hrel2 hcl
      refine ⟨t, q1, q2, q3, q4, q5, ?_⟩
      rw [hdrain]
      exact q6
    · rw [if_neg hcnd]
      refine ⟨rfl, ?_⟩
      rw [hdrain]
      exact ht0c

/-- C19, the code at a failing input.  The connection of the scenario is in
ESTABLISHED without posted buffer when `tcps_rx` receives a segment of 24
bytes that carries URG and whose header declares a data offset of 16 bytes; it
is accepted and kept as `rx_tmp`, which so holds the 8 data bytes
`D = [65, 66, 67, 68, 0, 3, 71, 72]`, the bytes 16..23 of the segment.  The
owner then reads with a user buffer of capacity 2: the read is accepted, the
buffer is completed with `[65, 66]`, but what `rx_tmp` keeps at the start of
its data area is `[0, 1, 0, 3, 71, 72]`, not the remaining bytes
`[67, 68, 0, 3, 71, 72]` of `D`: the rest of the urgent length was written
into the header bytes 18 and 19, which here are data bytes.  A second read of
capacity 6 returns `[0, 1, 0, 3, 71, 72]`.  The same on a TCB whose `rx_tmp`
holds `[0, 0, 3, 4, 5, 6, 7, 8]` behind a data offset of 16: the buffer gets
`[0, 0]` and `rx_tmp` keeps `[5, 4, 5, 6, 7, 8]`. -/
theorem tcps_read_rx_tmp_short_offset :
    Reachable demo_plat demo_queued
    ∧ (tcps_data_offset demo_seg_urg_short_offset, demo_seg_urg_short_offset.data_size,
        has_flag demo_seg_urg_short_offset TCP_FLAG_URG) = (16, 24, true)
    ∧ (so_get demo_queued.tcps.tcbs 0).map
        (fun t => (t.state, t.rx.isNone, t.rx_tmp.map tcps_data_offset))
        = some (TCP_STATE.ESTABLISHED, true, some 16)
    ∧ (so_get demo_queued.tcps.tcbs 0).map (fun t => data_of t.rx_tmp)
        = some (some (8, [65, 66, 67, 68, 0, 3, 71, 72]))
    ∧ io_get_free (tcps_read_io demo_plat (demo_user_io 2)) = 2
    ∧ (tcps_request demo_plat demo_sys demo_queued demo_ipc_read (demo_user_io 2)).1.error
        = ERROR.ERROR_SYNC
    ∧ (tcps_request demo_plat demo_sys demo_queued demo_ipc_read (demo_user_io 2)).1.completed.map
        (fun c => (c.process, c.io.addr, bytes_at c.io.mem 0 c.io.data_size))
        = [(7, 7000, [65, 66])]
    ∧ (so_get (tcps_request demo_plat demo_sys demo_queued demo_ipc_read
          (demo_user_io 2)).1.tcps.tcbs 0).map (fun t => t.rx_tmp.map tcps_data_offset)
        = some (some 16)
    ∧ (so_get (tcps_request demo_plat demo_sys demo_queued demo_ipc_read
          (demo_user_io 2)).1.tcps.tcbs 0).map (fun t => data_of t.rx_tmp)
        = some (some (6, [0, 1, 0, 3, 71, 72]))
    ∧ (tcps_request demo_plat demo_sys
        (tcps_request demo_plat demo_sys demo_queued demo_ipc_read (demo_user_io 2)).1
        demo_ipc_read { demo_user_io 6 with addr := 7100 }).1.completed.map
        (fun c => (c.process, c.io.addr, bytes_at c.io.mem 0 c.io.data_size))
        = [(7, 7000, [65, 66]), (7, 7100, [0, 1, 0, 3, 71, 72])]
    ∧ (demo_tcb_tmp demo_tmp_short_offset).state = TCP_STATE.ESTABLISHED
    ∧ (demo_tcb_tmp demo_tmp_short_offset).rx.isNone = true
    ∧ tcps_data_offset demo_tmp_short_offset = 16
    ∧ tcps_data_len demo_tmp_short_offset = 8
    ∧ bytes_at demo_tmp_short_offset.mem 16 8 = [0, 0, 3, 4, 5, 6, 7, 8]
    ∧ (tcps_read demo_plat (demo_with (demo_tcb_tmp demo_tmp_short_offset)) 0
        (demo_user_io 2)).error = ERROR.ERROR_SYNC
    ∧ ((so_get (tcps_read demo_plat (demo_with (demo_tcb_tmp demo_tmp_short_offset)) 0
          (demo_user_io 2)).tcps.tcbs 0).bind (fun t => t.rx_tmp)).map
          (fun t => (tcps_data_offset t, tcps_data_len t, bytes_at t.mem 16 6))
        = some (16, 6, [5, 4, 5, 6, 7, 8])
    ∧ bytes_at demo_tmp_short_offset.mem (16 + 2) 6 = [3, 4, 5, 6, 7, 8] := by
  refine ⟨demo_queued_reachable, ?_⟩
  and_intros <;> decide

/-- An instance of the copy behind a well-formed header: `rx_tmp` holds
`[1, ..., 8]` behind a header of 20 bytes and a user buffer of capacity 3 is
read: it receives `[1, 2, 3]`. -/
theorem tcps_read_rx_tmp_witness :
    ∃ (io1 : Io) (tcb1 : TCP_TCB),
      so_get (tcps_read demo_plat (demo_with (demo_tcb_tmp demo_tmp)) 0
        (demo_user_io 3)).tcps.tcbs 0 = some tcb1
      ∧ io1.data_size = 3
      ∧ bytes_at io1.mem 0 3 = [1, 2, 3] := by
  obtain ⟨io1, tcb1, h1, _, h3, h4, _⟩ :=
    tcps_read_rx_tmp demo_plat (demo_with (demo_tcb_tmp demo_tmp)) 0 (demo_user_io 3)
      (demo_tcb_tmp demo_tmp) demo_tmp rfl rfl (Or.inl rfl) rfl (by decide) (by decide)
      (by decide) (by decide) (by decide)
  have hmin : min (io_get_free (tcps_read_io demo_plat (demo_user_io 3)))
      (tcps_data_len demo_tmp) = 3 := by decide
  rw [hmin] at h3 h4
  have hb : bytes_at demo_tmp.mem (tcps_data_offset demo_tmp) 3 = [1, 2, 3] := by decide
  exact ⟨io1, tcb1, h1, h3, h4.trans hb⟩

/-! ## The MSS of a TCB -/

theorem SAME_FIELDS_refl (a : TCP_TCB) : SAME_FIELDS a a := ⟨rfl, rfl, rfl, rfl⟩

theorem SAME_FIELDS_trans (a b c : TCP_TCB) (h1 : SAME_FIELDS a b) (h2 : SAME_FIELDS b c) :
    SAME_FIELDS a c :=
  ⟨h2.1.trans h1.1, h2.2.1.trans h1.2.1, h2.2.2.1.trans h1.2.2.1, h2.2.2.2.trans h1.2.2.2⟩

theorem DESCENDS_of_tcbs (a b : TCPIPS) (hab : b.tcps.tcbs = a.tcps.tcbs) : DESCENDS a b := by
  intro j tb hg
  rw [hab] at hg
  exact ⟨tb, hg, SAME_FIELDS_refl tb⟩

theorem DESCENDS_trans (a b c : TCPIPS) (h1 : DESCENDS a b) (h2 : DESCENDS b c) :
    DESCENDS a c := by
  intro j tc hg
  obtain ⟨tb, hb, sb⟩ := h2 j tc hg
  obtain ⟨ta, ha, sa⟩ := h1 j tb hb
  exact ⟨ta, ha, SAME_FIELDS_trans ta tb tc sa sb⟩

theorem DESCENDS_set_tcb (a b : TCPIPS) (h : HANDLE) (v t0 : TCP_TCB)
    (hab : b.tcps.tcbs = a.tcps.tcbs) (hg : so_get a.tcps.tcbs h = some t0)
    (hs : SAME_FIELDS t0 v) : DESCENDS a (b.set_tcb h v) := by
  intro j tb hj
  simp only [TCPIPS.set_tcb, TCPIPS.with_tcbs, so_get_so_set] at hj
  split at hj
  · rename_i hc
    cases hj
    rw [hab] at hc
    have hjh : j = h := hc.1
    subst hjh
    exact ⟨t0, hg, hs⟩
  · rw [hab] at hj
    exact ⟨tb, hj, SAME_FIELDS_refl tb⟩

theorem DESCENDS_destroy (a b : TCPIPS) (h : HANDLE) (hab : b.tcps.tcbs = a.tcps.tcbs) :
    DESCENDS a (tcps_destroy_tcb b h) := by
  intro j tb hj
  simp only [tcps_destroy_tcb, TCPIPS.with_tcbs, so_get_so_free] at hj
  split at hj
  · cases hj
  · rw [hab] at hj
    exact ⟨tb, hj, SAME_FIELDS_refl tb⟩

theorem ALL_TCB_descends (P : TCP_TCB → Prop) (a b : TCPIPS)
    (hP : ∀ x y, SAME_FIELDS x y → P x → P y) (hd : DESCENDS a b) (ha : ALL_TCB P a) :
    ALL_TCB P b := by
  intro j tb hg
  obtain ⟨ta, hga, hs⟩ := hd j tb hg
  exact hP ta tb hs (ha j ta hga)

theorem tcps_rx_listen_descends (plat : Platform) (sys : Sys) (tcpips : TCPIPS) (io : Io)
    (h : HANDLE) : DESCENDS tcpips (tcps_rx_listen plat sys tcpips io h) := by
  unfold tcps_rx_listen
  split
  · exact DESCENDS_destroy _ _ _ rfl
  · split
    · refine DESCENDS_destroy _ _ _ ?_
      rw [tcps_tx_rst_tcps]
    · split
      · split
        · exact DESCENDS_of_tcbs _ _ rfl
        · rename_i tcb hg
          dsimp only
          have key : ∀ v, SAME_FIELDS tcb v →
              DESCENDS tcpips (tcps_tx_syn_ack plat sys (tcpips.set_tcb h v) h) :=
            fun v hv => DESCENDS_trans _ _ _ (DESCENDS_set_tcb tcpips tcpips h v tcb rfl hg hv)
              (DESCENDS_of_tcbs _ _ (by rw [tcps_tx_syn_ack_tcps]))
          exact key _ ⟨rfl, rfl, rfl, rfl⟩
      · exact DESCENDS_destroy _ _ _ rfl

theorem tcps_rx_closed_descends (plat : Platform) (sys : Sys) (tcpips : TCPIPS) (io : Io)
    (h : HANDLE) : DESCENDS tcpips (tcps_rx_closed plat sys tcpips io h) := by
  intro j tb hg
  rw [tcps_rx_closed_get] at hg
  split at hg
  · cases hg
  · exact ⟨tb, hg, SAME_FIELDS_refl tb⟩

theorem tcps_rx_otw_ack_switch_descends (tcpips : TCPIPS) (tcb t0 : TCP_TCB) (h : HANDLE)
    (hg : so_get tcpips.tcps.tcbs h = some t0) (hs : SAME_FIELDS t0 tcb) :
    DESCENDS tcpips (tcps_rx_otw_ack_switch tcpips tcb h).2 := by
  unfold tcps_rx_otw_ack_switch
  split
  · refine DESCENDS_set_tcb _ _ _ _ t0 rfl hg ?_
    split
    · exact hs
    · exact hs
  · refine DESCENDS_set_tcb _ _ _ _ t0 rfl hg ?_
    split
    · exact hs
    · exact hs
  · split
    · exact DESCENDS_trans _ _ _ (DESCENDS_set_tcb _ _ _ _ t0 rfl hg hs)
        (DESCENDS_destroy _ _ _ rfl)
    · exact DESCENDS_set_tcb _ _ _ _ t0 rfl hg hs
  · exact DESCENDS_set_tcb _ _ _ _ t0 rfl hg hs

theorem tcps_rx_otw_ack_descends (plat : Platform) (sys : Sys) (tcpips : TCPIPS) (io : Io)
    (h : HANDLE) : DESCENDS tcpips (tcps_rx_otw_ack plat sys tcpips io h).2 := by
  unfold tcps_rx_otw_ack
  cases hg : so_get tcpips.tcps.tcbs h with
  | none => exact DESCENDS_of_tcbs _ _ rfl
  | some tcb =>
    dsimp only
    split
    · split
      · exact DESCENDS_trans _ _ _
          (DESCENDS_set_tcb tcpips tcpips h (tcps_set_state tcb TCP_STATE.ESTABLISHED) tcb rfl hg
            ⟨rfl, rfl, rfl, rfl⟩)
          (DESCENDS_of_tcbs _ _ rfl)
      · refine DESCENDS_of_tcbs _ _ ?_
        rw [tcps_tx_rst_tcps]
    · split
      · refine DESCENDS_of_tcbs _ _ ?_
        rw [tcps_tx_ack_tcps]
      · refine tcps_rx_otw_ack_switch_descends tcpips _ tcb h hg ?_
        split
        · exact ⟨rfl, rfl, rfl, rfl⟩
        · exact ⟨rfl, rfl, rfl, rfl⟩

theorem tcps_rx_otw_text_user_same (plat : Platform) (tcpips : TCPIPS) (tcb : TCP_TCB)
    (rx : Io) (io : Io) (h : HANDLE) (t : TEXT) :
    SAME_FIELDS tcb (tcps_rx_otw_text_user plat tcpips tcb rx io h t).2.1 := by
  unfold tcps_rx_otw_text_user
  dsimp only
  split_ifs <;> exact ⟨rfl, rfl, rfl, rfl⟩

theorem tcps_rx_otw_text_queue_same (plat : Platform) (tcb : TCP_TCB) (io : Io) (t : TEXT) :
    SAME_FIELDS tcb (tcps_rx_otw_text_queue plat tcb io t) := by
  unfold tcps_rx_otw_text_queue
  split
  · cases tcb.rx_tmp <;> exact ⟨rfl, rfl, rfl, rfl⟩
  · exact ⟨rfl, rfl, rfl, rfl⟩

theorem tcps_rx_otw_text_data_same (plat : Platform) (tcpips : TCPIPS) (tcb : TCP_TCB)
    (io : Io) (h : HANDLE) :
    SAME_FIELDS tcb (tcps_rx_otw_text_data plat tcpips tcb io h).2 := by
  unfold tcps_rx_otw_text_data
  dsimp only
  cases hrx : tcb.rx with
  | none =>
    dsimp only
    refine SAME_FIELDS_trans _ _ _ ?_ (tcps_rx_otw_text_queue_same plat _ _ _)
    exact ⟨rfl, rfl, rfl, rfl⟩
  | some rx =>
    dsimp only
    refine SAME_FIELDS_trans _ _ _ ?_ (tcps_rx_otw_text_queue_same plat _ _ _)
    refine SAME_FIELDS_trans _ _ _ ?_ (tcps_rx_otw_text_user_same plat _ _ _ _ _ _)
    exact ⟨rfl, rfl, rfl, rfl⟩

theorem tcps_rx_otw_text_descends (plat : Platform) (tcpips : TCPIPS) (io : Io) (h : HANDLE) :
    DESCENDS tcpips (tcps_rx_otw_text plat tcpips io h) := by
  unfold tcps_rx_otw_text
  cases hg : so_get tcpips.tcps.tcbs h with
  | none => exact DESCENDS_of_tcbs _ _ rfl
  | some tcb =>
    dsimp only
    split
    · split
      · obtain ⟨d1, _⟩ := tcps_rx_otw_text_data_fields plat tcpips tcb io h
        exact DESCENDS_set_tcb tcpips _ h _ tcb (congrArg TCPS.tcbs d1) hg
          (SAME_FIELDS_trans _ _ _ (tcps_rx_otw_text_data_same plat tcpips tcb io h)
            ⟨rfl, rfl, rfl, rfl⟩)
      · exact DESCENDS_of_tcbs _ _ rfl
    · exact DESCENDS_of_tcbs _ _ rfl

theorem tcps_rx_otw_fin_switch_descends (tcpips : TCPIPS) (tcb t0 : TCP_TCB) (h : HANDLE)
    (hg : so_get tcpips.tcps.tcbs h = some t0) (hs : SAME_FIELDS t0 tcb) :
    DESCENDS tcpips (tcps_rx_otw_fin_switch tcpips tcb h) := by
  unfold tcps_rx_otw_fin_switch
  split
  · exact DESCENDS_set_tcb tcpips _ _ _ t0 rfl hg hs
  · exact DESCENDS_set_tcb tcpips _ _ _ t0 rfl hg hs
  · refine DESCENDS_set_tcb tcpips _ _ _ t0 rfl hg ?_
    split
    · exact hs
    · exact hs
  · exact DESCENDS_set_tcb tcpips _ _ _ t0 rfl hg hs
  · exact DESCENDS_set_tcb tcpips _ _ _ t0 rfl hg hs

theorem tcps_rx_otw_fin_descends (tcpips : TCPIPS) (h : HANDLE) :
    DESCENDS tcpips (tcps_rx_otw_fin tcpips h) := by
  unfold tcps_rx_otw_fin
  cases hg : so_get tcpips.tcps.tcbs h with
  | none => exact DESCENDS_of_tcbs _ _ rfl
  | some tcb =>
    refine tcps_rx_otw_fin_switch_descends tcpips _ tcb h hg ?_
    dsimp only
    split
    · exact ⟨rfl, rfl, rfl, rfl⟩
    · exact ⟨rfl, rfl, rfl, rfl⟩

theorem tcps_rx_send_descends (plat : Platform) (sys : Sys) (tcpips : TCPIPS) (h : HANDLE) :
    DESCENDS tcpips (tcps_rx_send plat sys tcpips h) := by
  unfold tcps_rx_send
  cases hg : so_get tcpips.tcps.tcbs h with
  | none => exact DESCENDS_of_tcbs _ _ rfl
  | some tcb =>
    dsimp only
    split
    · exact DESCENDS_set_tcb tcpips _ _ _ tcb rfl hg ⟨rfl, rfl, rfl, rfl⟩
    · split
      · exact DESCENDS_of_tcbs _ _ rfl
      · refine DESCENDS_of_tcbs _ _ ?_
        rw [tcps_tx_text_ack_fin_tcps]

theorem tcps_rx_otw_descends (plat : Platform) (sys : Sys) (tcpips : TCPIPS) (io : Io)
    (h : HANDLE) : DESCENDS tcpips (tcps_rx_otw plat sys tcpips io h) := by
  unfold tcps_rx_otw
  have hc : DESCENDS tcpips (tcps_rx_otw_check_seq plat sys tcpips io h).2.2 :=
    DESCENDS_of_tcbs _ _ (congrArg TCPS.tcbs (tcps_rx_otw_check_seq_tcps _ _ _ _ _))
  dsimp only
  split
  · exact hc
  · split
    · exact DESCENDS_trans _ _ _ hc (DESCENDS_destroy _ _ _ rfl)
    · split
      · split
        · exact DESCENDS_trans _ _ _ hc (tcps_rx_otw_ack_descends _ _ _ _ _)
        · refine DESCENDS_trans _ _ _ ?_ (tcps_rx_send_descends _ _ _ _)
          split
          · refine DESCENDS_trans _ _ _ ?_ (tcps_rx_otw_fin_descends _ _)
            refine DESCENDS_trans _ _ _ ?_ (tcps_rx_otw_text_descends _ _ _ _)
            exact DESCENDS_trans _ _ _ hc (tcps_rx_otw_ack_descends _ _ _ _ _)
          · refine DESCENDS_trans _ _ _ ?_ (tcps_rx_otw_text_descends _ _ _ _)
            exact DESCENDS_trans _ _ _ hc (tcps_rx_otw_ack_descends _ _ _ _ _)
      · exact hc

theorem tcps_rx_process_descends (plat : Platform) (sys : Sys) (tcpips : TCPIPS) (io : Io)
    (h : HANDLE) : DESCENDS tcpips (tcps_rx_process plat sys tcpips io h) := by
  unfold tcps_rx_process
  cases hg : so_get tcpips.tcps.tcbs h with
  | none => exact DESCENDS_of_tcbs _ _ rfl
  | some tcb =>
    dsimp only
    split
    · exact tcps_rx_closed_descends _ _ _ _ _
    · exact tcps_rx_listen_descends _ _ _ _ _
    · exact DESCENDS_of_tcbs _ _ rfl
    · exact tcps_rx_otw_descends _ _ _ _ _

theorem tcps_read_descends (plat : Platform) (tcpips : TCPIPS) (h : HANDLE) (io : Io) :
    DESCENDS tcpips (tcps_read plat tcpips h io) := by
  unfold tcps_read
  cases hg : so_get tcpips.tcps.tcbs h with
  | none => exact DESCENDS_of_tcbs _ _ rfl
  | some tcb =>
    dsimp only
    split
    · exact DESCENDS_of_tcbs _ _ rfl
    · split
      · cases htmp : tcb.rx_tmp with
        | none =>
          dsimp only
          exact DESCENDS_set_tcb tcpips _ h _ tcb rfl hg ⟨rfl, rfl, rfl, rfl⟩
        | some tmp =>
          dsimp only
          split
          · refine DESCENDS_trans _ (TCPIPS.set_tcb _ h _) _ ?_ (DESCENDS_of_tcbs _ _ rfl)
            refine DESCENDS_set_tcb tcpips _ h _ tcb ?_ hg ⟨rfl, rfl, rfl, rfl⟩
            split <;> rfl
          · refine DESCENDS_set_tcb tcpips _ h _ tcb ?_ hg ⟨rfl, rfl, rfl, rfl⟩
            split <;> rfl
      · exact DESCENDS_of_tcbs _ _ rfl

theorem tcps_request_descends (plat : Platform) (sys : Sys) (tcpips : TCPIPS) (ipc : IPC)
    (io : Io) : DESCENDS tcpips (tcps_request plat sys tcpips ipc io).1 := by
  unfold tcps_request
  split
  · exact DESCENDS_of_tcbs _ _ rfl
  · split
    · split
      · exact DESCENDS_of_tcbs _ _ (tcps_listen_tcbs sys tcpips ipc)
      · exact DESCENDS_of_tcbs _ _ rfl
    · exact DESCENDS_of_tcbs _ _ rfl
    · exact tcps_read_descends plat tcpips _ io
    · exact DESCENDS_of_tcbs _ _ rfl
    · exact DESCENDS_of_tcbs _ _ rfl
    · exact DESCENDS_of_tcbs _ _ rfl

theorem tcps_set_mss_eq (plat : Platform) (tcb : TCP_TCB) (v : Nat) :
    tcps_set_mss plat tcb v
      = if 536 ≤ v ∧ v ≤ TCP_MSS_MAX plat then (true, { tcb with mss := v }) else (false, tcb) := by
  unfold tcps_set_mss TCP_MSS_MIN
  by_cases h : 536 ≤ v ∧ v ≤ TCP_MSS_MAX plat
  · rw [if_neg (by omega), if_pos h]
  · rw [if_pos (by omega), if_neg h]

theorem tcps_apply_options_body_tcb (plat : Platform) (io : Io) (i : Nat) (tcpips : TCPIPS)
    (tcb : TCP_TCB) :
    (tcps_apply_options_body plat io i tcpips tcb).2
      = if byte io.mem i = TCP_OPTS_MSS ∧ 536 ≤ be2short io.mem (i + 2)
            ∧ be2short io.mem (i + 2) ≤ TCP_MSS_MAX plat
        then { tcb with mss := be2short io.mem (i + 2) } else tcb := by
  unfold tcps_apply_options_body
  by_cases hk : byte io.mem i = TCP_OPTS_MSS
  · by_cases h : 536 ≤ be2short io.mem (i + 2) ∧ be2short io.mem (i + 2) ≤ TCP_MSS_MAX plat
    · simp [hk, tcps_set_mss_eq, h]
    · simp only [hk, tcps_set_mss_eq, h, if_true, if_false, true_and]
      simp
  · simp [hk]

theorem MSS_INV_body (plat : Platform) (io : Io) (i : Nat) (tcpips : TCPIPS) (tcb : TCP_TCB)
    (hi : MSS_INV plat tcb) : MSS_INV plat (tcps_apply_options_body plat io i tcpips tcb).2 := by
  rw [tcps_apply_options_body_tcb]
  split
  · rename_i h
    exact ⟨h.2.1, h.2.2⟩
  · exact hi

theorem MSS_INV_loop (plat : Platform) (io : Io) :
    ∀ (fuel i : Nat) (tcpips : TCPIPS) (tcb : TCP_TCB) (o : TCPIPS × TCP_TCB),
      tcps_apply_options_loop plat io fuel i tcpips tcb = some o →
      MSS_INV plat tcb → MSS_INV plat o.2 := by
  intro fuel
  induction fuel with
  | zero =>
    intro i tcpips tcb o ho hi
    cases i with
    | zero =>
      simp only [tcps_apply_options_loop, Option.some.injEq] at ho
      subst ho
      exact hi
    | succ i => simp [tcps_apply_options_loop] at ho
  | succ fuel ih =>
    intro i tcpips tcb o ho hi
    cases i with
    | zero =>
      simp only [tcps_apply_options_loop, Option.some.injEq] at ho
      subst ho
      exact hi
    | succ i =>
      simp only [tcps_apply_options_loop] at ho
      exact ih _ _ _ o ho (MSS_INV_body plat io (i + 1) tcpips tcb hi)

theorem MSS_INV_options (plat : Platform) (tcpips : TCPIPS) (io : Io) (tcb : TCP_TCB)
    (o : TCPIPS × TCP_TCB) (ho : tcps_apply_options plat tcpips io tcb = some o)
    (hi : MSS_INV plat tcb) : MSS_INV plat o.2 :=
  MSS_INV_loop plat io _ _ _ _ _ ho hi

theorem MSS_INV_same (plat : Platform) (x y : TCP_TCB) (hs : SAME_FIELDS x y)
    (hx : MSS_INV plat x) : MSS_INV plat y := by
  unfold MSS_INV at *
  rw [hs.2.2.2]
  exact hx

theorem tcps_create_tcb_mss (plat : Platform) (sys : Sys) (tcpips : TCPIPS) (a : IP)
    (p q : Nat) (hmin : 536 ≤ TCP_MSS_MAX plat) (hmax : TCP_MSS_MAX plat < 65536)
    (ha : ALL_TCB (MSS_INV plat) tcpips) :
    ALL_TCB (MSS_INV plat) (tcps_create_tcb plat sys tcpips a p q).2 := by
  unfold tcps_create_tcb
  refine ALL_TCB_allocate _ _ _ _ ha ?_
  show TCP_MSS_MIN ≤ u16 (TCP_MSS_MAX plat) ∧ u16 (TCP_MSS_MAX plat) ≤ TCP_MSS_MAX plat
  simp only [u16, TCP_MSS_MIN]
  omega

theorem tcps_rx_mss (plat : Platform) (sys : Sys) (tcpips r : TCPIPS) (io : Io) (src : IP)
    (hmin : 536 ≤ TCP_MSS_MAX plat) (hmax : TCP_MSS_MAX plat < 65536)
    (ha : ALL_TCB (MSS_INV plat) tcpips) (hr : tcps_rx plat sys tcpips io src = some r) :
    ALL_TCB (MSS_INV plat) r := by
  unfold tcps_rx at hr
  split at hr
  · cases hr
    exact ALL_TCB_of_tcbs _ tcpips _ rfl ha
  · dsimp only at hr
    obtain ⟨p, hp⟩ : ∃ p : HANDLE × TCPIPS, p =
        (if tcps_find_tcb tcpips src (tcp_src_port io) (tcp_dst_port io) = INVALID_HANDLE then
          if (tcps_create_tcb plat sys tcpips src (tcp_src_port io) (tcp_dst_port io)).1
              ≠ INVALID_HANDLE then
            if tcps_find_listener
                (tcps_create_tcb plat sys tcpips src (tcp_src_port io) (tcp_dst_port io)).2
                (tcp_dst_port io) ≠ INVALID_HANDLE then
              match so_get
                (tcps_create_tcb plat sys tcpips src (tcp_src_port io)
                  (tcp_dst_port io)).2.tcps.tcbs
                (tcps_create_tcb plat sys tcpips src (tcp_src_port io) (tcp_dst_port io)).1 with
              | none => tcps_create_tcb plat sys tcpips src (tcp_src_port io) (tcp_dst_port io)
              | some tcb =>
                ((tcps_create_tcb plat sys tcpips src (tcp_src_port io) (tcp_dst_port io)).1,
                  (tcps_create_tcb plat sys tcpips src (tcp_src_port io)
                    (tcp_dst_port io)).2.set_tcb
                    (tcps_create_tcb plat sys tcpips src (tcp_src_port io) (tcp_dst_port io)).1
                    { tcb with
                      state := TCP_STATE.LISTEN, active := false
                      process := tcps_find_listener
                        (tcps_create_tcb plat sys tcpips src (tcp_src_port io)
                          (tcp_dst_port io)).2 (tcp_dst_port io) })
            else tcps_create_tcb plat sys tcpips src (tcp_src_port io) (tcp_dst_port io)
          else tcps_create_tcb plat sys tcpips src (tcp_src_port io) (tcp_dst_port io)
        else (tcps_find_tcb tcpips src (tcp_src_port io) (tcp_dst_port io), tcpips)) := ⟨_, rfl⟩
    rw [← hp] at hr
    have hpi : ALL_TCB (MSS_INV plat) p.2 := by
      have hcr := tcps_create_tcb_mss plat sys tcpips src (tcp_src_port io) (tcp_dst_port io)
        hmin hmax ha
      rw [hp]
      split
      · split
        · split
          · split
            · exact hcr
            · rename_i tcb hg
              exact ALL_TCB_set_tcb _ _ _ _ hcr ⟨(hcr _ tcb hg).1, (hcr _ tcb hg).2⟩
          · exact hcr
        · exact hcr
      · exact ha
    split at hr
    · split at hr
      · cases hr
        exact ALL_TCB_of_tcbs _ p.2 _ rfl hpi
      · rename_i tcb hg
        split at hr
        · cases hr
        · rename_i o ho
          obtain ⟨⟨l, hl⟩, _⟩ := tcps_apply_options_frame _ _ _ _ _ ho
          have hti : MSS_INV plat { o.2 with tx_wnd := tcp_window io } :=
            MSS_INV_options plat _ _ _ o ho (hpi _ tcb hg)
          have ho1 : ALL_TCB (MSS_INV plat) o.1 := by
            rw [hl]
            exact ALL_TCB_of_tcbs _ p.2 _ rfl hpi
          have hfin := ALL_TCB_descends (MSS_INV plat) _ _ (MSS_INV_same plat)
            (tcps_rx_process_descends plat sys _ io p.1) (ALL_TCB_set_tcb _ _ p.1 _ ho1 hti)
          split at hr
          · cases hr
            exact hfin
          · cases hr
            exact ALL_TCB_of_tcbs _ _ _ rfl hfin
    · cases hr
      exact ALL_TCB_of_tcbs _ p.2 _ rfl hpi

/-- Every TCB of every reachable state satisfies `MSS_INV`. -/
theorem reachable_mss (plat : Platform) (hmin : 536 ≤ TCP_MSS_MAX plat)
    (hmax : TCP_MSS_MAX plat < 65536) (tcpips : TCPIPS) (hr : Reachable plat tcpips) :
    ALL_TCB (MSS_INV plat) tcpips := by
  induction hr with
  | init t =>
    intro h tcb hg
    simp [tcps_init, so_create, so_get] at hg
  | rx t r sys io src _ hrx ih => exact tcps_rx_mss plat sys t r io src hmin hmax ih hrx
  | request t sys ipc io _ ih =>
    exact ALL_TCB_descends (MSS_INV plat) _ _ (MSS_INV_same plat)
      (tcps_request_descends plat sys t ipc io) ih
  | link t up _ ih => exact ALL_TCB_of_tcbs _ t _ rfl ih

/-- C17. On a platform with `536 ≤ TCP_MSS_MAX < 2^16` the MSS held by a TCB
is always confined to `[536, TCP_MSS_MAX]`: the TCB that `tcps_create_tcb`
enters into the table has `mss = TCP_MSS_MAX`; `tcps_set_mss` adopts the value
`v` (`mss = v`, result true) exactly when `536 ≤ v ≤ TCP_MSS_MAX` and otherwise
leaves the TCB unchanged with result false; one round of the option loop at an
MSS option therefore stores the option value when it is in range and keeps the
TCB otherwise; and in every state reached from `tcps_init` by calls of
`tcps_rx` and `tcps_request`, every TCB has `536 ≤ mss ≤ TCP_MSS_MAX`. -/
theorem mss_confined (plat : Platform) (hmin : 536 ≤ TCP_MSS_MAX plat)
    (hmax : TCP_MSS_MAX plat < 65536) :
    (∀ (sys : Sys) (tcpips : TCPIPS) (a : IP) (p q : Nat),
        (tcps_create_tcb plat sys tcpips a p q).1 ≠ INVALID_HANDLE →
        (so_get (tcps_create_tcb plat sys tcpips a p q).2.tcps.tcbs
            (tcps_create_tcb plat sys tcpips a p q).1).map (fun t => t.mss)
          = some (TCP_MSS_MAX plat))
    ∧ (∀ (tcb : TCP_TCB) (v : Nat),
        (536 ≤ v ∧ v ≤ TCP_MSS_MAX plat →
          tcps_set_mss plat tcb v = (true, { tcb with mss := v }))
        ∧ (¬ (536 ≤ v ∧ v ≤ TCP_MSS_MAX plat) → tcps_set_mss plat tcb v = (false, tcb)))
    ∧ (∀ (io : Io) (i : Nat) (tcpips : TCPIPS) (tcb : TCP_TCB),
        byte io.mem i = TCP_OPTS_MSS →
        (tcps_apply_options_body plat io i tcpips tcb).2
          = if 536 ≤ be2short io.mem (i + 2) ∧ be2short io.mem (i + 2) ≤ TCP_MSS_MAX plat
            then { tcb with mss := be2short io.mem (i + 2) } else tcb)
    ∧ (∀ (tcpips : TCPIPS) (h : HANDLE) (tcb : TCP_TCB), Reachable plat tcpips →
        so_get tcpips.tcps.tcbs h = some tcb → 536 ≤ tcb.mss ∧ tcb.mss ≤ TCP_MSS_MAX plat) := by
  refine ⟨?_, ?_, ?_, ?_⟩
  · intro sys tcpips a p q hh
    unfold tcps_create_tcb at hh ⊢
    obtain ⟨_, hnew, _⟩ := so_allocate_spec tcpips.tcps.tcbs sys.so_ok _ hh
    simp only [TCPIPS.with_tcbs]
    rw [hnew]
    show some (u16 (TCP_MSS_MAX plat)) = some (TCP_MSS_MAX plat)
    simp only [u16]
    rw [Nat.mod_eq_of_lt hmax]
  · intro tcb v
    rw [tcps_set_mss_eq]
    exact ⟨fun h => by rw [if_pos h], fun h => by rw [if_neg h]⟩
  · intro io i tcpips tcb hk
    rw [tcps_apply_options_body_tcb]
    simp only [hk, true_and]
  · intro tcpips h tcb hr hg
    exact reachable_mss plat hmin hmax tcpips hr h tcb hg

/-- Witness of C17: on the platform of the scenarios (`TCP_MSS_MAX` = 1460)
the SYN with the option MSS:1400 leaves the TCB under handle 0 with
`mss` = 1400, which lies in `[536, 1460]`. -/
theorem mss_confined_witness :
    TCP_MSS_MAX demo_plat = 1460
      ∧ (so_get demo_after_syn.tcps.tcbs 0).map (fun t => t.mss) = some 1400
      ∧ ∀ tcb : TCP_TCB, so_get demo_after_syn.tcps.tcbs 0 = some tcb →
          536 ≤ tcb.mss ∧ tcb.mss ≤ TCP_MSS_MAX demo_plat :=
  ⟨by decide, by decide, fun tcb hg =>
    (mss_confined demo_plat (by decide) (by decide)).2.2.2 demo_after_syn 0 tcb
      demo_after_syn_reachable hg⟩

/-! ## `kstream_create`: the failure paths -/

/-- C22. `kstream_create` on failure: when the system pool gives no control
block the error is `ERROR_OUT_OF_SYSTEM_MEMORY`, the reference left in
`*stream` is null and nothing else changes; when the control block `addr` is
obtained but the paged pool gives no ring storage, the error is
`ERROR_OUT_OF_PAGED_MEMORY` and the block is handed to `kfree`, but the
reference left in `*stream` is still `addr`, the block just freed, not null. -/
theorem kstream_create_failure (k : KSTREAM) (paged_alloc : Option Nat) (addr : Nat)
    (size : Int) :
    kstream_create k none paged_alloc size
        = (none, { k with error := ERROR.ERROR_OUT_OF_SYSTEM_MEMORY })
    ∧ (kstream_create k (some addr) none size).2.error = ERROR.ERROR_OUT_OF_PAGED_MEMORY
    ∧ (kstream_create k (some addr) none size).2.kfreed = k.kfreed ++ [addr]
    ∧ (kstream_create k (some addr) none size).1 = some addr
    ∧ (kstream_create k (some addr) none size).1 ≠ none :=
  ⟨rfl, rfl, rfl, rfl, by simp [kstream_create]⟩

/-! ## `tcps_gen_isn` across a second -/

/-- C25. `tcps_gen_isn` adds the seconds of the uptime, unscaled, to the
quarter of the microseconds: at uptime 0 s 999999 us it gives 249999, one
microsecond later, at 1 s 0 us, it gives 1; and at 17178 s it gives 17178, at
17179 s it gives 0.  So the value falls at every change of the second although
the later uptime is the greater one. -/
theorem tcps_gen_isn_falls :
    tcps_gen_isn { sec := 0, usec := 999999 } = 249999
    ∧ tcps_gen_isn { sec := 1, usec := 0 } = 1
    ∧ tcps_gen_isn { sec := 17178, usec := 0 } = 17178
    ∧ tcps_gen_isn { sec := 17179, usec := 0 } = 0
    ∧ ∀ t : SYSTIME, tcps_gen_isn t
        = (t.sec % 4294967296 % 17179 + t.usec % 4294967296 / 4) % 4294967296 := by
  refine ⟨by decide, by decide, by decide, by decide, ?_⟩
  intro t
  simp only [tcps_gen_isn, u32, Nat.shiftRight_eq_div_pow]

/-! ## `tcps_rx_otw`: RST and SYN -/

theorem tcps_rx_otw_check_seq_true (plat : Platform) (sys : Sys) (tcpips : TCPIPS) (io : Io)
    (h : HANDLE) (hc : (tcps_rx_otw_check_seq plat sys tcpips io h).1 = true) :
    (tcps_rx_otw_check_seq plat sys tcpips io h).2.2 = tcpips := by
  unfold tcps_rx_otw_check_seq at hc ⊢
  cases hg : so_get tcpips.tcps.tcbs h with
  | none => rfl
  | some tcb =>
    rw [hg] at hc
    dsimp only at hc ⊢
    split
    · rfl
    · rename_i hd
      rw [if_neg hd] at hc
      unfold tcps_rx_otw_check_seq_boundary at hc ⊢
      split
      · rename_i hb
        rw [if_pos hb] at hc
        exfalso
        split at hc
        · exact Bool.noConfusion hc
        · split at hc <;> exact Bool.noConfusion hc
      · rfl

/-- C29. When the sequence check passes and leaves the segment with RST or
SYN set, `tcps_rx_otw` does nothing but destroy the TCB: the result is
`tcps_destroy_tcb` of the state before the call, so the TCB is no longer in
the table, every other TCB is as before, and no segment is sent, no message
posted, no buffer completed or released (no ACK, text or FIN processing). -/
theorem tcps_rx_otw_rst_syn (plat : Platform) (sys : Sys) (tcpips : TCPIPS) (io : Io)
    (h : HANDLE)
    (hc : (tcps_rx_otw_check_seq plat sys tcpips io h).1 = true)
    (hf : has_flag (tcps_rx_otw_check_seq plat sys tcpips io h).2.1 TCP_FLAG_RST = true
      ∨ has_flag (tcps_rx_otw_check_seq plat sys tcpips io h).2.1 TCP_FLAG_SYN = true) :
    tcps_rx_otw plat sys tcpips io h = tcps_destroy_tcb tcpips h
    ∧ so_get (tcps_rx_otw plat sys tcpips io h).tcps.tcbs h = none
    ∧ (∀ j, j ≠ h →
        so_get (tcps_rx_otw plat sys tcpips io h).tcps.tcbs j = so_get tcpips.tcps.tcbs j)
    ∧ (tcps_rx_otw plat sys tcpips io h).sent = tcpips.sent
    ∧ (tcps_rx_otw plat sys tcpips io h).posted = tcpips.posted
    ∧ (tcps_rx_otw plat sys tcpips io h).completed = tcpips.completed
    ∧ (tcps_rx_otw plat sys tcpips io h).released = tcpips.released
    ∧ (tcps_rx_otw plat sys tcpips io h).tcps.listen = tcpips.tcps.listen := by
  have hfl : has_flag (tcps_rx_otw_check_seq plat sys tcpips io h).2.1
      (TCP_FLAG_RST ||| TCP_FLAG_SYN) = true := by
    rw [has_flag_rst_syn]
    cases hf with
    | inl h1 => rw [h1]; rfl
    | inr h2 => rw [h2]; simp
  have he : tcps_rx_otw plat sys tcpips io h = tcps_destroy_tcb tcpips h := by
    unfold tcps_rx_otw
    simp only [hc, not_true_eq_false, if_false, hfl, if_true, tcps_rx_otw_syn_rst,
      tcps_rx_otw_check_seq_true plat sys tcpips io h hc]
  rw [he]
  refine ⟨rfl, ?_, ?_, rfl, rfl, rfl, rfl, rfl⟩
  · simp [tcps_destroy_tcb, TCPIPS.with_tcbs, so_get_so_free]
  · intro j hj
    simp [tcps_destroy_tcb, TCPIPS.with_tcbs, so_get_so_free, hj]

/-- Witness of C29: the TCB of the scenario "FIN from ESTABLISHED" receives a
RST with `seq = rcv_nxt`: it is destroyed and nothing is sent. -/
theorem tcps_rx_otw_rst_syn_witness :
    so_get (demo_with demo_tcb_established).tcps.tcbs 0 = some demo_tcb_established
    ∧ so_get (tcps_rx_otw demo_plat demo_sys (demo_with demo_tcb_established)
        demo_seg_rst 0).tcps.tcbs 0 = none
    ∧ (tcps_rx_otw demo_plat demo_sys (demo_with demo_tcb_established) demo_seg_rst 0).sent
        = [] := by
  have h := tcps_rx_otw_rst_syn demo_plat demo_sys (demo_with demo_tcb_established)
    demo_seg_rst 0 (by decide) (Or.inl (by decide))
  exact ⟨rfl, h.2.1, h.2.2.2.1⟩

/-! ## The ACK of a segment in a synchronized state -/

theorem tcps_tx_ack_none (plat : Platform) (sys : Sys) (tcpips : TCPIPS) (h : HANDLE)
    (htx : sys.tx_io = none) : tcps_tx_ack plat sys tcpips h = tcpips := by
  unfold tcps_tx_ack
  split
  · rfl
  · simp [tcps_allocate_io, htx]

theorem tcps_tx_ack_some (plat : Platform) (sys : Sys) (tcpips : TCPIPS) (h : HANDLE)
    (tcb : TCP_TCB) (txio : Io)
    (hget : so_get tcpips.tcps.tcbs h = some tcb) (htx : sys.tx_io = some txio) :
    ∃ o : Io, tcps_tx_ack plat sys tcpips h
        = { tcpips with sent := tcpips.sent ++ [(o, tcb.remote_addr)] }
      ∧ segment_of o = { flags := TCP_FLAG_ACK, seq := u32 tcb.snd_una, ack := u32 tcb.rcv_nxt,
                         window := u16 tcb.rx_wnd } := by
  simp only [tcps_tx_ack, hget, tcps_allocate_io, htx, tcps_tx]
  refine ⟨_, rfl, ?_⟩
  simp [segment_of, tcp_flags, tcp_seq, tcp_ack, tcp_window, set_flag, be2int, be2short,
    int2be, short2be, byte_poke, u8_u8, be_join32, be_join16, TCP_FLAG_ACK, TCP_HEADER_SIZE]
  decide

theorem tcps_rx_otw_ack_switch_fields (st : TCPIPS) (t : TCP_TCB) (h : HANDLE) :
    (tcps_rx_otw_ack_switch st t h).2.sent = st.sent
    ∧ (tcps_rx_otw_ack_switch st t h).2.posted = st.posted
    ∧ ∀ t1, so_get (tcps_rx_otw_ack_switch st t h).2.tcps.tcbs h = some t1 →
        t1.snd_una = t.snd_una ∧ t1.snd_nxt = t.snd_nxt := by
  unfold tcps_rx_otw_ack_switch
  split
  · refine ⟨rfl, rfl, ?_⟩
    intro t1 ha
    rw [so_get_set_tcb] at ha
    split at ha
    · cases ha
      split <;> exact ⟨rfl, rfl⟩
    · rename_i hn
      exact absurd ⟨rfl, so_get_lt ha⟩ hn
  · refine ⟨rfl, rfl, ?_⟩
    intro t1 ha
    rw [so_get_set_tcb] at ha
    split at ha
    · cases ha
      split <;> exact ⟨rfl, rfl⟩
    · rename_i hn
      exact absurd ⟨rfl, so_get_lt ha⟩ hn
  · split
    · refine ⟨rfl, rfl, ?_⟩
      intro t1 ha
      simp only [tcps_destroy_tcb, TCPIPS.with_tcbs, so_get_so_free, if_true] at ha
      cases ha
    · refine ⟨rfl, rfl, ?_⟩
      intro t1 ha
      rw [so_get_set_tcb] at ha
      split at ha
      · cases ha
        exact ⟨rfl, rfl⟩
      · rename_i hn
        exact absurd ⟨rfl, so_get_lt ha⟩ hn
  · refine ⟨rfl, rfl, ?_⟩
    intro t1 ha
    rw [so_get_set_tcb] at ha
    split at ha
    · cases ha
      exact ⟨rfl, rfl⟩
    · rename_i hn
      exact absurd ⟨rfl, so_get_lt ha⟩ hn

theorem snd_una_advance (una ack : Nat) (hu : una < 4294967296) (ha : ack < 4294967296)
    (h0 : 0 < tcps_diff una ack) (hs : tcps_diff una ack ≠ 65536) :
    u32i ((una : Int) + tcps_diff una ack) = ack := by
  simp only [tcps_diff, tcps_delta, u32, u32i] at *
  split_ifs at * <;> omega

/-- C30, as amended. For a TCB in a state other than SYN_RECEIVED (`snd_una` a
32-bit value) and a segment handed to the ACK check, with
`a = tcps_diff snd_una seg.ack` and `s = tcps_diff snd_una snd_nxt`: if `a > s`
the processing of the segment stops, the TCB table is unchanged, and exactly
one ACK with `seq = snd_una` and `ack = rcv_nxt` is sent when `ips_allocate_io`
hands out a buffer, nothing when it does not; if `0 < a ≤ s` and `a` is not the
saturated value 65536, the final `switch` runs on the TCB with `snd_una` set
to `seg.ack`, nothing is sent, and a TCB that is still in the table afterwards
has `snd_una = seg.ack` and `snd_nxt` unchanged; if `a ≤ 0` the `switch` runs
on the TCB as it is and `snd_una` and `snd_nxt` are unchanged. -/
theorem tcps_rx_otw_ack_rule (plat : Platform) (sys : Sys) (tcpips : TCPIPS) (io : Io)
    (h : HANDLE) (tcb : TCP_TCB)
    (hget : so_get tcpips.tcps.tcbs h = some tcb)
    (hst : tcb.state ≠ TCP_STATE.SYN_RECEIVED)
    (hsu : tcb.snd_una < 4294967296) :
    (tcps_diff tcb.snd_una (tcp_ack io) > tcps_diff tcb.snd_una tcb.snd_nxt →
      (tcps_rx_otw_ack plat sys tcpips io h).1 = false
      ∧ (tcps_rx_otw_ack plat sys tcpips io h).2.tcps = tcpips.tcps
      ∧ (tcps_rx_otw_ack plat sys tcpips io h).2.posted = tcpips.posted
      ∧ (match sys.tx_io with
         | some _ => ∃ o : Io,
             (tcps_rx_otw_ack plat sys tcpips io h).2.sent
               = tcpips.sent ++ [(o, tcb.remote_addr)]
             ∧ segment_of o = { flags := TCP_FLAG_ACK, seq := tcb.snd_una,
                                ack := u32 tcb.rcv_nxt, window := u16 tcb.rx_wnd }
         | none => (tcps_rx_otw_ack plat sys tcpips io h).2.sent = tcpips.sent))
    ∧ (0 < tcps_diff tcb.snd_una (tcp_ack io) →
        tcps_diff tcb.snd_una (tcp_ack io) ≤ tcps_diff tcb.snd_una tcb.snd_nxt →
        tcps_diff tcb.snd_una (tcp_ack io) ≠ 65536 →
        tcps_rx_otw_ack plat sys tcpips io h
            = tcps_rx_otw_ack_switch tcpips { tcb with snd_una := tcp_ack io } h
        ∧ (tcps_rx_otw_ack plat sys tcpips io h).2.sent = tcpips.sent
        ∧ ∀ t1, so_get (tcps_rx_otw_ack plat sys tcpips io h).2.tcps.tcbs h = some t1 →
            t1.snd_una = tcp_ack io ∧ t1.snd_nxt = tcb.snd_nxt)
    ∧ (tcps_diff tcb.snd_una (tcp_ack io) ≤ 0 →
        tcps_diff tcb.snd_una (tcp_ack io) ≤ tcps_diff tcb.snd_una tcb.snd_nxt →
        tcps_rx_otw_ack plat sys tcpips io h = tcps_rx_otw_ack_switch tcpips tcb h
        ∧ (tcps_rx_otw_ack plat sys tcpips io h).2.sent = tcpips.sent
        ∧ ∀ t1, so_get (tcps_rx_otw_ack plat sys tcpips io h).2.tcps.tcbs h = some t1 →
            t1.snd_una = tcb.snd_una ∧ t1.snd_nxt = tcb.snd_nxt) := by
  refine ⟨?_, ?_, ?_⟩
  · intro ha
    have hr : tcps_rx_otw_ack plat sys tcpips io h
        = (false, tcps_tx_ack plat sys tcpips h) := by
      simp only [tcps_rx_otw_ack, hget, hst, if_false, ha, if_true]
    rw [hr]
    cases htx : sys.tx_io with
    | none =>
      simp [tcps_tx_ack_none plat sys tcpips h htx]
    | some txio =>
      obtain ⟨o, ho, hseg⟩ := tcps_tx_ack_some plat sys tcpips h tcb txio hget htx
      rw [ho]
      refine ⟨rfl, rfl, rfl, o, rfl, ?_⟩
      rw [hseg, u32_of_lt hsu]
  · intro h0 hle hsat
    have hadv := snd_una_advance tcb.snd_una (tcp_ack io) hsu (tcp_ack_lt io) h0 hsat
    have hr : tcps_rx_otw_ack plat sys tcpips io h
        = tcps_rx_otw_ack_switch tcpips { tcb with snd_una := tcp_ack io } h := by
      simp only [tcps_rx_otw_ack, hget, hst, if_false, not_lt.mpr hle, h0, if_true, gt_iff_lt,
        hadv]
    rw [hr]
    obtain ⟨f1, _, f3⟩ := tcps_rx_otw_ack_switch_fields tcpips { tcb with snd_una := tcp_ack io } h
    exact ⟨rfl, f1, f3⟩
  · intro h0 hle
    have hr : tcps_rx_otw_ack plat sys tcpips io h = tcps_rx_otw_ack_switch tcpips tcb h := by
      simp only [tcps_rx_otw_ack, hget, hst, if_false, not_lt.mpr hle, not_lt.mpr h0, gt_iff_lt]
    rw [hr]
    obtain ⟨f1, _, f3⟩ := tcps_rx_otw_ack_switch_fields tcpips tcb h
    exact ⟨rfl, f1, f3⟩

/-- Counterexample to C30 as stated.  First: the TCB of the scenario "FIN from
ESTABLISHED" (`snd_una = snd_nxt` = 500) receives an acceptable ACK segment
that acknowledges 600, so `a` = 100 > `s` = 0, while no transmit buffer is
left: no ACK is sent.  Second: for a TCB with `snd_una` = 0 and `snd_nxt`
= 100000 and a segment that acknowledges 200000, `a` = `s` = 65536, the
saturated value of `tcps_diff`, so `0 < a ≤ s`; `snd_una` becomes 65536, not
`seg.ack` = 200000. -/
theorem tcps_rx_otw_ack_rule_no_ack :
    demo_tcb_established.state = TCP_STATE.ESTABLISHED
    ∧ has_flag demo_seg_ack_ahead TCP_FLAG_ACK = true
    ∧ (tcps_rx_otw_check_seq demo_plat demo_sys_no_io (demo_with demo_tcb_established)
          demo_seg_ack_ahead 0).1 = true
    ∧ tcps_diff demo_tcb_established.snd_una (tcp_ack demo_seg_ack_ahead) = 100
    ∧ tcps_diff demo_tcb_established.snd_una demo_tcb_established.snd_nxt = 0
    ∧ (tcps_rx_otw_ack demo_plat demo_sys_no_io (demo_with demo_tcb_established)
          demo_seg_ack_ahead 0).2.sent.length = 0
    ∧ tcps_diff demo_tcb_far.snd_una (tcp_ack demo_seg_ack_far) = 65536
    ∧ tcps_diff demo_tcb_far.snd_una demo_tcb_far.snd_nxt = 65536
    ∧ tcp_ack demo_seg_ack_far = 200000
    ∧ (so_get (tcps_rx_otw_ack demo_plat demo_sys (demo_with demo_tcb_far)
          demo_seg_ack_far 0).2.tcps.tcbs 0).map (fun t => t.snd_una) = some 65536 := by
  decide

/-- Witness of C30: the keep-alive probe of the scenario, with a transmit
buffer at hand, is answered by one ACK with `seq` = 500 and `ack` = 2000. -/
theorem tcps_rx_otw_ack_rule_witness :
    ∃ o : Io,
      (tcps_rx_otw_ack demo_plat demo_sys (demo_with demo_tcb_established)
          demo_seg_ack_ahead 0).2.sent = [(o, 0x0A000002)]
      ∧ segment_of o = { flags := TCP_FLAG_ACK, seq := 500, ack := 2000, window := 1460 } := by
  have h := (tcps_rx_otw_ack_rule demo_plat demo_sys (demo_with demo_tcb_established)
    demo_seg_ack_ahead 0 demo_tcb_established rfl (by decide) (by decide)).1 (by decide)
  obtain ⟨o, ho, hseg⟩ := h.2.2.2
  exact ⟨o, ho, hseg⟩

/-! ## The sequence check: what it leaves of the data -/

/-- C26. A TCB in ESTABLISHED with `rcv_nxt` = 1000 receives the segment
seq 999, FIN|ACK, data `[65, 66, 67]`: `delta` = -1 and `seg_len` = 4, so the
segment partly fits.  The check passes with sequence number 1000 and length 3
and keeps FIN, but the segment it leaves still has 3 data bytes,
`[66, 67, 67]`, where the data not yet received are the 2 bytes `[66, 67]`:
the size was reduced by the overlap less one.  Processed by `tcps_rx_otw`, the
segment moves `rcv_nxt` to 1004, one beyond its last sequence number.  The
same segment without FIN is left with the 2 bytes `[66, 67]`. -/
theorem tcps_rx_otw_check_seq_overlap_fin :
    tcps_diff demo_tcb_overlap.rcv_nxt (tcp_seq demo_seg_overlap_fin) = -1
    ∧ tcps_seg_len demo_seg_overlap_fin = 4
    ∧ data_of (some demo_seg_overlap_fin) = some (3, [65, 66, 67])
    ∧ (tcps_rx_otw_check_seq demo_plat demo_sys (demo_with demo_tcb_overlap)
        demo_seg_overlap_fin 0).1 = true
    ∧ (tcps_rx_otw_check_seq_adjust demo_tcb_overlap demo_seg_overlap_fin).seq = 1000
    ∧ (tcps_rx_otw_check_seq_adjust demo_tcb_overlap demo_seg_overlap_fin).seg_len = 3
    ∧ has_flag (tcps_rx_otw_check_seq demo_plat demo_sys (demo_with demo_tcb_overlap)
        demo_seg_overlap_fin 0).2.1 TCP_FLAG_FIN = true
    ∧ data_of (some (tcps_rx_otw_check_seq demo_plat demo_sys (demo_with demo_tcb_overlap)
        demo_seg_overlap_fin 0).2.1) = some (3, [66, 67, 67])
    ∧ (so_get (tcps_rx_otw demo_plat demo_sys (demo_with demo_tcb_overlap)
        demo_seg_overlap_fin 0).tcps.tcbs 0).map (fun t => t.rcv_nxt) = some 1004
    ∧ data_of (some (tcps_rx_otw_check_seq demo_plat demo_sys (demo_with demo_tcb_overlap)
        demo_seg_overlap_data 0).2.1) = some (2, [66, 67]) := by
  decide

set_option maxRecDepth 100000 in
/-- C27. The TCB of the scenario "out-of-window segment" (`rcv_nxt` 1000,
`rx_wnd` 100) receives a segment with seq 1000 and 150 data bytes.  The check
passes, but the segment it leaves has `data_size` = 50 = `seg_len - rx_wnd`, so
its data length is 30, not `min (150, 100)` = 100; processed by `tcps_rx_otw`
it moves `rcv_nxt` to 1030. -/
theorem tcps_rx_otw_check_seq_chop_size :
    demo_tcb_window.rx_wnd = 100
    ∧ tcp_seq demo_seg_long = demo_tcb_window.rcv_nxt
    ∧ tcps_data_len demo_seg_long = 150
    ∧ tcps_seg_len demo_seg_long = 150
    ∧ (tcps_rx_otw_check_seq demo_plat demo_sys (demo_with demo_tcb_window)
        demo_seg_long 0).1 = true
    ∧ (tcps_rx_otw_check_seq demo_plat demo_sys (demo_with demo_tcb_window)
        demo_seg_long 0).2.1.data_size = 50
    ∧ tcps_data_len (tcps_rx_otw_check_seq demo_plat demo_sys (demo_with demo_tcb_window)
        demo_seg_long 0).2.1 = 30
    ∧ (so_get (tcps_rx_otw demo_plat demo_sys (demo_with demo_tcb_window)
        demo_seg_long 0).tcps.tcbs 0).map (fun t => t.rcv_nxt) = some 1030 := by
  decide

/-! ## Segment text: the user buffer and `rx_tmp` -/

/-- C28. A TCB in ESTABLISHED with a posted user buffer that has room for 2
bytes and no `rx_tmp` receives the 5 data bytes `[1, 2, 3, 4, 5]`: `rcv_nxt`
advances by 5 and the user buffer is completed with `[1, 2]`, but `rx_tmp` is
the segment as it came, holding all 5 bytes `[1, 2, 3, 4, 5]`, not the
overflow `[3, 4, 5]`; the next `tcps_read`, with room for 5 bytes, is completed
with `[1, 2, 3, 4, 5]`, so the bytes 1 and 2 reach the user twice.  Without a
posted buffer `rx_tmp` holds the 5 bytes, which then is the overflow. -/
theorem tcps_rx_otw_text_overflow :
    (so_get demo_posted.tcps.tcbs 0).map
        (fun t => (t.state, t.rcv_nxt, free_of t.rx, t.rx_tmp.isNone))
      = some (TCP_STATE.ESTABLISHED, 1000, 2, true)
    ∧ data_of (some demo_seg_five) = some (5, [1, 2, 3, 4, 5])
    ∧ (so_get (tcps_rx_otw_text demo_plat demo_posted demo_seg_five 0).tcps.tcbs 0).map
        (fun t => (t.rcv_nxt, t.rx.isNone)) = some (1005, true)
    ∧ (tcps_rx_otw_text demo_plat demo_posted demo_seg_five 0).completed.map
        (fun c => (c.io.addr, bytes_at c.io.mem 0 c.io.data_size)) = [(7000, [1, 2])]
    ∧ (so_get (tcps_rx_otw_text demo_plat demo_posted demo_seg_five 0).tcps.tcbs 0).map
        (fun t => data_of t.rx_tmp) = some (some (5, [1, 2, 3, 4, 5]))
    ∧ (tcps_read demo_plat (tcps_rx_otw_text demo_plat demo_posted demo_seg_five 0) 0
        { demo_user_io 5 with addr := 7100 }).completed.map
        (fun c => (c.io.addr, bytes_at c.io.mem 0 c.io.data_size))
      = [(7000, [1, 2]), (7100, [1, 2, 3, 4, 5])]
    ∧ (so_get (tcps_rx_otw_text demo_plat
          (demo_with (demo_tcb TCP_STATE.ESTABLISHED 500 500 1000 1460)) demo_seg_five
          0).tcps.tcbs 0).map (fun t => data_of t.rx_tmp) = some (some (5, [1, 2, 3, 4, 5])) := by
  decide

/-! ## The stages of `tcps_rx` -/

/-- What a call of `tcps_rx` that returns has done: either it rejected the
segment at once, or the lookup gave the handle `h` and the state `p` - the
state before the call when the TCB was found, the state after
`tcps_create_tcb` (and the binding to a listener) when it was not - and then
either nothing but the release of the segment followed, or the options were
applied, `tx_wnd` was stored and `tcps_rx_process` ran. -/
theorem tcps_rx_stages (plat : Platform) (sys : Sys) (tcpips r : TCPIPS) (io : Io) (src : IP)
    (hr : tcps_rx plat sys tcpips io src = some r) :
    r = ips_release_io tcpips io
    ∨ ∃ (p : TCPIPS) (h : HANDLE),
        ((tcps_find_tcb tcpips src (tcp_src_port io) (tcp_dst_port io) ≠ INVALID_HANDLE
            ∧ h = tcps_find_tcb tcpips src (tcp_src_port io) (tcp_dst_port io) ∧ p = tcpips)
          ∨ (tcps_find_tcb tcpips src (tcp_src_port io) (tcp_dst_port io) = INVALID_HANDLE
            ∧ h = (tcps_create_tcb plat sys tcpips src (tcp_src_port io) (tcp_dst_port io)).1
            ∧ (p = (tcps_create_tcb plat sys tcpips src (tcp_src_port io) (tcp_dst_port io)).2
              ∨ ∃ tcb : TCP_TCB,
                  so_get (tcps_create_tcb plat sys tcpips src (tcp_src_port io)
                    (tcp_dst_port io)).2.tcps.tcbs h = some tcb
                  ∧ p = (tcps_create_tcb plat sys tcpips src (tcp_src_port io)
                      (tcp_dst_port io)).2.set_tcb h
                      { tcb with
                        state := TCP_STATE.LISTEN, active := false
                        process := tcps_find_listener
                          (tcps_create_tcb plat sys tcpips src (tcp_src_port io)
                            (tcp_dst_port io)).2 (tcp_dst_port io) })))
        ∧ (r = ips_release_io p io
          ∨ ∃ (tcb : TCP_TCB) (o : TCPIPS × TCP_TCB),
              h ≠ INVALID_HANDLE ∧ so_get p.tcps.tcbs h = some tcb
              ∧ tcps_apply_options plat p io tcb = some o
              ∧ (r = tcps_rx_process plat sys
                    (o.1.set_tcb h { o.2 with tx_wnd := tcp_window io }) io h
                ∨ r = ips_release_io (tcps_rx_process plat sys
                    (o.1.set_tcb h { o.2 with tx_wnd := tcp_window io }) io h) io)) := by
  unfold tcps_rx at hr
  split at hr
  · left
    cases hr
    rfl
  · right
    dsimp only at hr
    obtain ⟨p, hp⟩ : ∃ p : HANDLE × TCPIPS, p =
        (if tcps_find_tcb tcpips src (tcp_src_port io) (tcp_dst_port io) = INVALID_HANDLE then
          if (tcps_create_tcb plat sys tcpips src (tcp_src_port io) (tcp_dst_port io)).1
              ≠ INVALID_HANDLE then
            if tcps_find_listener
                (tcps_create_tcb plat sys tcpips src (tcp_src_port io) (tcp_dst_port io)).2
                (tcp_dst_port io) ≠ INVALID_HANDLE then
              match so_get
                (tcps_create_tcb plat sys tcpips src (tcp_src_port io)
                  (tcp_dst_port io)).2.tcps.tcbs
                (tcps_create_tcb plat sys tcpips src (tcp_src_port io) (tcp_dst_port io)).1 with
              | none => tcps_create_tcb plat sys tcpips src (tcp_src_port io) (tcp_dst_port io)
              | some tcb =>
                ((tcps_create_tcb plat sys tcpips src (tcp_src_port io) (tcp_dst_port io)).1,
                  (tcps_create_tcb plat sys tcpips src (tcp_src_port io)
                    (tcp_dst_port io)).2.set_tcb
                    (tcps_create_tcb plat sys tcpips src (tcp_src_port io) (tcp_dst_port io)).1
                    { tcb with
                      state := TCP_STATE.LISTEN, active := false
                      process := tcps_find_listener
                        (tcps_create_tcb plat sys tcpips src (tcp_src_port io)
                          (tcp_dst_port io)).2 (tcp_dst_port io) })
            else tcps_create_tcb plat sys tcpips src (tcp_src_port io) (tcp_dst_port io)
          else tcps_create_tcb plat sys tcpips src (tcp_src_port io) (tcp_dst_port io)
        else (tcps_find_tcb tcpips src (tcp_src_port io) (tcp_dst_port io), tcpips)) := ⟨_, rfl⟩
    rw [← hp] at hr
    refine ⟨p.2, p.1, ?_, ?_⟩
    · rw [hp]
      split
      · rename_i hf
        right
        split
        · split
          · split
            · exact ⟨hf, rfl, Or.inl rfl⟩
            · rename_i tcb hg
              exact ⟨hf, rfl, Or.inr ⟨tcb, hg, rfl⟩⟩
          · exact ⟨hf, rfl, Or.inl rfl⟩
        · exact ⟨hf, rfl, Or.inl rfl⟩
      · rename_i hf
        left
        exact ⟨hf, rfl, rfl⟩
    · split at hr
      · rename_i hh
        split at hr
        · cases hr
          left
          rfl
        · rename_i tcb hg
          split at hr
          · cases hr
          · rename_i o ho
            right
            refine ⟨tcb, o, hh, hg, ho, ?_⟩
            split at hr
            · cases hr
              left
              rfl
            · cases hr
              right
              rfl
      · cases hr
        left
        rfl

/-! ## One TCB for a connection -/

theorem tcps_find_tcb_spec (tcpips : TCPIPS) (src : IP) (rp lp : Nat)
    (hv : ∀ (h : HANDLE) (tcb : TCP_TCB), so_get tcpips.tcps.tcbs h = some tcb →
      h ≠ INVALID_HANDLE) :
    (tcps_find_tcb tcpips src rp lp ≠ INVALID_HANDLE →
      ∃ a : TCP_TCB, so_get tcpips.tcps.tcbs (tcps_find_tcb tcpips src rp lp) = some a
        ∧ a.remote_addr = src ∧ a.remote_port = rp ∧ a.local_port = lp)
    ∧ (tcps_find_tcb tcpips src rp lp = INVALID_HANDLE →
      ∀ (i : HANDLE) (a : TCP_TCB), so_get tcpips.tcps.tcbs i = some a →
        ¬ (a.remote_addr = src ∧ a.remote_port = rp ∧ a.local_port = lp)) := by
  unfold tcps_find_tcb
  cases hf : (so_entries tcpips.tcps.tcbs).find?
      (fun e => decide (e.2.remote_port = rp ∧ e.2.local_port = lp ∧ e.2.remote_addr = src)) with
  | none =>
    refine ⟨fun hne => absurd rfl hne, ?_⟩
    intro _ i a hg hm
    have hmem : (i, a) ∈ so_entries tcpips.tcps.tcbs := (mem_so_entries _ i a).mpr hg
    have := List.find?_eq_none.mp hf (i, a) hmem
    simp [hm.1, hm.2.1, hm.2.2] at this
  | some e =>
    have hm := List.mem_of_find?_eq_some hf
    have hp := List.find?_some hf
    have hg : so_get tcpips.tcps.tcbs e.1 = some e.2 := (mem_so_entries _ e.1 e.2).mp hm
    simp only [decide_eq_true_eq] at hp
    refine ⟨fun _ => ⟨e.2, hg, hp.2.2, hp.1, hp.2.1⟩, ?_⟩
    intro he
    exact absurd he (hv e.1 e.2 hg)

theorem TCB_UNIQUE_of_tcbs (a b : TCPIPS) (hab : b.tcps.tcbs = a.tcps.tcbs)
    (ha : TCB_UNIQUE a) : TCB_UNIQUE b := by
  unfold TCB_UNIQUE at *
  rw [hab]
  exact ha

theorem SAME_CONNECTION_of_fields (x y : TCP_TCB) (h : SAME_FIELDS x y) : SAME_CONNECTION x y :=
  ⟨h.1.symm, h.2.1.symm, h.2.2.1.symm⟩

theorem TCB_UNIQUE_descends (a b : TCPIPS) (hd : DESCENDS a b) (ha : TCB_UNIQUE a) :
    TCB_UNIQUE b := by
  constructor
  · intro h tb hg
    obtain ⟨ta, hga, _⟩ := hd h tb hg
    exact ha.1 h ta hga
  · intro i j x y hi hj hs
    obtain ⟨xa, hxa, sx⟩ := hd i x hi
    obtain ⟨ya, hya, sy⟩ := hd j y hj
    refine ha.2 i j xa ya hxa hya ?_
    have c1 := SAME_CONNECTION_of_fields xa x sx
    have c2 := SAME_CONNECTION_of_fields ya y sy
    exact ⟨c1.1.trans (hs.1.trans c2.1.symm), c1.2.1.trans (hs.2.1.trans c2.2.1.symm),
      c1.2.2.trans (hs.2.2.trans c2.2.2.symm)⟩

theorem TCB_UNIQUE_set_tcb (a b : TCPIPS) (h : HANDLE) (v t0 : TCP_TCB)
    (hab : b.tcps.tcbs = a.tcps.tcbs) (hg : so_get a.tcps.tcbs h = some t0)
    (hs : SAME_CONNECTION t0 v) (ha : TCB_UNIQUE a) : TCB_UNIQUE (b.set_tcb h v) := by
  have key : ∀ (j : HANDLE) (x : TCP_TCB), so_get (b.set_tcb h v).tcps.tcbs j = some x →
      ∃ xa, so_get a.tcps.tcbs j = some xa ∧ SAME_CONNECTION xa x := by
    intro j x hj
    rw [so_get_set_tcb, hab] at hj
    split at hj
    · rename_i hc
      cases hj
      rw [hc.1]
      exact ⟨t0, hg, hs⟩
    · exact ⟨x, hj, rfl, rfl, rfl⟩
  constructor
  · intro j x hj
    obtain ⟨xa, hxa, _⟩ := key j x hj
    exact ha.1 j xa hxa
  · intro i j x y hi hj hxy
    obtain ⟨xa, hxa, c1⟩ := key i x hi
    obtain ⟨ya, hya, c2⟩ := key j y hj
    refine ha.2 i j xa ya hxa hya ?_
    exact ⟨c1.1.trans (hxy.1.trans c2.1.symm), c1.2.1.trans (hxy.2.1.trans c2.2.1.symm),
      c1.2.2.trans (hxy.2.2.trans c2.2.2.symm)⟩

theorem TCB_UNIQUE_create (plat : Platform) (sys : Sys) (tcpips : TCPIPS) (src : IP)
    (rp lp : Nat) (hf : tcps_find_tcb tcpips src rp lp = INVALID_HANDLE)
    (ha : TCB_UNIQUE tcpips) :
    TCB_UNIQUE (tcps_create_tcb plat sys tcpips src rp lp).2 := by
  have hnone := (tcps_find_tcb_spec tcpips src rp lp ha.1).2 hf
  unfold tcps_create_tcb
  dsimp only
  obtain ⟨v, hv⟩ : ∃ v : TCP_TCB, v = tcps_update_rx_wnd plat
      { process := INVALID_HANDLE, remote_addr := src, rx := none, rx_tmp := none, tx := none
        snd_una := 0, snd_nxt := 0, rcv_nxt := 0, state := TCP_STATE.CLOSED
        remote_port := rp, local_port := lp, mss := u16 (TCP_MSS_MAX plat), rx_wnd := 0
        tx_wnd := 0, active := false, transmit := false, fin := false } := ⟨_, rfl⟩
  have hvc : v.remote_addr = src ∧ v.remote_port = rp ∧ v.local_port = lp := by
    rw [hv]
    exact ⟨rfl, rfl, rfl⟩
  rw [← hv]
  by_cases hh : (so_allocate tcpips.tcps.tcbs sys.so_ok v).1 = INVALID_HANDLE
  · rw [so_allocate_invalid _ _ _ hh]
    exact TCB_UNIQUE_of_tcbs tcpips _ rfl ha
  · obtain ⟨_, hnew, hother⟩ := so_allocate_spec tcpips.tcps.tcbs sys.so_ok v hh
    have key : ∀ (j : HANDLE) (x : TCP_TCB),
        so_get (so_allocate tcpips.tcps.tcbs sys.so_ok v).2 j = some x →
        (j = (so_allocate tcpips.tcps.tcbs sys.so_ok v).1 ∧ x = v)
        ∨ (j ≠ (so_allocate tcpips.tcps.tcbs sys.so_ok v).1
            ∧ so_get tcpips.tcps.tcbs j = some x) := by
      intro j x hj
      by_cases hjn : j = (so_allocate tcpips.tcps.tcbs sys.so_ok v).1
      · left
        rw [hjn, hnew] at hj
        cases hj
        exact ⟨hjn, rfl⟩
      · right
        rw [hother j hjn] at hj
        exact ⟨hjn, hj⟩
    constructor
    · intro j x hj
      have hj2 : so_get (so_allocate tcpips.tcps.tcbs sys.so_ok v).2 j = some x := hj
      rcases key j x hj2 with ⟨h1, _⟩ | ⟨_, h2⟩
      · rw [h1]
        exact hh
      · exact ha.1 j x h2
    · intro i j x y hi hj hxy
      have hi2 : so_get (so_allocate tcpips.tcps.tcbs sys.so_ok v).2 i = some x := hi
      have hj2 : so_get (so_allocate tcpips.tcps.tcbs sys.so_ok v).2 j = some y := hj
      rcases key i x hi2 with ⟨h1, e1⟩ | ⟨n1, g1⟩
      · rcases key j y hj2 with ⟨h2, _⟩ | ⟨_, g2⟩
        · rw [h1, h2]
        · exfalso
          rw [e1] at hxy
          exact hnone j y g2 ⟨hxy.1.symm.trans hvc.1, hxy.2.1.symm.trans hvc.2.1,
            hxy.2.2.symm.trans hvc.2.2⟩
      · rcases key j y hj2 with ⟨_, e2⟩ | ⟨_, g2⟩
        · exfalso
          rw [e2] at hxy
          exact hnone i x g1 ⟨hxy.1.trans hvc.1, hxy.2.1.trans hvc.2.1,
            hxy.2.2.trans hvc.2.2⟩
        · exact ha.2 i j x y g1 g2 hxy

theorem tcps_rx_unique (plat : Platform) (sys : Sys) (tcpips r : TCPIPS) (io : Io) (src : IP)
    (ha : TCB_UNIQUE tcpips) (hr : tcps_rx plat sys tcpips io src = some r) :
    TCB_UNIQUE r := by
  rcases tcps_rx_stages plat sys tcpips r io src hr with h0 | ⟨p, h, hp, hrest⟩
  · rw [h0]
    exact TCB_UNIQUE_of_tcbs tcpips _ rfl ha
  · have hpu : TCB_UNIQUE p := by
      rcases hp with ⟨_, _, e⟩ | ⟨hf, _, e | ⟨tcb, hg, e⟩⟩
      · rw [e]; exact ha
      · rw [e]; exact TCB_UNIQUE_create plat sys tcpips src _ _ hf ha
      · rw [e]
        exact TCB_UNIQUE_set_tcb _ _ h _ tcb rfl hg ⟨rfl, rfl, rfl⟩
          (TCB_UNIQUE_create plat sys tcpips src _ _ hf ha)
    rcases hrest with e | ⟨tcb, o, _, hg, ho, e⟩
    · rw [e]
      exact TCB_UNIQUE_of_tcbs p _ rfl hpu
    · obtain ⟨⟨l, hl⟩, ⟨m, hm⟩⟩ := tcps_apply_options_frame _ _ _ _ _ ho
      have hq : TCB_UNIQUE (tcps_rx_process plat sys
          (o.1.set_tcb h { o.2 with tx_wnd := tcp_window io }) io h) := by
        refine TCB_UNIQUE_descends _ _ (tcps_rx_process_descends plat sys _ io h) ?_
        refine TCB_UNIQUE_set_tcb p o.1 h _ tcb (by rw [hl]) hg ?_ hpu
        rw [hm]
        exact ⟨rfl, rfl, rfl⟩
      rcases e with e | e
      · rw [e]; exact hq
      · rw [e]; exact TCB_UNIQUE_of_tcbs _ _ rfl hq

/-- Every reachable state has at most one TCB for a connection. -/
theorem reachable_unique (plat : Platform) (tcpips : TCPIPS) (hr : Reachable plat tcpips) :
    TCB_UNIQUE tcpips := by
  induction hr with
  | init t =>
    constructor
    · intro h tcb hg
      simp [tcps_init, so_create, so_get] at hg
    · intro i j a b hi
      simp [tcps_init, so_create, so_get] at hi
  | rx t r sys io src _ hrx ih => exact tcps_rx_unique plat sys t r io src ih hrx
  | request t sys ipc io _ ih =>
    exact TCB_UNIQUE_descends _ _ (tcps_request_descends plat sys t ipc io) ih
  | link t up _ ih => exact TCB_UNIQUE_of_tcbs t _ rfl ih

/-- C21. In every state reached from `tcps_init` by calls of `tcps_rx` (and of
`tcps_request`), no two TCBs of the table have the same remote address, remote
port and local port.  In such a state `tcps_find_tcb` gives, when it finds a
TCB, the handle of a TCB with the triple looked for - the only one - and gives
`INVALID_HANDLE` only when no TCB of the table has that triple; and a call of
`tcps_rx` for a segment whose triple is found adds no TCB: every TCB of the
table afterwards was in the table before under the same handle with the same
triple. -/
theorem tcb_unique (plat : Platform) :
    (∀ (tcpips : TCPIPS), Reachable plat tcpips →
      ∀ (i j : HANDLE) (a b : TCP_TCB), so_get tcpips.tcps.tcbs i = some a →
        so_get tcpips.tcps.tcbs j = some b → a.remote_addr = b.remote_addr →
        a.remote_port = b.remote_port → a.local_port = b.local_port → i = j)
    ∧ (∀ (tcpips : TCPIPS) (src : IP) (rp lp : Nat), Reachable plat tcpips →
        (tcps_find_tcb tcpips src rp lp ≠ INVALID_HANDLE →
          ∃ a : TCP_TCB, so_get tcpips.tcps.tcbs (tcps_find_tcb tcpips src rp lp) = some a
            ∧ a.remote_addr = src ∧ a.remote_port = rp ∧ a.local_port = lp)
        ∧ (tcps_find_tcb tcpips src rp lp = INVALID_HANDLE →
          ∀ (i : HANDLE) (a : TCP_TCB), so_get tcpips.tcps.tcbs i = some a →
            ¬ (a.remote_addr = src ∧ a.remote_port = rp ∧ a.local_port = lp)))
    ∧ (∀ (sys : Sys) (tcpips r : TCPIPS) (io : Io) (src : IP), Reachable plat tcpips →
        tcps_rx plat sys tcpips io src = some r →
        tcps_find_tcb tcpips src (tcp_src_port io) (tcp_dst_port io) ≠ INVALID_HANDLE →
        ∀ (j : HANDLE) (b : TCP_TCB), so_get r.tcps.tcbs j = some b →
          ∃ a : TCP_TCB, so_get tcpips.tcps.tcbs j = some a ∧ SAME_CONNECTION a b) := by
  refine ⟨?_, ?_, ?_⟩
  · intro tcpips hr i j a b hi hj h1 h2 h3
    exact (reachable_unique plat tcpips hr).2 i j a b hi hj ⟨h1, h2, h3⟩
  · intro tcpips src rp lp hr
    exact tcps_find_tcb_spec tcpips src rp lp (reachable_unique plat tcpips hr).1
  · intro sys tcpips r io src _ hrx hf j b hj
    rcases tcps_rx_stages plat sys tcpips r io src hrx with h0 | ⟨p, h, hp, hrest⟩
    · rw [h0] at hj
      exact ⟨b, hj, rfl, rfl, rfl⟩
    · have hpe : p = tcpips := by
        rcases hp with ⟨_, _, e⟩ | ⟨hf2, _⟩
        · exact e
        · exact absurd hf2 hf
      rw [hpe] at hrest
      rcases hrest with e | ⟨tcb, o, _, hg, ho, e⟩
      · rw [e] at hj
        exact ⟨b, hj, rfl, rfl, rfl⟩
      · obtain ⟨⟨l, hl⟩, ⟨m, hm⟩⟩ := tcps_apply_options_frame _ _ _ _ _ ho
        have hq : so_get (tcps_rx_process plat sys
            (o.1.set_tcb h { o.2 with tx_wnd := tcp_window io }) io h).tcps.tcbs j = some b := by
          rcases e with e | e
          · rw [e] at hj; exact hj
          · rw [e] at hj; exact hj
        obtain ⟨x, hx, sx⟩ := tcps_rx_process_descends plat sys _ io h j b hq
        have cx := SAME_CONNECTION_of_fields x b sx
        rw [so_get_set_tcb] at hx
        have hlt : o.1.tcps.tcbs = tcpips.tcps.tcbs := by rw [hl]
        rw [hlt] at hx
        split at hx
        · rename_i hc
          cases hx
          rw [hc.1]
          refine ⟨tcb, hg, ?_⟩
          rw [hm] at cx
          exact cx
        · exact ⟨x, hx, cx⟩

/-- Witness of C21: after the listen request and the SYN of the handshake
scenario the table holds one TCB, under handle 0, and `tcps_find_tcb` finds it
for the triple of the SYN. -/
theorem tcb_unique_witness :
    tcps_find_tcb demo_after_syn 0x0A000002 4000 80 = 0
    ∧ ∃ a : TCP_TCB, so_get demo_after_syn.tcps.tcbs 0 = some a
        ∧ a.remote_addr = 0x0A000002 ∧ a.remote_port = 4000 ∧ a.local_port = 80 := by
  have hf : tcps_find_tcb demo_after_syn 0x0A000002 4000 80 = 0 := by decide
  have h := ((tcb_unique demo_plat).2.1 demo_after_syn 0x0A000002 4000 80
    demo_after_syn_reachable).1 (by rw [hf]; decide)
  rw [hf] at h
  exact ⟨hf, h⟩

/-! ## `svc`: unknown numbers and the setup calls -/

theorem svc_clears (env : KERNEL_ENV) (k : KERNEL) (e : ERROR)
    (num param1 param2 param3 : Nat) :
    svc env { k with error := e } num param1 param2 param3
      = svc env k num param1 param2 param3 := by
  unfold svc
  rfl

theorem svc_other (env : KERNEL_ENV) (k : KERNEL) (num param1 param2 param3 : Nat)
    (hn : env.svc_code num ≠ some SVC.SVC_SETUP_DBG) :
    (svc env k num param1 param2 param3).stdout = k.stdout
    ∧ (svc env k num param1 param2 param3).stdout_param = k.stdout_param
    ∧ (svc env k num param1 param2 param3).dbg_locked = k.dbg_locked := by
  unfold svc
  split <;> first
    | exact ⟨rfl, rfl, rfl⟩
    | (split <;> exact ⟨rfl, rfl, rfl⟩)
    | (rename_i hc; exact absurd hc hn)

theorem svc_setup_dbg (env : KERNEL_ENV) (k : KERNEL) (num param1 param2 param3 : Nat)
    (hn : env.svc_code num = some SVC.SVC_SETUP_DBG) :
    svc env k num param1 param2 param3
      = if k.dbg_locked then { k with error := ERROR.ERROR_INVALID_SVC }
        else { k with stdout := param1, stdout_param := param2, dbg_locked := true,
                      error := ERROR.ERROR_OK } := by
  unfold svc
  simp only [hn]

theorem svc_locked (env : KERNEL_ENV) (k : KERNEL) (num param1 param2 param3 : Nat)
    (hl : k.dbg_locked = true) :
    (svc env k num param1 param2 param3).stdout = k.stdout
    ∧ (svc env k num param1 param2 param3).stdout_param = k.stdout_param
    ∧ (svc env k num param1 param2 param3).dbg_locked = true := by
  by_cases hn : env.svc_code num = some SVC.SVC_SETUP_DBG
  · rw [svc_setup_dbg env k num param1 param2 param3 hn, if_pos hl]
    exact ⟨rfl, rfl, hl⟩
  · obtain ⟨h1, h2, h3⟩ := svc_other env k num param1 param2 param3 hn
    exact ⟨h1, h2, h3.trans hl⟩

theorem svc_run_locked (env : KERNEL_ENV) (l : List (Nat × Nat × Nat × Nat)) :
    ∀ k : KERNEL, k.dbg_locked = true →
      (svc_run env k l).stdout = k.stdout
      ∧ (svc_run env k l).stdout_param = k.stdout_param
      ∧ (svc_run env k l).dbg_locked = true := by
  induction l with
  | nil => intro k hl; exact ⟨rfl, rfl, hl⟩
  | cons c l ih =>
    intro k hl
    obtain ⟨h1, h2, h3⟩ := svc_locked env k c.1 c.2.1 c.2.2.1 c.2.2.2 hl
    obtain ⟨i1, i2, i3⟩ := ih (svc env k c.1 c.2.1 c.2.2.1 c.2.2.2) h3
    exact ⟨i1.trans h1, i2.trans h2, i3⟩

theorem svc_run_other (env : KERNEL_ENV) (l : List (Nat × Nat × Nat × Nat)) :
    ∀ k : KERNEL, (∀ c ∈ l, env.svc_code c.1 ≠ some SVC.SVC_SETUP_DBG) →
      (svc_run env k l).dbg_locked = k.dbg_locked := by
  induction l with
  | nil => intro k _; rfl
  | cons c l ih =>
    intro k hl
    have h := svc_other env k c.1 c.2.1 c.2.2.1 c.2.2.2 (hl c (List.mem_cons_self c l))
    exact (ih _ (fun d hd => hl d (List.mem_cons_of_mem c hd))).trans h.2.2

/-- C23. For a number that is no command code of the `switch` of `svc` (and
for the two profiling codes when `KERNEL_PROFILING` is off) `svc` sets the
error of the caller to `ERROR_INVALID_SVC` and changes nothing else: `stdout`,
`stdout_global`, `stdin_global`, their parameters and `dbg_locked` are as
before and no other module is called.  Every call of `svc` first clears the
error slot: its result does not depend on the error before the call, and
`SVC_SETUP_STDOUT` and `SVC_SETUP_STDIN` store their two parameters and end
with error `ERROR_OK`. -/
theorem svc_invalid (env : KERNEL_ENV) (k : KERNEL) (num param1 param2 param3 : Nat) :
    (env.svc_code num = none →
      svc env k num param1 param2 param3 = { k with error := ERROR.ERROR_INVALID_SVC })
    ∧ (env.KERNEL_PROFILING = false →
        env.svc_code num = some SVC.SVC_PROCESS_SWITCH_TEST
          ∨ env.svc_code num = some SVC.SVC_PROCESS_INFO →
        svc env k num param1 param2 param3 = { k with error := ERROR.ERROR_INVALID_SVC })
    ∧ (env.svc_code num = some SVC.SVC_SETUP_STDOUT →
        svc env k num param1 param2 param3
          = { k with stdout_global := param1, stdout_global_param := param2,
                     error := ERROR.ERROR_OK })
    ∧ (env.svc_code num = some SVC.SVC_SETUP_STDIN →
        svc env k num param1 param2 param3
          = { k with stdin_global := param1, stdin_global_param := param2,
                     error := ERROR.ERROR_OK })
    ∧ (∀ e : ERROR, svc env { k with error := e } num param1 param2 param3
        = svc env k num param1 param2 param3) := by
  refine ⟨?_, ?_, ?_, ?_, ?_⟩
  · intro hn
    unfold svc
    simp only [hn]
  · intro hp hn
    unfold svc
    rcases hn with hn | hn <;> simp [hn, hp]
  · intro hn
    unfold svc
    simp only [hn]
  · intro hn
    unfold svc
    simp only [hn]
  · intro e
    exact svc_clears env k e num param1 param2 param3

/-- Witness of C23: under the assignment of the scenarios 99 is no command
code; the call leaves everything but the error as it was. -/
theorem svc_invalid_witness :
    demo_env.svc_code 99 = none
    ∧ svc demo_env demo_kernel 99 1 2 3
        = { demo_kernel with error := ERROR.ERROR_INVALID_SVC } :=
  ⟨rfl, (svc_invalid demo_env demo_kernel 99 1 2 3).1 rfl⟩

/-- C24. After `startup` and any calls of `svc` other than `SVC_SETUP_DBG`,
the first `SVC_SETUP_DBG (p1, p2)` ends with error `ERROR_OK` and sets
`stdout = p1` and `stdout_param = p2`; after any further sequence of calls of
`svc` - `SVC_SETUP_DBG` among them - `stdout` and `stdout_param` still are
`p1` and `p2`, and a call of `SVC_SETUP_DBG` then fails with
`ERROR_INVALID_SVC` and changes nothing but the error. -/
theorem svc_setup_dbg_once (env : KERNEL_ENV) (k0 : KERNEL) (dbg p1 p2 p3 : Nat)
    (l1 l2 : List (Nat × Nat × Nat × Nat))
    (hdbg : env.svc_code dbg = some SVC.SVC_SETUP_DBG)
    (hl1 : ∀ c ∈ l1, env.svc_code c.1 ≠ some SVC.SVC_SETUP_DBG) :
    (svc env (svc_run env (startup env k0) l1) dbg p1 p2 p3).error = ERROR.ERROR_OK
    ∧ (svc env (svc_run env (startup env k0) l1) dbg p1 p2 p3).stdout = p1
    ∧ (svc env (svc_run env (startup env k0) l1) dbg p1 p2 p3).stdout_param = p2
    ∧ (svc_run env (svc env (svc_run env (startup env k0) l1) dbg p1 p2 p3) l2).stdout = p1
    ∧ (svc_run env (svc env (svc_run env (startup env k0) l1) dbg p1 p2 p3) l2).stdout_param
        = p2
    ∧ ∀ q1 q2 q3 : Nat,
        svc env (svc_run env (svc env (svc_run env (startup env k0) l1) dbg p1 p2 p3) l2)
            dbg q1 q2 q3
          = { svc_run env (svc env (svc_run env (startup env k0) l1) dbg p1 p2 p3) l2 with
              error := ERROR.ERROR_INVALID_SVC } := by
  have h0 : (svc_run env (startup env k0) l1).dbg_locked = false :=
    svc_run_other env l1 (startup env k0) hl1
  have h1 := svc_setup_dbg env (svc_run env (startup env k0) l1) dbg p1 p2 p3 hdbg
  rw [h0] at h1
  simp only [Bool.false_eq_true, if_false] at h1
  rw [h1]
  obtain ⟨r1, r2, r3⟩ := svc_run_locked env l2
    { svc_run env (startup env k0) l1 with
      stdout := p1, stdout_param := p2, dbg_locked := true, error := ERROR.ERROR_OK } rfl
  refine ⟨rfl, rfl, rfl, r1, r2, ?_⟩
  intro q1 q2 q3
  rw [svc_setup_dbg env _ dbg q1 q2 q3 hdbg, if_pos r3]

/-- Witness of C24: after `startup` and a `SVC_SETUP_STDOUT`, the call
`SVC_SETUP_DBG (200, 7)` sets the debug output; after a `SVC_MUTEX_LOCK` and a
second `SVC_SETUP_DBG (300, 8)` it still is `(200, 7)`. -/
theorem svc_setup_dbg_once_witness :
    (svc_run demo_env (startup demo_env demo_kernel)
        [(50, 150, 0, 0), (52, 200, 7, 0), (10, 1, 2, 0), (52, 300, 8, 0)]).stdout = 200
    ∧ (svc_run demo_env (startup demo_env demo_kernel)
        [(50, 150, 0, 0), (52, 200, 7, 0), (10, 1, 2, 0), (52, 300, 8, 0)]).stdout_param = 7
    ∧ (svc_run demo_env (startup demo_env demo_kernel)
        [(50, 150, 0, 0), (52, 200, 7, 0), (10, 1, 2, 0), (52, 300, 8, 0)]).error
        = ERROR.ERROR_INVALID_SVC := by
  have h := svc_setup_dbg_once demo_env demo_kernel 52 200 7 0 [(50, 150, 0, 0)]
    [(10, 1, 2, 0), (52, 300, 8, 0)] rfl (by decide)
  exact ⟨h.2.2.2.1, h.2.2.2.2.1, by decide⟩

/-! ## The state after the ACK, the FIN and the send step -/

theorem tcps_rx_otw_ack_eq_switch (plat : Platform) (sys : Sys) (tcpips : TCPIPS) (io : Io)
    (h : HANDLE) (tcb : TCP_TCB)
    (hget : so_get tcpips.tcps.tcbs h = some tcb)
    (hst : tcb.state ≠ TCP_STATE.SYN_RECEIVED)
    (hle : tcps_diff tcb.snd_una (tcp_ack io) ≤ tcps_diff tcb.snd_una tcb.snd_nxt) :
    tcps_rx_otw_ack plat sys tcpips io h
      = tcps_rx_otw_ack_switch tcpips
          (if tcps_diff tcb.snd_una (tcp_ack io) > 0
            then { tcb with snd_una := u32i (tcb.snd_una + tcps_diff tcb.snd_una (tcp_ack io)) }
            else tcb) h := by
  simp only [tcps_rx_otw_ack, hget, hst, if_false, not_lt.mpr hle, gt_iff_lt]

theorem tcps_rx_otw_stop (plat : Platform) (sys : Sys) (tcpips : TCPIPS) (io : Io)
    (h : HANDLE)
    (hc : (tcps_rx_otw_check_seq plat sys tcpips io h).1 = true)
    (hf : has_flag (tcps_rx_otw_check_seq plat sys tcpips io h).2.1
      (TCP_FLAG_RST ||| TCP_FLAG_SYN) = false)
    (hack : has_flag (tcps_rx_otw_check_seq plat sys tcpips io h).2.1 TCP_FLAG_ACK = true)
    (ha : (tcps_rx_otw_ack plat sys (tcps_rx_otw_check_seq plat sys tcpips io h).2.2
      (tcps_rx_otw_check_seq plat sys tcpips io h).2.1 h).1 = false) :
    tcps_rx_otw plat sys tcpips io h
      = (tcps_rx_otw_ack plat sys (tcps_rx_otw_check_seq plat sys tcpips io h).2.2
          (tcps_rx_otw_check_seq plat sys tcpips io h).2.1 h).2 := by
  unfold tcps_rx_otw
  simp only [hc, not_true_eq_false, if_false, hf, Bool.false_eq_true, hack, if_true, ha,
    not_false_eq_true]

/-- C31. The `switch` that ends the ACK processing, on the TCB as the
adjustment of `snd_una` leaves it: FIN_WAIT_1 with `snd_una = snd_nxt` becomes
FIN_WAIT_2; CLOSING with `snd_una = snd_nxt` becomes TIME_WAIT; LAST_ACK with
`snd_una = snd_nxt` destroys the TCB, sends nothing and returns false, on
which `tcps_rx_otw` stops without a reply; in each of these states with
`snd_una ≠ snd_nxt`, and in every other state, the TCB is stored as it is and
the result is true.  For a TCB in a state other than SYN_RECEIVED and an
acknowledgement with `a ≤ s`, `tcps_rx_otw_ack` is this `switch`. -/
theorem tcps_rx_otw_ack_state (tcpips : TCPIPS) (tcb : TCP_TCB) (h : HANDLE) :
    (tcb.state = TCP_STATE.FIN_WAIT_1 → tcb.snd_nxt = tcb.snd_una →
      tcps_rx_otw_ack_switch tcpips tcb h
        = (true, tcpips.set_tcb h { tcb with state := TCP_STATE.FIN_WAIT_2 }))
    ∧ (tcb.state = TCP_STATE.CLOSING → tcb.snd_nxt = tcb.snd_una →
      tcps_rx_otw_ack_switch tcpips tcb h
        = (true, tcpips.set_tcb h { tcb with state := TCP_STATE.TIME_WAIT }))
    ∧ (tcb.state = TCP_STATE.LAST_ACK → tcb.snd_nxt = tcb.snd_una →
      (tcps_rx_otw_ack_switch tcpips tcb h).1 = false
      ∧ so_get (tcps_rx_otw_ack_switch tcpips tcb h).2.tcps.tcbs h = none
      ∧ (∀ j, j ≠ h → so_get (tcps_rx_otw_ack_switch tcpips tcb h).2.tcps.tcbs j
          = so_get tcpips.tcps.tcbs j)
      ∧ (tcps_rx_otw_ack_switch tcpips tcb h).2.sent = tcpips.sent)
    ∧ (¬ ((tcb.state = TCP_STATE.FIN_WAIT_1 ∨ tcb.state = TCP_STATE.CLOSING
          ∨ tcb.state = TCP_STATE.LAST_ACK) ∧ tcb.snd_nxt = tcb.snd_una) →
      tcps_rx_otw_ack_switch tcpips tcb h = (true, tcpips.set_tcb h tcb))
    ∧ (∀ (plat : Platform) (sys : Sys) (io : Io),
        so_get tcpips.tcps.tcbs h = some tcb → tcb.state ≠ TCP_STATE.SYN_RECEIVED →
        tcps_diff tcb.snd_una (tcp_ack io) ≤ tcps_diff tcb.snd_una tcb.snd_nxt →
        tcps_rx_otw_ack plat sys tcpips io h
          = tcps_rx_otw_ack_switch tcpips
              (if tcps_diff tcb.snd_una (tcp_ack io) > 0
                then { tcb with
                       snd_una := u32i (tcb.snd_una + tcps_diff tcb.snd_una (tcp_ack io)) }
                else tcb) h)
    ∧ (∀ (plat : Platform) (sys : Sys) (io : Io),
        (tcps_rx_otw_check_seq plat sys tcpips io h).1 = true →
        has_flag (tcps_rx_otw_check_seq plat sys tcpips io h).2.1
          (TCP_FLAG_RST ||| TCP_FLAG_SYN) = false →
        has_flag (tcps_rx_otw_check_seq plat sys tcpips io h).2.1 TCP_FLAG_ACK = true →
        (tcps_rx_otw_ack plat sys (tcps_rx_otw_check_seq plat sys tcpips io h).2.2
          (tcps_rx_otw_check_seq plat sys tcpips io h).2.1 h).1 = false →
        tcps_rx_otw plat sys tcpips io h
          = (tcps_rx_otw_ack plat sys (tcps_rx_otw_check_seq plat sys tcpips io h).2.2
              (tcps_rx_otw_check_seq plat sys tcpips io h).2.1 h).2) := by
  refine ⟨?_, ?_, ?_, ?_, ?_, ?_⟩
  · intro hs he
    simp [tcps_rx_otw_ack_switch, hs, he, tcps_set_state]
  · intro hs he
    simp [tcps_rx_otw_ack_switch, hs, he, tcps_set_state]
  · intro hs he
    simp only [tcps_rx_otw_ack_switch, hs, he, if_true]
    refine ⟨trivial, ?_, ?_, rfl⟩
    · simp [tcps_destroy_tcb, TCPIPS.with_tcbs, so_get_so_free]
    · intro j hj
      simp [tcps_destroy_tcb, TCPIPS.with_tcbs, so_get_so_free, hj, TCPIPS.set_tcb,
        so_get_so_set]
  · intro hn
    unfold tcps_rx_otw_ack_switch
    split
    · rename_i hs
      have : ¬ tcb.snd_nxt = tcb.snd_una := fun he => hn ⟨Or.inl hs, he⟩
      simp [this]
    · rename_i hs
      have : ¬ tcb.snd_nxt = tcb.snd_una := fun he => hn ⟨Or.inr (Or.inl hs), he⟩
      simp [this]
    · rename_i hs
      have : ¬ tcb.snd_nxt = tcb.snd_una := fun he => hn ⟨Or.inr (Or.inr hs), he⟩
      simp [this]
    · rfl
  · intro plat sys io hget hst hle
    exact tcps_rx_otw_ack_eq_switch plat sys tcpips io h tcb hget hst hle
  · intro plat sys io hc hf hack ha
    exact tcps_rx_otw_stop plat sys tcpips io h hc hf hack ha

/-- Witness of C31: a TCB in LAST_ACK with `snd_una` = 500 and `snd_nxt` = 501
receives the ACK of its FIN (ack 501): after the adjustment
`snd_una = snd_nxt`, the TCB is destroyed and nothing is sent. -/
theorem tcps_rx_otw_ack_state_witness :
    (tcps_rx_otw_ack_switch (demo_with demo_tcb_last_ack)
        { demo_tcb_last_ack with snd_una := 501 } 0).1 = false
    ∧ so_get (tcps_rx_otw_ack_switch (demo_with demo_tcb_last_ack)
        { demo_tcb_last_ack with snd_una := 501 } 0).2.tcps.tcbs 0 = none
    ∧ (so_get (tcps_rx_otw demo_plat demo_sys (demo_with demo_tcb_last_ack)
        demo_seg_ack_of_fin 0).tcps.tcbs 0).isNone = true
    ∧ (tcps_rx_otw demo_plat demo_sys (demo_with demo_tcb_last_ack)
        demo_seg_ack_of_fin 0).sent.length = 0 := by
  have h := (tcps_rx_otw_ack_state (demo_with demo_tcb_last_ack)
    { demo_tcb_last_ack with snd_una := 501 } 0).2.2.1 rfl rfl
  exact ⟨h.1, h.2.1, by decide, by decide⟩

theorem tcps_rx_otw_fin_switch_spec (st : TCPIPS) (t : TCP_TCB) (h : HANDLE)
    (hlt : h < st.tcps.tcbs.size) :
    so_get (tcps_rx_otw_fin_switch st t h).tcps.tcbs h
        = some { t with
            state := match t.state with
              | TCP_STATE.ESTABLISHED => TCP_STATE.LAST_ACK
              | TCP_STATE.SYN_RECEIVED => TCP_STATE.LAST_ACK
              | TCP_STATE.FIN_WAIT_1 =>
                if t.snd_una = t.snd_nxt then TCP_STATE.TIME_WAIT else TCP_STATE.CLOSING
              | TCP_STATE.FIN_WAIT_2 => TCP_STATE.TIME_WAIT
              | s => s }
    ∧ (tcps_rx_otw_fin_switch st t h).posted
        = st.posted ++
            (if t.state = TCP_STATE.ESTABLISHED then
              [{ process := t.process, cmd := HAL_CMD HAL.HAL_TCP IPC_ITEM.IPC_CLOSE,
                 param1 := h, param2 := 0, param3 := 0 }]
             else [])
    ∧ (tcps_rx_otw_fin_switch st t h).sent = st.sent
    ∧ (∀ j, j ≠ h → so_get (tcps_rx_otw_fin_switch st t h).tcps.tcbs j
        = so_get st.tcps.tcbs j) := by
  have hoth : ∀ (x : TCPIPS) (v : TCP_TCB) (j : HANDLE), j ≠ h →
      so_get (x.set_tcb h v).tcps.tcbs j = so_get x.tcps.tcbs j := by
    intro x v j hj
    rw [so_get_set_tcb]
    simp [hj]
  have hsame : ∀ (x : TCPIPS) (v : TCP_TCB), h < x.tcps.tcbs.size →
      so_get (x.set_tcb h v).tcps.tcbs h = some v := by
    intro x v hx
    rw [so_get_set_tcb]
    simp [hx]
  unfold tcps_rx_otw_fin_switch
  cases ht : t with
  | mk process remote_addr rx rx_tmp tx snd_una snd_nxt rcv_nxt state remote_port local_port
      mss rx_wnd tx_wnd active transmit fin =>
    cases state <;> dsimp only <;> refine ⟨?_, ?_, rfl, ?_⟩ <;>
      first
        | (intro j hj; exact hoth _ _ j hj)
        | rfl
        | exact hsame _ _ hlt
        | (rw [hsame _ _ hlt]
           by_cases he : snd_una = snd_nxt <;> simp [he, tcps_set_state])
        | simp [TCPIPS.set_tcb, TCPIPS.with_tcbs]

/-- C32. `tcps_rx_otw_fin` on a TCB of the table: the TCB stays in the table
with `rcv_nxt` advanced by 1 (mod 2^32), `fin` set, `snd_nxt` advanced by 1
(mod 2^32) if `fin` was clear and unchanged if it was set, and the state
ESTABLISHED -> LAST_ACK, SYN_RECEIVED -> LAST_ACK, FIN_WAIT_1 -> TIME_WAIT if
`snd_una` equals the new `snd_nxt` and CLOSING if not, FIN_WAIT_2 -> TIME_WAIT,
any other state unchanged; one IPC_CLOSE with `param1` the handle is posted to
the owner when the state was ESTABLISHED and nothing is posted otherwise;
nothing is sent and no other TCB changes. -/
theorem tcps_rx_otw_fin_rule (tcpips : TCPIPS) (h : HANDLE) (tcb : TCP_TCB)
    (hget : so_get tcpips.tcps.tcbs h = some tcb) :
    so_get (tcps_rx_otw_fin tcpips h).tcps.tcbs h
        = some { tcb with
            rcv_nxt := u32 (tcb.rcv_nxt + 1)
            fin := true
            snd_nxt := if tcb.fin then tcb.snd_nxt else u32 (tcb.snd_nxt + 1)
            state := match tcb.state with
              | TCP_STATE.ESTABLISHED => TCP_STATE.LAST_ACK
              | TCP_STATE.SYN_RECEIVED => TCP_STATE.LAST_ACK
              | TCP_STATE.FIN_WAIT_1 =>
                if tcb.snd_una = (if tcb.fin then tcb.snd_nxt else u32 (tcb.snd_nxt + 1))
                  then TCP_STATE.TIME_WAIT else TCP_STATE.CLOSING
              | TCP_STATE.FIN_WAIT_2 => TCP_STATE.TIME_WAIT
              | s => s }
    ∧ (tcps_rx_otw_fin tcpips h).posted
        = tcpips.posted ++
            (if tcb.state = TCP_STATE.ESTABLISHED then
              [{ process := tcb.process, cmd := HAL_CMD HAL.HAL_TCP IPC_ITEM.IPC_CLOSE,
                 param1 := h, param2 := 0, param3 := 0 }]
             else [])
    ∧ (tcps_rx_otw_fin tcpips h).sent = tcpips.sent
    ∧ (∀ j, j ≠ h → so_get (tcps_rx_otw_fin tcpips h).tcps.tcbs j
        = so_get tcpips.tcps.tcbs j) := by
  have hlt := so_get_lt hget
  cases hfin : tcb.fin
  · have sp := tcps_rx_otw_fin_switch_spec tcpips
      { tcb with rcv_nxt := u32 (tcb.rcv_nxt + 1), fin := true,
                 snd_nxt := u32 (tcb.snd_nxt + 1) } h hlt
    have he : tcps_rx_otw_fin tcpips h = tcps_rx_otw_fin_switch tcpips
        { tcb with rcv_nxt := u32 (tcb.rcv_nxt + 1), fin := true,
                   snd_nxt := u32 (tcb.snd_nxt + 1) } h := by
      simp [tcps_rx_otw_fin, hget, hfin]
    rw [he]
    exact ⟨sp.1.trans (by simp), sp.2.1, sp.2.2.1, sp.2.2.2⟩
  · have sp := tcps_rx_otw_fin_switch_spec tcpips
      { tcb with rcv_nxt := u32 (tcb.rcv_nxt + 1) } h hlt
    have he : tcps_rx_otw_fin tcpips h = tcps_rx_otw_fin_switch tcpips
        { tcb with rcv_nxt := u32 (tcb.rcv_nxt + 1) } h := by
      simp [tcps_rx_otw_fin, hget, hfin]
    rw [he]
    refine ⟨sp.1.trans ?_, sp.2.1, sp.2.2.1, sp.2.2.2⟩
    simp only [if_true, Option.some.injEq]
    cases tcb
    simp_all

/-- Witness of C32: the TCB of the scenario "FIN from ESTABLISHED" after
`tcps_rx_otw_fin`: LAST_ACK, `rcv_nxt` 2001, `snd_nxt` 501, one IPC_CLOSE. -/
theorem tcps_rx_otw_fin_rule_witness :
    (so_get (tcps_rx_otw_fin (demo_with demo_tcb_established) 0).tcps.tcbs 0).map
        (fun t => (t.state, t.rcv_nxt, t.snd_nxt, t.fin))
      = some (TCP_STATE.LAST_ACK, 2001, 501, true)
    ∧ (tcps_rx_otw_fin (demo_with demo_tcb_established) 0).posted.length = 1 := by
  have h := tcps_rx_otw_fin_rule (demo_with demo_tcb_established) 0 demo_tcb_established rfl
  rw [h.1, h.2.1]
  exact ⟨by decide, by decide⟩

/-- C33, as amended. The send step on a TCB of the table: if the TCB is in
ESTABLISHED with the `transmit` flag set, `snd_una = snd_nxt` and `fin` clear,
nothing is sent and `transmit` is cleared; otherwise, in TIME_WAIT nothing is
sent and nothing changes; otherwise exactly one segment is sent when
`ips_allocate_io` hands out a buffer - ACK set, FIN set exactly when `fin` is
set and `snd_una ≠ snd_nxt`, `seq = snd_una`, `ack = rcv_nxt` - and nothing is
sent when it does not; the TCB table is unchanged in both cases. -/
theorem tcps_rx_send_rule (plat : Platform) (sys : Sys) (tcpips : TCPIPS) (h : HANDLE)
    (tcb : TCP_TCB) (hget : so_get tcpips.tcps.tcbs h = some tcb) :
    (tcb.state = TCP_STATE.ESTABLISHED ∧ tcb.transmit = true ∧ tcb.snd_una = tcb.snd_nxt
        ∧ tcb.fin = false →
      tcps_rx_send plat sys tcpips h = tcpips.set_tcb h { tcb with transmit := false }
      ∧ (tcps_rx_send plat sys tcpips h).sent = tcpips.sent)
    ∧ (¬ (tcb.state = TCP_STATE.ESTABLISHED ∧ tcb.transmit = true ∧ tcb.snd_una = tcb.snd_nxt
        ∧ tcb.fin = false) →
      (tcb.state = TCP_STATE.TIME_WAIT → tcps_rx_send plat sys tcpips h = tcpips)
      ∧ (tcb.state ≠ TCP_STATE.TIME_WAIT →
          match sys.tx_io with
          | some _ => ∃ o : Io,
              tcps_rx_send plat sys tcpips h
                = { tcpips with sent := tcpips.sent ++ [(o, tcb.remote_addr)] }
              ∧ segment_of o
                = { flags := if tcb.fin ∧ tcb.snd_una ≠ tcb.snd_nxt
                      then TCP_FLAG_ACK ||| TCP_FLAG_FIN else TCP_FLAG_ACK,
                    seq := u32 tcb.snd_una, ack := u32 tcb.rcv_nxt, window := u16 tcb.rx_wnd }
          | none => tcps_rx_send plat sys tcpips h = tcpips)) := by
  refine ⟨?_, ?_⟩
  · intro hc
    have he : tcps_rx_send plat sys tcpips h = tcpips.set_tcb h { tcb with transmit := false } := by
      simp [tcps_rx_send, hget, hc.1, hc.2.1, hc.2.2.1, hc.2.2.2]
    rw [he]
    exact ⟨rfl, rfl⟩
  · intro hn
    have hn2 : ¬ (tcb.state = TCP_STATE.ESTABLISHED ∧ tcb.transmit = true
        ∧ tcb.snd_una = tcb.snd_nxt ∧ ¬ tcb.fin = true) := by
      intro hx
      exact hn ⟨hx.1, hx.2.1, hx.2.2.1, by simpa using hx.2.2.2⟩
    refine ⟨?_, ?_⟩
    · intro hs
      simp [tcps_rx_send, hget, hs]
    · intro hs
      have he : tcps_rx_send plat sys tcpips h = tcps_tx_text_ack_fin plat sys tcpips h := by
        simp only [tcps_rx_send, hget, hn2, if_false, hs]
      rw [he]
      cases htx : sys.tx_io with
      | none => exact tcps_tx_text_ack_fin_none plat sys tcpips h htx
      | some txio =>
        obtain ⟨o, ho, hseg⟩ := tcps_tx_text_ack_fin_some plat sys tcpips h tcb txio hget htx
        refine ⟨o, ho, ?_⟩
        rw [hseg]
        split <;> rfl

/-- Counterexample to C33 as stated: the TCB of the scenario "FIN from
ESTABLISHED" is in ESTABLISHED with `snd_una = snd_nxt`, `fin` clear, and its
`transmit` flag clear: the send step sends one segment (the ACK of what was
received), where the claim has none.  A TCB in TIME_WAIT gets no segment, and
without a transmit buffer a TCB in LAST_ACK gets none either, where the claim
has exactly one. -/
theorem tcps_rx_send_rule_transmit :
    demo_tcb_established.state = TCP_STATE.ESTABLISHED
    ∧ demo_tcb_established.snd_una = demo_tcb_established.snd_nxt
    ∧ demo_tcb_established.fin = false
    ∧ demo_tcb_established.transmit = false
    ∧ (tcps_rx_send demo_plat demo_sys (demo_with demo_tcb_established) 0).sent.map
        (fun e => segment_of e.1)
        = [{ flags := TCP_FLAG_ACK, seq := 500, ack := 2000, window := 1460 }]
    ∧ (tcps_rx_send demo_plat demo_sys (demo_with demo_tcb_time_wait) 0).sent.length = 0
    ∧ (tcps_rx_send demo_plat demo_sys_no_io (demo_with demo_tcb_last_ack) 0).sent.length
        = 0 := by
  decide

/-- Witness of C33: a TCB in LAST_ACK with its FIN (sequence number 500) not
yet acknowledged gets one segment with FIN|ACK, `seq` 500 and `ack` 2001. -/
theorem tcps_rx_send_rule_witness :
    ∃ o : Io,
      (tcps_rx_send demo_plat demo_sys (demo_with demo_tcb_last_ack) 0).sent = [(o, 0x0A000002)]
      ∧ segment_of o = { flags := 17, seq := 500, ack := 2001, window := 1460 } := by
  have h := ((tcps_rx_send_rule demo_plat demo_sys (demo_with demo_tcb_last_ack) 0
    demo_tcb_last_ack rfl).2 (by decide)).2 (by decide)
  obtain ⟨o, ho, hseg⟩ := h
  refine ⟨o, ?_, ?_⟩
  · rw [ho]
    rfl
  · rw [hseg]
    decide

/-! ## LISTEN: ACK and SYN -/

/-- C34, as amended. `tcps_rx_listen` on a TCB of the table and a segment
without RST: if the segment has ACK set - with or without SYN - the TCB is
destroyed and exactly one RST with `seq = seg.ack` is sent when
`ips_allocate_io` hands out a buffer, nothing when it does not; if ACK is
clear and SYN is set, the TCB moves to SYN_RECEIVED with
`rcv_nxt = seg.seq + 1`, `snd_una` the initial sequence number and `snd_nxt`
one more, and exactly one SYN|ACK with `seq = snd_una` and `ack = rcv_nxt` is
sent when `ips_allocate_io` hands out a buffer. -/
theorem tcps_rx_listen_rule (plat : Platform) (sys : Sys) (tcpips : TCPIPS) (io : Io)
    (h : HANDLE) (tcb : TCP_TCB)
    (hget : so_get tcpips.tcps.tcbs h = some tcb)
    (hrst : has_flag io TCP_FLAG_RST = false) :
    (has_flag io TCP_FLAG_ACK = true →
      so_get (tcps_rx_listen plat sys tcpips io h).tcps.tcbs h = none
      ∧ (match sys.tx_io with
         | some _ => ∃ o : Io,
             (tcps_rx_listen plat sys tcpips io h).sent = tcpips.sent ++ [(o, tcb.remote_addr)]
             ∧ segment_of o = { flags := TCP_FLAG_RST, seq := tcp_ack io, ack := 0,
                                window := u16 tcb.rx_wnd }
         | none => (tcps_rx_listen plat sys tcpips io h).sent = tcpips.sent))
    ∧ (has_flag io TCP_FLAG_ACK = false → has_flag io TCP_FLAG_SYN = true →
      so_get (tcps_rx_listen plat sys tcpips io h).tcps.tcbs h
        = some { tcb with
            state := TCP_STATE.SYN_RECEIVED
            rcv_nxt := u32 (tcp_seq io + 1)
            snd_una := tcps_gen_isn sys.uptime
            snd_nxt := u32 (tcps_gen_isn sys.uptime + 1) }
      ∧ (match sys.tx_io with
         | some _ => ∃ o : Io,
             (tcps_rx_listen plat sys tcpips io h).sent = tcpips.sent ++ [(o, tcb.remote_addr)]
             ∧ segment_of o = { flags := TCP_FLAG_SYN ||| TCP_FLAG_ACK,
                                seq := tcps_gen_isn sys.uptime, ack := u32 (tcp_seq io + 1),
                                window := u16 tcb.rx_wnd }
         | none => (tcps_rx_listen plat sys tcpips io h).sent = tcpips.sent)) := by
  have hlt := so_get_lt hget
  refine ⟨?_, ?_⟩
  · intro hack
    have he : tcps_rx_listen plat sys tcpips io h
        = tcps_destroy_tcb (tcps_tx_rst plat sys tcpips h (tcp_ack io)) h := by
      simp only [tcps_rx_listen, hrst, Bool.false_eq_true, if_false, hack, if_true]
    rw [he]
    refine ⟨by simp [tcps_destroy_tcb, TCPIPS.with_tcbs, so_get_so_free], ?_⟩
    cases htx : sys.tx_io with
    | none =>
      show (tcps_destroy_tcb (tcps_tx_rst plat sys tcpips h (tcp_ack io)) h).sent = tcpips.sent
      rw [tcps_tx_rst_none plat sys tcpips h _ htx]
      rfl
    | some txio =>
      obtain ⟨o, ho, hseg⟩ := tcps_tx_rst_some plat sys tcpips h (tcp_ack io) tcb txio hget htx
      refine ⟨o, ?_, ?_⟩
      · rw [ho]
        rfl
      · rw [hseg, u32_of_lt (tcp_ack_lt io)]
  · intro hack hsyn
    obtain ⟨v, hv⟩ : ∃ v : TCP_TCB, v = { tcb with
        state := TCP_STATE.SYN_RECEIVED
        rcv_nxt := u32 (tcp_seq io + 1)
        snd_una := tcps_gen_isn sys.uptime
        snd_nxt := u32 (tcps_gen_isn sys.uptime + 1) } := ⟨_, rfl⟩
    have he : tcps_rx_listen plat sys tcpips io h
        = tcps_tx_syn_ack plat sys (tcpips.set_tcb h v) h := by
      simp only [tcps_rx_listen, hrst, Bool.false_eq_true, if_false, hack, hsyn, if_true, hget,
        tcps_set_state, hv]
    have hgv : so_get (tcpips.set_tcb h v).tcps.tcbs h = some v := by
      rw [so_get_set_tcb]
      simp [hlt]
    rw [he, ← hv]
    refine ⟨?_, ?_⟩
    · rw [tcps_tx_syn_ack_tcps]
      exact hgv
    · cases htx : sys.tx_io with
      | none =>
        show (tcps_tx_syn_ack plat sys (tcpips.set_tcb h v) h).sent = tcpips.sent
        simp [tcps_tx_syn_ack, hgv, tcps_allocate_io, htx]
        rfl
      | some txio =>
        obtain ⟨o, ho, hseg⟩ := tcps_tx_syn_ack_some plat sys (tcpips.set_tcb h v) h v txio hgv htx
        refine ⟨o, ?_, ?_⟩
        · rw [ho, hv]
          rfl
        · rw [hseg, hv]
          have hisn : tcps_gen_isn sys.uptime < 4294967296 := by
            have := tcps_gen_isn_lt sys.uptime
            omega
          simp only [u32_of_lt hisn]
          simp only [u32, Nat.mod_mod]

/-- Counterexample to C34 as stated: a TCB in LISTEN receives a segment with
SYN and ACK set and RST clear: it is not handled as a connection request; the
TCB is destroyed and one RST with `seq = seg.ack` = 77 is sent.  Without a
transmit buffer the TCB is destroyed and no RST is sent. -/
theorem tcps_rx_listen_rule_syn_ack :
    demo_tcb_listen.state = TCP_STATE.LISTEN
    ∧ tcp_flags demo_seg_syn_ack = TCP_FLAG_SYN ||| TCP_FLAG_ACK
    ∧ tcp_ack demo_seg_syn_ack = 77
    ∧ (so_get (tcps_rx_process demo_plat demo_sys (demo_with demo_tcb_listen)
        demo_seg_syn_ack 0).tcps.tcbs 0).isNone = true
    ∧ (tcps_rx_process demo_plat demo_sys (demo_with demo_tcb_listen)
        demo_seg_syn_ack 0).sent.map (fun e => segment_of e.1)
        = [{ flags := TCP_FLAG_RST, seq := 77, ack := 0, window := 1460 }]
    ∧ (so_get (tcps_rx_process demo_plat demo_sys_no_io (demo_with demo_tcb_listen)
        demo_seg_syn_ack 0).tcps.tcbs 0).isNone = true
    ∧ (tcps_rx_process demo_plat demo_sys_no_io (demo_with demo_tcb_listen)
        demo_seg_syn_ack 0).sent.length = 0 := by
  decide

/-- Witness of C34: the same TCB receives a segment with SYN alone, seq 1000:
it moves to SYN_RECEIVED with `rcv_nxt` = 1001. -/
theorem tcps_rx_listen_rule_witness :
    (so_get (tcps_rx_listen demo_plat demo_sys (demo_with demo_tcb_listen)
        demo_seg_syn_plain 0).tcps.tcbs 0).map (fun t => (t.state, t.rcv_nxt))
      = some (TCP_STATE.SYN_RECEIVED, 1001) := by
  have h := ((tcps_rx_listen_rule demo_plat demo_sys (demo_with demo_tcb_listen)
    demo_seg_syn_plain 0 demo_tcb_listen rfl (by decide)).2 (by decide) (by decide)).1
  rw [h]
  decide

/-! ## Options: the ICMP pointer, termination, the bytes read -/

/-- C35. A SYN for the listening port 80 whose MSS option lies at offset 20 of
the TCP header and carries the value 100, in a datagram with an IP header of
20 bytes: `tcps_apply_options` raises exactly one ICMP parameter problem and
leaves the MSS alone, but the pointer of the error is 60 =
`hdr_size + sizeof(TCP_HEADER) + i`, where the option byte is at
`hdr_size + i` = 40 of the datagram.  In general one round of the loop at
offset `i` raises, for an MSS option out of range, one error with the pointer
`hdr_size + 20 + i`, and none otherwise. -/
theorem tcps_apply_options_pointer :
    tcps_get_first_opt demo_seg_syn_small_mss = 20
    ∧ byte demo_seg_syn_small_mss.mem 20 = TCP_OPTS_MSS
    ∧ be2short demo_seg_syn_small_mss.mem 22 = 100
    ∧ demo_seg_syn_small_mss.hdr_size = 20
    ∧ (tcps_apply_options demo_plat demo_listening demo_seg_syn_small_mss
        demo_tcb_listen).map (fun o => (o.1.icmp.map (fun e => (e.io_addr, e.offset)), o.2.mss))
        = some ([(5000, 60)], 1460)
    ∧ (((tcps_rx demo_plat demo_sys demo_listening demo_seg_syn_small_mss 0x0A000002).map
        (fun r => r.icmp.map (fun e => (e.io_addr, e.offset)))) = some [(5000, 60)])
    ∧ ∀ (plat : Platform) (io : Io) (i : Nat) (tcpips : TCPIPS) (tcb : TCP_TCB),
        (tcps_apply_options_body plat io i tcpips tcb).1.icmp
          = tcpips.icmp ++
              (if byte io.mem i = TCP_OPTS_MSS
                  ∧ ¬ (536 ≤ be2short io.mem (i + 2)
                    ∧ be2short io.mem (i + 2) ≤ TCP_MSS_MAX plat)
                then [{ io_addr := io.addr, offset := io.hdr_size + 20 + i }] else []) := by
  refine ⟨by decide, by decide, by decide, by decide, by decide, by decide, ?_⟩
  intro plat io i tcpips tcb
  unfold tcps_apply_options_body
  by_cases hk : byte io.mem i = TCP_OPTS_MSS
  · by_cases hr : 536 ≤ be2short io.mem (i + 2) ∧ be2short io.mem (i + 2) ≤ TCP_MSS_MAX plat
    · simp [hk, tcps_set_mss_eq, hr]
    · simp only [hk, tcps_set_mss_eq, hr, if_true, if_false, true_and, not_false_eq_true]
      simp [TCP_HEADER_SIZE]
  · simp [hk]

/-- C36. `tcps_get_next_opt` returns 0 or an offset below the data offset that
is not less than `prev`, but not always a greater one: for an option whose
length byte is 0 it returns `prev` itself.  The segment with the option bytes
`[3, 0, 0, 0]` at offset 20 has `tcps_get_next_opt (io, 20) = 20`, and the loop
of `tcps_apply_options`, which starts at 20, is still at offset 20 after any
number of rounds. -/
theorem tcps_get_next_opt_not_greater :
    byte demo_seg_syn_zero_option.mem 20 = 3
    ∧ byte demo_seg_syn_zero_option.mem 21 = 0
    ∧ tcps_get_first_opt demo_seg_syn_zero_option = 20
    ∧ tcps_get_next_opt demo_seg_syn_zero_option 20 = 20
    ∧ (∀ (fuel : Nat) (tcpips : TCPIPS) (tcb : TCP_TCB),
        tcps_apply_options_loop demo_plat demo_seg_syn_zero_option fuel 20 tcpips tcb = none)
    ∧ (tcps_apply_options demo_plat demo_listening demo_seg_syn_zero_option
        demo_tcb_listen).isNone = true
    ∧ ∀ (io : Io) (prev : Nat),
        tcps_get_next_opt io prev = 0
        ∨ (prev ≤ tcps_get_next_opt io prev
            ∧ tcps_get_next_opt io prev < tcps_data_offset io) := by
  refine ⟨by decide, by decide, by decide, by decide, ?_, by decide, ?_⟩
  · intro fuel tcpips tcb
    exact tcps_apply_options_loop_stuck demo_plat demo_seg_syn_zero_option 20 (by decide)
      (by decide) fuel tcpips tcb
  · intro io prev
    unfold tcps_get_next_opt
    dsimp only
    split_ifs <;> omega

/-- C37. The reads of `tcps_apply_options` on two segments that `tcps_rx`
accepts.  A segment of 20 bytes whose header declares a data offset of 24: the
kind of a first option is read at offset 20, which is not below the length 20
of the segment.  A segment of 28 bytes with data offset 24, the kind byte of
an MSS option at offset 23 and the data `[4, 5, 6, 7]`: the length byte is
read at offset 24 and the two value bytes at 25 and 26, none of them below the
data offset, and the MSS of the TCB becomes 1286, the value of the data bytes
`[5, 6]`. -/
theorem tcps_apply_options_reads_beyond :
    demo_seg_no_options.data_size = 20
    ∧ tcps_data_offset demo_seg_no_options = 24
    ∧ (tcps_rx demo_plat demo_sys demo_listening demo_seg_no_options 0x0A000002).isSome = true
    ∧ tcps_apply_options_reads demo_seg_no_options = [12, 20]
    ∧ demo_seg_mss_at_end.data_size = 28
    ∧ tcps_data_offset demo_seg_mss_at_end = 24
    ∧ (tcps_rx demo_plat demo_sys demo_listening demo_seg_mss_at_end 0x0A000002).isSome = true
    ∧ tcps_apply_options_reads demo_seg_mss_at_end
        = [12, 20, 20, 12, 20, 21, 12, 21, 22, 12, 22, 23, 25, 26, 12, 23, 24]
    ∧ (tcps_apply_options_reads demo_seg_mss_at_end).filter
        (fun off => decide (tcps_data_offset demo_seg_mss_at_end ≤ off)) = [25, 26, 24]
    ∧ (tcps_apply_options demo_plat demo_listening demo_seg_mss_at_end demo_tcb_listen).map
        (fun o => o.2.mss) = some 1286 := by
  decide

/-! ## The listener of a stream -/

/-- C40. `kstream_stop_listen` never changes the listener of a stream: called
by the listener it stores the listener again, called by another process it
sets `ERROR_ACCESS_DENIED`.  For a stream whose listener is the process 99:
after `kstream_stop_listen` by 99 the listener still is 99, a following
`kstream_start_listen` by the process 5 fails with `ERROR_ACCESS_DENIED`, and a
write that completes still posts its IPC_STREAM_WRITE to 99.
`kstream_start_listen` sets the listener to the current process when there is
none and fails with `ERROR_ACCESS_DENIED`, changing nothing else, when there
is one. -/
theorem kstream_stop_listen_keeps :
    (∀ k : KSTREAM, (kstream_stop_listen k).stream.listener = k.stream.listener)
    ∧ demo_listened.stream.listener = some 99
    ∧ demo_listened.current = 99
    ∧ (kstream_stop_listen demo_listened).stream.listener = some 99
    ∧ (kstream_stop_listen demo_listened).error = demo_listened.error
    ∧ (kstream_start_listen
        { kstream_stop_listen demo_listened with current := 5 }).error
        = ERROR.ERROR_ACCESS_DENIED
    ∧ (kstream_start_listen
        { kstream_stop_listen demo_listened with current := 5 }).stream.listener = some 99
    ∧ (kstream_write { kstream_stop_listen demo_listened with current := 10 } 1
        (demo_ptr [65, 66]) 2).posted.map (fun m => (m.process, m.param1)) = [(99, 2)]
    ∧ (∀ k : KSTREAM, k.stream.listener = none →
        kstream_start_listen k = { k with stream := { k.stream with listener := some k.current } })
    ∧ (∀ k : KSTREAM, k.stream.listener ≠ none →
        kstream_start_listen k = { k with error := ERROR.ERROR_ACCESS_DENIED })
    ∧ (∀ k : KSTREAM, k.stream.listener ≠ some k.current →
        kstream_stop_listen k = { k with error := ERROR.ERROR_ACCESS_DENIED }) := by
  refine ⟨?_, by decide, by decide, by decide, by decide, by decide, by decide, by decide,
    ?_, ?_, ?_⟩
  · intro k
    unfold kstream_stop_listen
    dsimp only
    split
    · rename_i h
      exact h.symm
    · rfl
  · intro k h
    simp [kstream_start_listen, h]
  · intro k h
    simp [kstream_start_listen, h]
  · intro k h
    simp [kstream_stop_listen, h]

/-! ## The states between two calls -/

theorem ALL_TCB_of_but (P : TCP_TCB → Prop) (h : HANDLE) (a : TCPIPS)
    (hb : ALL_TCB_BUT P h a) (hh : ∀ tcb, so_get a.tcps.tcbs h = some tcb → P tcb) :
    ALL_TCB P a := by
  intro j tcb hg
  by_cases hj : j = h
  · subst hj; exact hh tcb hg
  · exact hb j tcb hj hg

theorem ALL_TCB_BUT_of_tcbs (P : TCP_TCB → Prop) (h : HANDLE) (a b : TCPIPS)
    (hab : b.tcps.tcbs = a.tcps.tcbs) (ha : ALL_TCB_BUT P h a) : ALL_TCB_BUT P h b := by
  intro j tcb hj hg
  rw [hab] at hg
  exact ha j tcb hj hg

theorem ALL_TCB_destroy_but (P : TCP_TCB → Prop) (a : TCPIPS) (h : HANDLE)
    (ha : ALL_TCB_BUT P h a) : ALL_TCB P (tcps_destroy_tcb a h) := by
  intro j tcb hg
  simp only [tcps_destroy_tcb, TCPIPS.with_tcbs, so_get_so_free] at hg
  split at hg
  · cases hg
  · rename_i hj
    exact ha j tcb hj hg

theorem ALL_TCB_set_tcb_but (P : TCP_TCB → Prop) (a : TCPIPS) (h : HANDLE) (v : TCP_TCB)
    (ha : ALL_TCB_BUT P h a) (hv : P v) : ALL_TCB P (a.set_tcb h v) := by
  intro j tcb hg
  rw [so_get_set_tcb] at hg
  split at hg
  · cases hg; exact hv
  · rename_i hc
    by_cases hj : j = h
    · subst hj
      exact absurd ⟨rfl, so_get_lt hg⟩ hc
    · exact ha j tcb hj hg

theorem ALL_TCB_BUT_set_tcb (P : TCP_TCB → Prop) (a : TCPIPS) (h : HANDLE) (v : TCP_TCB)
    (ha : ALL_TCB_BUT P h a) : ALL_TCB_BUT P h (a.set_tcb h v) := by
  intro j tcb hj hg
  rw [so_get_set_tcb, if_neg (fun hc => hj hc.1)] at hg
  exact ha j tcb hj hg

theorem STATE_INV_congr (a b : TCP_TCB) (h : b.state = a.state) (ha : STATE_INV a) :
    STATE_INV b := by
  unfold STATE_INV at *
  rw [h]
  exact ha

theorem STATE_INV_closed (plat : Platform) (sys : Sys) (tcpips : TCPIPS) (io : Io)
    (h : HANDLE) (P : TCP_TCB → Prop) (ha : ALL_TCB_BUT P h tcpips) :
    ALL_TCB P (tcps_rx_closed plat sys tcpips io h) := by
  intro j tcb hg
  rw [tcps_rx_closed_get] at hg
  split at hg
  · cases hg
  · rename_i hj
    exact ha j tcb hj hg

theorem so_get_destroy_self (tcpips : TCPIPS) (h : HANDLE) :
    so_get (tcps_destroy_tcb tcpips h).tcps.tcbs h = none := by
  simp only [tcps_destroy_tcb, TCPIPS.with_tcbs, so_get_so_free, if_true]

theorem so_get_syn_ack_set (plat : Platform) (sys : Sys) (tcpips : TCPIPS) (h : HANDLE)
    (v : TCP_TCB) (hlt : h < tcpips.tcps.tcbs.size) :
    so_get (tcps_tx_syn_ack plat sys (tcpips.set_tcb h v) h).tcps.tcbs h = some v := by
  rw [tcps_tx_syn_ack_tcps, so_get_set_tcb, if_pos ⟨rfl, hlt⟩]

/-- After `tcps_rx_listen` the TCB of the call is gone or in SYN_RECEIVED. -/
theorem tcps_rx_listen_new (plat : Platform) (sys : Sys) (tcpips : TCPIPS) (io : Io)
    (h : HANDLE) :
    so_get (tcps_rx_listen plat sys tcpips io h).tcps.tcbs h = none
    ∨ ∃ t : TCP_TCB, so_get (tcps_rx_listen plat sys tcpips io h).tcps.tcbs h = some t
        ∧ t.state = TCP_STATE.SYN_RECEIVED := by
  unfold tcps_rx_listen
  split
  · exact Or.inl (so_get_destroy_self _ _)
  · split
    · exact Or.inl (so_get_destroy_self _ _)
    · split
      · split
        · rename_i hg
          exact Or.inl hg
        · rename_i tcb hg
          dsimp only
          exact Or.inr ⟨_, so_get_syn_ack_set plat sys tcpips h _ (so_get_lt hg), rfl⟩
      · exact Or.inl (so_get_destroy_self _ _)

theorem STATE_INV_listen (plat : Platform) (sys : Sys) (tcpips : TCPIPS) (io : Io)
    (h : HANDLE) (ha : ALL_TCB_BUT STATE_INV h tcpips) :
    ALL_TCB STATE_INV (tcps_rx_listen plat sys tcpips io h) := by
  unfold tcps_rx_listen
  split
  · exact ALL_TCB_destroy_but _ _ _ ha
  · split
    · refine ALL_TCB_destroy_but _ _ _ (ALL_TCB_BUT_of_tcbs _ _ tcpips _ ?_ ha)
      rw [tcps_tx_rst_tcps]
    · split
      · split
        · rename_i hg
          exact ALL_TCB_of_but _ h tcpips ha (fun tcb hg2 => by rw [hg] at hg2; cases hg2)
        · rename_i tcb hg
          dsimp only
          intro j t hg2
          rw [tcps_tx_syn_ack_tcps, so_get_set_tcb] at hg2
          split at hg2
          · cases hg2
            exact Or.inl rfl
          · rename_i hc
            by_cases hj : j = h
            · subst hj
              exact absurd ⟨rfl, so_get_lt hg⟩ hc
            · exact ha j t hj hg2
      · exact ALL_TCB_destroy_but _ _ _ ha

theorem STATE_INV_ack_switch (tcpips : TCPIPS) (tcb : TCP_TCB) (h : HANDLE)
    (ha : ALL_TCB STATE_INV tcpips) (hi : STATE_INV tcb) :
    ALL_TCB STATE_INV (tcps_rx_otw_ack_switch tcpips tcb h).2 := by
  unfold tcps_rx_otw_ack_switch
  rcases hi with hs | hs | hs
  · rw [hs]
    exact ALL_TCB_set_tcb _ _ _ _ ha (Or.inl hs)
  · rw [hs]
    exact ALL_TCB_set_tcb _ _ _ _ ha (Or.inr (Or.inl hs))
  · rw [hs]
    dsimp only
    split
    · exact ALL_TCB_destroy _ _ _ (ALL_TCB_set_tcb _ _ _ _ ha (Or.inr (Or.inr hs)))
    · exact ALL_TCB_set_tcb _ _ _ _ ha (Or.inr (Or.inr hs))

theorem STATE_INV_ack (plat : Platform) (sys : Sys) (tcpips : TCPIPS) (io : Io)
    (h : HANDLE) (ha : ALL_TCB STATE_INV tcpips) :
    ALL_TCB STATE_INV (tcps_rx_otw_ack plat sys tcpips io h).2 := by
  unfold tcps_rx_otw_ack
  cases hg : so_get tcpips.tcps.tcbs h with
  | none => exact ha
  | some tcb =>
    have hi := ha h tcb hg
    dsimp only
    split
    · split
      · exact ALL_TCB_of_tcbs _ (tcpips.set_tcb h (tcps_set_state tcb TCP_STATE.ESTABLISHED)) _ rfl
          (ALL_TCB_set_tcb _ _ _ _ ha (Or.inr (Or.inl rfl)))
      · refine ALL_TCB_of_tcbs _ tcpips _ ?_ ha
        rw [tcps_tx_rst_tcps]
    · split
      · refine ALL_TCB_of_tcbs _ tcpips _ ?_ ha
        rw [tcps_tx_ack_tcps]
      · refine STATE_INV_ack_switch tcpips _ h ha ?_
        split
        · exact hi
        · exact hi

theorem STATE_INV_text (plat : Platform) (tcpips : TCPIPS) (io : Io)
    (h : HANDLE) (ha : ALL_TCB STATE_INV tcpips) :
    ALL_TCB STATE_INV (tcps_rx_otw_text plat tcpips io h) := by
  unfold tcps_rx_otw_text
  cases hg : so_get tcpips.tcps.tcbs h with
  | none => exact ha
  | some tcb =>
    have hi := ha h tcb hg
    dsimp only
    split
    · split
      · obtain ⟨d1, _, _, _, _, d6⟩ := tcps_rx_otw_text_data_fields plat tcpips tcb io h
        refine ALL_TCB_set_tcb _ _ _ _ (ALL_TCB_of_tcbs _ tcpips _ (congrArg TCPS.tcbs d1) ha) ?_
        exact STATE_INV_congr tcb _ d6 hi
      · exact ha
    · exact ha

theorem STATE_INV_fin_switch (tcpips : TCPIPS) (tcb : TCP_TCB) (h : HANDLE)
    (ha : ALL_TCB STATE_INV tcpips) (hi : STATE_INV tcb) :
    ALL_TCB STATE_INV (tcps_rx_otw_fin_switch tcpips tcb h) := by
  unfold tcps_rx_otw_fin_switch
  rcases hi with hs | hs | hs
  · rw [hs]
    exact ALL_TCB_set_tcb _ _ _ _ ha (Or.inr (Or.inr rfl))
  · rw [hs]
    exact ALL_TCB_set_tcb _ _ _ _ (ALL_TCB_of_tcbs _ tcpips _ rfl ha) (Or.inr (Or.inr rfl))
  · rw [hs]
    exact ALL_TCB_set_tcb _ _ _ _ ha (Or.inr (Or.inr hs))

theorem STATE_INV_fin (tcpips : TCPIPS) (h : HANDLE) (ha : ALL_TCB STATE_INV tcpips) :
    ALL_TCB STATE_INV (tcps_rx_otw_fin tcpips h) := by
  unfold tcps_rx_otw_fin
  cases hg : so_get tcpips.tcps.tcbs h with
  | none => exact ha
  | some tcb =>
    refine STATE_INV_fin_switch tcpips _ h ha ?_
    dsimp only
    split
    · exact ha h tcb hg
    · exact ha h tcb hg

theorem STATE_INV_send (plat : Platform) (sys : Sys) (tcpips : TCPIPS) (h : HANDLE)
    (ha : ALL_TCB STATE_INV tcpips) :
    ALL_TCB STATE_INV (tcps_rx_send plat sys tcpips h) := by
  unfold tcps_rx_send
  cases hg : so_get tcpips.tcps.tcbs h with
  | none => exact ha
  | some tcb =>
    have hi := ha h tcb hg
    dsimp only
    split
    · exact ALL_TCB_set_tcb _ _ _ _ ha hi
    · split
      · exact ha
      · refine ALL_TCB_of_tcbs _ tcpips _ ?_ ha
        rw [tcps_tx_text_ack_fin_tcps]

theorem STATE_INV_otw (plat : Platform) (sys : Sys) (tcpips : TCPIPS) (io : Io) (h : HANDLE)
    (ha : ALL_TCB STATE_INV tcpips) :
    ALL_TCB STATE_INV (tcps_rx_otw plat sys tcpips io h) := by
  unfold tcps_rx_otw
  have hc : ALL_TCB STATE_INV (tcps_rx_otw_check_seq plat sys tcpips io h).2.2 :=
    ALL_TCB_of_tcbs _ tcpips _ (congrArg TCPS.tcbs (tcps_rx_otw_check_seq_tcps _ _ _ _ _)) ha
  dsimp only
  split
  · exact hc
  · split
    · exact ALL_TCB_destroy _ _ _ hc
    · split
      · split
        · exact STATE_INV_ack _ _ _ _ _ hc
        · apply STATE_INV_send
          split
          · apply STATE_INV_fin
            apply STATE_INV_text
            exact STATE_INV_ack _ _ _ _ _ hc
          · apply STATE_INV_text
            exact STATE_INV_ack _ _ _ _ _ hc
      · exact hc

theorem STATE_INV_process (plat : Platform) (sys : Sys) (tcpips : TCPIPS) (io : Io)
    (h : HANDLE) (hb : ALL_TCB_BUT STATE_INV h tcpips)
    (hh : ∀ tcb, so_get tcpips.tcps.tcbs h = some tcb →
      STATE_INV tcb ∨ tcb.state = TCP_STATE.CLOSED ∨ tcb.state = TCP_STATE.LISTEN) :
    ALL_TCB STATE_INV (tcps_rx_process plat sys tcpips io h) := by
  unfold tcps_rx_process
  cases hg : so_get tcpips.tcps.tcbs h with
  | none => exact ALL_TCB_of_but _ h tcpips hb (fun tcb hg2 => by rw [hg] at hg2; cases hg2)
  | some tcb =>
    dsimp only
    have hall : STATE_INV tcb → ALL_TCB STATE_INV tcpips := fun hi =>
      ALL_TCB_of_but _ h tcpips hb (fun t hg2 => by rw [hg] at hg2; cases hg2; exact hi)
    rcases hh tcb hg with (hs | hs | hs) | hs | hs
    · rw [hs]
      exact STATE_INV_otw _ _ _ _ _ (hall (Or.inl hs))
    · rw [hs]
      exact STATE_INV_otw _ _ _ _ _ (hall (Or.inr (Or.inl hs)))
    · rw [hs]
      exact STATE_INV_otw _ _ _ _ _ (hall (Or.inr (Or.inr hs)))
    · rw [hs]
      exact STATE_INV_closed _ _ _ _ _ _ hb
    · rw [hs]
      exact STATE_INV_listen _ _ _ _ _ hb

/-- After `tcps_rx_process` a TCB that was in CLOSED or LISTEN is gone or in
SYN_RECEIVED. -/
theorem tcps_rx_process_new (plat : Platform) (sys : Sys) (tcpips : TCPIPS) (io : Io)
    (h : HANDLE) (tcb : TCP_TCB) (hg : so_get tcpips.tcps.tcbs h = some tcb)
    (hs : tcb.state = TCP_STATE.CLOSED ∨ tcb.state = TCP_STATE.LISTEN) :
    so_get (tcps_rx_process plat sys tcpips io h).tcps.tcbs h = none
    ∨ ∃ t : TCP_TCB, so_get (tcps_rx_process plat sys tcpips io h).tcps.tcbs h = some t
        ∧ t.state = TCP_STATE.SYN_RECEIVED := by
  unfold tcps_rx_process
  rw [hg]
  dsimp only
  rcases hs with hs | hs
  · rw [hs]
    left
    show so_get (tcps_rx_closed plat sys tcpips io h).tcps.tcbs h = none
    rw [tcps_rx_closed_get, if_pos rfl]
  · rw [hs]
    exact tcps_rx_listen_new plat sys tcpips io h

theorem STATE_INV_read (plat : Platform) (tcpips : TCPIPS) (h : HANDLE) (io : Io)
    (ha : ALL_TCB STATE_INV tcpips) :
    ALL_TCB STATE_INV (tcps_read plat tcpips h io) := by
  unfold tcps_read
  cases hg : so_get tcpips.tcps.tcbs h with
  | none => exact ha
  | some tcb =>
    have hi := ha h tcb hg
    dsimp only
    split
    · exact ALL_TCB_of_tcbs _ tcpips _ rfl ha
    · split
      · cases htmp : tcb.rx_tmp with
        | none =>
          dsimp only
          exact ALL_TCB_set_tcb _ _ _ _ (ALL_TCB_of_tcbs _ tcpips _ rfl ha)
            (STATE_INV_congr tcb _ rfl hi)
        | some tmp =>
          dsimp only
          split
          · refine ALL_TCB_of_tcbs _ (TCPIPS.set_tcb _ h _) _ rfl
              (ALL_TCB_set_tcb _ _ _ _ ?_ (STATE_INV_congr tcb _ rfl hi))
            split
            · exact ALL_TCB_of_tcbs _ tcpips _ rfl ha
            · exact ALL_TCB_of_tcbs _ tcpips _ rfl ha
          · refine ALL_TCB_set_tcb _ _ _ _ ?_ (STATE_INV_congr tcb _ rfl hi)
            split
            · exact ALL_TCB_of_tcbs _ tcpips _ rfl ha
            · exact ALL_TCB_of_tcbs _ tcpips _ rfl ha
      · exact ALL_TCB_of_tcbs _ tcpips _ rfl ha

theorem ALL_TCB_request (P : TCP_TCB → Prop) (plat : Platform) (sys : Sys) (tcpips : TCPIPS)
    (ipc : IPC) (io : Io) (ha : ALL_TCB P tcpips)
    (hread : ALL_TCB P (tcps_read plat tcpips ipc.param1 io)) :
    ALL_TCB P (tcps_request plat sys tcpips ipc io).1 := by
  unfold tcps_request
  split
  · exact ALL_TCB_of_tcbs _ tcpips _ rfl ha
  · split
    · split
      · exact ALL_TCB_of_tcbs _ tcpips _ (tcps_listen_tcbs sys tcpips ipc) ha
      · exact ALL_TCB_of_tcbs _ tcpips _ rfl ha
    · exact ha
    · exact hread
    · exact ha
    · exact ha
    · exact ALL_TCB_of_tcbs _ tcpips _ rfl ha

/-- The stages of a call of `tcps_rx` that returns, with the reason of a
release without processing: the handle is invalid or holds no TCB; a TCB is
bound to a listener only under a valid handle. -/
theorem tcps_rx_paths (plat : Platform) (sys : Sys) (tcpips r : TCPIPS) (io : Io) (src : IP)
    (hr : tcps_rx plat sys tcpips io src = some r) :
    r = ips_release_io tcpips io
    ∨ ∃ (p : TCPIPS) (h : HANDLE),
        ((tcps_find_tcb tcpips src (tcp_src_port io) (tcp_dst_port io) ≠ INVALID_HANDLE
            ∧ h = tcps_find_tcb tcpips src (tcp_src_port io) (tcp_dst_port io) ∧ p = tcpips)
          ∨ (tcps_find_tcb tcpips src (tcp_src_port io) (tcp_dst_port io) = INVALID_HANDLE
            ∧ h = (tcps_create_tcb plat sys tcpips src (tcp_src_port io) (tcp_dst_port io)).1
            ∧ (p = (tcps_create_tcb plat sys tcpips src (tcp_src_port io) (tcp_dst_port io)).2
              ∨ ∃ tcb : TCP_TCB, h ≠ INVALID_HANDLE
                  ∧ so_get (tcps_create_tcb plat sys tcpips src (tcp_src_port io)
                    (tcp_dst_port io)).2.tcps.tcbs h = some tcb
                  ∧ p = (tcps_create_tcb plat sys tcpips src (tcp_src_port io)
                      (tcp_dst_port io)).2.set_tcb h
                      { tcb with
                        state := TCP_STATE.LISTEN, active := false
                        process := tcps_find_listener
                          (tcps_create_tcb plat sys tcpips src (tcp_src_port io)
                            (tcp_dst_port io)).2 (tcp_dst_port io) })))
        ∧ ((r = ips_release_io p io
            ∧ (h = INVALID_HANDLE ∨ so_get p.tcps.tcbs h = none))
          ∨ ∃ (tcb : TCP_TCB) (o : TCPIPS × TCP_TCB),
              h ≠ INVALID_HANDLE ∧ so_get p.tcps.tcbs h = some tcb
              ∧ tcps_apply_options plat p io tcb = some o
              ∧ (r = tcps_rx_process plat sys
                    (o.1.set_tcb h { o.2 with tx_wnd := tcp_window io }) io h
                ∨ r = ips_release_io (tcps_rx_process plat sys
                    (o.1.set_tcb h { o.2 with tx_wnd := tcp_window io }) io h) io)) := by
  unfold tcps_rx at hr
  split at hr
  · left
    cases hr
    rfl
  · right
    dsimp only at hr
    obtain ⟨p, hp⟩ : ∃ p : HANDLE × TCPIPS, p =
        (if tcps_find_tcb tcpips src (tcp_src_port io) (tcp_dst_port io) = INVALID_HANDLE then
          if (tcps_create_tcb plat sys tcpips src (tcp_src_port io) (tcp_dst_port io)).1
              ≠ INVALID_HANDLE then
            if tcps_find_listener
                (tcps_create_tcb plat sys tcpips src (tcp_src_port io) (tcp_dst_port io)).2
                (tcp_dst_port io) ≠ INVALID_HANDLE then
              match so_get
                (tcps_create_tcb plat sys tcpips src (tcp_src_port io)
                  (tcp_dst_port io)).2.tcps.tcbs
                (tcps_create_tcb plat sys tcpips src (tcp_src_port io) (tcp_dst_port io)).1 with
              | none => tcps_create_tcb plat sys tcpips src (tcp_src_port io) (tcp_dst_port io)
              | some tcb =>
                ((tcps_create_tcb plat sys tcpips src (tcp_src_port io) (tcp_dst_port io)).1,
                  (tcps_create_tcb plat sys tcpips src (tcp_src_port io)
                    (tcp_dst_port io)).2.set_tcb
                    (tcps_create_tcb plat sys tcpips src (tcp_src_port io) (tcp_dst_port io)).1
                    { tcb with
                      state := TCP_STATE.LISTEN, active := false
                      process := tcps_find_listener
                        (tcps_create_tcb plat sys tcpips src (tcp_src_port io)
                          (tcp_dst_port io)).2 (tcp_dst_port io) })
            else tcps_create_tcb plat sys tcpips src (tcp_src_port io) (tcp_dst_port io)
          else tcps_create_tcb plat sys tcpips src (tcp_src_port io) (tcp_dst_port io)
        else (tcps_find_tcb tcpips src (tcp_src_port io) (tcp_dst_port io), tcpips)) := ⟨_, rfl⟩
    rw [← hp] at hr
    refine ⟨p.2, p.1, ?_, ?_⟩
    · rw [hp]
      split
      · rename_i hf
        right
        split
        · rename_i hc
          split
          · split
            · exact ⟨hf, rfl, Or.inl rfl⟩
            · rename_i tcb hg
              exact ⟨hf, rfl, Or.inr ⟨tcb, hc, hg, rfl⟩⟩
          · exact ⟨hf, rfl, Or.inl rfl⟩
        · exact ⟨hf, rfl, Or.inl rfl⟩
      · rename_i hf
        left
        exact ⟨hf, rfl, rfl⟩
    · split at hr
      · rename_i hh
        split at hr
        · rename_i hn
          cases hr
          left
          exact ⟨rfl, Or.inr hn⟩
        · rename_i tcb hg
          split at hr
          · cases hr
          · rename_i o ho
            right
            refine ⟨tcb, o, hh, hg, ho, ?_⟩
            split at hr
            · cases hr
              left
              rfl
            · cases hr
              right
              rfl
      · rename_i hh
        cases hr
        left
        exact ⟨rfl, Or.inl (not_not.mp hh)⟩

theorem STATE_INV_rx (plat : Platform) (sys : Sys) (tcpips r : TCPIPS) (io : Io) (src : IP)
    (ha : ALL_TCB STATE_INV tcpips) (hr : tcps_rx plat sys tcpips io src = some r) :
    ALL_TCB STATE_INV r
    ∧ (tcps_find_tcb tcpips src (tcp_src_port io) (tcp_dst_port io) = INVALID_HANDLE →
        (tcps_create_tcb plat sys tcpips src (tcp_src_port io) (tcp_dst_port io)).1
          ≠ INVALID_HANDLE →
        so_get r.tcps.tcbs
            (tcps_create_tcb plat sys tcpips src (tcp_src_port io) (tcp_dst_port io)).1 = none
        ∨ ∃ t : TCP_TCB, so_get r.tcps.tcbs
            (tcps_create_tcb plat sys tcpips src (tcp_src_port io) (tcp_dst_port io)).1 = some t
          ∧ t.state = TCP_STATE.SYN_RECEIVED) := by
  have hcr : ∀ hc : (tcps_create_tcb plat sys tcpips src (tcp_src_port io)
      (tcp_dst_port io)).1 ≠ INVALID_HANDLE,
      so_get tcpips.tcps.tcbs
          (tcps_create_tcb plat sys tcpips src (tcp_src_port io) (tcp_dst_port io)).1 = none
      ∧ (∃ v : TCP_TCB, so_get (tcps_create_tcb plat sys tcpips src (tcp_src_port io)
            (tcp_dst_port io)).2.tcps.tcbs
            (tcps_create_tcb plat sys tcpips src (tcp_src_port io) (tcp_dst_port io)).1 = some v
          ∧ v.state = TCP_STATE.CLOSED)
      ∧ ∀ j, j ≠ (tcps_create_tcb plat sys tcpips src (tcp_src_port io) (tcp_dst_port io)).1 →
          so_get (tcps_create_tcb plat sys tcpips src (tcp_src_port io)
            (tcp_dst_port io)).2.tcps.tcbs j = so_get tcpips.tcps.tcbs j := by
    intro hc
    unfold tcps_create_tcb at hc ⊢
    obtain ⟨h1, h2, h3⟩ := so_allocate_spec tcpips.tcps.tcbs sys.so_ok _ hc
    exact ⟨h1, ⟨_, h2, rfl⟩, h3⟩
  have hci : (tcps_create_tcb plat sys tcpips src (tcp_src_port io) (tcp_dst_port io)).1
      = INVALID_HANDLE →
      (tcps_create_tcb plat sys tcpips src (tcp_src_port io) (tcp_dst_port io)).2.tcps.tcbs
        = tcpips.tcps.tcbs := by
    intro hc
    unfold tcps_create_tcb at hc ⊢
    simp only [TCPIPS.with_tcbs]
    exact so_allocate_invalid _ _ _ hc
  rcases tcps_rx_paths plat sys tcpips r io src hr with h0 | ⟨p, h, hp, hrest⟩
  · rw [h0]
    exact ⟨ALL_TCB_of_tcbs _ tcpips _ rfl ha, fun _ hc => Or.inl (hcr hc).1⟩
  · rcases hp with ⟨hf, _, e⟩ | ⟨hf, eh, e⟩
    · -- the TCB was found
      refine ⟨?_, fun hf2 => absurd hf2 hf⟩
      subst e
      rcases hrest with ⟨e, _⟩ | ⟨tcb, o, _, hg, ho, e⟩
      · rw [e]
        exact ALL_TCB_of_tcbs _ p _ rfl ha
      · obtain ⟨⟨l, hl⟩, ⟨m, hm⟩⟩ := tcps_apply_options_frame _ _ _ _ _ ho
        have hq : ALL_TCB STATE_INV (tcps_rx_process plat sys
            (o.1.set_tcb h { o.2 with tx_wnd := tcp_window io }) io h) := by
          have hx : ALL_TCB STATE_INV (o.1.set_tcb h { o.2 with tx_wnd := tcp_window io }) := by
            refine ALL_TCB_set_tcb _ _ _ _ ?_ ?_
            · rw [hl]
              exact ALL_TCB_of_tcbs _ p _ rfl ha
            · rw [hm]
              exact STATE_INV_congr tcb _ rfl (ha h tcb hg)
          exact STATE_INV_process plat sys _ io h (fun j t _ hg2 => hx j t hg2)
            (fun t hg2 => Or.inl (hx h t hg2))
        rcases e with e | e
        · rw [e]; exact hq
        · rw [e]; exact ALL_TCB_of_tcbs _ _ _ rfl hq
    · -- the TCB was created
      subst eh
      have hpb : ALL_TCB_BUT STATE_INV
          (tcps_create_tcb plat sys tcpips src (tcp_src_port io) (tcp_dst_port io)).1 p := by
        by_cases hc : (tcps_create_tcb plat sys tcpips src (tcp_src_port io)
            (tcp_dst_port io)).1 = INVALID_HANDLE
        · rcases e with e | ⟨tcb, hv, _, _⟩
          · rw [e]
            exact ALL_TCB_BUT_of_tcbs _ _ tcpips _ (hci hc) (fun j t _ hg2 => ha j t hg2)
          · exact absurd hc hv
        · have hb : ALL_TCB_BUT STATE_INV
              (tcps_create_tcb plat sys tcpips src (tcp_src_port io) (tcp_dst_port io)).1
              (tcps_create_tcb plat sys tcpips src (tcp_src_port io) (tcp_dst_port io)).2 := by
            intro j t hj hg2
            rw [(hcr hc).2.2 j hj] at hg2
            exact ha j t hg2
          rcases e with e | ⟨tcb, _, _, e⟩
          · rw [e]; exact hb
          · rw [e]; exact ALL_TCB_BUT_set_tcb _ _ _ _ hb
      have hph : ∀ t, (tcps_create_tcb plat sys tcpips src (tcp_src_port io)
            (tcp_dst_port io)).1 ≠ INVALID_HANDLE →
          so_get p.tcps.tcbs
            (tcps_create_tcb plat sys tcpips src (tcp_src_port io) (tcp_dst_port io)).1 = some t →
          t.state = TCP_STATE.CLOSED ∨ t.state = TCP_STATE.LISTEN := by
        intro t hc hg2
        rcases e with e | ⟨tcb, _, hg3, e⟩
        · obtain ⟨_, ⟨v, hv, hvs⟩, _⟩ := hcr hc
          rw [e, hv] at hg2
          cases hg2
          exact Or.inl hvs
        · rw [e, so_get_set_tcb, if_pos ⟨rfl, so_get_lt hg3⟩] at hg2
          cases hg2
          exact Or.inr rfl
      rcases hrest with ⟨e2, hwhy⟩ | ⟨tcb, o, hv, hg, ho, e2⟩
      · have hnone : (tcps_create_tcb plat sys tcpips src (tcp_src_port io)
              (tcp_dst_port io)).1 ≠ INVALID_HANDLE →
            so_get p.tcps.tcbs
              (tcps_create_tcb plat sys tcpips src (tcp_src_port io) (tcp_dst_port io)).1 = none →
            False := by
          intro hc hn
          rcases e with e | ⟨tcb, _, hg3, e⟩
          · obtain ⟨_, ⟨v, hv, _⟩, _⟩ := hcr hc
            rw [e, hv] at hn
            cases hn
          · rw [e, so_get_set_tcb, if_pos ⟨rfl, so_get_lt hg3⟩] at hn
            cases hn
        have hinv : (tcps_create_tcb plat sys tcpips src (tcp_src_port io)
            (tcp_dst_port io)).1 = INVALID_HANDLE := by
          rcases hwhy with hw | hw
          · exact hw
          · by_contra hc
            exact hnone hc hw
        refine ⟨?_, fun _ hc => absurd hinv hc⟩
        rw [e2]
        refine ALL_TCB_of_tcbs _ p _ rfl (ALL_TCB_of_but _ _ p hpb ?_)
        intro t hg2
        rcases e with e | ⟨tcb, hv, _, _⟩
        · rw [e, hci hinv] at hg2
          exact ha _ t hg2
        · exact absurd hinv hv
      · obtain ⟨⟨l, hl⟩, ⟨m, hm⟩⟩ := tcps_apply_options_frame _ _ _ _ _ ho
        have hlt : (tcps_create_tcb plat sys tcpips src (tcp_src_port io)
            (tcp_dst_port io)).1 < o.1.tcps.tcbs.size := by
          rw [hl]
          exact so_get_lt hg
        have hxb : ALL_TCB_BUT STATE_INV
            (tcps_create_tcb plat sys tcpips src (tcp_src_port io) (tcp_dst_port io)).1
            (o.1.set_tcb
              (tcps_create_tcb plat sys tcpips src (tcp_src_port io) (tcp_dst_port io)).1
              { o.2 with tx_wnd := tcp_window io }) := by
          refine ALL_TCB_BUT_set_tcb _ _ _ _ ?_
          rw [hl]
          exact ALL_TCB_BUT_of_tcbs _ _ p _ rfl hpb
        have hxg : so_get (o.1.set_tcb
              (tcps_create_tcb plat sys tcpips src (tcp_src_port io) (tcp_dst_port io)).1
              { o.2 with tx_wnd := tcp_window io }).tcps.tcbs
              (tcps_create_tcb plat sys tcpips src (tcp_src_port io) (tcp_dst_port io)).1
            = some { o.2 with tx_wnd := tcp_window io } := by
          rw [so_get_set_tcb, if_pos ⟨rfl, hlt⟩]
        have hxs : ({ o.2 with tx_wnd := tcp_window io } : TCP_TCB).state = TCP_STATE.CLOSED
            ∨ ({ o.2 with tx_wnd := tcp_window io } : TCP_TCB).state = TCP_STATE.LISTEN := by
          rw [hm]
          exact hph tcb hv hg
        have hq := STATE_INV_process plat sys _ io _ hxb (fun t hg2 => by
          rw [hxg] at hg2
          cases hg2
          exact Or.inr hxs)
        have hn := tcps_rx_process_new plat sys _ io _ _ hxg hxs
        rcases e2 with e2 | e2
        · rw [e2]
          exact ⟨hq, fun _ _ => hn⟩
        · rw [e2]
          exact ⟨ALL_TCB_of_tcbs _ _ _ rfl hq, fun _ _ => hn⟩

theorem STATE_INV_reachable (plat : Platform) (tcpips : TCPIPS) (hr : Reachable plat tcpips) :
    ALL_TCB STATE_INV tcpips := by
  induction hr with
  | init t =>
    intro h tcb hg
    simp [tcps_init, so_create, so_get] at hg
  | rx t r sys io src _ hrx ih => exact (STATE_INV_rx plat sys t r io src ih hrx).1
  | request t sys ipc io _ ih =>
    exact ALL_TCB_request _ plat sys t ipc io ih (STATE_INV_read plat t _ io ih)
  | link t up _ ih => exact ALL_TCB_of_tcbs _ t _ rfl ih

/-- C38. In every state reached from `tcps_init` by calls of `tcps_rx` and
`tcps_request` that have returned, every TCB of the table is in SYN_RECEIVED,
ESTABLISHED or LAST_ACK, hence in none of CLOSED, LISTEN, SYN_SENT,
FIN_WAIT_1, FIN_WAIT_2, CLOSING and TIME_WAIT.  The TCB that
`tcps_create_tcb` enters into the table is in CLOSED; and when a call of
`tcps_rx` in a reachable state that finds no TCB for the segment creates one
(in CLOSED, or in LISTEN once bound to a listener), then after the call the
table holds under its handle either nothing (the TCB was destroyed) or a TCB
in SYN_RECEIVED. -/
theorem tcb_states (plat : Platform) :
    (∀ (tcpips : TCPIPS) (h : HANDLE) (tcb : TCP_TCB), Reachable plat tcpips →
        so_get tcpips.tcps.tcbs h = some tcb →
        (tcb.state = TCP_STATE.SYN_RECEIVED ∨ tcb.state = TCP_STATE.ESTABLISHED
          ∨ tcb.state = TCP_STATE.LAST_ACK)
        ∧ tcb.state ≠ TCP_STATE.CLOSED ∧ tcb.state ≠ TCP_STATE.LISTEN
        ∧ tcb.state ≠ TCP_STATE.SYN_SENT ∧ tcb.state ≠ TCP_STATE.FIN_WAIT_1
        ∧ tcb.state ≠ TCP_STATE.FIN_WAIT_2 ∧ tcb.state ≠ TCP_STATE.CLOSING
        ∧ tcb.state ≠ TCP_STATE.TIME_WAIT)
    ∧ (∀ (sys : Sys) (tcpips : TCPIPS) (a : IP) (p q : Nat),
        (tcps_create_tcb plat sys tcpips a p q).1 ≠ INVALID_HANDLE →
        (so_get (tcps_create_tcb plat sys tcpips a p q).2.tcps.tcbs
            (tcps_create_tcb plat sys tcpips a p q).1).map (fun t => t.state)
          = some TCP_STATE.CLOSED)
    ∧ (∀ (sys : Sys) (tcpips r : TCPIPS) (io : Io) (src : IP), Reachable plat tcpips →
        tcps_rx plat sys tcpips io src = some r →
        tcps_find_tcb tcpips src (tcp_src_port io) (tcp_dst_port io) = INVALID_HANDLE →
        (tcps_create_tcb plat sys tcpips src (tcp_src_port io) (tcp_dst_port io)).1
          ≠ INVALID_HANDLE →
        so_get r.tcps.tcbs
            (tcps_create_tcb plat sys tcpips src (tcp_src_port io) (tcp_dst_port io)).1 = none
        ∨ ∃ t : TCP_TCB, so_get r.tcps.tcbs
            (tcps_create_tcb plat sys tcpips src (tcp_src_port io) (tcp_dst_port io)).1 = some t
          ∧ t.state = TCP_STATE.SYN_RECEIVED) := by
  refine ⟨?_, ?_, ?_⟩
  · intro tcpips h tcb hr hg
    have hi := STATE_INV_reachable plat tcpips hr h tcb hg
    refine ⟨hi, ?_⟩
    rcases hi with hs | hs | hs <;> rw [hs] <;> decide
  · intro sys tcpips a p q hh
    unfold tcps_create_tcb at hh ⊢
    obtain ⟨_, hnew, _⟩ := so_allocate_spec tcpips.tcps.tcbs sys.so_ok _ hh
    simp only [TCPIPS.with_tcbs]
    rw [hnew]
    rfl
  · intro sys tcpips r io src hr hrx hf hc
    exact (STATE_INV_rx plat sys tcpips r io src (STATE_INV_reachable plat tcpips hr) hrx).2 hf hc

/-! ## The posted buffer and the overflow buffer -/

theorem RX_INV_congr (a b : TCP_TCB) (h1 : b.rx = a.rx) (h2 : b.rx_tmp = a.rx_tmp)
    (ha : RX_INV a) : RX_INV b := by
  unfold RX_INV at *
  rw [h1, h2]
  exact ha

theorem RX_INV_listen (plat : Platform) (sys : Sys) (tcpips : TCPIPS) (io : Io)
    (h : HANDLE) (ha : ALL_TCB RX_INV tcpips) :
    ALL_TCB RX_INV (tcps_rx_listen plat sys tcpips io h) := by
  unfold tcps_rx_listen
  split
  · exact ALL_TCB_destroy _ _ _ ha
  · split
    · refine ALL_TCB_destroy _ _ _ (ALL_TCB_of_tcbs _ tcpips _ ?_ ha)
      rw [tcps_tx_rst_tcps]
    · split
      · split
        · exact ha
        · rename_i tcb hg
          dsimp only
          intro j t hg2
          rw [tcps_tx_syn_ack_tcps, so_get_set_tcb] at hg2
          split at hg2
          · cases hg2
            exact RX_INV_congr tcb _ rfl rfl (ha h tcb hg)
          · exact ha j t hg2
      · exact ALL_TCB_destroy _ _ _ ha

theorem RX_INV_ack_switch (tcpips : TCPIPS) (tcb : TCP_TCB) (h : HANDLE)
    (ha : ALL_TCB RX_INV tcpips) (hi : RX_INV tcb) :
    ALL_TCB RX_INV (tcps_rx_otw_ack_switch tcpips tcb h).2 := by
  unfold tcps_rx_otw_ack_switch
  split
  · refine ALL_TCB_set_tcb _ _ _ _ ha ?_
    split
    · exact RX_INV_congr tcb _ rfl rfl hi
    · exact hi
  · refine ALL_TCB_set_tcb _ _ _ _ ha ?_
    split
    · exact RX_INV_congr tcb _ rfl rfl hi
    · exact hi
  · split
    · exact ALL_TCB_destroy _ _ _ (ALL_TCB_set_tcb _ _ _ _ ha hi)
    · exact ALL_TCB_set_tcb _ _ _ _ ha hi
  · exact ALL_TCB_set_tcb _ _ _ _ ha hi

theorem RX_INV_ack (plat : Platform) (sys : Sys) (tcpips : TCPIPS) (io : Io)
    (h : HANDLE) (ha : ALL_TCB RX_INV tcpips) :
    ALL_TCB RX_INV (tcps_rx_otw_ack plat sys tcpips io h).2 := by
  unfold tcps_rx_otw_ack
  cases hg : so_get tcpips.tcps.tcbs h with
  | none => exact ha
  | some tcb =>
    have hi := ha h tcb hg
    dsimp only
    split
    · split
      · exact ALL_TCB_of_tcbs _ (tcpips.set_tcb h (tcps_set_state tcb TCP_STATE.ESTABLISHED)) _ rfl
          (ALL_TCB_set_tcb _ _ _ _ ha (RX_INV_congr tcb _ rfl rfl hi))
      · refine ALL_TCB_of_tcbs _ tcpips _ ?_ ha
        rw [tcps_tx_rst_tcps]
    · split
      · refine ALL_TCB_of_tcbs _ tcpips _ ?_ ha
        rw [tcps_tx_ack_tcps]
      · refine RX_INV_ack_switch tcpips _ h ha ?_
        split
        · exact RX_INV_congr tcb _ rfl rfl hi
        · exact hi

/-- The user block of `tcps_rx_otw_text`: `rx_tmp` is not touched; the buffer
stays posted only when all the data of the segment went into it; and when data
are left over, the buffer was filled and completed. -/
theorem tcps_rx_otw_text_user_rx (plat : Platform) (tcpips : TCPIPS) (tcb : TCP_TCB)
    (rx : Io) (io : Io) (h : HANDLE) (t : TEXT) :
    (tcps_rx_otw_text_user plat tcpips tcb rx io h t).2.1.rx_tmp = tcb.rx_tmp
    ∧ ((tcps_rx_otw_text_user plat tcpips tcb rx io h t).2.2.data_size = 0
      ∨ ((tcps_rx_otw_text_user plat tcpips tcb rx io h t).2.1.rx = none
        ∧ ∃ c : IO_COMPLETE,
            (tcps_rx_otw_text_user plat tcpips tcb rx io h t).1.completed
              = tcpips.completed ++ [c]
            ∧ c.io.addr = rx.addr ∧ io_get_free c.io = 0
            ∧ c.cmd = HAL_IO_CMD HAL.HAL_TCP IPC_ITEM.IPC_READ ∧ c.process = tcb.process)) := by
  unfold tcps_rx_otw_text_user
  dsimp only
  constructor
  · split_ifs <;> rfl
  · by_cases hfit : t.data_size > io_get_free rx
    · right
      have hfull : u32i ((rx.size : Int) - (u32 (rx.data_size + io_get_free rx) : Nat)) = 0 := by
        simp only [io_get_free, u32i, u32]
        omega
      by_cases hu : t.urg = 0 <;> cases hp : has_flag io TCP_FLAG_PSH <;>
        simp only [hfit, hu, ne_eq, not_true_eq_false, not_false_eq_true, if_true, if_false,
          Bool.false_eq_true, or_false, or_true]
      all_goals
        first
        | exact ⟨trivial, _, rfl, rfl, hfull, rfl, rfl⟩
        | (split
           · exact ⟨rfl, _, rfl, rfl, hfull, rfl, rfl⟩
           · rename_i hno
             exact absurd hfull hno)
    · left
      simp only [hfit, if_false]
      have : u32i ((t.data_size : Int) - (t.data_size : Nat)) = 0 := by
        simp only [u32i]
        omega
      split_ifs <;> exact this

theorem tcps_rx_otw_text_queue_rx (plat : Platform) (tcb : TCP_TCB) (io : Io) (t : TEXT) :
    (tcps_rx_otw_text_queue plat tcb io t).rx = tcb.rx
    ∧ (t.data_size = 0 → tcps_rx_otw_text_queue plat tcb io t = tcb) := by
  unfold tcps_rx_otw_text_queue
  constructor
  · split
    · cases tcb.rx_tmp <;> rfl
    · rfl
  · intro h0
    rw [if_neg (not_not.mpr h0)]

theorem RX_INV_text_data (plat : Platform) (tcpips : TCPIPS) (tcb : TCP_TCB) (io : Io)
    (h : HANDLE) (hi : RX_INV tcb) :
    RX_INV (tcps_rx_otw_text_data plat tcpips tcb io h).2 := by
  unfold tcps_rx_otw_text_data
  dsimp only
  cases hrx : tcb.rx with
  | none =>
    dsimp only
    left
    rw [(tcps_rx_otw_text_queue_rx plat _ _ _).1]
  | some rx =>
    dsimp only
    have htmp : tcb.rx_tmp = none := by
      rcases hi with hi | hi
      · rw [hrx] at hi; cases hi
      · exact hi
    obtain ⟨u1, u2⟩ := tcps_rx_otw_text_user_rx plat tcpips
      { tcb with rx := some rx, rcv_nxt := u32 (tcb.rcv_nxt + tcps_data_len io) } rx
      (tcps_rx_otw_text_urg io (tcps_data_len io)).2 h
      { data_offset := tcps_data_offset io, data_size := tcps_data_len io
        urg := (tcps_rx_otw_text_urg io (tcps_data_len io)).1 }
    rcases u2 with u2 | ⟨u2, _⟩
    · rw [(tcps_rx_otw_text_queue_rx plat _ _ _).2 u2]
      right
      rw [u1]
      exact htmp
    · left
      rw [(tcps_rx_otw_text_queue_rx plat _ _ _).1]
      exact u2

theorem RX_INV_text (plat : Platform) (tcpips : TCPIPS) (io : Io)
    (h : HANDLE) (ha : ALL_TCB RX_INV tcpips) :
    ALL_TCB RX_INV (tcps_rx_otw_text plat tcpips io h) := by
  unfold tcps_rx_otw_text
  cases hg : so_get tcpips.tcps.tcbs h with
  | none => exact ha
  | some tcb =>
    have hi := ha h tcb hg
    dsimp only
    split
    · split
      · obtain ⟨d1, _⟩ := tcps_rx_otw_text_data_fields plat tcpips tcb io h
        refine ALL_TCB_set_tcb _ _ _ _ (ALL_TCB_of_tcbs _ tcpips _ (congrArg TCPS.tcbs d1) ha) ?_
        exact RX_INV_congr _ _ rfl rfl (RX_INV_text_data plat tcpips tcb io h hi)
      · exact ha
    · exact ha

theorem RX_INV_fin_switch (tcpips : TCPIPS) (tcb : TCP_TCB) (h : HANDLE)
    (ha : ALL_TCB RX_INV tcpips) (hi : RX_INV tcb) :
    ALL_TCB RX_INV (tcps_rx_otw_fin_switch tcpips tcb h) := by
  unfold tcps_rx_otw_fin_switch
  split
  · exact ALL_TCB_set_tcb _ _ _ _ (ALL_TCB_of_tcbs _ tcpips _ rfl ha)
      (RX_INV_congr tcb _ rfl rfl hi)
  · exact ALL_TCB_set_tcb _ _ _ _ ha (RX_INV_congr tcb _ rfl rfl hi)
  · refine ALL_TCB_set_tcb _ _ _ _ ha ?_
    split
    · exact RX_INV_congr tcb _ rfl rfl hi
    · exact RX_INV_congr tcb _ rfl rfl hi
  · exact ALL_TCB_set_tcb _ _ _ _ ha (RX_INV_congr tcb _ rfl rfl hi)
  · exact ALL_TCB_set_tcb _ _ _ _ ha hi

theorem RX_INV_fin (tcpips : TCPIPS) (h : HANDLE) (ha : ALL_TCB RX_INV tcpips) :
    ALL_TCB RX_INV (tcps_rx_otw_fin tcpips h) := by
  unfold tcps_rx_otw_fin
  cases hg : so_get tcpips.tcps.tcbs h with
  | none => exact ha
  | some tcb =>
    refine RX_INV_fin_switch tcpips _ h ha ?_
    dsimp only
    split
    · exact RX_INV_congr tcb _ rfl rfl (ha h tcb hg)
    · exact RX_INV_congr tcb _ rfl rfl (ha h tcb hg)

theorem RX_INV_send (plat : Platform) (sys : Sys) (tcpips : TCPIPS) (h : HANDLE)
    (ha : ALL_TCB RX_INV tcpips) :
    ALL_TCB RX_INV (tcps_rx_send plat sys tcpips h) := by
  unfold tcps_rx_send
  cases hg : so_get tcpips.tcps.tcbs h with
  | none => exact ha
  | some tcb =>
    have hi := ha h tcb hg
    dsimp only
    split
    · exact ALL_TCB_set_tcb _ _ _ _ ha (RX_INV_congr tcb _ rfl rfl hi)
    · split
      · exact ha
      · refine ALL_TCB_of_tcbs _ tcpips _ ?_ ha
        rw [tcps_tx_text_ack_fin_tcps]

theorem RX_INV_otw (plat : Platform) (sys : Sys) (tcpips : TCPIPS) (io : Io) (h : HANDLE)
    (ha : ALL_TCB RX_INV tcpips) :
    ALL_TCB RX_INV (tcps_rx_otw plat sys tcpips io h) := by
  unfold tcps_rx_otw
  have hc : ALL_TCB RX_INV (tcps_rx_otw_check_seq plat sys tcpips io h).2.2 :=
    ALL_TCB_of_tcbs _ tcpips _ (congrArg TCPS.tcbs (tcps_rx_otw_check_seq_tcps _ _ _ _ _)) ha
  dsimp only
  split
  · exact hc
  · split
    · exact ALL_TCB_destroy _ _ _ hc
    · split
      · split
        · exact RX_INV_ack _ _ _ _ _ hc
        · apply RX_INV_send
          split
          · apply RX_INV_fin
            apply RX_INV_text
            exact RX_INV_ack _ _ _ _ _ hc
          · apply RX_INV_text
            exact RX_INV_ack _ _ _ _ _ hc
      · exact hc

theorem RX_INV_process (plat : Platform) (sys : Sys) (tcpips : TCPIPS) (io : Io)
    (h : HANDLE) (ha : ALL_TCB RX_INV tcpips) :
    ALL_TCB RX_INV (tcps_rx_process plat sys tcpips io h) := by
  unfold tcps_rx_process
  cases hg : so_get tcpips.tcps.tcbs h with
  | none => exact ha
  | some tcb =>
    dsimp only
    split
    · exact tcps_rx_closed_inv _ _ _ _ _ _ ha
    · exact RX_INV_listen _ _ _ _ _ ha
    · exact ha
    · exact RX_INV_otw _ _ _ _ _ ha

theorem RX_INV_rx (plat : Platform) (sys : Sys) (tcpips r : TCPIPS) (io : Io) (src : IP)
    (ha : ALL_TCB RX_INV tcpips) (hr : tcps_rx plat sys tcpips io src = some r) :
    ALL_TCB RX_INV r := by
  have hcr : ALL_TCB RX_INV
      (tcps_create_tcb plat sys tcpips src (tcp_src_port io) (tcp_dst_port io)).2 := by
    unfold tcps_create_tcb
    exact ALL_TCB_allocate _ _ _ _ ha (Or.inl rfl)
  rcases tcps_rx_stages plat sys tcpips r io src hr with h0 | ⟨p, h, hp, hrest⟩
  · rw [h0]
    exact ALL_TCB_of_tcbs _ tcpips _ rfl ha
  · have hpi : ALL_TCB RX_INV p := by
      rcases hp with ⟨_, _, e⟩ | ⟨_, _, e | ⟨tcb, hg, e⟩⟩
      · rw [e]; exact ha
      · rw [e]; exact hcr
      · rw [e]
        exact ALL_TCB_set_tcb _ _ _ _ hcr (RX_INV_congr tcb _ rfl rfl (hcr _ tcb hg))
    rcases hrest with e | ⟨tcb, o, _, hg, ho, e⟩
    · rw [e]
      exact ALL_TCB_of_tcbs _ p _ rfl hpi
    · obtain ⟨⟨l, hl⟩, ⟨m, hm⟩⟩ := tcps_apply_options_frame _ _ _ _ _ ho
      have hq : ALL_TCB RX_INV (tcps_rx_process plat sys
          (o.1.set_tcb h { o.2 with tx_wnd := tcp_window io }) io h) := by
        refine RX_INV_process plat sys _ io h (ALL_TCB_set_tcb _ _ _ _ ?_ ?_)
        · rw [hl]
          exact ALL_TCB_of_tcbs _ p _ rfl hpi
        · rw [hm]
          exact RX_INV_congr tcb _ rfl rfl (hpi h tcb hg)
      rcases e with e | e
      · rw [e]; exact hq
      · rw [e]; exact ALL_TCB_of_tcbs _ _ _ rfl hq

theorem tcps_read_tmp_none (plat : Platform) (x tmp : Io)
    (h : (if io_get_free x > tcps_data_len tmp then tcps_data_len tmp else io_get_free x)
      = tcps_data_len tmp) :
    (tcps_read_tmp plat x tmp).2 = none := by
  simp only [tcps_read_tmp]
  rw [if_pos h]

/-- The copy out of `rx_tmp` into an empty user buffer drains `rx_tmp` or
fills the user buffer. -/
theorem tcps_read_tmp_full (plat : Platform) (x tmp : Io) (h0 : x.data_size = 0) :
    (tcps_read_tmp plat x tmp).2 = none ∨ io_get_free (tcps_read_tmp plat x tmp).1 = 0 := by
  by_cases h : (if io_get_free x > tcps_data_len tmp then tcps_data_len tmp else io_get_free x)
      = tcps_data_len tmp
  · exact Or.inl (tcps_read_tmp_none plat x tmp h)
  · right
    obtain ⟨_, hd, hs⟩ := tcps_read_tmp_user plat x tmp
    have hfree : io_get_free (tcps_read_tmp plat x tmp).1
        = u32i (((tcps_read_tmp plat x tmp).1.size : Int)
            - ((tcps_read_tmp plat x tmp).1.data_size : Int)) := rfl
    rw [hfree, hd, hs]
    split_ifs at h ⊢ with hc
    · exact absurd rfl h
    · simp only [io_get_free, u32i, h0]
      omega

theorem RX_INV_read (plat : Platform) (tcpips : TCPIPS) (h : HANDLE) (io : Io)
    (ha : ALL_TCB RX_INV tcpips) :
    ALL_TCB RX_INV (tcps_read plat tcpips h io) := by
  unfold tcps_read
  cases hg : so_get tcpips.tcps.tcbs h with
  | none => exact ha
  | some tcb =>
    dsimp only
    split
    · exact ALL_TCB_of_tcbs _ tcpips _ rfl ha
    · rename_i hnone
      have hrx : tcb.rx = none := by
        cases hx : tcb.rx with
        | none => rfl
        | some v => rw [hx] at hnone; exact absurd rfl hnone
      split
      · cases htmp : tcb.rx_tmp with
        | none =>
          dsimp only
          exact ALL_TCB_set_tcb _ _ _ _ (ALL_TCB_of_tcbs _ tcpips _ rfl ha) (Or.inr rfl)
        | some tmp =>
          dsimp only
          split
          · refine ALL_TCB_of_tcbs _ (TCPIPS.set_tcb _ h _) _ rfl
              (ALL_TCB_set_tcb _ _ _ _ ?_ (Or.inl hrx))
            split
            · exact ALL_TCB_of_tcbs _ tcpips _ rfl ha
            · exact ALL_TCB_of_tcbs _ tcpips _ rfl ha
          · rename_i hno
            refine ALL_TCB_set_tcb _ _ _ _ ?_ ?_
            · split
              · exact ALL_TCB_of_tcbs _ tcpips _ rfl ha
              · exact ALL_TCB_of_tcbs _ tcpips _ rfl ha
            · right
              rcases tcps_read_tmp_full plat
                { io_push { io with data_size := 0 } plat.TCP_STACK_SIZE with
                  stack := { flags := 0, urg_len := 0 } } tmp rfl with hf | hf
              · exact hf
              · exact absurd (Or.inl hf) hno
      · exact ALL_TCB_of_tcbs _ tcpips _ rfl ha

theorem RX_INV_reachable (plat : Platform) (tcpips : TCPIPS) (hr : Reachable plat tcpips) :
    ALL_TCB RX_INV tcpips := by
  induction hr with
  | init t =>
    intro h tcb hg
    simp [tcps_init, so_create, so_get] at hg
  | rx t r sys io src _ hrx ih => exact RX_INV_rx plat sys t r io src ih hrx
  | request t sys ipc io _ ih =>
    exact ALL_TCB_request _ plat sys t ipc io ih (RX_INV_read plat t _ io ih)
  | link t up _ ih => exact ALL_TCB_of_tcbs _ t _ rfl ih

/-- Data are left over for `rx_tmp` behind a posted buffer only when the
buffer was filled and completed. -/
theorem tcps_rx_otw_text_data_spill (plat : Platform) (tcpips : TCPIPS) (tcb : TCP_TCB)
    (io : Io) (h : HANDLE) (rx : Io) (hrx : tcb.rx = some rx) (htmp : tcb.rx_tmp = none)
    (hs : (tcps_rx_otw_text_data plat tcpips tcb io h).2.rx_tmp ≠ none) :
    (tcps_rx_otw_text_data plat tcpips tcb io h).2.rx = none
    ∧ ∃ c : IO_COMPLETE,
        (tcps_rx_otw_text_data plat tcpips tcb io h).1.completed = tcpips.completed ++ [c]
        ∧ c.io.addr = rx.addr ∧ io_get_free c.io = 0
        ∧ c.cmd = HAL_IO_CMD HAL.HAL_TCP IPC_ITEM.IPC_READ ∧ c.process = tcb.process := by
  unfold tcps_rx_otw_text_data at hs ⊢
  dsimp only at hs ⊢
  rw [hrx] at hs ⊢
  dsimp only at hs ⊢
  obtain ⟨u1, u2⟩ := tcps_rx_otw_text_user_rx plat tcpips
    { tcb with rx := some rx, rcv_nxt := u32 (tcb.rcv_nxt + tcps_data_len io) } rx
    (tcps_rx_otw_text_urg io (tcps_data_len io)).2 h
    { data_offset := tcps_data_offset io, data_size := tcps_data_len io
      urg := (tcps_rx_otw_text_urg io (tcps_data_len io)).1 }
  rcases u2 with u2 | ⟨u2, c, hc⟩
  · rw [(tcps_rx_otw_text_queue_rx plat _ _ _).2 u2, u1] at hs
    exact absurd htmp hs
  · refine ⟨?_, c, hc⟩
    rw [(tcps_rx_otw_text_queue_rx plat _ _ _).1]
    exact u2

/-- C39. In every state reached from `tcps_init` by calls of `tcps_rx` and
`tcps_request` (hence of `tcps_read`), no TCB of the table has both a posted
user buffer `rx` and an overflow buffer `rx_tmp`.  Data spill into `rx_tmp`
only after the posted buffer was filled and completed: when `tcps_rx_otw_text`
runs for a TCB with a posted buffer and no `rx_tmp` and leaves an `rx_tmp`,
then `rx` is null afterwards and exactly one completion was added, of the
posted buffer, full (`io_get_free` is 0), to the owner with `IPC_READ`.  A
buffer is parked as `rx` only after `rx_tmp` was drained and released: when
`tcps_read` runs for a TCB without posted buffer that holds an `rx_tmp` and
leaves a posted buffer, then `rx_tmp` is null afterwards and the old `rx_tmp`
was released. -/
theorem rx_or_rx_tmp (plat : Platform) :
    (∀ (tcpips : TCPIPS) (h : HANDLE) (tcb : TCP_TCB), Reachable plat tcpips →
        so_get tcpips.tcps.tcbs h = some tcb → tcb.rx = none ∨ tcb.rx_tmp = none)
    ∧ (∀ (tcpips : TCPIPS) (io : Io) (h : HANDLE) (tcb t1 : TCP_TCB) (rx : Io),
        so_get tcpips.tcps.tcbs h = some tcb → tcb.rx = some rx → tcb.rx_tmp = none →
        so_get (tcps_rx_otw_text plat tcpips io h).tcps.tcbs h = some t1 →
        t1.rx_tmp ≠ none →
        t1.rx = none
        ∧ ∃ c : IO_COMPLETE,
            (tcps_rx_otw_text plat tcpips io h).completed = tcpips.completed ++ [c]
            ∧ c.io.addr = rx.addr ∧ io_get_free c.io = 0
            ∧ c.cmd = HAL_IO_CMD HAL.HAL_TCP IPC_ITEM.IPC_READ ∧ c.process = tcb.process)
    ∧ (∀ (tcpips : TCPIPS) (io : Io) (h : HANDLE) (tcb t1 : TCP_TCB) (tmp : Io),
        so_get tcpips.tcps.tcbs h = some tcb → tcb.rx = none → tcb.rx_tmp = some tmp →
        so_get (tcps_read plat tcpips h io).tcps.tcbs h = some t1 →
        t1.rx ≠ none →
        t1.rx_tmp = none
        ∧ (tcps_read plat tcpips h io).released = tcpips.released ++ [tmp.addr]) := by
  refine ⟨?_, ?_, ?_⟩
  · intro tcpips h tcb hr hg
    exact RX_INV_reachable plat tcpips hr h tcb hg
  · intro tcpips io h tcb t1 rx hg hrx htmp hg1 hs
    have hlt := so_get_lt hg
    unfold tcps_rx_otw_text at hg1 ⊢
    rw [hg] at hg1 ⊢
    dsimp only at hg1 ⊢
    have hsame : so_get tcpips.tcps.tcbs h = some t1 → False := by
      intro hx
      rw [hg] at hx
      cases hx
      exact hs htmp
    split at hg1
    · rename_i hst
      rw [if_pos hst]
      split at hg1
      · rename_i hd
        rw [if_pos hd]
        obtain ⟨d1, _⟩ := tcps_rx_otw_text_data_fields plat tcpips tcb io h
        rw [so_get_set_tcb, d1, if_pos ⟨rfl, hlt⟩] at hg1
        cases hg1
        exact tcps_rx_otw_text_data_spill plat tcpips tcb io h rx hrx htmp hs
      · exact (hsame hg1).elim
    · exact (hsame hg1).elim
  · intro tcpips io h tcb t1 tmp hg hrx htmp hg1 hs
    have hlt := so_get_lt hg
    unfold tcps_read at hg1 ⊢
    rw [hg] at hg1 ⊢
    dsimp only at hg1 ⊢
    have hsame : so_get tcpips.tcps.tcbs h = some t1 → False := by
      intro hx
      rw [hg] at hx
      cases hx
      exact hs hrx
    have hnone : ¬ tcb.rx.isSome = true := by
      rw [hrx]
      exact Bool.false_ne_true
    rw [if_neg hnone] at hg1 ⊢
    split at hg1
    · rename_i hst
      rw [if_pos hst]
      rw [htmp] at hg1 ⊢
      dsimp only at hg1 ⊢
      split at hg1
      · exfalso
        apply hs
        have hg2 := hg1
        rw [show ∀ (x : TCPIPS) (c : List IO_COMPLETE),
            ({ x with completed := c } : TCPIPS).tcps.tcbs = x.tcps.tcbs from fun _ _ => rfl,
          so_get_set_tcb] at hg2
        have hl2 : h < (if (tcps_read_tmp plat
            { io_push { io with data_size := 0 } plat.TCP_STACK_SIZE with
              stack := { flags := 0, urg_len := 0 } } tmp).2.isNone = true
            then ips_release_io { tcpips with error := ERROR.ERROR_SYNC } tmp
            else { tcpips with error := ERROR.ERROR_SYNC }).tcps.tcbs.size := by
          split <;> exact hlt
        rw [if_pos ⟨rfl, hl2⟩] at hg2
        cases hg2
        exact hrx
      · rename_i hno
        have hf : (tcps_read_tmp plat
            { io_push { io with data_size := 0 } plat.TCP_STACK_SIZE with
              stack := { flags := 0, urg_len := 0 } } tmp).2 = none := by
          rcases tcps_read_tmp_full plat
            { io_push { io with data_size := 0 } plat.TCP_STACK_SIZE with
              stack := { flags := 0, urg_len := 0 } } tmp rfl with hf | hf
          · exact hf
          · exact absurd (Or.inl hf) hno
        rw [if_neg hno]
        rw [hf] at hg1 ⊢
        rw [so_get_set_tcb] at hg1
        rw [if_pos ⟨rfl, hlt⟩] at hg1
        cases hg1
        exact ⟨rfl, rfl⟩
    · exact (hsame hg1).elim

/-- Witness of C38: the listen request and the SYN of the handshake scenario
lead to a reachable state; the SYN found no TCB, `tcps_create_tcb` gave the
handle 0, and after the call the table holds under it a TCB, in SYN_RECEIVED,
one of the three states of the invariant. -/
theorem tcb_states_witness :
    tcps_find_tcb demo_listening 0x0A000002 (tcp_src_port demo_seg_syn)
        (tcp_dst_port demo_seg_syn) = INVALID_HANDLE
    ∧ (tcps_create_tcb demo_plat demo_sys demo_listening 0x0A000002 (tcp_src_port demo_seg_syn)
        (tcp_dst_port demo_seg_syn)).1 = 0
    ∧ (so_get (tcps_create_tcb demo_plat demo_sys demo_listening 0x0A000002
          (tcp_src_port demo_seg_syn) (tcp_dst_port demo_seg_syn)).2.tcps.tcbs 0).map
        (fun t => t.state) = some TCP_STATE.CLOSED
    ∧ (so_get demo_after_syn.tcps.tcbs
          (tcps_create_tcb demo_plat demo_sys demo_listening 0x0A000002
            (tcp_src_port demo_seg_syn) (tcp_dst_port demo_seg_syn)).1 = none
        ∨ ∃ t : TCP_TCB, so_get demo_after_syn.tcps.tcbs
            (tcps_create_tcb demo_plat demo_sys demo_listening 0x0A000002
              (tcp_src_port demo_seg_syn) (tcp_dst_port demo_seg_syn)).1 = some t
          ∧ t.state = TCP_STATE.SYN_RECEIVED)
    ∧ ∃ tcb : TCP_TCB, so_get demo_after_syn.tcps.tcbs 0 = some tcb
        ∧ tcb.state = TCP_STATE.SYN_RECEIVED
        ∧ (tcb.state = TCP_STATE.SYN_RECEIVED ∨ tcb.state = TCP_STATE.ESTABLISHED
          ∨ tcb.state = TCP_STATE.LAST_ACK) := by
  have h0 : Reachable demo_plat demo_listening :=
    Reachable.request demo_init demo_sys demo_ipc_listen (demo_io 0) (Reachable.init _)
  have hrx : tcps_rx demo_plat demo_sys demo_listening demo_seg_syn 0x0A000002
      = some demo_after_syn := by
    have hs : (tcps_rx demo_plat demo_sys demo_listening demo_seg_syn 0x0A000002).isSome
        = true := by decide
    obtain ⟨r, hr⟩ := Option.isSome_iff_exists.mp hs
    simp only [demo_after_syn, hr, Option.getD_some]
  have hs : (so_get demo_after_syn.tcps.tcbs 0).isSome = true := by decide
  obtain ⟨tcb, hg⟩ := Option.isSome_iff_exists.mp hs
  have hst : (so_get demo_after_syn.tcps.tcbs 0).map (fun t => t.state)
      = some TCP_STATE.SYN_RECEIVED := by decide
  rw [hg] at hst
  exact ⟨by decide, by decide, by decide,
    (tcb_states demo_plat).2.2 demo_sys demo_listening demo_after_syn demo_seg_syn 0x0A000002
      h0 hrx (by decide) (by decide),
    tcb, hg, by simpa using hst,
    ((tcb_states demo_plat).1 demo_after_syn 0 tcb demo_after_syn_reachable hg).1⟩

/-- Witness of C39: the TCB that the listen request and the SYN of the
handshake scenario leave under handle 0 of a reachable state holds neither a
posted buffer nor an overflow buffer; and in the scenario of the posted buffer
of capacity 2 that receives 5 data bytes, `tcps_rx_otw_text` leaves an
`rx_tmp`, the posted buffer is gone and one completion, of the full buffer at
address 7000, was added. -/
theorem rx_or_rx_tmp_witness :
    (∃ tcb : TCP_TCB, so_get demo_after_syn.tcps.tcbs 0 = some tcb
        ∧ (tcb.rx = none ∨ tcb.rx_tmp = none))
    ∧ (so_get demo_posted.tcps.tcbs 0).map
        (fun t => (free_of t.rx, t.rx.map (fun b => b.addr), t.rx_tmp.isNone))
      = some (2, some 7000, true)
    ∧ ∃ t1 : TCP_TCB,
        so_get (tcps_rx_otw_text demo_plat demo_posted demo_seg_five 0).tcps.tcbs 0 = some t1
        ∧ t1.rx_tmp ≠ none ∧ t1.rx = none
        ∧ ∃ c : IO_COMPLETE,
            (tcps_rx_otw_text demo_plat demo_posted demo_seg_five 0).completed
              = demo_posted.completed ++ [c]
            ∧ c.io.addr = 7000 ∧ io_get_free c.io = 0 := by
  have hs : (so_get demo_after_syn.tcps.tcbs 0).isSome = true := by decide
  obtain ⟨tcb, hg⟩ := Option.isSome_iff_exists.mp hs
  have hp : (so_get demo_posted.tcps.tcbs 0).isSome = true := by decide
  obtain ⟨t0, hg0⟩ := Option.isSome_iff_exists.mp hp
  have hp0 : (so_get demo_posted.tcps.tcbs 0).map
      (fun t => (t.rx.map (fun b => b.addr), t.rx_tmp.isNone)) = some (some 7000, true) := by
    decide
  rw [hg0] at hp0
  simp only [Option.map_some', Option.some.injEq, Prod.mk.injEq] at hp0
  obtain ⟨rx, hrx, hra⟩ : ∃ rx : Io, t0.rx = some rx ∧ rx.addr = 7000 := by
    cases hx : t0.rx with
    | none => rw [hx] at hp0; simp at hp0
    | some rx => rw [hx] at hp0; exact ⟨rx, rfl, by simpa using hp0.1⟩
  have htmp : t0.rx_tmp = none := by
    cases hx : t0.rx_tmp with
    | none => rfl
    | some v => rw [hx] at hp0; simp at hp0
  have h1 : (so_get (tcps_rx_otw_text demo_plat demo_posted demo_seg_five 0).tcps.tcbs
      0).isSome = true := by decide
  obtain ⟨t1, hg1⟩ := Option.isSome_iff_exists.mp h1
  have hq : (so_get (tcps_rx_otw_text demo_plat demo_posted demo_seg_five 0).tcps.tcbs 0).map
      (fun t => t.rx_tmp.isNone) = some false := by decide
  rw [hg1] at hq
  have hspill : t1.rx_tmp ≠ none := by
    intro hx
    simp only [Option.map_some', hx, Option.isNone_none, Option.some.injEq] at hq
    exact Bool.noConfusion hq
  obtain ⟨hn, c, hc, ha, hf, _⟩ :=
    (rx_or_rx_tmp demo_plat).2.1 demo_posted demo_seg_five 0 t0 t1 rx hg0 hrx htmp hg1 hspill
  exact ⟨⟨tcb, hg, (rx_or_rx_tmp demo_plat).1 demo_after_syn 0 tcb demo_after_syn_reachable hg⟩,
    by decide, t1, hg1, hspill, hn, c, hc, ha.trans hra, hf⟩

/-! ## The listener of a stream and the writes that complete -/

theorem kstream_write_rb_logs (fuel : Nat) (k : KSTREAM) (handle : Nat) (buf : CHAR_PTR) :
    (kstream_write_rb fuel k handle buf).1.posted = k.posted
    ∧ (kstream_write_rb fuel k handle buf).1.slept = k.slept
    ∧ (kstream_write_rb fuel k handle buf).1.current = k.current := by
  induction fuel generalizing k buf with
  | zero => exact ⟨rfl, rfl, rfl⟩
  | succ n ih =>
    simp only [kstream_write_rb]
    split
    · exact ih ((k.set_rb (rb_put k.stream.rb buf.load)).set_handle handle _) (buf.add 1)
    · exact ⟨rfl, rfl, rfl⟩

theorem kstream_read_rb_logs (fuel : Nat) (k : KSTREAM) (handle : Nat) (buf : CHAR_PTR) :
    (kstream_read_rb fuel k handle buf).1.posted = k.posted
    ∧ (kstream_read_rb fuel k handle buf).1.woken = k.woken := by
  induction fuel generalizing k buf with
  | zero => exact ⟨rfl, rfl⟩
  | succ n ih =>
    simp only [kstream_read_rb]
    split
    · exact ih ((k.set_rb (rb_get k.stream.rb).2).set_handle handle _) _
    · exact ⟨rfl, rfl⟩

/-- The ring loop of `kstream_write` takes from `handle->size` the number of
bytes it places: the smallest of the rounds it may run, the bytes asked for and
the free space of the ring. -/
theorem kstream_write_rb_size (fuel : Nat) (k : KSTREAM) (handle : Nat) (buf : CHAR_PTR) :
    ((kstream_write_rb fuel k handle buf).1.handles handle).size
      = (k.handles handle).size
          - ((min (min fuel (k.handles handle).size.toNat) (rb_free k.stream.rb) : Nat) : Int) := by
  induction fuel generalizing k buf with
  | zero => simp [kstream_write_rb]
  | succ n ih =>
    simp only [kstream_write_rb]
    split
    · rename_i hc
      rw [ih]
      obtain ⟨hpos, hnf⟩ := hc
      have hlen : k.stream.rb.bytes.length < k.stream.rb.size := by
        simpa [rb_is_full] using hnf
      simp only [set_handle_same, set_handle_stream, set_rb_rb, set_rb_handles, rb_free,
        rb_put, List.length_append, List.length_singleton]
      omega
    · rename_i hc
      have : (k.handles handle).size ≤ 0 ∨ k.stream.rb.size ≤ k.stream.rb.bytes.length := by
        by_cases hp : (k.handles handle).size > 0
        · right
          by_contra hn
          exact hc ⟨hp, by simpa [rb_is_full] using hn⟩
        · left
          omega
      simp only [rb_free]
      omega

/-- A call of `kstream_write` on a stream without waiting readers completes
at once exactly when the bytes fit into the free space of the ring, and then
posts one message to the listener, with `param1` the size asked for; otherwise
the writer sleeps and nothing is posted. -/
theorem kstream_write_posts (k : KSTREAM) (handle : Nat) (buf : CHAR_PTR) (size : Int)
    (hrw : k.stream.read_waiters = []) :
    (size ≤ (rb_free k.stream.rb : Int) →
      (kstream_write k handle buf size).slept = k.slept
      ∧ (kstream_write k handle buf size).posted = k.posted ++
          (match k.stream.listener with
           | some l => [{ process := l, param1 := size, param2 := 0 }]
           | none => []))
    ∧ ((rb_free k.stream.rb : Int) < size →
      (kstream_write k handle buf size).slept = k.slept ++ [(k.current, handle)]
      ∧ ((kstream_write k handle buf size).handles handle).mode
          = STREAM_MODE.STREAM_MODE_WRITE
      ∧ (kstream_write k handle buf size).posted = k.posted) := by
  obtain ⟨k0, hk0⟩ : ∃ k0, k0 = k.set_handle handle { k.handles handle with size := size } :=
    ⟨_, rfl⟩
  have hk0s : k0.stream = k.stream := by rw [hk0]; rfl
  have hk0z : (k0.handles handle).size = size := by rw [hk0]; simp
  have hskip := kstream_write_direct_skip (k0.stream.read_waiters.length + 1) k0 handle buf
    (by rw [hk0s]; exact hrw)
  obtain ⟨r2, hr2⟩ : ∃ r2, r2 = kstream_write_rb size.toNat k0 handle buf := ⟨_, rfl⟩
  have hw : kstream_write k handle buf size
      = if (r2.1.handles handle).size > 0 then
          kprocess_sleep
            (((r2.1.set_handle handle { r2.1.handles handle with full_size := size }).set_handle
              handle
              { (r2.1.set_handle handle
                  { r2.1.handles handle with full_size := size }).handles handle
                with buf := r2.2 }).set_handle handle
              { ((r2.1.set_handle handle
                  { r2.1.handles handle with full_size := size }).set_handle handle
                  { (r2.1.set_handle handle
                      { r2.1.handles handle with full_size := size }).handles handle
                    with buf := r2.2 }).handles handle
                with mode := STREAM_MODE.STREAM_MODE_WRITE }) handle
        else kstream_post_listener r2.1 size := by
    simp only [kstream_write, ← hk0, hskip, hk0z, ← hr2]
  obtain ⟨l1, l2, l3⟩ := kstream_write_rb_logs size.toNat k0 handle buf
  obtain ⟨_, _, f3, _, _⟩ := kstream_write_rb_frame size.toNat k0 handle buf
  have hsz := kstream_write_rb_size size.toNat k0 handle buf
  rw [← hr2] at l1 l2 l3 f3 hsz
  rw [hk0z, hk0s] at hsz
  rw [hk0s] at f3
  have hp0 : k0.posted = k.posted := by rw [hk0]; rfl
  have hs0 : k0.slept = k.slept := by rw [hk0]; rfl
  have hc0 : k0.current = k.current := by rw [hk0]; rfl
  rw [hw]
  constructor
  · intro hfit
    have hle : ¬ (r2.1.handles handle).size > 0 := by
      rw [hsz]
      omega
    rw [if_neg hle]
    refine ⟨?_, ?_⟩
    · simp only [kstream_post_listener]
      cases hl : r2.1.stream.listener with
      | none => exact l2.trans hs0
      | some l => exact l2.trans hs0
    · simp only [kstream_post_listener]
      rw [← f3]
      cases hl : r2.1.stream.listener with
      | none => simp [l1, hp0]
      | some l => simp [ipc_post, l1, hp0]
  · intro hbig
    have hgt : (r2.1.handles handle).size > 0 := by
      rw [hsz]
      omega
    rw [if_pos hgt]
    refine ⟨?_, ?_, ?_⟩
    · simp only [kprocess_sleep]
      show r2.1.slept ++ [(r2.1.current, handle)] = _
      rw [l2, l3, hs0, hc0]
    · simp
    · show r2.1.posted = _
      rw [l1, hp0]

/-- A call of `kstream_read` on a stream without waiting writers wakes no
process and posts nothing. -/
theorem kstream_read_posts (k : KSTREAM) (handle : Nat) (buf : CHAR_PTR) (size : Int)
    (hww : k.stream.write_waiters = []) :
    (kstream_read k handle buf size).1.posted = k.posted
    ∧ (kstream_read k handle buf size).1.woken = k.woken := by
  obtain ⟨k0, hk0⟩ : ∃ k0, k0 = k.set_handle handle { k.handles handle with size := size } :=
    ⟨_, rfl⟩
  obtain ⟨r1, hr1⟩ : ∃ r1, r1 = kstream_read_rb (k0.handles handle).size.toNat k0 handle buf :=
    ⟨_, rfl⟩
  obtain ⟨k3, hk3⟩ : ∃ k3 : KSTREAM, k3 =
      (if (r1.1.handles handle).size > 0 then
        kprocess_sleep
          ((r1.1.set_handle handle { r1.1.handles handle with buf := r1.2 }).set_handle handle
            { (r1.1.set_handle handle { r1.1.handles handle with buf := r1.2 }).handles handle
              with mode := STREAM_MODE.STREAM_MODE_READ }) handle
      else r1.1) := ⟨_, rfl⟩
  have hk0s : k0.stream = k.stream := by rw [hk0]; rfl
  obtain ⟨a1, _, _⟩ := kstream_read_rb_frame (k0.handles handle).size.toNat k0 handle buf
  rw [← hr1, hk0s] at a1
  have hskip := kstream_read_direct_skip (r1.1.stream.write_waiters.length + 1) r1.1 handle r1.2
    (by rw [a1]; exact hww)
  have hs : (kstream_read k handle buf size).1 = kstream_push k3 := by
    simp only [kstream_read, ← hk0, ← hr1, hskip, hk3]
  have hk3s : k3.stream = r1.1.stream := by
    rw [hk3]
    split <;> simp
  have hk3p : k3.posted = r1.1.posted ∧ k3.woken = r1.1.woken := by
    rw [hk3]
    split <;> exact ⟨rfl, rfl⟩
  have hpush : kstream_push k3 = k3 :=
    kstream_push_loop_skip _ k3 (by rw [hk3s, a1]; exact hww)
  obtain ⟨g1, g2⟩ := kstream_read_rb_logs (k0.handles handle).size.toNat k0 handle buf
  rw [← hr1] at g1 g2
  rw [hs, hpush, hk3p.1, hk3p.2, g1, g2, hk0]
  exact ⟨rfl, rfl⟩

theorem NO_WAITERS_write (k : KSTREAM) (handle : Nat) (buf : CHAR_PTR) (size : Int)
    (hinv : NO_WAITERS k.stream) : NO_WAITERS (kstream_write k handle buf size).stream := by
  obtain ⟨hr, hw⟩ := hinv
  obtain ⟨k0, hk0⟩ : ∃ k0, k0 = k.set_handle handle { k.handles handle with size := size } :=
    ⟨_, rfl⟩
  obtain ⟨r1, hr1⟩ : ∃ r1, r1 = kstream_write_direct (k0.stream.read_waiters.length + 1) k0
    handle buf := ⟨_, rfl⟩
  obtain ⟨r2, hr2⟩ : ∃ r2, r2 = kstream_write_rb (r1.1.handles handle).size.toNat r1.1 handle
    r1.2 := ⟨_, rfl⟩
  have hs : (kstream_write k handle buf size).stream = r2.1.stream := by
    simp only [kstream_write, ← hk0, ← hr1, ← hr2]
    split <;> simp
  rw [hs]
  have hk0s : k0.stream = k.stream := by rw [hk0]; rfl
  obtain ⟨_, d2, _, n, d4⟩ := kstream_write_direct_frame
    (k0.stream.read_waiters.length + 1) k0 handle buf
  rw [← hr1, hk0s] at d2 d4
  obtain ⟨e1, e2, _⟩ := kstream_write_rb_frame (r1.1.handles handle).size.toNat r1.1
    handle r1.2
  rw [← hr2] at e1 e2
  constructor
  · rw [e2, d4, hr]
    simp
  · rw [e1, d2, hw]

theorem NO_WAITERS_read (k : KSTREAM) (handle : Nat) (buf : CHAR_PTR) (size : Int)
    (hinv : NO_WAITERS k.stream) : NO_WAITERS (kstream_read k handle buf size).1.stream := by
  obtain ⟨hr, hw⟩ := hinv
  obtain ⟨k0, hk0⟩ : ∃ k0, k0 = k.set_handle handle { k.handles handle with size := size } :=
    ⟨_, rfl⟩
  obtain ⟨r1, hr1⟩ : ∃ r1, r1 = kstream_read_rb (k0.handles handle).size.toNat k0 handle buf :=
    ⟨_, rfl⟩
  obtain ⟨k3, hk3⟩ : ∃ k3 : KSTREAM, k3 =
      (if (r1.1.handles handle).size > 0 then
        kprocess_sleep
          ((r1.1.set_handle handle { r1.1.handles handle with buf := r1.2 }).set_handle handle
            { (r1.1.set_handle handle { r1.1.handles handle with buf := r1.2 }).handles handle
              with mode := STREAM_MODE.STREAM_MODE_READ }) handle
      else r1.1) := ⟨_, rfl⟩
  have hk0s : k0.stream = k.stream := by rw [hk0]; rfl
  obtain ⟨a1, a2, _⟩ := kstream_read_rb_frame (k0.handles handle).size.toNat k0 handle buf
  rw [← hr1, hk0s] at a1 a2
  have hskip := kstream_read_direct_skip (r1.1.stream.write_waiters.length + 1) r1.1 handle r1.2
    (by rw [a1]; exact hw)
  have hs : (kstream_read k handle buf size).1 = kstream_push k3 := by
    simp only [kstream_read, ← hk0, ← hr1, hskip, hk3]
  have hk3s : k3.stream = r1.1.stream := by
    rw [hk3]
    split <;> simp
  have hpush : kstream_push k3 = k3 :=
    kstream_push_loop_skip _ k3 (by rw [hk3s, a1]; exact hw)
  rw [hs, hpush, hk3s]
  exact ⟨by rw [a2]; exact hr, by rw [a1]; exact hw⟩

theorem kstream_flush_no_waiters (k : KSTREAM) (hw : k.stream.write_waiters = []) :
    kstream_flush k = k.set_rb (rb_clear k.stream.rb) := by
  have h0 : (k.set_rb (rb_clear k.stream.rb)).stream.write_waiters = [] := hw
  simp only [kstream_flush, h0, List.length_nil, kstream_flush_loop]

/-- No run from `kstream_create` ever has a handle on a waiter list: no
function of `kstream.c` adds one. -/
theorem NO_WAITERS_reachable (k : KSTREAM) (hk : StreamReachable k) : NO_WAITERS k.stream := by
  induction hk with
  | create k addr data size => exact ⟨rfl, rfl⟩
  | open_ k kmalloc _ ih =>
    cases kmalloc with
    | none => exact ih
    | some a => exact ih
  | write k handle buf size _ ih => exact NO_WAITERS_write k handle buf size ih
  | read k handle buf size _ ih => exact NO_WAITERS_read k handle buf size ih
  | flush k _ ih =>
    rw [kstream_flush_no_waiters k ih.2]
    exact ih
  | close k handle _ ih =>
    obtain ⟨hr, hw⟩ := ih
    simp only [kstream_close, kfree_stream]
    cases (k.handles handle).mode with
    | STREAM_MODE_IDLE => exact ⟨hr, hw⟩
    | STREAM_MODE_READ =>
      simp only [kprocess_error_stream, kprocess_wakeup_stream]
      refine ⟨?_, hw⟩
      show dlist_remove k.stream.read_waiters handle = []
      rw [hr]
      rfl
    | STREAM_MODE_WRITE =>
      simp only [kprocess_error_stream, kprocess_wakeup_stream]
      refine ⟨hr, ?_⟩
      show dlist_remove k.stream.write_waiters handle = []
      rw [hw]
      rfl
  | lock_release k handle process _ ih =>
    obtain ⟨hr, hw⟩ := ih
    simp only [kstream_lock_release, set_handle_stream]
    cases (k.handles handle).mode with
    | STREAM_MODE_IDLE => exact ⟨hr, hw⟩
    | STREAM_MODE_READ =>
      refine ⟨?_, hw⟩
      show dlist_remove k.stream.read_waiters handle = []
      rw [hr]
      rfl
    | STREAM_MODE_WRITE =>
      refine ⟨hr, ?_⟩
      show dlist_remove k.stream.write_waiters handle = []
      rw [hw]
      rfl
  | start_listen k _ ih =>
    simp only [kstream_start_listen]
    split
    · exact ih
    · exact ih
  | stop_listen k _ ih =>
    simp only [kstream_stop_listen]
    split
    · exact ih
    · exact ih
  | switch k process _ ih => exact ih

/-- C14. In every state of a run from `kstream_create` in which the stream has
a listener: no handle is on a waiter list; a call of `kstream_write` completes
at once exactly when the size asked for fits into the free space of the ring,
and then exactly one message is posted, to the listener, with `param1` the
size asked for; otherwise the writer is put to sleep and nothing is posted;
a call of `kstream_read` (with the `kstream_push` that ends it) wakes no
writer and posts nothing, and so do `kstream_flush`, `kstream_close`,
`kstream_lock_release`, `kstream_open`, `kstream_start_listen` and
`kstream_stop_listen`.  So every write that completes has posted exactly one
message, whose `param1` is the size it asked for. -/
theorem kstream_listener_posts (k : KSTREAM) (hk : StreamReachable k) (l : PROCESS)
    (hl : k.stream.listener = some l) :
    k.stream.read_waiters = [] ∧ k.stream.write_waiters = []
    ∧ (∀ (handle : Nat) (buf : CHAR_PTR) (size : Int),
        (size ≤ (rb_free k.stream.rb : Int) →
          (kstream_write k handle buf size).slept = k.slept
          ∧ (kstream_write k handle buf size).posted
              = k.posted ++ [{ process := l, param1 := size, param2 := 0 }])
        ∧ ((rb_free k.stream.rb : Int) < size →
          (kstream_write k handle buf size).slept = k.slept ++ [(k.current, handle)]
          ∧ ((kstream_write k handle buf size).handles handle).mode
              = STREAM_MODE.STREAM_MODE_WRITE
          ∧ (kstream_write k handle buf size).posted = k.posted))
    ∧ (∀ (handle : Nat) (buf : CHAR_PTR) (size : Int),
        (kstream_read k handle buf size).1.posted = k.posted
        ∧ (kstream_read k handle buf size).1.woken = k.woken)
    ∧ (kstream_flush k).posted = k.posted
    ∧ (∀ handle : Nat, (kstream_close k handle).posted = k.posted)
    ∧ (∀ (handle : Nat) (process : PROCESS),
        (kstream_lock_release k handle process).posted = k.posted)
    ∧ (∀ kmalloc : Option Nat, (kstream_open k kmalloc).2.posted = k.posted)
    ∧ (kstream_start_listen k).posted = k.posted
    ∧ (kstream_stop_listen k).posted = k.posted := by
  obtain ⟨hr, hw⟩ := NO_WAITERS_reachable k hk
  refine ⟨hr, hw, ?_, ?_, ?_, ?_, ?_, ?_, ?_, ?_⟩
  · intro handle buf size
    have h := kstream_write_posts k handle buf size hr
    rw [hl] at h
    exact h
  · intro handle buf size
    exact kstream_read_posts k handle buf size hw
  · rw [kstream_flush_no_waiters k hw]
    rfl
  · intro handle
    simp only [kstream_close]
    cases (k.handles handle).mode <;> rfl
  · intro handle process
    simp only [kstream_lock_release]
    cases (k.handles handle).mode <;> rfl
  · intro kmalloc
    cases kmalloc <;> rfl
  · simp only [kstream_start_listen]
    split <;> rfl
  · simp only [kstream_stop_listen]
    split <;> rfl

theorem demo_run_listened_reachable : StreamReachable demo_run_listened :=
  StreamReachable.switch _ 10 (StreamReachable.start_listen _
    (StreamReachable.switch _ 99 (StreamReachable.create (demo_kstream 0 none) 1000 2000 4)))

/-- Witness of C14: a stream of ring size 4 is created and the process 99
starts to listen.  A write of 2 bytes fits, completes at once and posts one
message to 99 with `param1` 2; a write of 10 bytes does not fit: the writer is
put to sleep and nothing is posted. -/
theorem kstream_listener_posts_witness :
    demo_run_listened.stream.listener = some 99
    ∧ rb_free demo_run_listened.stream.rb = 4
    ∧ (kstream_write demo_run_listened 1 (demo_ptr [65, 66]) 2).posted
        = [{ process := 99, param1 := 2, param2 := 0 }]
    ∧ (kstream_write demo_run_listened 1 (demo_ptr demo_text) 10).slept = [(10, 1)]
    ∧ (kstream_write demo_run_listened 1 (demo_ptr demo_text) 10).posted = [] := by
  have h := (kstream_listener_posts demo_run_listened demo_run_listened_reachable 99 rfl).2.2.1
  have h2 := ((h 1 (demo_ptr [65, 66]) 2).1 (by decide)).2
  have h10 := (h 1 (demo_ptr demo_text) 10).2 (by decide)
  exact ⟨rfl, by decide, h2, h10.1, h10.2.2⟩

end Rexos
